import Mathlib

/-!
# walmart-inventory-manager: synchronization engine

A shallow embedding of `internal/walmart/cron.go` and `internal/walmart/client.go`.

* Go `error` values are `GoError` (a message and, for `%w`, the wrapped error).
* `interface{}` values decoded by `encoding/json` are `JVal`.
* Go maps with string keys are association lists with at most one entry per key
  (`mapGet`, `mapSet`, `mapDelete`); the order in which a `range` statement visits a map
  is an explicit input.
* Collaborators outside the package (the repository, the HTTP transport, the clock,
  `encoding/json`) are state-passing functions over an arbitrary world state `σ`.
-/

set_option autoImplicit false

namespace Walmart

/-! ## Go values -/

/-- A Go `error`: `plain` is what `errors.New` and `fmt.Errorf` without `%w` build,
`wrap` is what `fmt.Errorf` with `%w` builds. -/
inductive GoError where
  | plain (msg : String)
  | wrap (msg : String) (inner : GoError)
  deriving DecidableEq, Repr

/-- The method `Error()`. -/
def GoError.Error : GoError → String
  | .plain msg => msg
  | .wrap msg _ => msg

/-- The function `errors.Unwrap`. -/
def GoError.Unwrap : GoError → Option GoError
  | .plain _ => none
  | .wrap _ inner => some inner

/-- The call `errors.New(msg)`. -/
def errorsNew (msg : String) : GoError := .plain msg

/-- The call `fmt.Errorf(pre + "%w", err)`. -/
def errorfW (pre : String) (err : GoError) : GoError := .wrap (pre ++ err.Error) err

/-- The verb `%v` applied to an `error` that may be nil. -/
def fmtV : Option GoError → String
  | none => "<nil>"
  | some e => e.Error

/-- The call `fmt.Errorf(pre + "%v", err)`: the text of `err` only. -/
def errorfV (pre : String) (err : Option GoError) : GoError := .plain (pre ++ fmtV err)

/-- A value of type `interface{}` produced by `encoding/json`; `null` is also the nil
interface a missing map key yields. Numbers are `float64` in Go and rationals here. -/
inductive JVal where
  | null
  | bool (b : Bool)
  | num (q : Rat)
  | str (s : String)
  | arr (xs : List JVal)
  | obj (kvs : List (String × JVal))

/-- A Go `map[string]interface{}`. -/
abbrev JMap := List (String × JVal)

/-! ## Go maps keyed by strings -/

section GoMap
variable {V : Type}

/-- The lookup `v, ok := m[k]`. -/
def mapGet (m : List (String × V)) (k : String) : Option V :=
  match m with
  | [] => none
  | (k', v) :: rest => if k' = k then some v else mapGet rest k

/-- The statement `delete(m, k)`. -/
def mapDelete (m : List (String × V)) (k : String) : List (String × V) :=
  match m with
  | [] => []
  | (k', v) :: rest => if k' = k then mapDelete rest k else (k', v) :: mapDelete rest k

/-- The assignment `m[k] = v`. -/
def mapSet (m : List (String × V)) (k : String) (v : V) : List (String × V) :=
  (k, v) :: mapDelete m k

/-- The keys of a map. -/
def mapKeys (m : List (String × V)) : List String := m.map Prod.fst

end GoMap

/-- The index expression `m[key]` on a `map[string]interface{}`: nil when absent. -/
def jIndex (m : JMap) (key : String) : JVal := (mapGet m key).getD .null

/-- `getStringValue` of cron.go. -/
def getStringValue (m : JMap) (key : String) : String :=
  match jIndex m key with
  | .str v => v
  | _ => ""

/-- `getFloatValue` of cron.go. -/
def getFloatValue (m : JMap) (key : String) : Rat :=
  match jIndex m key with
  | .num v => v
  | _ => 0

/-! ## Entities -/

/-- `entities.Product`. -/
structure Product where
  ID : Int := 0
  SKU : String := ""
  UPC : String := ""
  ProductName : String := ""
  Price : Rat := 0
  AvailableToSellQTY : Int := 0
  GTIN : String := ""
  WarehouseStock : Int := 0
  WPID : String := ""
  ProductImage : String := ""
  Availability : String := ""
  PublishedStatus : String := ""
  LifecycleStatus : String := ""
  ListingStatusID : Int := 0
  deriving DecidableEq, Repr

/-! ## The reconciliation pass of `StartCronJob` -/

/-- The `if / else if` chain of cron.go lines 150-157 (`var listingStatusID int` starts at 0). -/
def listingStatusID (lifecycleStatus availability publishedStatus : String) : Int :=
  if lifecycleStatus = "ACTIVE" ∧ availability = "In_stock" ∧ publishedStatus = "PUBLISHED" then 1
  else if lifecycleStatus = "ACTIVE" ∧ availability = "Out_of_stock" ∧
      publishedStatus = "PUBLISHED" then 2
  else if lifecycleStatus = "ARCHIVED" ∨
      (publishedStatus = "UNPUBLISHED" ∧ lifecycleStatus = "ACTIVE") ∨
      (publishedStatus = "SYSTEM_PROBLEM" ∧ lifecycleStatus = "ACTIVE") then 3
  else 0

/-- The quantity of cron.go lines 141-144: `inventoryMap[sku]` when present, else 0. -/
def availableQty (inventoryMap : List (String × Int)) (sku : String) : Int :=
  match mapGet inventoryMap sku with
  | some availToSellQty => availToSellQty
  | none => 0

/-- The `product` built at cron.go lines 146-172 for one entry of `productsMap`. -/
def candidate (inventoryMap : List (String × Int)) (sku : String) (productData : JMap) :
    Product :=
  let lifecycleStatus := getStringValue productData "lifecycleStatus"
  let availability := getStringValue productData "availability"
  let publishedStatus := getStringValue productData "publishedStatus"
  { SKU := sku
    UPC := getStringValue productData "upc"
    ProductName := getStringValue productData "productName"
    Price := getFloatValue productData "price"
    AvailableToSellQTY := availableQty inventoryMap sku
    GTIN := getStringValue productData "gtin"
    WPID := getStringValue productData "wpid"
    Availability := availability
    PublishedStatus := getStringValue productData "publishedStatus"
    LifecycleStatus := lifecycleStatus
    ListingStatusID := listingStatusID lifecycleStatus availability publishedStatus }

/-- `inventory.InventoryRepository`, restricted to the methods the pass calls. Each method
takes the world before the call and returns its result and the world after it; a Go
`error` result is `none` for nil. -/
structure InventoryRepository (σ : Type) where
  FindAll : σ → Except GoError (List Product) × σ
  GetProductBySKU : String → σ → Except GoError (Option Product) × σ
  InsertProduct : Product → σ → Except GoError Int × σ
  InsertWmtProductDetail : Int → Product → σ → Option GoError × σ
  InsertProductImage : String → String → σ → Option GoError × σ
  UpdateListingStatus : Int → Int → σ → Option GoError × σ
  UpdateProduct : Product → σ → Option GoError × σ
  UpdateWmtProductDetail : Int → Product → σ → Option GoError × σ

/-- The type of `client.ItemSearch(productName, upc, gtin)` as the pass sees it. -/
abbrev ItemSearchFn (σ : Type) := String → String → String → σ → Except GoError String × σ

/-- A call the pass makes on the repository or on the search client. -/
inductive Call where
  | FindAll
  | GetProductBySKU (sku : String)
  | InsertProduct (product : Product)
  | InsertWmtProductDetail (productID : Int) (product : Product)
  | InsertProductImage (gtin imageUrl : String)
  | UpdateListingStatus (productID : Int) (listingStatusID : Int)
  | UpdateProduct (product : Product)
  | UpdateWmtProductDetail (productID : Int) (product : Product)
  | ItemSearch (productName upc gtin : String)
  deriving DecidableEq, Repr

/-- What a call returned. -/
inductive Outcome where
  | failed (err : GoError)
  | done
  | product (existing : Option Product)
  | products (dbProducts : List Product)
  | id (productID : Int)
  | url (imageURL : String)
  deriving DecidableEq, Repr

/-- Whether the call returned a non-nil error. -/
def Outcome.isFailed : Outcome → Bool
  | .failed _ => true
  | _ => false

/-- The outcome of a method returning `error`. -/
def Outcome.ofErr : Option GoError → Outcome
  | none => .done
  | some e => .failed e

/-- One entry of the call log of a pass: the sku of the loop iteration that made the call
(`none` for `FindAll`), the call and what it returned. -/
structure Event where
  sku : Option String
  call : Call
  outcome : Outcome
  deriving DecidableEq, Repr

/-- How one iteration of the loop over `productsMap` ended. -/
inductive ItemEnd where
  /-- Left by `continue` after `errorCount++`. -/
  | skipped
  /-- Reached `updateCount++`. -/
  | updated
  /-- Reached `insertCount++`. -/
  | inserted
  deriving DecidableEq, Repr

/-- The calls of one iteration, the world after them and how the iteration ended. -/
structure ItemRun (σ : Type) where
  world : σ
  events : List Event
  ending : ItemEnd

/-- The image backfill of cron.go lines 212-222 and 251-261: search, then on success
`InsertProductImage`; errors are only logged. -/
def imageBackfill {σ : Type} (repo : InventoryRepository σ) (search : ItemSearchFn σ)
    (sku : String) (product : Product) (w : σ) : List Event × σ :=
  match search product.ProductName product.UPC product.GTIN w with
  | (.error err, w1) =>
    ([⟨some sku, .ItemSearch product.ProductName product.UPC product.GTIN, .failed err⟩], w1)
  | (.ok imageURL, w1) =>
    match repo.InsertProductImage product.GTIN imageURL w1 with
    | (err, w2) =>
      ([⟨some sku, .ItemSearch product.ProductName product.UPC product.GTIN, .url imageURL⟩,
        ⟨some sku, .InsertProductImage product.GTIN imageURL, .ofErr err⟩], w2)

/-- The status step of cron.go lines 203-208: `UpdateListingStatus` when the derived
status differs from the stored one; an error is only logged. -/
def statusUpdate {σ : Type} (repo : InventoryRepository σ) (sku : String)
    (existingProduct product : Product) (w : σ) : List Event × σ :=
  if existingProduct.ListingStatusID ≠ product.ListingStatusID then
    match repo.UpdateListingStatus product.ID product.ListingStatusID w with
    | (err, w1) =>
      ([⟨some sku, .UpdateListingStatus product.ID product.ListingStatusID, .ofErr err⟩], w1)
  else ([], w)

/-- The image step of cron.go lines 211-223: a backfill when the stored product has no
image url. -/
def imageUpdate {σ : Type} (repo : InventoryRepository σ) (search : ItemSearchFn σ)
    (sku : String) (existingProduct product : Product) (w : σ) : List Event × σ :=
  if existingProduct.ProductImage = "" then imageBackfill repo search sku product w
  else ([], w)

/-- The branch `existingProduct != nil` of cron.go lines 186-227, entered with `product`
already carrying `existingProduct.ID` (line 184). -/
def updateExisting {σ : Type} (repo : InventoryRepository σ) (search : ItemSearchFn σ)
    (sku : String) (product : Product) (existingProduct : Product) (w : σ) : ItemRun σ :=
  match repo.UpdateProduct product w with
  | (some err, w1) => ⟨w1, [⟨some sku, .UpdateProduct product, .failed err⟩], .skipped⟩
  | (none, w1) =>
    match repo.UpdateWmtProductDetail product.ID product w1 with
    | (some err, w2) =>
      ⟨w2, [⟨some sku, .UpdateProduct product, .done⟩,
            ⟨some sku, .UpdateWmtProductDetail product.ID product, .failed err⟩], .skipped⟩
    | (none, w2) =>
      let s := statusUpdate repo sku existingProduct product w2
      let i := imageUpdate repo search sku existingProduct product s.2
      ⟨i.2, [⟨some sku, .UpdateProduct product, .done⟩,
             ⟨some sku, .UpdateWmtProductDetail product.ID product, .done⟩] ++ s.1 ++ i.1,
        .updated⟩

/-- The branch `existingProduct == nil` of cron.go lines 228-265. -/
def insertNew {σ : Type} (repo : InventoryRepository σ) (search : ItemSearchFn σ)
    (sku : String) (product : Product) (w : σ) : ItemRun σ :=
  match repo.InsertProduct product w with
  | (.error err, w1) => ⟨w1, [⟨some sku, .InsertProduct product, .failed err⟩], .skipped⟩
  | (.ok productID, w1) =>
    match repo.InsertWmtProductDetail productID product w1 with
    | (some err, w2) =>
      ⟨w2, [⟨some sku, .InsertProduct product, .id productID⟩,
            ⟨some sku, .InsertWmtProductDetail productID product, .failed err⟩], .skipped⟩
    | (none, w2) =>
      match repo.UpdateListingStatus productID product.ListingStatusID w2 with
      | (err, w3) =>
        let i := imageBackfill repo search sku product w3
        ⟨i.2, [⟨some sku, .InsertProduct product, .id productID⟩,
               ⟨some sku, .InsertWmtProductDetail productID product, .done⟩,
               ⟨some sku, .UpdateListingStatus productID product.ListingStatusID,
                 .ofErr err⟩] ++ i.1,
          .inserted⟩

/-- The calls of one iteration of the loop over `productsMap`, cron.go lines 139-265. -/
def runItem {σ : Type} (repo : InventoryRepository σ) (search : ItemSearchFn σ)
    (inventoryMap : List (String × Int)) (sku : String) (productData : JMap) (w : σ) :
    ItemRun σ :=
  let product := candidate inventoryMap sku productData
  match repo.GetProductBySKU sku w with
  | (.error err, w0) => ⟨w0, [⟨some sku, .GetProductBySKU sku, .failed err⟩], .skipped⟩
  | (.ok (some existingProduct), w0) =>
    let r := updateExisting repo search sku { product with ID := existingProduct.ID }
      existingProduct w0
    ⟨r.world, ⟨some sku, .GetProductBySKU sku, .product (some existingProduct)⟩ :: r.events,
      r.ending⟩
  | (.ok none, w0) =>
    let r := insertNew repo search sku product w0
    ⟨r.world, ⟨some sku, .GetProductBySKU sku, .product none⟩ :: r.events, r.ending⟩

/-- The variables of one pass: the world, the working set `dbProductSKUs`, the four
counters and the log of calls made so far. -/
structure PassState (σ : Type) where
  world : σ
  dbProductSKUs : List (String × Product)
  successCount : Int
  errorCount : Int
  updateCount : Int
  insertCount : Int
  log : List Event

/-- One iteration of the loop over `productsMap`, cron.go lines 139-268: the counters
move as the iteration ended, and `delete(dbProductSKUs, sku)` at line 267 runs unless the
iteration was left by `continue`. -/
def processItem {σ : Type} (repo : InventoryRepository σ) (search : ItemSearchFn σ)
    (inventoryMap : List (String × Int)) (sku : String) (productData : JMap)
    (st : PassState σ) : PassState σ :=
  let r := runItem repo search inventoryMap sku productData st.world
  match r.ending with
  | .skipped =>
    { st with world := r.world, log := st.log ++ r.events, errorCount := st.errorCount + 1 }
  | .updated =>
    { st with world := r.world, log := st.log ++ r.events,
              updateCount := st.updateCount + 1, successCount := st.successCount + 1,
              dbProductSKUs := mapDelete st.dbProductSKUs sku }
  | .inserted =>
    { st with world := r.world, log := st.log ++ r.events,
              insertCount := st.insertCount + 1, successCount := st.successCount + 1,
              dbProductSKUs := mapDelete st.dbProductSKUs sku }

/-- The loop `for sku, productData := range productsMap`; the list gives the entries of
`productsMap` in the order the loop visits them. -/
def reconcileLoop {σ : Type} (repo : InventoryRepository σ) (search : ItemSearchFn σ)
    (inventoryMap : List (String × Int)) : List (String × JMap) → PassState σ → PassState σ
  | [], st => st
  | (sku, productData) :: rest, st =>
    reconcileLoop repo search inventoryMap rest
      (processItem repo search inventoryMap sku productData st)

/-- One iteration of the loop `for _, p := range dbProductSKUs`, cron.go lines 271-278. -/
def delistOne {σ : Type} (repo : InventoryRepository σ) (p : Product) (st : PassState σ) :
    PassState σ :=
  match repo.UpdateListingStatus p.ID 5 st.world with
  | (none, w) =>
    { st with world := w, log := st.log ++ [⟨some p.SKU, .UpdateListingStatus p.ID 5, .done⟩] }
  | (some err, w) =>
    { st with world := w,
              log := st.log ++ [⟨some p.SKU, .UpdateListingStatus p.ID 5, .failed err⟩],
              errorCount := st.errorCount + 1 }

/-- The loop `for _, p := range dbProductSKUs`; the list gives the entries in the order
the loop visits them. -/
def delistLoop {σ : Type} (repo : InventoryRepository σ) :
    List (String × Product) → PassState σ → PassState σ
  | [], st => st
  | (_, p) :: rest, st => delistLoop repo rest (delistOne repo p st)

/-- The loop of cron.go lines 129-132 that indexes the local products by sku. -/
def indexBySKU (dbProducts : List Product) : List (String × Product) :=
  dbProducts.foldl (fun m p => mapSet m p.SKU p) []

/-- The variables of the pass once `FindAll` has returned `dbProducts`, cron.go lines
129-137: the working set indexed by sku and the four counters at 0. -/
def passStart {σ : Type} (dbProducts : List Product) (w : σ) : PassState σ :=
  { world := w, dbProductSKUs := indexBySKU dbProducts, successCount := 0,
    errorCount := 0, updateCount := 0, insertCount := 0,
    log := [⟨none, .FindAll, .products dbProducts⟩] }

/-- The reconciliation part of one pass of `StartCronJob`, cron.go lines 123-281.
`productsMap` lists the remote snapshot in the order its `range` loop visits it, and
`rangeOrder` gives the order in which the loop at line 271 visits the working set. When
`FindAll` fails the pass ends at the `continue` of line 126. -/
def reconcilePass {σ : Type} (repo : InventoryRepository σ) (search : ItemSearchFn σ)
    (rangeOrder : List (String × Product) → List (String × Product))
    (productsMap : List (String × JMap)) (inventoryMap : List (String × Int)) (w : σ) :
    PassState σ :=
  match repo.FindAll w with
  | (.error err, w0) =>
    { world := w0, dbProductSKUs := [], successCount := 0, errorCount := 0,
      updateCount := 0, insertCount := 0, log := [⟨none, .FindAll, .failed err⟩] }
  | (.ok dbProducts, w0) =>
    let st1 := reconcileLoop repo search inventoryMap productsMap (passStart dbProducts w0)
    delistLoop repo (rangeOrder st1.dbProductSKUs) st1

/-- The entries of a call log made in the loop iteration for `sku`. -/
def eventsFor (log : List Event) (sku : String) : List Event :=
  log.filter (fun e => decide (e.sku = some sku))

/-- The calls of a call log made in the loop iteration for `sku`, in order. -/
def callsFor (log : List Event) (sku : String) : List Call :=
  (eventsFor log sku).map Event.call

/-- Whether a call is a repository call (the only other call is `ItemSearch`). -/
def Call.isRepository : Call → Bool
  | .ItemSearch _ _ _ => false
  | _ => true

/-- The outcome of an `ItemSearch` call. -/
def Outcome.ofSearch : Except GoError String → Outcome
  | .ok imageURL => .url imageURL
  | .error err => .failed err

/-- The entry for a successful `InsertProductImage` that follows a search which returned
a url; nothing follows a search which returned an error. -/
def imageInsertAfter (sku : String) (gtin : String) : Outcome → List Event
  | .url imageURL => [⟨some sku, .InsertProductImage gtin imageURL, .done⟩]
  | _ => []

/-! ## Sample collaborators

Small worlds used to run the definitions on concrete inputs. -/

/-- A repository backed by a fixed product table. The world is the next product id
`InsertProduct` hands out. `UpdateProduct` returns an error when `updateFails` is set;
every other call succeeds. -/
def tableRepo (table : List Product) (updateFails : Bool) : InventoryRepository Int where
  FindAll w := (.ok table, w)
  GetProductBySKU sku w := (.ok (table.find? (fun p => decide (p.SKU = sku))), w)
  InsertProduct _ w := (.ok w, w + 1)
  InsertWmtProductDetail _ _ w := (none, w)
  InsertProductImage _ _ w := (none, w)
  UpdateListingStatus _ _ w := (none, w)
  UpdateProduct _ w := (if updateFails then some (errorsNew "update failed") else none, w)
  UpdateWmtProductDetail _ _ w := (none, w)

/-- A search that finds an image for every product. -/
def sampleSearch : ItemSearchFn Int :=
  fun _ _ gtin w => (.ok ("https://img/" ++ gtin), w)

/-- The remote record of spec section 8: sku A1, ACTIVE, In_stock, PUBLISHED. -/
def remoteA1 : JMap :=
  [("productName", .str "Widget"), ("sku", .str "A1"), ("upc", .str "0001"),
   ("gtin", .str "00000001"), ("wpid", .str "W1"), ("availability", .str "In_stock"),
   ("publishedStatus", .str "PUBLISHED"), ("lifecycleStatus", .str "ACTIVE")]

/-- A remote record for sku B2: ACTIVE, Out_of_stock, PUBLISHED. -/
def remoteB2 : JMap :=
  [("productName", .str "Gadget"), ("sku", .str "B2"), ("upc", .str "0002"),
   ("gtin", .str "00000002"), ("wpid", .str "W2"), ("availability", .str "Out_of_stock"),
   ("publishedStatus", .str "PUBLISHED"), ("lifecycleStatus", .str "ACTIVE")]

/-- Two local products: B2 with status 1 and no image, C3 with status 2. -/
def sampleLocal : List Product :=
  [{ ID := 7, SKU := "B2", ListingStatusID := 1 }, { ID := 9, SKU := "C3", ListingStatusID := 2 }]

/-- Whether a `GetProductBySKU` entry found a product exactly when its sku is in `skus`. -/
def lookupAgrees (skus : List String) (e : Event) : Bool :=
  match e.call, e.outcome with
  | .GetProductBySKU s, .product (some _) => decide (s ∈ skus)
  | .GetProductBySKU s, _ => decide (s ∉ skus)
  | _, _ => true

/-! ## Retrying the bulk fetches (cron.go lines 286-323) -/

/-- A Go `map[string]map[string]interface{}`: the remote item snapshot. -/
abbrev ItemsMap := List (String × JMap)

/-- A Go `map[string]int`: the remote inventory snapshot. -/
abbrev InventoryMap := List (String × Int)

/-- The value an `int64` holds after an operation whose exact result is `x`. -/
def wrapInt64 (x : Int) : Int := (x + 2 ^ 63) % 2 ^ 64 - 2 ^ 63

/-- The nanoseconds of `time.Second`. -/
def timeSecond : Int := 1000000000

/-- The duration `time.Duration(1<<uint(attempt)) * time.Second` in nanoseconds: the shift
and the product are `int64` operations. -/
def backoff (attempt : Int) : Int :=
  wrapInt64 (wrapInt64 (2 ^ attempt.toNat) * timeSecond)

/-- What a retrying fetch did: the world after it, its result, how many times it called
the wrapped fetch and the arguments of its `time.Sleep` calls in order (nanoseconds). -/
structure RetryRun (σ α : Type) where
  world : σ
  result : Except GoError α
  calls : Nat
  sleeps : List Int

/-- The loop `for attempt := 1; attempt <= maxRetries; attempt++` shared by
`fetchWalmartItemsWithRetry` and `fetchWalmartInventoryWithRetry`, followed by the
`return nil, fmt.Errorf("failed after %d attempts: %v", maxRetries, lastErr)` after it.
The first argument bounds the number of loop tests; `none` means the bound was reached.
The counter `attempt` is not wrapped: it stays far below 2^63. -/
def retryLoop {σ α : Type} (fetch : σ → Except GoError α × σ) (maxRetries : Int) :
    Nat → Int → Option GoError → Nat → List Int → σ → Option (RetryRun σ α)
  | 0, _, _, _, _, _ => none
  | fuel + 1, attempt, lastErr, calls, sleeps, w =>
    if attempt ≤ maxRetries then
      match fetch w with
      | (.ok value, w1) => some ⟨w1, .ok value, calls + 1, sleeps⟩
      | (.error err, w1) =>
        if attempt < maxRetries then
          retryLoop fetch maxRetries fuel (attempt + 1) (some err) (calls + 1)
            (sleeps ++ [backoff attempt]) w1
        else
          retryLoop fetch maxRetries fuel (attempt + 1) (some err) (calls + 1) sleeps w1
    else
      some ⟨w, .error (errorfV ("failed after " ++ toString maxRetries ++ " attempts: ")
        lastErr), calls, sleeps⟩

/-- `fetchWalmartItemsWithRetry(client, maxRetries)`; the first argument is
`client.FetchWalmartItems`. The loop makes at most `maxRetries + 1` tests. -/
def fetchWalmartItemsWithRetry {σ : Type} (FetchWalmartItems : σ → Except GoError ItemsMap × σ)
    (maxRetries : Int) (w : σ) : Option (RetryRun σ ItemsMap) :=
  retryLoop FetchWalmartItems maxRetries (maxRetries.toNat + 1) 1 none 0 [] w

/-- `fetchWalmartInventoryWithRetry(client, maxRetries)`; the first argument is
`client.FetchWalmartInventory`. -/
def fetchWalmartInventoryWithRetry {σ : Type}
    (FetchWalmartInventory : σ → Except GoError InventoryMap × σ)
    (maxRetries : Int) (w : σ) : Option (RetryRun σ InventoryMap) :=
  retryLoop FetchWalmartInventory maxRetries (maxRetries.toNat + 1) 1 none 0 [] w

/-- The world after `n` calls of `fetch`. -/
def worldAfter {σ α : Type} (fetch : σ → Except GoError α × σ) : Nat → σ → σ
  | 0, w => w
  | n + 1, w => worldAfter fetch n (fetch w).2

/-- The first `n` calls of `fetch` from world `w` all return an error. -/
def allFail {σ α : Type} (fetch : σ → Except GoError α × σ) : Nat → σ → Prop
  | 0, _ => True
  | n + 1, w => (∃ err, (fetch w).1 = .error err) ∧ allFail fetch n (fetch w).2

/-- From world `w`, `fetch` fails exactly `k` times and then succeeds with `value`. -/
def failsThenSucceeds {σ α : Type} (fetch : σ → Except GoError α × σ) (k : Nat) (w : σ)
    (value : α) : Prop :=
  allFail fetch k w ∧ (fetch (worldAfter fetch k w)).1 = .ok value

/-- The error of the `n`-th call of `fetch` from world `w`, if that call fails. -/
def errorOfCall {σ α : Type} (fetch : σ → Except GoError α × σ) (n : Nat) (w : σ) :
    Option GoError :=
  match n with
  | 0 => none
  | n + 1 =>
    match (fetch (worldAfter fetch n w)).1 with
    | .error err => some err
    | .ok _ => none

/-- A fetch over the world "number of calls made so far" that fails with "timeout" on its
first `k` calls and then returns `value`. -/
def flakyFetch {α : Type} (k : Nat) (value : α) : Nat → Except GoError α × Nat :=
  fun n => (if n < k then .error (errorsNew "timeout") else .ok value, n + 1)

/-- The durations `backoff attempt, backoff (attempt + 1), ...` of `n` consecutive
attempts. -/
def backoffs (attempt : Int) : Nat → List Int
  | 0 => []
  | n + 1 => backoff attempt :: backoffs (attempt + 1) n

/-! ## The client (client.go) -/

/-- An `*http.Request` as built by `http.NewRequest` and `req.Header.Set`. -/
structure Request where
  method : String
  url : String
  headers : List (String × String)
  body : String
  deriving DecidableEq, Repr

/-- An `*http.Response` whose body has been read: `Body` is what `io.ReadAll(resp.Body)`
returned and `readErr` its error. -/
structure Response where
  StatusCode : Int
  Body : String
  readErr : Option GoError := none
  deriving DecidableEq, Repr

/-- `tokenResponse`. -/
structure tokenResponse where
  AccessToken : String
  ExpiresIn : Int
  deriving DecidableEq, Repr

/-- The fields of `Client`; `expiresAt` is an instant in nanoseconds. The mutex is not a
field here: a call of a method is sequential, and the mutex is part of the state shared by
concurrent callers (`Shared`). -/
structure Client where
  partnerID : String
  correlationID : String
  serviceName : String
  clientID : String
  clientSecret : String
  accessToken : String := ""
  expiresAt : Int := 0
  deriving DecidableEq, Repr

/-- What the client uses from outside the package, over a world `σ`. -/
structure Env (σ : Type) where
  /-- `time.Now()`, in nanoseconds. -/
  now : σ → Int × σ
  /-- `uuid.New().String()`. -/
  newUUID : σ → String × σ
  /-- The error of `http.NewRequest(method, url, body)`, nil when the request is built. -/
  newRequest : String → String → Option GoError
  /-- The call `(&http.Client{Timeout: seconds * time.Second}).Do(req)` followed by the
  reading of the response body; 0 seconds stands for `http.DefaultClient`. -/
  clientDo : Nat → Request → σ → Except GoError Response × σ
  /-- `json.Unmarshal(body, &apiResp)` for `apiResp map[string]interface{}`. -/
  unmarshalMap : String → Except GoError JMap
  /-- `json.NewDecoder(resp.Body).Decode(&token)` for `token tokenResponse`. -/
  decodeToken : Response → Except GoError tokenResponse
  /-- `base64.StdEncoding.EncodeToString`. -/
  base64 : String → String

/-- `strings.Contains` on lists of characters. -/
def listContains : List Char → List Char → Bool
  | [], sub => sub.isEmpty
  | c :: rest, sub => sub.isPrefixOf (c :: rest) || listContains rest sub

/-- `strings.Contains(s, substr)`. -/
def stringsContains (s substr : String) : Bool := listContains s.toList substr.toList

/-- The request `requestToken` builds; `form.Encode()` of its single pair is the body. -/
def tokenRequest (base64 : String → String) (c : Client) (correlationID : String) : Request :=
  { method := "POST"
    url := "https://marketplace.walmartapis.com/v3/token"
    headers :=
      [("Content-Type", "application/x-www-form-urlencoded"),
       ("Authorization", "Basic " ++ base64 (c.clientID ++ ":" ++ c.clientSecret)),
       ("WM_PARTNER.ID", c.partnerID),
       ("WM_SVC.NAME", "Walmart Marketplace"),
       ("WM_QOS.CORRELATION_ID", correlationID),
       ("Accept", "application/json")]
    body := "grant_type=client_credentials" }

/-- `(c *Client) requestToken()`, client.go lines 101-139. -/
def requestToken {σ : Type} (env : Env σ) (c : Client) (w : σ) :
    Except GoError tokenResponse × σ :=
  match env.newRequest "POST" "https://marketplace.walmartapis.com/v3/token" with
  | some err => (.error err, w)
  | none =>
    match env.clientDo 10 (tokenRequest env.base64 c (env.newUUID w).1) (env.newUUID w).2 with
    | (.error err, w1) => (.error err, w1)
    | (.ok resp, w1) =>
      if resp.StatusCode ≠ 200 then
        (.error (errorsNew ("failed to fetch access token: " ++ resp.Body)), w1)
      else
        match env.decodeToken resp with
        | .error err => (.error err, w1)
        | .ok token => (.ok token, w1)

/-- The refresh of `GetAccessToken`, client.go lines 90-98: the duration
`time.Duration(token.ExpiresIn) * time.Second` is an `int64` product. -/
def refreshToken {σ : Type} (env : Env σ) (c : Client) (w : σ) :
    Except GoError (String × Int) × Client × σ :=
  match requestToken env c w with
  | (.error err, w1) => (.error err, c, w1)
  | (.ok token, w1) =>
    (.ok (token.AccessToken, token.ExpiresIn),
      { c with accessToken := token.AccessToken,
               expiresAt := (env.now w1).1 + wrapInt64 (token.ExpiresIn * timeSecond) },
      (env.now w1).2)

/-- `(c *Client) GetAccessToken()`, client.go lines 81-99, returning the token and the
seconds it remains valid. `time.Now()` is read once by the test `Before` (only when the
cached token is non-empty) and once by `time.Until`; the seconds of the remaining
duration are its nanoseconds divided by 10^9 and truncated (the rounding of the
intermediate `float64` is not modelled). -/
def GetAccessToken {σ : Type} (env : Env σ) (c : Client) (w : σ) :
    Except GoError (String × Int) × Client × σ :=
  if c.accessToken ≠ "" then
    if (env.now w).1 < c.expiresAt then
      (.ok (c.accessToken, Int.tdiv (c.expiresAt - (env.now (env.now w).2).1) timeSecond), c,
        (env.now (env.now w).2).2)
    else refreshToken env c (env.now w).2
  else refreshToken env c w

/-- What a fetch did: the world and the client after it, the page requests it passed to
the transport in order, and its result. -/
structure FetchRun (σ α : Type) where
  world : σ
  client : Client
  requests : List Request
  result : Except GoError α

/-- `baseURL` of `FetchWalmartItems`. -/
def itemsBaseURL : String := "https://marketplace.walmartapis.com/v3/items?offset=0&limit=50"

/-- `urlEndpoint` of one page request, client.go lines 152-155. -/
def itemsURL (nextCursor : String) : String :=
  if nextCursor ≠ "" then itemsBaseURL ++ "&nextCursor=" ++ nextCursor else itemsBaseURL

/-- A GET request with the four headers the bulk fetches and the search set. -/
def getRequest (accessToken correlationID urlEndpoint : String) : Request :=
  { method := "GET"
    url := urlEndpoint
    headers :=
      [("Accept", "application/json"),
       ("WM_SEC.ACCESS_TOKEN", accessToken),
       ("WM_QOS.CORRELATION_ID", correlationID),
       ("WM_SVC.NAME", "Walmart Marketplace")]
    body := "" }

/-- The `product` map of client.go lines 208-223 for an item with the given sku. -/
def itemRecord (sku : String) (item : JMap) : JMap :=
  match jIndex item "price" with
  | .obj price =>
    match jIndex price "amount" with
    | .num amount =>
      mapSet
        [("productName", jIndex item "productName"), ("sku", .str sku),
         ("upc", jIndex item "upc"), ("gtin", jIndex item "gtin"),
         ("wpid", jIndex item "wpid"), ("availability", jIndex item "availability"),
         ("publishedStatus", jIndex item "publishedStatus"),
         ("lifecycleStatus", jIndex item "lifecycleStatus")]
        "price" (.num amount)
    | _ =>
      [("productName", jIndex item "productName"), ("sku", .str sku),
       ("upc", jIndex item "upc"), ("gtin", jIndex item "gtin"),
       ("wpid", jIndex item "wpid"), ("availability", jIndex item "availability"),
       ("publishedStatus", jIndex item "publishedStatus"),
       ("lifecycleStatus", jIndex item "lifecycleStatus")]
  | _ =>
    [("productName", jIndex item "productName"), ("sku", .str sku),
     ("upc", jIndex item "upc"), ("gtin", jIndex item "gtin"),
     ("wpid", jIndex item "wpid"), ("availability", jIndex item "availability"),
     ("publishedStatus", jIndex item "publishedStatus"),
     ("lifecycleStatus", jIndex item "lifecycleStatus")]

/-- The record one element of `ItemResponse` yields, client.go lines 198-223: `none` when
the element is not an object or its sku is missing, not a string or empty (`continue`). -/
def parseItem (rawItem : JVal) : Option (String × JMap) :=
  match rawItem with
  | .obj item =>
    match jIndex item "sku" with
    | .str sku => if sku = "" then none else some (sku, itemRecord sku item)
    | _ => none
  | _ => none

/-- The loop `for _, rawItem := range items`, client.go lines 197-226. -/
def mergeItems (items : List JVal) (productMap : ItemsMap) : ItemsMap :=
  items.foldl
    (fun m rawItem =>
      match parseItem rawItem with
      | some (sku, product) => mapSet m sku product
      | none => m)
    productMap

/-- The verb `%T` applied to a decoded JSON value. -/
def goTypeName : JVal → String
  | .null => "<nil>"
  | .bool _ => "bool"
  | .num _ => "float64"
  | .str _ => "string"
  | .arr _ => "[]interface \x7b\x7d"
  | .obj _ => "map[string]interface \x7b\x7d"

/-- The cursor test of client.go line 228: the string under `nextCursor`, or "" when it is
missing or not a string. -/
def pageCursor (apiResp : JMap) : String :=
  match jIndex apiResp "nextCursor" with
  | .str cursor => cursor
  | _ => ""

/-- The error `FetchWalmartItems` and `FetchWalmartInventory` return when `client.Do`
fails, client.go lines 169-174. -/
def transportError (err : GoError) : GoError :=
  if stringsContains err.Error "context deadline exceeded" then
    errorfW "request timed out after 30 seconds: " err
  else err

/-- The loop `for { ... }` of `FetchWalmartItems`, client.go lines 151-233, and the return
after it. The first argument bounds the number of iterations; `none` means the bound was
reached. -/
def fetchItemsLoop {σ : Type} (env : Env σ) (c : Client) (accessToken : String) :
    Nat → String → ItemsMap → List Request → σ → Option (FetchRun σ ItemsMap)
  | 0, _, _, _, _ => none
  | fuel + 1, nextCursor, productMap, requests, w =>
    match env.newRequest "GET" (itemsURL nextCursor) with
    | some err => some ⟨w, c, requests, .error err⟩
    | none =>
      match env.clientDo 30 (getRequest accessToken (env.newUUID w).1 (itemsURL nextCursor))
          (env.newUUID w).2 with
      | (.error err, w1) =>
        some ⟨w1, c,
          requests ++ [getRequest accessToken (env.newUUID w).1 (itemsURL nextCursor)],
          .error (transportError err)⟩
      | (.ok resp, w1) =>
        if resp.StatusCode ≠ 200 then
          some ⟨w1, c,
            requests ++ [getRequest accessToken (env.newUUID w).1 (itemsURL nextCursor)],
            .error (errorsNew ("failed to fetch items: " ++ resp.Body))⟩
        else
          match env.unmarshalMap resp.Body with
          | .error err =>
            some ⟨w1, c,
              requests ++ [getRequest accessToken (env.newUUID w).1 (itemsURL nextCursor)],
              .error err⟩
          | .ok apiResp =>
            match mapGet apiResp "ItemResponse" with
            | none =>
              some ⟨w1, c,
                requests ++ [getRequest accessToken (env.newUUID w).1 (itemsURL nextCursor)],
                .error (errorsNew "unexpected API response format: missing 'ItemResponse'")⟩
            | some (.arr items) =>
              if pageCursor apiResp ≠ "" then
                fetchItemsLoop env c accessToken fuel (pageCursor apiResp)
                  (mergeItems items productMap)
                  (requests ++
                    [getRequest accessToken (env.newUUID w).1 (itemsURL nextCursor)])
                  w1
              else
                some ⟨w1, c,
                  requests ++
                    [getRequest accessToken (env.newUUID w).1 (itemsURL nextCursor)],
                  .ok (mergeItems items productMap)⟩
            | some itemResponse =>
              some ⟨w1, c,
                requests ++ [getRequest accessToken (env.newUUID w).1 (itemsURL nextCursor)],
                .error (errorsNew ("unexpected data type for 'ItemResponse': " ++
                  goTypeName itemResponse))⟩

/-- `(c *Client) FetchWalmartItems()`, client.go lines 141-236; the first argument bounds
the number of pages requested. -/
def FetchWalmartItems {σ : Type} (env : Env σ) (fuel : Nat) (c : Client) (w : σ) :
    Option (FetchRun σ ItemsMap) :=
  match GetAccessToken env c w with
  | (.error err, c1, w1) =>
    some ⟨w1, c1, [], .error (errorsNew ("failed to get access token: " ++ err.Error))⟩
  | (.ok (accessToken, _), c1, w1) => fetchItemsLoop env c1 accessToken fuel "*" [] [] w1

/-- The conversion `int(qty)` of a `float64`: the fraction is discarded. Values outside the
range of `int` are not modelled. -/
def goInt (qty : Rat) : Int := if 0 ≤ qty then ⌊qty⌋ else ⌈qty⌉

/-- `totalQty` of one inventory record, client.go lines 404-413; `int` is 64 bits wide. -/
def totalQty (inv : JMap) : Int :=
  match jIndex inv "shipNodes" with
  | .arr shipNodes =>
    shipNodes.foldl
      (fun total node =>
        match node with
        | .obj shipNode =>
          match jIndex shipNode "availToSellQty" with
          | .num qty => wrapInt64 (total + goInt qty)
          | _ => total
        | _ => total)
      0
  | _ => 0

/-- The entry one element of `payload.inventory` yields, client.go lines 394-413: `none`
when the element is not an object or its sku is missing, not a string or empty. -/
def parseInventory (rawInv : JVal) : Option (String × Int) :=
  match rawInv with
  | .obj inv =>
    match jIndex inv "sku" with
    | .str sku => if sku = "" then none else some (sku, totalQty inv)
    | _ => none
  | _ => none

/-- The loop `for _, rawInv := range inventoryList`, client.go lines 393-416. -/
def mergeInventory (inventoryList : List JVal) (inventoryMap : InventoryMap) : InventoryMap :=
  inventoryList.foldl
    (fun m rawInv =>
      match parseInventory rawInv with
      | some (sku, qty) => mapSet m sku qty
      | none => m)
    inventoryMap

/-- `urlEndpoint` of `FetchWalmartInventory`. -/
def inventoryURL : String :=
  "https://marketplace.walmartapis.com/v3/fulfillment/inventory?limit=1000&offset=0"

/-- The part of `FetchWalmartInventory` after the access token is obtained, client.go lines
347-419: one request, no loop. -/
def fetchInventoryPage {σ : Type} (env : Env σ) (c : Client) (accessToken : String) (w : σ) :
    FetchRun σ InventoryMap :=
  match env.newRequest "GET" inventoryURL with
  | some err => ⟨w, c, [], .error err⟩
  | none =>
    match env.clientDo 30 (getRequest accessToken (env.newUUID w).1 inventoryURL)
        (env.newUUID w).2 with
    | (.error err, w1) =>
      ⟨w1, c, [getRequest accessToken (env.newUUID w).1 inventoryURL],
        .error (transportError err)⟩
    | (.ok resp, w1) =>
      if resp.StatusCode ≠ 200 then
        ⟨w1, c, [getRequest accessToken (env.newUUID w).1 inventoryURL],
          .error (errorsNew ("failed to fetch inventory: " ++ resp.Body))⟩
      else
        match env.unmarshalMap resp.Body with
        | .error err =>
          ⟨w1, c, [getRequest accessToken (env.newUUID w).1 inventoryURL], .error err⟩
        | .ok apiResp =>
          match jIndex apiResp "payload" with
          | .obj payload =>
            match jIndex payload "inventory" with
            | .arr inventoryList =>
              ⟨w1, c, [getRequest accessToken (env.newUUID w).1 inventoryURL],
                .ok (mergeInventory inventoryList [])⟩
            | _ =>
              ⟨w1, c, [getRequest accessToken (env.newUUID w).1 inventoryURL],
                .error (errorsNew "missing 'inventory' in API response")⟩
          | _ =>
            ⟨w1, c, [getRequest accessToken (env.newUUID w).1 inventoryURL],
              .error (errorsNew "missing 'payload' in API response")⟩

/-- `(c *Client) FetchWalmartInventory()`, client.go lines 341-420. -/
def FetchWalmartInventory {σ : Type} (env : Env σ) (c : Client) (w : σ) :
    FetchRun σ InventoryMap :=
  match GetAccessToken env c w with
  | (.error err, c1, w1) =>
    ⟨w1, c1, [], .error (errorsNew ("failed to get access token: " ++ err.Error))⟩
  | (.ok (accessToken, _), c1, w1) => fetchInventoryPage env c1 accessToken w1

/-! ## Feeds

What it means for the transport to serve a sequence of pages to `FetchWalmartItems`. -/

/-- The assignments `m[k] = v` for the pairs of a list, in order. -/
def mapSetAll {V : Type} (m : List (String × V)) (kvs : List (String × V)) :
    List (String × V) :=
  kvs.foldl (fun m kv => mapSet m kv.1 kv.2) m

/-- The array under `ItemResponse` of a decoded page (empty when there is none). -/
def pageItems (apiResp : JMap) : List JVal :=
  match mapGet apiResp "ItemResponse" with
  | some (.arr items) => items
  | _ => []

/-- The request `FetchWalmartItems` makes for `nextCursor` in world `w`. -/
def pageRequest {σ : Type} (env : Env σ) (accessToken nextCursor : String) (w : σ) : Request :=
  getRequest accessToken (env.newUUID w).1 (itemsURL nextCursor)

/-- The world after the page request for `nextCursor` made in world `w`. -/
def worldAfterPage {σ : Type} (env : Env σ) (accessToken nextCursor : String) (w : σ) : σ :=
  (env.clientDo 30 (pageRequest env accessToken nextCursor w) (env.newUUID w).2).2

/-- The page request for `nextCursor` made in world `w` is built, and it is answered by a
response with status 200 whose body decodes to `apiResp`, an object whose `ItemResponse`
is an array. -/
def servesPage {σ : Type} (env : Env σ) (accessToken nextCursor : String) (w : σ)
    (apiResp : JMap) : Prop :=
  env.newRequest "GET" (itemsURL nextCursor) = none ∧
  ∃ resp, (env.clientDo 30 (pageRequest env accessToken nextCursor w) (env.newUUID w).2).1 =
      .ok resp ∧
    resp.StatusCode = 200 ∧ env.unmarshalMap resp.Body = .ok apiResp ∧
    ∃ items, mapGet apiResp "ItemResponse" = some (.arr items)

/-- Starting with `nextCursor` in world `w`, the transport serves the given pages one after
the other, each in answer to the cursor of the page before it, and each of them declares a
non-empty next cursor. -/
def servesPages {σ : Type} (env : Env σ) (accessToken : String) :
    String → List JMap → σ → Prop
  | _, [], _ => True
  | nextCursor, apiResp :: rest, w =>
    servesPage env accessToken nextCursor w apiResp ∧ pageCursor apiResp ≠ "" ∧
    servesPages env accessToken (pageCursor apiResp) rest
      (worldAfterPage env accessToken nextCursor w)

/-- The cursor to send after the given pages. -/
def cursorAfter : String → List JMap → String
  | nextCursor, [] => nextCursor
  | _, apiResp :: rest => cursorAfter (pageCursor apiResp) rest

/-- The world after the given pages have been requested. -/
def worldAfterPages {σ : Type} (env : Env σ) (accessToken : String) :
    String → List JMap → σ → σ
  | _, [], w => w
  | nextCursor, apiResp :: rest, w =>
    worldAfterPages env accessToken (pageCursor apiResp) rest
      (worldAfterPage env accessToken nextCursor w)

/-- The requests made for the given pages. -/
def pageRequests {σ : Type} (env : Env σ) (accessToken : String) :
    String → List JMap → σ → List Request
  | _, [], _ => []
  | nextCursor, apiResp :: rest, w =>
    pageRequest env accessToken nextCursor w ::
      pageRequests env accessToken (pageCursor apiResp) rest
        (worldAfterPage env accessToken nextCursor w)

/-- The records of the given pages, in page order and, within a page, in array order. -/
def pageRecords (pages : List JMap) : List (String × JMap) :=
  pages.flatMap (fun apiResp => (pageItems apiResp).filterMap parseItem)

/-- A JSON decoder given by a table from bodies to decoded objects. -/
def tableUnmarshal (table : List (String × JMap)) : String → Except GoError JMap :=
  fun body =>
    match mapGet table body with
    | some apiResp => .ok apiResp
    | none => .error (errorsNew "invalid character")

/-- A transport that answers the token request with a token valid for 900 seconds and the
n-th GET request with the n-th of the given responses. The world is the number of GET
requests answered so far; the clock stands at 0. -/
def scriptedEnv (table : List (String × JMap)) (responses : List Response) : Env Nat where
  now w := (0, w)
  newUUID w := ("6ba7b810-9dad-41d1-80b4-00c04fd430c8", w)
  newRequest _ _ := none
  clientDo _ req w :=
    if req.method = "POST" then (.ok { StatusCode := 200, Body := "token" }, w)
    else
      (match responses.get? w with
        | some resp => .ok resp
        | none => .error (errorsNew "connection refused"),
       w + 1)
  unmarshalMap := tableUnmarshal table
  decodeToken _ := .ok { AccessToken := "secret", ExpiresIn := 900 }
  base64 s := s

/-- A client with credentials and no cached token. -/
def sampleClient : Client :=
  { partnerID := "partner", correlationID := "", serviceName := "Walmart Marketplace",
    clientID := "id", clientSecret := "secret" }

/-- First page of a sample items feed: A1, a record without sku, and a next cursor. -/
def itemsPage1 : JMap :=
  [("ItemResponse", .arr [.obj remoteA1, .obj [("productName", .str "No sku")]]),
   ("nextCursor", .str "c2")]

/-- Second and last page of the sample items feed: B2 and A1 again, no next cursor. -/
def itemsPage2 : JMap :=
  [("ItemResponse", .arr [.obj remoteB2,
      .obj [("productName", .str "Widget v2"), ("sku", .str "A1")]])]

/-- The records of the first page of a sample inventory feed: A1 with 5 units. -/
def inventoryList1 : List JVal :=
  [.obj [("sku", .str "A1"), ("shipNodes", .arr [.obj [("availToSellQty", .num 5)]])]]

/-- First page of the sample inventory feed; it declares a next cursor. -/
def inventoryPage1 : JMap :=
  [("payload", .obj [("inventory", .arr inventoryList1)]), ("nextCursor", .str "c2")]

/-- Second and last page of the sample inventory feed: B2 with 7 units. -/
def inventoryPage2 : JMap :=
  [("payload", .obj [("inventory", .arr
    [.obj [("sku", .str "B2"), ("shipNodes", .arr [.obj [("availToSellQty", .num 7)]])]])])]

/-- The bodies of the sample feeds and what they decode to. -/
def sampleBodies : List (String × JMap) :=
  [("items-1", itemsPage1), ("items-2", itemsPage2),
   ("inventory-1", inventoryPage1), ("inventory-2", inventoryPage2),
   ("no-items", [("error", .str "oops")])]

/-! ## Quantities of an inventory record -/

/-- The array under `shipNodes` of an inventory record (empty when there is none). -/
def shipNodesOf (inv : JMap) : List JVal :=
  match jIndex inv "shipNodes" with
  | .arr shipNodes => shipNodes
  | _ => []

/-- What one ship-node adds to `totalQty`: `int(availToSellQty)` when the node is an object
whose `availToSellQty` is a number, nothing otherwise. -/
def nodeQty (node : JVal) : Int :=
  match node with
  | .obj shipNode =>
    match jIndex shipNode "availToSellQty" with
    | .num qty => goInt qty
    | _ => 0
  | _ => 0

/-- Whether a value fits in an `int64`. -/
def inInt64 (x : Int) : Prop := -2 ^ 63 ≤ x ∧ x < 2 ^ 63

/-- The quantity obtained by adding up the ship-nodes of every record of the response that
carries `sku`. -/
def qtyOverAllRecords (inventoryList : List JVal) (sku : String) : Int :=
  ((inventoryList.filter
      (fun rawInv =>
        match rawInv with
        | .obj inv =>
          match jIndex inv "sku" with
          | .str s => decide (s = sku)
          | _ => false
        | _ => false)).map
    (fun rawInv =>
      match rawInv with
      | .obj inv => ((shipNodesOf inv).map nodeQty).sum
      | _ => 0)).sum

/-- An inventory response in which two records carry the sku A1, with 5 and 7 units. -/
def inventoryListDup : List JVal :=
  [.obj [("sku", .str "A1"), ("shipNodes", .arr [.obj [("availToSellQty", .num 5)]])],
   .obj [("sku", .str "A1"), ("shipNodes", .arr [.obj [("availToSellQty", .num 7)]])]]

/-- An inventory response whose record for B2 has two ship-nodes of 2^62 units each. -/
def inventoryListBig : List JVal :=
  [.obj [("sku", .str "B2"), ("shipNodes", .arr
    [.obj [("availToSellQty", .num 4611686018427387904)],
     .obj [("availToSellQty", .num 4611686018427387904)]])]]

/-- The bodies of the two responses above. -/
def inventoryBodies : List (String × JMap) :=
  [("inventory-dup", [("payload", .obj [("inventory", .arr inventoryListDup)])]),
   ("inventory-big", [("payload", .obj [("inventory", .arr inventoryListBig)])])]

/-! ## Observing the requests of the client -/

/-- The same collaborators over a world that also records every request passed to the
transport, in order. -/
def recordingEnv {σ : Type} (env : Env σ) : Env (σ × List Request) where
  now w := ((env.now w.1).1, ((env.now w.1).2, w.2))
  newUUID w := ((env.newUUID w.1).1, ((env.newUUID w.1).2, w.2))
  newRequest := env.newRequest
  clientDo seconds req w :=
    ((env.clientDo seconds req w.1).1, ((env.clientDo seconds req w.1).2, w.2 ++ [req]))
  unmarshalMap := env.unmarshalMap
  decodeToken := env.decodeToken
  base64 := env.base64

/-- The client and the world after `n` consecutive calls of `GetAccessToken`. -/
def tokenCalls {σ : Type} (env : Env σ) : Nat → Client → σ → Client × σ
  | 0, c, w => (c, w)
  | n + 1, c, w =>
    tokenCalls env n (GetAccessToken env c w).2.1 (GetAccessToken env c w).2.2

/-- Each of `n` consecutive calls of `GetAccessToken` on the cache `c` finds a non-empty
cached token and reads a clock that is before `c.expiresAt`. -/
def insideWindow {σ : Type} (env : Env σ) : Nat → Client → σ → Prop
  | 0, _, _ => True
  | n + 1, c, w =>
    c.accessToken ≠ "" ∧ (env.now w).1 < c.expiresAt ∧
    insideWindow env n c (GetAccessToken env c w).2.2

instance insideWindowDecidable {σ : Type} (env : Env σ) :
    (n : Nat) → (c : Client) → (w : σ) → Decidable (insideWindow env n c w)
  | 0, _, _ => isTrue trivial
  | n + 1, c, w =>
    have := insideWindowDecidable env n c (GetAccessToken env c w).2.2
    inferInstanceAs (Decidable (c.accessToken ≠ "" ∧ (env.now w).1 < c.expiresAt ∧
      insideWindow env n c (GetAccessToken env c w).2.2))

/-- The scripted transport with the clock standing at `clock` and a token endpoint that
answers with `token`. -/
def tokenEnv (token : tokenResponse) (clock : Int) : Env Nat :=
  { scriptedEnv [] [] with
    now := fun w => (clock, w)
    decodeToken := fun _ => .ok token }

/-! ## Construction of the client -/

/-- The package-level variables of client.go lines 31-34: `instance` and whether `once`
has already run its function. -/
structure Package where
  theInstance : Option Client := none
  onceDone : Bool := false
  deriving DecidableEq, Repr

/-- What a call of `GetInstance` returns: the pair `(*Client, error)`, each nil or not. -/
structure Constructed where
  client : Option Client
  err : Option GoError
  deriving DecidableEq, Repr

/-- `GetInstance()`, client.go lines 36-62. `initErr` is a variable of the call, nil at its
start; `once.Do` runs its function only in the first call, and the function is marked as
done also when it returns early. `getenv` is `os.Getenv` at the time of the call. -/
def GetInstance {σ : Type} (env : Env σ) (getenv : String → String) (pkg : Package) (w : σ) :
    Constructed × Package × σ :=
  if pkg.onceDone then
    (⟨pkg.theInstance, none⟩, pkg, w)
  else if getenv "WM_PARTNER_ID" = "" ∨ getenv "WALMART_CLIENT_ID" = "" ∨
      getenv "WALMART_CLIENT_SECRET" = "" then
    (⟨none, some (errorsNew "missing required environment variables")⟩,
      { pkg with onceDone := true }, w)
  else
    (⟨some { partnerID := getenv "WM_PARTNER_ID"
             correlationID := (env.newUUID w).1
             serviceName := "Walmart Marketplace"
             clientID := getenv "WALMART_CLIENT_ID"
             clientSecret := getenv "WALMART_CLIENT_SECRET" }, none⟩,
      { theInstance := some { partnerID := getenv "WM_PARTNER_ID"
                              correlationID := (env.newUUID w).1
                              serviceName := "Walmart Marketplace"
                              clientID := getenv "WALMART_CLIENT_ID"
                              clientSecret := getenv "WALMART_CLIENT_SECRET" }
        onceDone := true },
      (env.newUUID w).2)

/-- `NewClient()`, client.go lines 64-66. -/
def NewClient {σ : Type} (env : Env σ) (getenv : String → String) (pkg : Package) (w : σ) :
    Constructed × Package × σ :=
  GetInstance env getenv pkg w

/-- An environment in which the partner id is set and the two client credentials are not. -/
def partnerOnly (name : String) : String :=
  if name = "WM_PARTNER_ID" then "partner" else ""

/-! ## Counting the failures of a pass -/

/-- Whether a failure of the call is followed by `errorCount++` in cron.go: the five calls
whose failure leaves the iteration by `continue` (lines 176-180, 187-192, 195-200, 230-235,
237-242) and `UpdateListingStatus(p.ID, 5)` of the final loop (lines 273-277). -/
def Call.countedOnFailure : Call → Bool
  | .GetProductBySKU _ => true
  | .InsertProduct _ => true
  | .InsertWmtProductDetail _ _ => true
  | .UpdateProduct _ => true
  | .UpdateWmtProductDetail _ _ => true
  | .UpdateListingStatus _ listingStatusID => decide (listingStatusID = 5)
  | _ => false

/-- A failed call that is followed by `errorCount++`. -/
def Event.counted (e : Event) : Bool := e.outcome.isFailed && e.call.countedOnFailure

/-- A failed repository or search step of the pass. -/
def Event.failedStep (e : Event) : Bool := e.outcome.isFailed && decide (e.call ≠ .FindAll)

/-- A search that finds no image. -/
def failingSearch : ItemSearchFn Int :=
  fun _ _ _ w => (.error (errorsNew "no matching image found"), w)

/-- A repository with no product in which `UpdateListingStatus` and `InsertProductImage`
fail and every other call succeeds. The world is the next product id. -/
def statusFailRepo : InventoryRepository Int where
  FindAll w := (.ok [], w)
  GetProductBySKU _ w := (.ok none, w)
  InsertProduct _ w := (.ok w, w + 1)
  InsertWmtProductDetail _ _ w := (none, w)
  InsertProductImage _ _ w := (some (errorsNew "image insert failed"), w)
  UpdateListingStatus _ _ w := (some (errorsNew "status update failed"), w)
  UpdateProduct _ w := (none, w)
  UpdateWmtProductDetail _ _ w := (none, w)

/-! ## Image search (client.go lines 422-500) -/

/-- An element of `Images` of an entry of the search result. -/
structure SearchImage where
  URL : String
  deriving DecidableEq, Repr

/-- An element of `result.Items`. -/
structure SearchItem where
  Title : String
  Images : List SearchImage
  deriving DecidableEq, Repr

/-- The library functions `ItemSearch` uses besides those of `Env`. -/
structure SearchLib where
  /-- `url.Values.Encode()` of the pairs set on the values. -/
  valuesEncode : List (String × String) → String
  /-- `strings.EqualFold`. -/
  equalFold : String → String → Bool
  /-- `json.Unmarshal(bodyBytes, &result)`, giving `result.Items`. -/
  unmarshalSearch : String → Except GoError (List SearchItem)

/-- The `queryParams` of client.go lines 428-437; `none` is the `else` branch that returns
"no query parameter provided". -/
def searchParams (productName upc gtin : String) : Option (List (String × String)) :=
  if gtin ≠ "" then some [("gtin", gtin)]
  else if upc ≠ "" then some [("upc", upc)]
  else if productName ≠ "" then some [("query", productName)]
  else none

/-- `urlEndpoint` of `ItemSearch`, client.go line 439. -/
def searchURL (lib : SearchLib) (queryParams : List (String × String)) : String :=
  "https://marketplace.walmartapis.com/v3/items/walmart/search?" ++
    lib.valuesEncode queryParams

/-- The loop of client.go lines 489-497: the url of `item.Images[0]` for the first item
whose title folds to `productName` and which has an image. -/
def matchImage (lib : SearchLib) (productName : String) : List SearchItem → Option String
  | [] => none
  | item :: rest =>
    if lib.equalFold item.Title productName = true ∧ item.Images.length > 0 then
      some ((item.Images.head?.map SearchImage.URL).getD "")
    else matchImage lib productName rest

/-- The part of `ItemSearch` after the request is built, client.go lines 453-499. -/
def searchSend {σ : Type} (env : Env σ) (lib : SearchLib) (c : Client) (productName : String)
    (req : Request) (w : σ) : FetchRun σ String :=
  match env.clientDo 10 req w with
  | (.error err, w1) => ⟨w1, c, [req], .error err⟩
  | (.ok resp, w1) =>
    match resp.readErr with
    | some err => ⟨w1, c, [req], .error err⟩
    | none =>
      match lib.unmarshalSearch resp.Body with
      | .error err => ⟨w1, c, [req], .error err⟩
      | .ok items =>
        match matchImage lib productName items with
        | some imageURL => ⟨w1, c, [req], .ok imageURL⟩
        | none => ⟨w1, c, [req], .error (errorsNew "no matching image found")⟩

/-- `(c *Client) ItemSearch(productName, upc, gtin)`, client.go lines 422-500. The
`requests` of the run are the search requests passed to the transport. -/
def ItemSearch {σ : Type} (env : Env σ) (lib : SearchLib) (c : Client)
    (productName upc gtin : String) (w : σ) : FetchRun σ String :=
  match GetAccessToken env c w with
  | (.error err, c1, w1) =>
    ⟨w1, c1, [], .error (errorsNew ("failed to get access token: " ++ err.Error))⟩
  | (.ok (accessToken, _), c1, w1) =>
    match searchParams productName upc gtin with
    | none => ⟨w1, c1, [], .error (errorsNew "no query parameter provided")⟩
    | some queryParams =>
      match env.newRequest "GET" (searchURL lib queryParams) with
      | some err => ⟨w1, c1, [], .error err⟩
      | none =>
        searchSend env lib c1 productName
          (getRequest accessToken (env.newUUID w1).1 (searchURL lib queryParams))
          (env.newUUID w1).2

/-- Whether an entry of the search result has a title that folds to `productName` and at
least one image. -/
def SearchItem.suits (lib : SearchLib) (productName : String) (item : SearchItem) : Prop :=
  lib.equalFold item.Title productName = true ∧ item.Images ≠ []

/-- A library for the samples: a single pair is encoded as `key=value`, titles are compared
after lowering ASCII letters, and the body "search-1" decodes to three entries: a title
match without images, a title match with two images and another title. -/
def sampleLib : SearchLib where
  valuesEncode params :=
    match params with
    | [(k, v)] => k ++ "=" ++ v
    | _ => ""
  equalFold s t := s.toList.map Char.toLower == t.toList.map Char.toLower
  unmarshalSearch body :=
    if body = "search-1" then
      .ok [⟨"WIDGET", []⟩, ⟨"widget", [⟨"https://img/w-1"⟩, ⟨"https://img/w-2"⟩]⟩,
           ⟨"Gadget", [⟨"https://img/g-1"⟩]⟩]
    else .error (errorsNew "unexpected end of JSON input")

/-- The scripted transport answering every search request with the body "search-1". -/
def searchEnv : Env Nat :=
  scriptedEnv []
    [{ StatusCode := 200, Body := "search-1" }, { StatusCode := 200, Body := "search-1" }]

/-! ## The schedulers (cron.go lines 21-39 and 66-85)

Instants are nanoseconds since the epoch, a zone is its fixed offset from UTC in seconds,
and a civil date is its day number (days since 1970-01-01): `Year()`, `Month()` and `Day()`
of an instant give the date of its day number in the zone of the instant, and `time.Date`
maps that date back to the same day number. -/

/-- `time.Minute`. -/
def timeMinute : Int := 60000000000

/-- `time.Hour`. -/
def timeHour : Int := 3600000000000

/-- The offset of `location` after cron.go lines 24-28 and 70-74: that of the loaded zone,
or of `time.UTC` when `time.LoadLocation` returned an error (`none`). -/
def locationOffset (loaded : Option Int) : Int :=
  match loaded with
  | some offset => offset
  | none => 0

/-- The civil date `(t.Year(), t.Month(), t.Day())` of an instant whose location has the
given offset, as a day number. -/
def civilDay (offset : Int) (t : Int) : Int := (t + offset * timeSecond) / (24 * timeHour)

/-- `time.Date(year, month, day, hour, min, 0, 0, location)` for the date with the given day
number and a location with the given offset. -/
def timeDate (day hour min offset : Int) : Int :=
  day * (24 * timeHour) + hour * timeHour + min * timeMinute - offset * timeSecond

/-- The `nextRun` of `StartCronJob`, cron.go lines 69-80: `now` is `time.Now()`, whose
location is the local zone of the process, and the date handed to `time.Date` is read from
it as it is. -/
def StartCronJob.nextRun (localOffset : Int) (loaded : Option Int) (now : Int) : Int :=
  if now > timeDate (civilDay localOffset now) 15 25 (locationOffset loaded) then
    timeDate (civilDay localOffset now) 15 25 (locationOffset loaded) + 24 * timeHour
  else timeDate (civilDay localOffset now) 15 25 (locationOffset loaded)

/-- The `nextRun` of `OrdersCronjob`, cron.go lines 24-34: `now` is
`time.Now().In(location)`, so the date handed to `time.Date` is read in `location`. -/
def OrdersCronjob.nextRun (loaded : Option Int) (now : Int) : Int :=
  if now > timeDate (civilDay (locationOffset loaded) now) 23 40 (locationOffset loaded) then
    timeDate (civilDay (locationOffset loaded) now) 23 40 (locationOffset loaded) +
      24 * timeHour
  else timeDate (civilDay (locationOffset loaded) now) 23 40 (locationOffset loaded)

/-- `time.Until(nextRun)` when the clock reads `later`. -/
def timeUntil (nextRun later : Int) : Int := nextRun - later

/-- The offset of America/Argentina/Buenos_Aires: -03:00. -/
def buenosAires : Int := -10800

/-- The wall-clock reading of an instant in a zone is `hour:min:00`. -/
def readsAt (offset hour min t : Int) : Prop :=
  (t + offset * timeSecond) % (24 * timeHour) = hour * timeHour + min * timeMinute

/-- The earliest instant not before `now` whose wall-clock reading in the zone is
`hour:min:00`. -/
def earliestTrigger (offset hour min now t : Int) : Prop :=
  now ≤ t ∧ readsAt offset hour min t ∧
  ∀ t1 : Int, now ≤ t1 → readsAt offset hour min t1 → t ≤ t1

/-! ## Order statistics (client.go lines 238-339) -/

/-- An element of `order.OrderLines.OrderLine`: `Item.Sku`, `Item.ProductName` and
`OrderLineQuantity.Amount`. -/
structure OrderLine where
  Sku : String
  ProductName : String
  Amount : String
  deriving DecidableEq, Repr

/-- An element of `data.List.Elements.Order` with its `OrderLines.OrderLine`. -/
structure Order where
  OrderLine : List OrderLine
  deriving DecidableEq, Repr

/-- The decoded `data` of one page: `List.Meta.NextCursor` and `List.Elements.Order`. -/
structure OrdersData where
  NextCursor : String
  Order : List Order
  deriving DecidableEq, Repr

/-- The local type `skuData`; the default is its zero value. -/
structure skuData where
  ProductName : String := ""
  OrderCount : Int := 0
  Units : Int := 0
  deriving DecidableEq, Repr

/-- `OrderStats` of cron.go lines 14-19. -/
structure OrderStats where
  SKU : String
  ProductName : String
  OrderCount : Int
  UnitsSold : Int
  deriving DecidableEq, Repr

/-- The library functions `FetchWalmartOrderStats` uses besides those of `Env`. -/
structure OrdersLib where
  /-- `url.QueryEscape`. -/
  queryEscape : String → String
  /-- `json.Unmarshal(body, &data)`. -/
  unmarshalOrders : String → Except GoError OrdersData

/-- The value of a non-empty string of decimal digits. -/
def parseDigits (ds : List Char) : Option Nat :=
  if ds = [] then none
  else if ds.all Char.isDigit then some (ds.foldl (fun n d => 10 * n + (d.toNat - 48)) 0)
  else none

/-- `strconv.Atoi` on a 64-bit platform: an optional sign and decimal digits, within
`int64`; `none` stands for a non-nil error. -/
def atoi (s : String) : Option Int :=
  match s.toList with
  | '-' :: ds =>
    match parseDigits ds with
    | some n => if (n : Int) ≤ 2 ^ 63 then some (-(n : Int)) else none
    | none => none
  | '+' :: ds =>
    match parseDigits ds with
    | some n => if (n : Int) < 2 ^ 63 then some (n : Int) else none
    | none => none
  | ds =>
    match parseDigits ds with
    | some n => if (n : Int) < 2 ^ 63 then some (n : Int) else none
    | none => none

/-- The `amount` of an order line, client.go lines 307-310: 0 when `Atoi` fails. -/
def lineAmount (line : OrderLine) : Int :=
  match atoi line.Amount with
  | some amount => amount
  | none => 0

/-- The body of the loop over the order lines, client.go lines 304-316. `entry.Units` is an
`int`, so the sum wraps; `entry.OrderCount` counts lines held in memory and is not wrapped. -/
def addLine (skuMap : List (String × skuData)) (line : OrderLine) : List (String × skuData) :=
  mapSet skuMap line.Sku
    { ProductName := line.ProductName
      OrderCount := ((mapGet skuMap line.Sku).getD {}).OrderCount + 1
      Units := wrapInt64 (((mapGet skuMap line.Sku).getD {}).Units + lineAmount line) }

/-- The two nested loops of client.go lines 302-318 over the orders of one page. -/
def addOrders (orders : List Order) (skuMap : List (String × skuData)) :
    List (String × skuData) :=
  orders.foldl (fun m order => order.OrderLine.foldl addLine m) skuMap

/-- `baseURL` of `FetchWalmartOrderStats`. -/
def ordersBaseURL : String :=
  "https://marketplace.walmartapis.com/v3/orders?sku=00037000949619" ++
    "&createdStartDate=2025-05-01&createdEndDate=2025-05-06&productInfo=true" ++
    "&shipNodeType=WFSFulfilled"

/-- `urlEndpoint` of one page request, client.go lines 257-260. -/
def ordersURL (lib : OrdersLib) (nextCursor : String) : String :=
  if nextCursor ≠ "" then ordersBaseURL ++ "&nextCursor=" ++ lib.queryEscape nextCursor
  else ordersBaseURL

/-- The loop `for { ... }` of `FetchWalmartOrderStats`, client.go lines 256-324, giving
`skuMap` at the `break`. The first argument bounds the number of iterations. The result is
`none` when the call does not return: the bound was reached, or `http.NewRequest` returned
an error, which the code discards before calling `req.Header.Set` on the nil request. The
error of `io.ReadAll` is discarded too. -/
def fetchOrdersLoop {σ : Type} (env : Env σ) (lib : OrdersLib) (c : Client)
    (accessToken : String) :
    Nat → String → List (String × skuData) → List Request → σ →
      Option (FetchRun σ (List (String × skuData)))
  | 0, _, _, _, _ => none
  | fuel + 1, nextCursor, skuMap, requests, w =>
    match env.newRequest "GET" (ordersURL lib nextCursor) with
    | some _ => none
    | none =>
      match env.clientDo 0 (getRequest accessToken (env.newUUID w).1 (ordersURL lib nextCursor))
          (env.newUUID w).2 with
      | (.error err, w1) =>
        some ⟨w1, c,
          requests ++ [getRequest accessToken (env.newUUID w).1 (ordersURL lib nextCursor)],
          .error err⟩
      | (.ok resp, w1) =>
        if resp.StatusCode ≠ 200 then
          some ⟨w1, c,
            requests ++ [getRequest accessToken (env.newUUID w).1 (ordersURL lib nextCursor)],
            .error (errorsNew ("failed to fetch orders: " ++ resp.Body))⟩
        else
          match lib.unmarshalOrders resp.Body with
          | .error err =>
            some ⟨w1, c,
              requests ++
                [getRequest accessToken (env.newUUID w).1 (ordersURL lib nextCursor)],
              .error err⟩
          | .ok data =>
            if data.NextCursor = "" then
              some ⟨w1, c,
                requests ++
                  [getRequest accessToken (env.newUUID w).1 (ordersURL lib nextCursor)],
                .ok (addOrders data.Order skuMap)⟩
            else
              fetchOrdersLoop env lib c accessToken fuel data.NextCursor
                (addOrders data.Order skuMap)
                (requests ++
                  [getRequest accessToken (env.newUUID w).1 (ordersURL lib nextCursor)])
                w1

/-- The loop of client.go lines 327-335 that turns `skuMap` into the result slice, for the
entries in the order the `range` visits them. -/
def orderStatsOf (entries : List (String × skuData)) : List OrderStats :=
  entries.map (fun kv =>
    { SKU := kv.1, ProductName := kv.2.ProductName, OrderCount := kv.2.OrderCount,
      UnitsSold := kv.2.Units })

/-- `FetchWalmartOrderStats(client)`, client.go lines 238-339; `rangeOrder` gives the order
in which the final loop visits `skuMap`, and the first argument bounds the number of pages
requested. -/
def FetchWalmartOrderStats {σ : Type} (env : Env σ) (lib : OrdersLib)
    (rangeOrder : List (String × skuData) → List (String × skuData)) (fuel : Nat)
    (c : Client) (w : σ) : Option (FetchRun σ (List OrderStats)) :=
  match GetAccessToken env c w with
  | (.error err, c1, w1) => some ⟨w1, c1, [], .error err⟩
  | (.ok (accessToken, _), c1, w1) =>
    match fetchOrdersLoop env lib c1 accessToken fuel "" [] [] w1 with
    | none => none
    | some run =>
      match run.result with
      | .error err => some ⟨run.world, run.client, run.requests, .error err⟩
      | .ok skuMap =>
        some ⟨run.world, run.client, run.requests, .ok (orderStatsOf (rangeOrder skuMap))⟩

/-- The order page request for `nextCursor` made in world `w` is built and answered by a
response with status 200 whose body decodes to `data`. -/
def servesOrdersPage {σ : Type} (env : Env σ) (lib : OrdersLib) (accessToken : String)
    (nextCursor : String) (w : σ) (data : OrdersData) : Prop :=
  env.newRequest "GET" (ordersURL lib nextCursor) = none ∧
  ∃ resp, (env.clientDo 0
      (getRequest accessToken (env.newUUID w).1 (ordersURL lib nextCursor))
      (env.newUUID w).2).1 = .ok resp ∧
    resp.StatusCode = 200 ∧ lib.unmarshalOrders resp.Body = .ok data

/-- The world after the order page request for `nextCursor` made in world `w`. -/
def worldAfterOrdersPage {σ : Type} (env : Env σ) (lib : OrdersLib) (accessToken : String)
    (nextCursor : String) (w : σ) : σ :=
  (env.clientDo 0 (getRequest accessToken (env.newUUID w).1 (ordersURL lib nextCursor))
    (env.newUUID w).2).2

/-- Starting with `nextCursor` in world `w`, the transport serves the given pages one after
the other, each in answer to the cursor of the page before it; every page but the last
declares a non-empty next cursor and the last one declares none. -/
def ordersFeed {σ : Type} (env : Env σ) (lib : OrdersLib) (accessToken : String) :
    String → List OrdersData → σ → Prop
  | _, [], _ => False
  | nextCursor, data :: rest, w =>
    servesOrdersPage env lib accessToken nextCursor w data ∧
    (if rest = [] then data.NextCursor = ""
     else data.NextCursor ≠ "" ∧
      ordersFeed env lib accessToken data.NextCursor rest
        (worldAfterOrdersPage env lib accessToken nextCursor w))

/-- The order lines of the given pages in the order they are scanned. -/
def orderLines (pages : List OrdersData) : List OrderLine :=
  pages.flatMap (fun data => data.Order.flatMap Order.OrderLine)

/-- The order lines with the given sku, in the order they are scanned. -/
def linesOf (lines : List OrderLine) (sku : String) : List OrderLine :=
  lines.filter (fun line => decide (line.Sku = sku))

/-- The sum of the amounts of the given lines, an unparseable amount counting as 0. -/
def unitsOf (lines : List OrderLine) : Int := (lines.map lineAmount).sum

/-- First sample order page: two orders, an amount that is not a number, cursor "n2". -/
def ordersPage1 : OrdersData :=
  { NextCursor := "n2"
    Order := [⟨[⟨"A1", "Widget", "2"⟩, ⟨"B2", "Gadget", "x"⟩]⟩, ⟨[⟨"A1", "Widget v2", "3"⟩]⟩] }

/-- Second and last sample order page: one order with two lines of the same sku. -/
def ordersPage2 : OrdersData :=
  { NextCursor := ""
    Order := [⟨[⟨"A1", "Widget v3", "+4"⟩, ⟨"A1", "Widget v4", "-1"⟩]⟩] }

/-- A last page with one order of two lines of 9223372036854775807 units each. -/
def ordersPageBig : OrdersData :=
  { NextCursor := ""
    Order := [⟨[⟨"A1", "Widget", "9223372036854775807"⟩,
                ⟨"A1", "Widget", "9223372036854775807"⟩]⟩] }

/-- A sample library: cursors are escaped to themselves, and the bodies "orders-1",
"orders-2" and "orders-big" decode to the three sample pages. -/
def sampleOrdersLib : OrdersLib where
  queryEscape s := s
  unmarshalOrders body :=
    if body = "orders-1" then .ok ordersPage1
    else if body = "orders-2" then .ok ordersPage2
    else if body = "orders-big" then .ok ordersPageBig
    else .error (errorsNew "unexpected end of JSON input")

/-- The scripted transport serving the two sample order pages. -/
def ordersEnv : Env Nat :=
  scriptedEnv []
    [{ StatusCode := 200, Body := "orders-1" }, { StatusCode := 200, Body := "orders-2" }]

/-- The scripted transport serving the page with the two large order lines. -/
def ordersBigEnv : Env Nat :=
  scriptedEnv [] [{ StatusCode := 200, Body := "orders-big" }]

/-! ## Records without a status branch -/

/-- A remote record for sku D4: ACTIVE, In_stock, with the given published status. -/
def remoteInStock (publishedStatus : String) : JMap :=
  [("productName", .str "Doohickey"), ("sku", .str "D4"), ("availability", .str "In_stock"),
   ("publishedStatus", .str publishedStatus), ("lifecycleStatus", .str "ACTIVE")]

/-! ## One pass of `StartCronJob` (cron.go lines 87-281) -/

/-- What a pass uses besides the repository and the image search: the two bulk fetches of
the client, `json.MarshalIndent(inventoryStats, "", "  ")` and `os.WriteFile(name, data,
0644)`. -/
structure PassDeps (σ : Type) where
  FetchWalmartItems : σ → Except GoError ItemsMap × σ
  FetchWalmartInventory : σ → Except GoError InventoryMap × σ
  marshalIndent : List (String × Int) → Except GoError String
  writeFile : String → String → σ → Option GoError × σ

/-- Where a pass ended: at one of the `continue` statements of cron.go lines 92, 98, 111 and
118, or after the reconciliation (which itself ends early when `FindAll` fails). -/
inductive JobEnd where
  | itemsFailed (err : GoError)
  | inventoryFailed (err : GoError)
  | marshalFailed (err : GoError)
  | writeFailed (err : GoError)
  | reconciled
  deriving DecidableEq, Repr

/-- What a pass did: the world after it, where it ended, and the calls it made on the
repository and on the image search, in order. -/
structure JobRun (σ : Type) where
  world : σ
  ending : JobEnd
  log : List Event

/-- The map `inventoryStats` of cron.go lines 102-105, filled from `inventoryMap` in the
order the `range` visits it. -/
def inventoryStats (inventoryOrder : InventoryMap → List (String × Int))
    (inventoryMap : InventoryMap) : List (String × Int) :=
  mapSetAll [] (inventoryOrder inventoryMap)

/-- One iteration of the loop of `StartCronJob` after the sleep, cron.go lines 87-281.
`itemsOrder`, `inventoryOrder` and `rangeOrder` give the orders in which the `range` loops
visit `productsMap`, `inventoryMap` and the working set. The result is `none` when a
retrying fetch does not return within its bound. -/
def cronPass {σ : Type} (io : PassDeps σ) (repo : InventoryRepository σ)
    (search : ItemSearchFn σ) (itemsOrder : ItemsMap → List (String × JMap))
    (inventoryOrder : InventoryMap → List (String × Int))
    (rangeOrder : List (String × Product) → List (String × Product)) (w : σ) :
    Option (JobRun σ) :=
  match fetchWalmartItemsWithRetry io.FetchWalmartItems 3 w with
  | none => none
  | some items =>
    match items.result with
    | .error err => some ⟨items.world, .itemsFailed err, []⟩
    | .ok productsMap =>
      match fetchWalmartInventoryWithRetry io.FetchWalmartInventory 3 items.world with
      | none => none
      | some inventory =>
        match inventory.result with
        | .error err => some ⟨inventory.world, .inventoryFailed err, []⟩
        | .ok inventoryMap =>
          match io.marshalIndent (inventoryStats inventoryOrder inventoryMap) with
          | .error err => some ⟨inventory.world, .marshalFailed err, []⟩
          | .ok inventoryJSON =>
            match io.writeFile "inventory_stats.json" inventoryJSON inventory.world with
            | (some err, w1) => some ⟨w1, .writeFailed err, []⟩
            | (none, w1) =>
              some ⟨(reconcilePass repo search rangeOrder (itemsOrder productsMap)
                  inventoryMap w1).world,
                .reconciled,
                (reconcilePass repo search rangeOrder (itemsOrder productsMap)
                  inventoryMap w1).log⟩

/-- Sample collaborators over the world of `tableRepo`: the fetches return A1 and its 12
units, the encoder and the file system fail as asked. -/
def sampleDeps (marshalFails writeFails : Bool) : PassDeps Int where
  FetchWalmartItems w := (.ok [("A1", remoteA1)], w)
  FetchWalmartInventory w := (.ok [("A1", 12)], w)
  marshalIndent _ :=
    if marshalFails then .error (errorsNew "json: unsupported value") else .ok "\x7b\x7d"
  writeFile _ _ w :=
    (if writeFails then some (errorsNew "open inventory_stats.json: permission denied")
     else none, w)

/-! ## Concurrent callers of `GetAccessToken`

`GetAccessToken` starts with `c.mutex.Lock()` and defers `c.mutex.Unlock()` to its return
(client.go lines 82-83). Callers are goroutines that interleave; a scheduler picks which one
moves next. -/

/-- Where a caller of `GetAccessToken` is: before having acquired `c.mutex`, holding it with
the body of lines 85-98 still to run, or returned with its result. -/
inductive CallerState where
  | waiting
  | holding
  | returned (result : Except GoError (String × Int))

/-- The caller holds the mutex. -/
def CallerState.isHolding : CallerState → Bool
  | .holding => true
  | _ => false

/-- The caller has not returned yet. -/
def CallerState.isPending : CallerState → Bool
  | .returned _ => false
  | _ => true

/-- The token a caller returned, if it returned one without error. -/
def CallerState.token : CallerState → Option String
  | .returned (.ok (token, _)) => some token
  | _ => none

/-- The client shared by the callers, the world, the mutex and the callers. -/
structure Shared (σ : Type) where
  client : Client
  world : σ
  mutexLocked : Bool
  callers : List CallerState

/-- One move of caller `i`, `none` when it cannot move. A waiting caller passes
`c.mutex.Lock()` only when the mutex is free and blocks otherwise; a caller holding the mutex
runs the body of `GetAccessToken`, and the deferred `Unlock` releases the mutex as it
returns; a caller that has returned does not move. -/
def callerStep {σ : Type} (env : Env σ) (i : Nat) (s : Shared σ) : Option (Shared σ) :=
  match s.callers.get? i with
  | some .waiting =>
    if s.mutexLocked = true then none
    else some { s with mutexLocked := true, callers := s.callers.set i .holding }
  | some .holding =>
    some { client := (GetAccessToken env s.client s.world).2.1
           world := (GetAccessToken env s.client s.world).2.2
           mutexLocked := false
           callers := s.callers.set i (.returned (GetAccessToken env s.client s.world).1) }
  | _ => none

/-- The state after the scheduler has picked the callers of `schedule` one after the other;
picking a caller that cannot move leaves the state as it is. -/
def runSchedule {σ : Type} (env : Env σ) : List Nat → Shared σ → Shared σ
  | [], s => s
  | i :: rest, s => runSchedule env rest ((callerStep env i s).getD s)

/-- The state in which `n` callers have invoked `GetAccessToken` on the client `c` and none
has acquired the mutex. -/
def startCallers {σ : Type} (n : Nat) (c : Client) (w : σ) : Shared σ :=
  { client := c, world := w, mutexLocked := false, callers := List.replicate n .waiting }

/-- The invariant of the runs of `n` callers from the cache `c`, the world `w` and the
request log `sent`, when the first body to run refreshes the cache: at most one caller holds
the mutex, which is locked exactly then; and either no body has run yet, or the cache is the
refreshed one, the log is the one the refresh left, every caller that returned returned the
refreshed token, and the callers still pending will find the cache valid. -/
def refreshedOnce {σ : Type} (env : Env σ) (c : Client) (w : σ) (sent : List Request)
    (n : Nat) (s : Shared (σ × List Request)) : Prop :=
  s.callers.length = n ∧
  s.callers.countP CallerState.isHolding ≤ 1 ∧
  (s.mutexLocked = true ↔ s.callers.countP CallerState.isHolding = 1) ∧
  ((s.callers.countP CallerState.isPending = n ∧ s.client = c ∧ s.world = (w, sent)) ∨
   (s.callers.countP CallerState.isPending < n ∧
    s.client = (GetAccessToken (recordingEnv env) c (w, sent)).2.1 ∧
    s.world.2 = (GetAccessToken (recordingEnv env) c (w, sent)).2.2.2 ∧
    (∀ st ∈ s.callers, st.isPending = false →
      st.token = some (GetAccessToken (recordingEnv env) c (w, sent)).2.1.accessToken) ∧
    insideWindow (recordingEnv env) (s.callers.countP CallerState.isPending)
      (GetAccessToken (recordingEnv env) c (w, sent)).2.1 s.world))

/-- The scripted transport with a token endpoint that answers 503. -/
def tokenDownEnv : Env Nat :=
  { scriptedEnv [] [] with
    clientDo := fun _ _ w => (.ok { StatusCode := 503, Body := "unavailable" }, w) }

/-! ## Observing the calls of the pass

The log of a pass is written by the pass itself. To relate it to what the repository and the
image search receive, both are wrapped so that every call they receive is appended, with
what it returned, to a trace carried by the world. -/

/-- The call and the outcome of a log entry, without the sku of the iteration. -/
def Event.untag (e : Event) : Call × Outcome := (e.call, e.outcome)

/-- The outcome of `FindAll`. -/
def Outcome.ofFindAll : Except GoError (List Product) → Outcome
  | .ok dbProducts => .products dbProducts
  | .error err => .failed err

/-- The outcome of `GetProductBySKU`. -/
def Outcome.ofLookup : Except GoError (Option Product) → Outcome
  | .ok existing => .product existing
  | .error err => .failed err

/-- The outcome of `InsertProduct`. -/
def Outcome.ofInsert : Except GoError Int → Outcome
  | .ok productID => .id productID
  | .error err => .failed err

/-- The same repository over a world that also records every call the repository receives,
in order, with what the call returned. -/
def recordingRepo {σ : Type} (repo : InventoryRepository σ) :
    InventoryRepository (σ × List (Call × Outcome)) where
  FindAll w :=
    ((repo.FindAll w.1).1,
      ((repo.FindAll w.1).2, w.2 ++ [(.FindAll, .ofFindAll (repo.FindAll w.1).1)]))
  GetProductBySKU sku w :=
    ((repo.GetProductBySKU sku w.1).1,
      ((repo.GetProductBySKU sku w.1).2,
        w.2 ++ [(.GetProductBySKU sku, .ofLookup (repo.GetProductBySKU sku w.1).1)]))
  InsertProduct product w :=
    ((repo.InsertProduct product w.1).1,
      ((repo.InsertProduct product w.1).2,
        w.2 ++ [(.InsertProduct product, .ofInsert (repo.InsertProduct product w.1).1)]))
  InsertWmtProductDetail productID product w :=
    ((repo.InsertWmtProductDetail productID product w.1).1,
      ((repo.InsertWmtProductDetail productID product w.1).2,
        w.2 ++ [(.InsertWmtProductDetail productID product,
          .ofErr (repo.InsertWmtProductDetail productID product w.1).1)]))
  InsertProductImage gtin imageUrl w :=
    ((repo.InsertProductImage gtin imageUrl w.1).1,
      ((repo.InsertProductImage gtin imageUrl w.1).2,
        w.2 ++ [(.InsertProductImage gtin imageUrl,
          .ofErr (repo.InsertProductImage gtin imageUrl w.1).1)]))
  UpdateListingStatus productID listingStatusID w :=
    ((repo.UpdateListingStatus productID listingStatusID w.1).1,
      ((repo.UpdateListingStatus productID listingStatusID w.1).2,
        w.2 ++ [(.UpdateListingStatus productID listingStatusID,
          .ofErr (repo.UpdateListingStatus productID listingStatusID w.1).1)]))
  UpdateProduct product w :=
    ((repo.UpdateProduct product w.1).1,
      ((repo.UpdateProduct product w.1).2,
        w.2 ++ [(.UpdateProduct product, .ofErr (repo.UpdateProduct product w.1).1)]))
  UpdateWmtProductDetail productID product w :=
    ((repo.UpdateWmtProductDetail productID product w.1).1,
      ((repo.UpdateWmtProductDetail productID product w.1).2,
        w.2 ++ [(.UpdateWmtProductDetail productID product,
          .ofErr (repo.UpdateWmtProductDetail productID product w.1).1)]))

/-- The same image search over a world that also records every call it receives. -/
def recordingSearch {σ : Type} (search : ItemSearchFn σ) :
    ItemSearchFn (σ × List (Call × Outcome)) :=
  fun productName upc gtin w =>
    ((search productName upc gtin w.1).1,
      ((search productName upc gtin w.1).2,
        w.2 ++ [(.ItemSearch productName upc gtin,
          .ofSearch (search productName upc gtin w.1).1)]))

/-- The calls of a trace, in order. -/
def tracedCalls (trace : List (Call × Outcome)) : List Call := trace.map Prod.fst

/-- The reconciliation part of a pass run over the recording repository and the recording
search, starting with an empty trace. -/
def recordedPass {σ : Type} (repo : InventoryRepository σ) (search : ItemSearchFn σ)
    (rangeOrder : List (String × Product) → List (String × Product))
    (productsMap : List (String × JMap)) (inventoryMap : List (String × Int)) (w : σ) :
    PassState (σ × List (Call × Outcome)) :=
  reconcilePass (recordingRepo repo) (recordingSearch search) rangeOrder productsMap
    inventoryMap (w, [])

/-- Whether a failure of the call leaves the iteration of its sku by `continue`, cron.go
lines 176-180, 187-192, 195-200, 230-235 and 237-242. -/
def Call.endsIteration : Call → Bool
  | .GetProductBySKU _ => true
  | .InsertProduct _ => true
  | .InsertWmtProductDetail _ _ => true
  | .UpdateProduct _ => true
  | .UpdateWmtProductDetail _ _ => true
  | _ => false

/-- A failed call that leaves the iteration of its sku. -/
def Event.fatal (e : Event) : Bool := e.outcome.isFailed && e.call.endsIteration

/-- A received call that failed and is followed by `errorCount++`. -/
def tracedCounted (x : Call × Outcome) : Bool := x.2.isFailed && x.1.countedOnFailure

/-- A received call that failed and left the iteration of its sku. -/
def tracedFatal (x : Call × Outcome) : Bool := x.2.isFailed && x.1.endsIteration

/-- A received call that failed. -/
def tracedFailed (x : Call × Outcome) : Bool := x.2.isFailed

/-- The quantity 2.7, in lowest terms. -/
def qty27 : Rat := ⟨27, 10, by decide, by decide⟩

/-- The record for B2 of the response below: ship-nodes with 2 units, with 2.7 units, with
an object in place of the number, and one that is not an object. -/
def inventoryRecordB2 : JMap :=
  [("sku", .str "B2"),
   ("shipNodes", .arr
     [.obj [("availToSellQty", .num 2)],
      .obj [("availToSellQty", .num qty27)],
      .obj [("availToSellQty", .obj [("unit", .str "EACH"), ("amount", .num 5)])],
      .str "node"])]

/-- An inventory response with four records: A1 with 5 and 7 units, B2 as above, C3 without
ship-nodes, and A1 again with 3 and 4 units. -/
def inventoryListMixed : List JVal :=
  [.obj [("sku", .str "A1"), ("shipNodes", .arr
     [.obj [("availToSellQty", .num 5)], .obj [("availToSellQty", .num 7)]])],
   .obj inventoryRecordB2,
   .obj [("sku", .str "C3")],
   .obj [("sku", .str "A1"), ("shipNodes", .arr
     [.obj [("availToSellQty", .num 3)], .obj [("availToSellQty", .num 4)]])]]

/-- The body of the response above. -/
def mixedBodies : List (String × JMap) :=
  [("inventory-mixed", [("payload", .obj [("inventory", .arr inventoryListMixed)])])]

/-- The caller has returned. -/
def CallerState.isReturned : CallerState → Bool
  | .returned _ => true
  | _ => false

/-- What a caller returned, if it has returned. -/
def CallerState.result : CallerState → Option (Except GoError (String × Int))
  | .returned result => some result
  | _ => none

/-- The results of `n` consecutive calls of `GetAccessToken`, in order. -/
def tokenResults {σ : Type} (env : Env σ) :
    Nat → Client → σ → List (Except GoError (String × Int))
  | 0, _, _ => []
  | n + 1, c, w =>
    (GetAccessToken env c w).1 ::
      tokenResults env n (GetAccessToken env c w).2.1 (GetAccessToken env c w).2.2

/-- Each of `n` consecutive calls of `GetAccessToken` finds the cache empty or expired at its
clock reading, and the token request can be built. -/
def staleCalls {σ : Type} (env : Env σ) : Nat → Client → σ → Prop
  | 0, _, _ => True
  | n + 1, c, w =>
    ¬ (c.accessToken ≠ "" ∧ (env.now w).1 < c.expiresAt) ∧
    env.newRequest "POST" "https://marketplace.walmartapis.com/v3/token" = none ∧
    staleCalls env n (GetAccessToken env c w).2.1 (GetAccessToken env c w).2.2

instance staleCallsDecidable {σ : Type} (env : Env σ) :
    (n : Nat) → (c : Client) → (w : σ) → Decidable (staleCalls env n c w)
  | 0, _, _ => isTrue trivial
  | n + 1, c, w =>
    have := staleCallsDecidable env n (GetAccessToken env c w).2.1 (GetAccessToken env c w).2.2
    inferInstanceAs (Decidable (¬ (c.accessToken ≠ "" ∧ (env.now w).1 < c.expiresAt) ∧
      env.newRequest "POST" "https://marketplace.walmartapis.com/v3/token" = none ∧
      staleCalls env n (GetAccessToken env c w).2.1 (GetAccessToken env c w).2.2))

/-- The call returned an error, or a token that is the empty string. -/
def returnsNoToken : Except GoError (String × Int) → Bool
  | .error _ => true
  | .ok (token, _) => decide (token = "")

/-- Each of `n` consecutive calls of `GetAccessToken` returns an error or an empty token. -/
def noTokenCalls {σ : Type} (env : Env σ) : Nat → Client → σ → Prop
  | 0, _, _ => True
  | n + 1, c, w =>
    returnsNoToken (GetAccessToken env c w).1 = true ∧
    noTokenCalls env n (GetAccessToken env c w).2.1 (GetAccessToken env c w).2.2

instance noTokenCallsDecidable {σ : Type} (env : Env σ) :
    (n : Nat) → (c : Client) → (w : σ) → Decidable (noTokenCalls env n c w)
  | 0, _, _ => isTrue trivial
  | n + 1, c, w =>
    have := noTokenCallsDecidable env n (GetAccessToken env c w).2.1
      (GetAccessToken env c w).2.2
    inferInstanceAs (Decidable (returnsNoToken (GetAccessToken env c w).1 = true ∧
      noTokenCalls env n (GetAccessToken env c w).2.1 (GetAccessToken env c w).2.2))

/-- The invariant of the mutex: at most one caller holds it, and it is locked exactly when
one does. -/
def mutexInvariant {σ : Type} (s : Shared σ) : Prop :=
  s.callers.countP CallerState.isHolding ≤ 1 ∧
  (s.mutexLocked = true ↔ s.callers.countP CallerState.isHolding = 1)

/-- The state is the one that as many consecutive calls of `GetAccessToken` as callers have
returned leave, and the callers that returned hold the results of these calls. -/
def serialized {σ : Type} (env : Env σ) (c : Client) (w : σ) (s : Shared σ) : Prop :=
  (s.client, s.world) = tokenCalls env (s.callers.countP CallerState.isReturned) c w ∧
  (s.callers.filterMap CallerState.result).Perm
    (tokenResults env (s.callers.countP CallerState.isReturned) c w)

end Walmart

/-! # Theorems -/

namespace Walmart

/-! ## Status derivation -/

/-- C1: the listing status the pass derives for a remote record is 1 for
(ACTIVE, In_stock, PUBLISHED), 2 for (ACTIVE, Out_of_stock, PUBLISHED), 3 when the
lifecycle is ARCHIVED or the lifecycle is ACTIVE and the published status is UNPUBLISHED
or SYSTEM_PROBLEM, and 0 for every other triple; the status of the candidate record is
that function of the three strings read from the remote record, so records with equal
triples get equal statuses whatever their sku, inventory and other fields. -/
theorem listingStatus_table (lifecycleStatus availability publishedStatus : String) :
    ((lifecycleStatus = "ACTIVE" ∧ availability = "In_stock" ∧ publishedStatus = "PUBLISHED") →
      listingStatusID lifecycleStatus availability publishedStatus = 1) ∧
    ((lifecycleStatus = "ACTIVE" ∧ availability = "Out_of_stock" ∧
        publishedStatus = "PUBLISHED") →
      listingStatusID lifecycleStatus availability publishedStatus = 2) ∧
    ((lifecycleStatus = "ARCHIVED" ∨ (lifecycleStatus = "ACTIVE" ∧
        (publishedStatus = "UNPUBLISHED" ∨ publishedStatus = "SYSTEM_PROBLEM"))) →
      listingStatusID lifecycleStatus availability publishedStatus = 3) ∧
    ((¬ (lifecycleStatus = "ACTIVE" ∧ availability = "In_stock" ∧
          publishedStatus = "PUBLISHED") ∧
      ¬ (lifecycleStatus = "ACTIVE" ∧ availability = "Out_of_stock" ∧
          publishedStatus = "PUBLISHED") ∧
      ¬ (lifecycleStatus = "ARCHIVED" ∨ (lifecycleStatus = "ACTIVE" ∧
          (publishedStatus = "UNPUBLISHED" ∨ publishedStatus = "SYSTEM_PROBLEM")))) →
      listingStatusID lifecycleStatus availability publishedStatus = 0) ∧
    (∀ (inventoryMap : List (String × Int)) (sku : String) (productData : JMap),
      getStringValue productData "lifecycleStatus" = lifecycleStatus →
      getStringValue productData "availability" = availability →
      getStringValue productData "publishedStatus" = publishedStatus →
      (candidate inventoryMap sku productData).ListingStatusID =
        listingStatusID lifecycleStatus availability publishedStatus) := by
  refine ⟨?_, ?_, ?_, ?_, ?_⟩
  · rintro ⟨rfl, rfl, rfl⟩
    decide
  · rintro ⟨rfl, rfl, rfl⟩
    decide
  · rintro (rfl | ⟨rfl, rfl | rfl⟩)
    · simp [listingStatusID]
    · simp [listingStatusID]
    · simp [listingStatusID]
  · rintro ⟨h1, h2, h3⟩
    unfold listingStatusID
    rw [if_neg h1, if_neg h2, if_neg]
    intro h
    apply h3
    rcases h with h | ⟨hp, hl⟩ | ⟨hp, hl⟩
    · exact Or.inl h
    · exact Or.inr ⟨hl, Or.inl hp⟩
    · exact Or.inr ⟨hl, Or.inr hp⟩
  · intro inventoryMap sku productData hl ha hp
    simp [candidate, hl, ha, hp]

/-! ## Go maps -/

theorem mapDelete_eq_filter {V : Type} (m : List (String × V)) (k : String) :
    mapDelete m k = m.filter (fun e => decide (e.1 ≠ k)) := by
  induction m with
  | nil => rfl
  | cons e rest ih =>
    obtain ⟨k', v⟩ := e
    by_cases h : k' = k
    · simp [mapDelete, h, ih]
    · simp [mapDelete, h, ih]

theorem mapGet_eq_none_iff {V : Type} (m : List (String × V)) (k : String) :
    mapGet m k = none ↔ k ∉ mapKeys m := by
  induction m with
  | nil => simp [mapGet, mapKeys]
  | cons e rest ih =>
    obtain ⟨k', v⟩ := e
    by_cases h : k' = k
    · simp [mapGet, mapKeys, h]
    · have h' : ¬ k = k' := fun hk => h hk.symm
      simpa [mapGet, mapKeys, h, h'] using ih

theorem mapGet_of_mem {V : Type} (m : List (String × V)) (k : String) (v : V)
    (hnd : (mapKeys m).Nodup) (hmem : (k, v) ∈ m) : mapGet m k = some v := by
  induction m with
  | nil => simp at hmem
  | cons e rest ih =>
    obtain ⟨k', v'⟩ := e
    simp only [mapKeys, List.map_cons, List.nodup_cons] at hnd
    rcases List.mem_cons.mp hmem with heq | hin
    · cases heq
      simp [mapGet]
    · have hne : k' ≠ k := by
        rintro rfl
        exact hnd.1 (List.mem_map.mpr ⟨(k', v), hin, rfl⟩)
      simp only [mapGet, hne, if_false]
      exact ih hnd.2 hin

theorem mem_of_mapGet {V : Type} (m : List (String × V)) (k : String) (v : V)
    (h : mapGet m k = some v) : (k, v) ∈ m := by
  induction m with
  | nil => simp [mapGet] at h
  | cons e rest ih =>
    obtain ⟨k', v'⟩ := e
    by_cases hk : k' = k
    · subst hk
      simp only [mapGet, if_true, Option.some.injEq] at h
      subst h
      exact List.mem_cons_self _ _
    · simp only [mapGet, hk, if_false] at h
      exact List.mem_cons_of_mem _ (ih h)

theorem mapDelete_keys_nodup {V : Type} (m : List (String × V)) (k : String)
    (hnd : (mapKeys m).Nodup) : (mapKeys (mapDelete m k)).Nodup := by
  rw [mapDelete_eq_filter]
  unfold mapKeys at *
  exact (List.Nodup.sublist (List.Sublist.map _ (List.filter_sublist m)) hnd)

theorem mapSet_keys_nodup {V : Type} (m : List (String × V)) (k : String) (v : V)
    (hnd : (mapKeys m).Nodup) : (mapKeys (mapSet m k v)).Nodup := by
  have h1 := mapDelete_keys_nodup m k hnd
  have h2 : k ∉ mapKeys (mapDelete m k) := by
    rw [mapDelete_eq_filter]
    simp [mapKeys]
  simp only [mapSet, mapKeys, List.map_cons, List.nodup_cons]
  exact ⟨h2, h1⟩

/-! ## One iteration of the reconciliation loop -/

theorem imageBackfill_labels {σ : Type} (repo : InventoryRepository σ)
    (search : ItemSearchFn σ) (sku : String) (product : Product) (w : σ) :
    ∀ e ∈ (imageBackfill repo search sku product w).1, e.sku = some sku := by
  intro e he
  unfold imageBackfill at he
  split at he
  · simp at he
    simp [he]
  · simp at he
    rcases he with he | he <;> simp [he]

theorem statusUpdate_labels {σ : Type} (repo : InventoryRepository σ) (sku : String)
    (existing product : Product) (w : σ) :
    ∀ e ∈ (statusUpdate repo sku existing product w).1, e.sku = some sku := by
  intro e he
  unfold statusUpdate at he
  split at he
  · simp at he
    simp [he]
  · simp at he

theorem imageUpdate_labels {σ : Type} (repo : InventoryRepository σ)
    (search : ItemSearchFn σ) (sku : String) (existing product : Product) (w : σ) :
    ∀ e ∈ (imageUpdate repo search sku existing product w).1, e.sku = some sku := by
  intro e he
  unfold imageUpdate at he
  split at he
  · exact imageBackfill_labels _ _ _ _ _ e he
  · simp at he

theorem updateExisting_labels {σ : Type} (repo : InventoryRepository σ)
    (search : ItemSearchFn σ) (sku : String) (c existing : Product) (w : σ) :
    ∀ e ∈ (updateExisting repo search sku c existing w).events, e.sku = some sku := by
  intro e he
  unfold updateExisting at he
  split at he
  · simp at he
    simp [he]
  · split at he
    · simp at he
      rcases he with he | he <;> simp [he]
    · simp only [List.mem_append, List.mem_cons, List.mem_singleton, List.not_mem_nil,
        or_false] at he
      rcases he with ((he | he) | he) | he
      · simp [he]
      · simp [he]
      · exact statusUpdate_labels _ _ _ _ _ e he
      · exact imageUpdate_labels _ _ _ _ _ _ e he

theorem insertNew_labels {σ : Type} (repo : InventoryRepository σ)
    (search : ItemSearchFn σ) (sku : String) (c : Product) (w : σ) :
    ∀ e ∈ (insertNew repo search sku c w).events, e.sku = some sku := by
  intro e he
  unfold insertNew at he
  split at he
  · simp at he
    simp [he]
  · split at he
    · simp at he
      rcases he with he | he <;> simp [he]
    · simp only [List.mem_append, List.mem_cons, List.mem_singleton, List.not_mem_nil,
        or_false] at he
      rcases he with (he | he | he) | he
      · simp [he]
      · simp [he]
      · simp [he]
      · exact imageBackfill_labels _ _ _ _ _ e he

theorem runItem_labels {σ : Type} (repo : InventoryRepository σ) (search : ItemSearchFn σ)
    (inventoryMap : List (String × Int)) (sku : String) (productData : JMap) (w : σ) :
    ∀ e ∈ (runItem repo search inventoryMap sku productData w).events, e.sku = some sku := by
  intro e he
  unfold runItem at he
  split at he
  · simp at he
    simp [he]
  · simp only [List.mem_cons] at he
    rcases he with he | he
    · simp [he]
    · exact updateExisting_labels _ _ _ _ _ _ e he
  · simp only [List.mem_cons] at he
    rcases he with he | he
    · simp [he]
    · exact insertNew_labels _ _ _ _ _ e he

/-! ## The call log of the reconciliation loop -/

theorem eventsFor_append (l₁ l₂ : List Event) (s : String) :
    eventsFor (l₁ ++ l₂) s = eventsFor l₁ s ++ eventsFor l₂ s := by
  simp [eventsFor, List.filter_append]

theorem eventsFor_same (l : List Event) (s : String) (h : ∀ e ∈ l, e.sku = some s) :
    eventsFor l s = l := by
  unfold eventsFor
  rw [List.filter_eq_self]
  intro e he
  simp [h e he]

theorem eventsFor_other (l : List Event) (s t : String) (h : ∀ e ∈ l, e.sku = some s)
    (hne : s ≠ t) : eventsFor l t = [] := by
  unfold eventsFor
  rw [List.filter_eq_nil_iff]
  intro e he
  simp [h e he, hne]

theorem processItem_log {σ : Type} (repo : InventoryRepository σ) (search : ItemSearchFn σ)
    (inventoryMap : List (String × Int)) (sku : String) (productData : JMap)
    (st : PassState σ) :
    (processItem repo search inventoryMap sku productData st).log =
      st.log ++ (runItem repo search inventoryMap sku productData st.world).events := by
  unfold processItem
  dsimp only
  split <;> rfl

theorem processItem_db {σ : Type} (repo : InventoryRepository σ) (search : ItemSearchFn σ)
    (inventoryMap : List (String × Int)) (sku : String) (productData : JMap)
    (st : PassState σ) :
    (processItem repo search inventoryMap sku productData st).dbProductSKUs =
      if (runItem repo search inventoryMap sku productData st.world).ending = .skipped
      then st.dbProductSKUs else mapDelete st.dbProductSKUs sku := by
  unfold processItem
  dsimp only
  split <;> rename_i h <;> simp [h]

theorem reconcileLoop_log_mono {σ : Type} (repo : InventoryRepository σ)
    (search : ItemSearchFn σ) (inventoryMap : List (String × Int))
    (items : List (String × JMap)) (st : PassState σ) :
    ∀ e ∈ st.log, e ∈ (reconcileLoop repo search inventoryMap items st).log := by
  induction items generalizing st with
  | nil => intro e he; exact he
  | cons sd rest ih =>
    obtain ⟨sku, productData⟩ := sd
    intro e he
    unfold reconcileLoop
    apply ih
    rw [processItem_log]
    exact List.mem_append_left _ he

theorem reconcileLoop_eventsFor_other {σ : Type} (repo : InventoryRepository σ)
    (search : ItemSearchFn σ) (inventoryMap : List (String × Int))
    (items : List (String × JMap)) (st : PassState σ) (s : String)
    (hs : s ∉ mapKeys items) :
    eventsFor (reconcileLoop repo search inventoryMap items st).log s = eventsFor st.log s := by
  induction items generalizing st with
  | nil => rfl
  | cons sd rest ih =>
    obtain ⟨sku, productData⟩ := sd
    simp only [mapKeys, List.map_cons, List.mem_cons, not_or] at hs
    unfold reconcileLoop
    rw [ih _ hs.2, processItem_log, eventsFor_append,
      eventsFor_other _ sku s (runItem_labels _ _ _ _ _ _) (fun h => hs.1 h.symm),
      List.append_nil]

theorem processItem_db_sub {σ : Type} (repo : InventoryRepository σ) (search : ItemSearchFn σ)
    (inventoryMap : List (String × Int)) (sku : String) (productData : JMap)
    (st : PassState σ) :
    ∀ kp ∈ (processItem repo search inventoryMap sku productData st).dbProductSKUs,
      kp ∈ st.dbProductSKUs := by
  intro kp hkp
  rw [processItem_db] at hkp
  split at hkp
  · exact hkp
  · rw [mapDelete_eq_filter] at hkp
    exact (List.mem_filter.mp hkp).1

theorem reconcileLoop_db_sub {σ : Type} (repo : InventoryRepository σ)
    (search : ItemSearchFn σ) (inventoryMap : List (String × Int))
    (items : List (String × JMap)) (st : PassState σ) :
    ∀ kp ∈ (reconcileLoop repo search inventoryMap items st).dbProductSKUs,
      kp ∈ st.dbProductSKUs := by
  induction items generalizing st with
  | nil => intro kp hkp; exact hkp
  | cons sd rest ih =>
    obtain ⟨sku, productData⟩ := sd
    intro kp hkp
    unfold reconcileLoop at hkp
    exact processItem_db_sub _ _ _ _ _ _ kp (ih _ kp hkp)

theorem reconcileLoop_eventsFor_item {σ : Type} (repo : InventoryRepository σ)
    (search : ItemSearchFn σ) (inventoryMap : List (String × Int))
    (items : List (String × JMap)) (st : PassState σ)
    (hnd : (mapKeys items).Nodup) (sku : String) (productData : JMap)
    (hmem : (sku, productData) ∈ items) :
    ∃ w : σ, eventsFor (reconcileLoop repo search inventoryMap items st).log sku =
        eventsFor st.log sku ++ (runItem repo search inventoryMap sku productData w).events ∧
      ((runItem repo search inventoryMap sku productData w).ending ≠ .skipped →
        sku ∉ mapKeys (reconcileLoop repo search inventoryMap items st).dbProductSKUs) := by
  induction items generalizing st with
  | nil => simp at hmem
  | cons sd rest ih =>
    obtain ⟨sku', productData'⟩ := sd
    simp only [mapKeys, List.map_cons, List.nodup_cons] at hnd
    unfold reconcileLoop
    rcases List.mem_cons.mp hmem with heq | hin
    · cases heq
      refine ⟨st.world, ?_, ?_⟩
      · rw [reconcileLoop_eventsFor_other _ _ _ _ _ _ hnd.1, processItem_log, eventsFor_append,
          eventsFor_same _ _ (runItem_labels _ _ _ _ _ _)]
      · intro hns hk
        obtain ⟨kp, hkp, hkey⟩ := List.mem_map.mp hk
        have h1 := reconcileLoop_db_sub _ _ _ _ _ kp hkp
        rw [processItem_db, if_neg hns, mapDelete_eq_filter, List.mem_filter] at h1
        simp [hkey] at h1
    · have hne : sku' ≠ sku := by
        rintro rfl
        exact hnd.1 (List.mem_map.mpr ⟨_, hin, rfl⟩)
      obtain ⟨w, hw, hdel⟩ :=
        ih (processItem repo search inventoryMap sku' productData' st) hnd.2 hin
      refine ⟨w, ?_, hdel⟩
      rw [hw, processItem_log, eventsFor_append,
        eventsFor_other _ sku' sku (runItem_labels _ _ _ _ _ _) hne, List.append_nil]

theorem updateExisting_skipped_failed {σ : Type} (repo : InventoryRepository σ)
    (search : ItemSearchFn σ) (sku : String) (product existing : Product) (w : σ)
    (h : (updateExisting repo search sku product existing w).ending = .skipped) :
    ∃ e ∈ (updateExisting repo search sku product existing w).events,
      e.call.isRepository = true ∧ e.outcome.isFailed = true := by
  unfold updateExisting at h ⊢
  split
  · exact ⟨_, List.mem_singleton.mpr rfl, rfl, rfl⟩
  · rename_i w1 hup
    rw [hup] at h
    dsimp only at h
    split
    · exact ⟨_, List.mem_cons_of_mem _ (List.mem_singleton.mpr rfl), rfl, rfl⟩
    · rename_i w2 hdet
      rw [hdet] at h
      simp at h

theorem insertNew_skipped_failed {σ : Type} (repo : InventoryRepository σ)
    (search : ItemSearchFn σ) (sku : String) (product : Product) (w : σ)
    (h : (insertNew repo search sku product w).ending = .skipped) :
    ∃ e ∈ (insertNew repo search sku product w).events,
      e.call.isRepository = true ∧ e.outcome.isFailed = true := by
  unfold insertNew at h ⊢
  split
  · exact ⟨_, List.mem_singleton.mpr rfl, rfl, rfl⟩
  · rename_i productID w1 hins
    rw [hins] at h
    dsimp only at h
    split
    · exact ⟨_, List.mem_cons_of_mem _ (List.mem_singleton.mpr rfl), rfl, rfl⟩
    · rename_i w2 hdet
      rw [hdet] at h
      simp at h

theorem runItem_skipped_failed {σ : Type} (repo : InventoryRepository σ)
    (search : ItemSearchFn σ) (inventoryMap : List (String × Int)) (sku : String)
    (productData : JMap) (w : σ)
    (h : (runItem repo search inventoryMap sku productData w).ending = .skipped) :
    ∃ e ∈ (runItem repo search inventoryMap sku productData w).events,
      e.call.isRepository = true ∧ e.outcome.isFailed = true := by
  unfold runItem at h ⊢
  dsimp only at h ⊢
  split
  · exact ⟨_, List.mem_singleton.mpr rfl, rfl, rfl⟩
  · rename_i existing w0 hget
    rw [hget] at h
    dsimp only at h
    obtain ⟨e, he, h1, h2⟩ := updateExisting_skipped_failed _ _ _ _ _ _ h
    exact ⟨e, List.mem_cons_of_mem _ he, h1, h2⟩
  · rename_i w0 hget
    rw [hget] at h
    dsimp only at h
    obtain ⟨e, he, h1, h2⟩ := insertNew_skipped_failed _ _ _ _ _ h
    exact ⟨e, List.mem_cons_of_mem _ he, h1, h2⟩

theorem reconcileLoop_db_ok {σ : Type} (repo : InventoryRepository σ)
    (search : ItemSearchFn σ) (inventoryMap : List (String × Int))
    (items : List (String × JMap)) (st : PassState σ)
    (hok : ∀ e ∈ (reconcileLoop repo search inventoryMap items st).log,
      e.call.isRepository = true → e.outcome.isFailed = false) :
    (reconcileLoop repo search inventoryMap items st).dbProductSKUs =
      st.dbProductSKUs.filter (fun e => decide (e.1 ∉ mapKeys items)) := by
  induction items generalizing st with
  | nil => simp [reconcileLoop, mapKeys]
  | cons sd rest ih =>
    obtain ⟨sku, productData⟩ := sd
    unfold reconcileLoop at hok ⊢
    rw [ih _ hok, processItem_db]
    have hns : (runItem repo search inventoryMap sku productData st.world).ending ≠ .skipped := by
      intro hsk
      obtain ⟨e, he, hrepo, hfail⟩ := runItem_skipped_failed _ _ _ _ _ _ hsk
      have hin : e ∈ (processItem repo search inventoryMap sku productData st).log := by
        rw [processItem_log]
        exact List.mem_append_right _ he
      have := hok e (reconcileLoop_log_mono _ _ _ _ _ e hin) hrepo
      rw [hfail] at this
      cases this
    rw [if_neg hns, mapDelete_eq_filter, List.filter_filter]
    congr 1
    funext e
    by_cases h1 : e.1 = sku <;> by_cases h2 : e.1 ∈ List.map Prod.fst rest <;>
      simp [mapKeys, h1, h2]

/-! ## The calls of an iteration in which no repository call fails -/

theorem ofErr_not_failed (err : Option GoError) (h : (Outcome.ofErr err).isFailed = false) :
    Outcome.ofErr err = .done := by
  cases err with
  | none => rfl
  | some e => simp [Outcome.ofErr, Outcome.isFailed] at h

theorem imageBackfill_events_ok {σ : Type} (repo : InventoryRepository σ)
    (search : ItemSearchFn σ) (sku : String) (product : Product) (w : σ)
    (hok : ∀ e ∈ (imageBackfill repo search sku product w).1,
      e.call.isRepository = true → e.outcome.isFailed = false) :
    (imageBackfill repo search sku product w).1 =
      ⟨some sku, .ItemSearch product.ProductName product.UPC product.GTIN,
        .ofSearch (search product.ProductName product.UPC product.GTIN w).1⟩ ::
      imageInsertAfter sku product.GTIN
        (.ofSearch (search product.ProductName product.UPC product.GTIN w).1) := by
  unfold imageBackfill at hok ⊢
  split
  · rename_i err w1 hs
    simp [hs, Outcome.ofSearch, imageInsertAfter]
  · rename_i imageURL w1 hs
    rw [hs] at hok
    dsimp only at hok
    have h2 := hok ⟨some sku, .InsertProductImage product.GTIN imageURL,
      .ofErr (repo.InsertProductImage product.GTIN imageURL w1).1⟩
      (List.mem_cons_of_mem _ (List.mem_singleton.mpr rfl)) rfl
    have h3 := ofErr_not_failed _ h2
    simp only at h3
    simp [hs, Outcome.ofSearch, imageInsertAfter, h3]

theorem insertNew_events_ok {σ : Type} (repo : InventoryRepository σ)
    (search : ItemSearchFn σ) (sku : String) (product : Product) (w : σ)
    (hok : ∀ e ∈ (insertNew repo search sku product w).events,
      e.call.isRepository = true → e.outcome.isFailed = false) :
    ∃ (productID : Int) (found : Outcome),
      (repo.InsertProduct product w).1 = .ok productID ∧
      ((∃ imageURL, found = .url imageURL) ∨ (∃ err, found = .failed err)) ∧
      (insertNew repo search sku product w).ending = .inserted ∧
      (insertNew repo search sku product w).events =
        [⟨some sku, .InsertProduct product, .id productID⟩,
         ⟨some sku, .InsertWmtProductDetail productID product, .done⟩,
         ⟨some sku, .UpdateListingStatus productID product.ListingStatusID, .done⟩,
         ⟨some sku, .ItemSearch product.ProductName product.UPC product.GTIN, found⟩] ++
        imageInsertAfter sku product.GTIN found := by
  unfold insertNew at hok ⊢
  split
  · rename_i err w1 hins
    rw [hins] at hok
    have := hok _ (List.mem_singleton.mpr rfl) rfl
    simp [Outcome.isFailed] at this
  · rename_i productID w1 hins
    rw [hins] at hok
    dsimp only at hok ⊢
    split
    · rename_i err w2 hdet
      rw [hdet] at hok
      have := hok _ (List.mem_cons_of_mem _ (List.mem_singleton.mpr rfl)) rfl
      simp [Outcome.isFailed] at this
    · rename_i w2 hdet
      rw [hdet] at hok
      dsimp only at hok ⊢
      have hst := ofErr_not_failed _ (hok ⟨some sku,
        .UpdateListingStatus productID product.ListingStatusID,
        .ofErr (repo.UpdateListingStatus productID product.ListingStatusID w2).1⟩
        (by simp) rfl)
      have himg := imageBackfill_events_ok repo search sku product
        (repo.UpdateListingStatus productID product.ListingStatusID w2).2
        (fun e he => hok e (by simp [he]))
      refine ⟨productID, .ofSearch (search product.ProductName product.UPC product.GTIN
        (repo.UpdateListingStatus productID product.ListingStatusID w2).2).1, by rw [hins],
        ?_, rfl, ?_⟩
      · cases (search product.ProductName product.UPC product.GTIN
          (repo.UpdateListingStatus productID product.ListingStatusID w2).2).1 with
        | error err => exact Or.inr ⟨err, rfl⟩
        | ok u => exact Or.inl ⟨u, rfl⟩
      · rw [himg]
        simp only at hst
        simp [hst]

theorem statusUpdate_events_ok {σ : Type} (repo : InventoryRepository σ) (sku : String)
    (existing product : Product) (w : σ)
    (hok : ∀ e ∈ (statusUpdate repo sku existing product w).1,
      e.call.isRepository = true → e.outcome.isFailed = false) :
    (statusUpdate repo sku existing product w).1 =
      if existing.ListingStatusID ≠ product.ListingStatusID then
        [⟨some sku, .UpdateListingStatus product.ID product.ListingStatusID, .done⟩]
      else [] := by
  unfold statusUpdate at hok ⊢
  split
  · rename_i hne
    rw [if_pos hne] at hok
    have hst := ofErr_not_failed _ (hok ⟨some sku,
      .UpdateListingStatus product.ID product.ListingStatusID,
      .ofErr (repo.UpdateListingStatus product.ID product.ListingStatusID w).1⟩
      (by simp) rfl)
    simp only at hst
    simp [hst]
  · rfl

theorem updateExisting_events_ok {σ : Type} (repo : InventoryRepository σ)
    (search : ItemSearchFn σ) (sku : String) (product existing : Product) (w : σ)
    (hok : ∀ e ∈ (updateExisting repo search sku product existing w).events,
      e.call.isRepository = true → e.outcome.isFailed = false) :
    ∃ found : Outcome,
      ((∃ imageURL, found = .url imageURL) ∨ (∃ err, found = .failed err)) ∧
      (updateExisting repo search sku product existing w).ending = .updated ∧
      (updateExisting repo search sku product existing w).events =
        [⟨some sku, .UpdateProduct product, .done⟩,
         ⟨some sku, .UpdateWmtProductDetail product.ID product, .done⟩] ++
        (if existing.ListingStatusID ≠ product.ListingStatusID then
          [⟨some sku, .UpdateListingStatus product.ID product.ListingStatusID, .done⟩]
         else []) ++
        (if existing.ProductImage = "" then
          ⟨some sku, .ItemSearch product.ProductName product.UPC product.GTIN, found⟩ ::
            imageInsertAfter sku product.GTIN found
         else []) := by
  unfold updateExisting at hok ⊢
  split
  · rename_i err w1 hup
    rw [hup] at hok
    have := hok _ (List.mem_singleton.mpr rfl) rfl
    simp [Outcome.isFailed] at this
  · rename_i w1 hup
    rw [hup] at hok
    dsimp only at hok ⊢
    split
    · rename_i err w2 hdet
      rw [hdet] at hok
      have := hok _ (List.mem_cons_of_mem _ (List.mem_singleton.mpr rfl)) rfl
      simp [Outcome.isFailed] at this
    · rename_i w2 hdet
      rw [hdet] at hok
      dsimp only at hok ⊢
      have hst := statusUpdate_events_ok repo sku existing product w2
        (fun e he => hok e (by simp [he]))
      by_cases himg : existing.ProductImage = ""
      · have hb := imageBackfill_events_ok repo search sku product
          (statusUpdate repo sku existing product w2).2
          (fun e he => hok e (by simp [imageUpdate, himg, he]))
        refine ⟨.ofSearch (search product.ProductName product.UPC product.GTIN
          (statusUpdate repo sku existing product w2).2).1, ?_, rfl, ?_⟩
        · cases (search product.ProductName product.UPC product.GTIN
            (statusUpdate repo sku existing product w2).2).1 with
          | error err => exact Or.inr ⟨err, rfl⟩
          | ok u => exact Or.inl ⟨u, rfl⟩
        · rw [hst]
          simp only [imageUpdate, himg, if_true, hb]
      · refine ⟨.url "", Or.inl ⟨"", rfl⟩, rfl, ?_⟩
        rw [hst]
        simp only [imageUpdate, himg, if_false]

theorem runItem_insert_ok {σ : Type} (repo : InventoryRepository σ)
    (search : ItemSearchFn σ) (inventoryMap : List (String × Int)) (sku : String)
    (productData : JMap) (w : σ)
    (hnone : (repo.GetProductBySKU sku w).1 = .ok none)
    (hok : ∀ e ∈ (runItem repo search inventoryMap sku productData w).events,
      e.call.isRepository = true → e.outcome.isFailed = false) :
    ∃ (productID : Int) (found : Outcome),
      (repo.InsertProduct (candidate inventoryMap sku productData)
        (repo.GetProductBySKU sku w).2).1 = .ok productID ∧
      ((∃ imageURL, found = .url imageURL) ∨ (∃ err, found = .failed err)) ∧
      (runItem repo search inventoryMap sku productData w).ending = .inserted ∧
      (runItem repo search inventoryMap sku productData w).events =
        [⟨some sku, .GetProductBySKU sku, .product none⟩,
         ⟨some sku, .InsertProduct (candidate inventoryMap sku productData), .id productID⟩,
         ⟨some sku, .InsertWmtProductDetail productID (candidate inventoryMap sku productData),
           .done⟩,
         ⟨some sku, .UpdateListingStatus productID
           (candidate inventoryMap sku productData).ListingStatusID, .done⟩,
         ⟨some sku, .ItemSearch (candidate inventoryMap sku productData).ProductName
           (candidate inventoryMap sku productData).UPC
           (candidate inventoryMap sku productData).GTIN, found⟩] ++
        imageInsertAfter sku (candidate inventoryMap sku productData).GTIN found := by
  rcases hget : repo.GetProductBySKU sku w with ⟨r, w0⟩
  rw [hget] at hnone
  simp only at hnone
  subst hnone
  have hrun : runItem repo search inventoryMap sku productData w =
      ⟨(insertNew repo search sku (candidate inventoryMap sku productData) w0).world,
        ⟨some sku, .GetProductBySKU sku, .product none⟩ ::
          (insertNew repo search sku (candidate inventoryMap sku productData) w0).events,
        (insertNew repo search sku (candidate inventoryMap sku productData) w0).ending⟩ := by
    unfold runItem
    rw [hget]
  rw [hrun] at hok ⊢
  obtain ⟨productID, found, h1, h2, h3, h4⟩ := insertNew_events_ok repo search sku
    (candidate inventoryMap sku productData) w0
    (fun e he => hok e (List.mem_cons_of_mem _ he))
  exact ⟨productID, found, h1, h2, h3, by simp [h4]⟩

theorem runItem_update_ok {σ : Type} (repo : InventoryRepository σ)
    (search : ItemSearchFn σ) (inventoryMap : List (String × Int)) (sku : String)
    (productData : JMap) (w : σ) (existing : Product)
    (hsome : (repo.GetProductBySKU sku w).1 = .ok (some existing))
    (hok : ∀ e ∈ (runItem repo search inventoryMap sku productData w).events,
      e.call.isRepository = true → e.outcome.isFailed = false) :
    ∃ found : Outcome,
      ((∃ imageURL, found = .url imageURL) ∨ (∃ err, found = .failed err)) ∧
      (runItem repo search inventoryMap sku productData w).ending = .updated ∧
      (runItem repo search inventoryMap sku productData w).events =
        [⟨some sku, .GetProductBySKU sku, .product (some existing)⟩,
         ⟨some sku, .UpdateProduct
           { candidate inventoryMap sku productData with ID := existing.ID }, .done⟩,
         ⟨some sku, .UpdateWmtProductDetail existing.ID
           { candidate inventoryMap sku productData with ID := existing.ID }, .done⟩] ++
        (if existing.ListingStatusID ≠ (candidate inventoryMap sku productData).ListingStatusID
         then [⟨some sku, .UpdateListingStatus existing.ID
           (candidate inventoryMap sku productData).ListingStatusID, .done⟩]
         else []) ++
        (if existing.ProductImage = "" then
          ⟨some sku, .ItemSearch (candidate inventoryMap sku productData).ProductName
            (candidate inventoryMap sku productData).UPC
            (candidate inventoryMap sku productData).GTIN, found⟩ ::
            imageInsertAfter sku (candidate inventoryMap sku productData).GTIN found
         else []) := by
  rcases hget : repo.GetProductBySKU sku w with ⟨r, w0⟩
  rw [hget] at hsome
  simp only at hsome
  subst hsome
  have hrun : runItem repo search inventoryMap sku productData w =
      ⟨(updateExisting repo search sku
          { candidate inventoryMap sku productData with ID := existing.ID } existing w0).world,
        ⟨some sku, .GetProductBySKU sku, .product (some existing)⟩ ::
          (updateExisting repo search sku
            { candidate inventoryMap sku productData with ID := existing.ID } existing w0).events,
        (updateExisting repo search sku
          { candidate inventoryMap sku productData with ID := existing.ID } existing w0).ending⟩ := by
    unfold runItem
    rw [hget]
  rw [hrun] at hok ⊢
  obtain ⟨found, h2, h3, h4⟩ := updateExisting_events_ok repo search sku
    { candidate inventoryMap sku productData with ID := existing.ID } existing w0
    (fun e he => hok e (List.mem_cons_of_mem _ he))
  exact ⟨found, h2, h3, by simp [h4]⟩

/-! ## The working set and the loop that sets status 5 -/

theorem filter_unique {α : Type} [DecidableEq α] (l : List α) (P : α → Bool) (x : α)
    (hnd : l.Nodup) (hx : x ∈ l) (hP : ∀ y ∈ l, P y = true ↔ y = x) :
    l.filter P = [x] := by
  have h1 : l.filter P = l.filter (fun y => decide (y = x)) := by
    apply List.filter_congr
    intro y hy
    by_cases h : y = x
    · have hp := (hP y hy).mpr h
      subst h
      simp [hp]
    · have : P y ≠ true := fun hp => h ((hP y hy).mp hp)
      simp [h, this]
  rw [h1, List.filter_eq, List.count_eq_one_of_mem hnd hx, List.replicate_one]

theorem indexFold_keys_nodup (dbProducts : List Product) (m : List (String × Product))
    (hm : (mapKeys m).Nodup) :
    (mapKeys (dbProducts.foldl (fun m p => mapSet m p.SKU p) m)).Nodup := by
  induction dbProducts generalizing m with
  | nil => exact hm
  | cons p rest ih => exact ih _ (mapSet_keys_nodup m p.SKU p hm)

theorem indexFold_mem (dbProducts : List Product) (m : List (String × Product))
    (k : String) (q : Product)
    (h : (k, q) ∈ dbProducts.foldl (fun m p => mapSet m p.SKU p) m) :
    (k, q) ∈ m ∨ (q ∈ dbProducts ∧ k = q.SKU) := by
  induction dbProducts generalizing m with
  | nil => exact Or.inl h
  | cons p rest ih =>
    rcases ih _ h with h1 | ⟨h1, h2⟩
    · simp only [mapSet, List.mem_cons, mapDelete_eq_filter, List.mem_filter] at h1
      rcases h1 with h1 | ⟨h1, _⟩
      · cases h1
        exact Or.inr ⟨List.mem_cons_self _ _, rfl⟩
      · exact Or.inl h1
    · exact Or.inr ⟨List.mem_cons_of_mem _ h1, h2⟩

theorem indexFold_keep (dbProducts : List Product) (m : List (String × Product))
    (k : String) (q : Product) (hk : k ∉ dbProducts.map Product.SKU) (h : (k, q) ∈ m) :
    (k, q) ∈ dbProducts.foldl (fun m p => mapSet m p.SKU p) m := by
  induction dbProducts generalizing m with
  | nil => exact h
  | cons p rest ih =>
    simp only [List.map_cons, List.mem_cons, not_or] at hk
    apply ih _ hk.2
    simp only [mapSet, List.mem_cons, mapDelete_eq_filter, List.mem_filter]
    exact Or.inr ⟨h, by simpa using hk.1⟩

theorem indexFold_of_mem (dbProducts : List Product) (m : List (String × Product))
    (hnd : (dbProducts.map Product.SKU).Nodup) (q : Product) (hq : q ∈ dbProducts) :
    (q.SKU, q) ∈ dbProducts.foldl (fun m p => mapSet m p.SKU p) m := by
  induction dbProducts generalizing m with
  | nil => simp at hq
  | cons p rest ih =>
    simp only [List.map_cons, List.nodup_cons] at hnd
    rcases List.mem_cons.mp hq with heq | hin
    · subst heq
      exact indexFold_keep rest _ _ _ hnd.1 (List.mem_cons_self _ _)
    · exact ih _ hnd.2 hin

theorem indexBySKU_keys_nodup (dbProducts : List Product) :
    (mapKeys (indexBySKU dbProducts)).Nodup :=
  indexFold_keys_nodup dbProducts [] (by simp [mapKeys])

theorem indexBySKU_mem (dbProducts : List Product) (k : String) (q : Product)
    (h : (k, q) ∈ indexBySKU dbProducts) : q ∈ dbProducts ∧ k = q.SKU := by
  rcases indexFold_mem dbProducts [] k q h with h1 | h1
  · simp at h1
  · exact h1

theorem delistOne_log {σ : Type} (repo : InventoryRepository σ) (p : Product)
    (st : PassState σ) :
    ∃ out : Outcome, (delistOne repo p st).log =
      st.log ++ [⟨some p.SKU, .UpdateListingStatus p.ID 5, out⟩] := by
  unfold delistOne
  split
  · exact ⟨_, rfl⟩
  · exact ⟨_, rfl⟩

theorem delistLoop_log_mono {σ : Type} (repo : InventoryRepository σ)
    (l : List (String × Product)) (st : PassState σ) :
    ∀ e ∈ st.log, e ∈ (delistLoop repo l st).log := by
  induction l generalizing st with
  | nil => intro e he; exact he
  | cons kp rest ih =>
    obtain ⟨k, p⟩ := kp
    intro e he
    unfold delistLoop
    apply ih
    obtain ⟨out, hout⟩ := delistOne_log repo p st
    rw [hout]
    exact List.mem_append_left _ he

theorem delistLoop_callsFor {σ : Type} (repo : InventoryRepository σ)
    (l : List (String × Product)) (st : PassState σ) (s : String) :
    callsFor (delistLoop repo l st).log s =
      callsFor st.log s ++
        (l.filter (fun kp => decide (kp.2.SKU = s))).map
          (fun kp => Call.UpdateListingStatus kp.2.ID 5) := by
  induction l generalizing st with
  | nil => simp [delistLoop]
  | cons kp rest ih =>
    obtain ⟨k, p⟩ := kp
    unfold delistLoop
    rw [ih]
    obtain ⟨out, hout⟩ := delistOne_log repo p st
    rw [hout]
    by_cases h : p.SKU = s
    · simp [callsFor, eventsFor, List.filter_append, List.filter_cons, h]
    · simp [callsFor, eventsFor, List.filter_append, List.filter_cons, h]

/-! ## The whole pass -/

theorem reconcilePass_of_findAll {σ : Type} (repo : InventoryRepository σ)
    (search : ItemSearchFn σ) (rangeOrder : List (String × Product) → List (String × Product))
    (productsMap : List (String × JMap)) (inventoryMap : List (String × Int)) (w : σ)
    (dbProducts : List Product) (hfind : (repo.FindAll w).1 = .ok dbProducts) :
    reconcilePass repo search rangeOrder productsMap inventoryMap w =
      delistLoop repo
        (rangeOrder (reconcileLoop repo search inventoryMap productsMap
          (passStart dbProducts (repo.FindAll w).2)).dbProductSKUs)
        (reconcileLoop repo search inventoryMap productsMap
          (passStart dbProducts (repo.FindAll w).2)) := by
  rcases hF : repo.FindAll w with ⟨r, w0⟩
  rw [hF] at hfind
  simp only at hfind
  subst hfind
  unfold reconcilePass
  rw [hF]

theorem mem_of_mem_eventsFor (log : List Event) (s : String) (e : Event)
    (h : e ∈ eventsFor log s) : e ∈ log := by
  unfold eventsFor at h
  exact (List.mem_filter.mp h).1

theorem eventsFor_passStart {σ : Type} (dbProducts : List Product) (w : σ) (s : String) :
    eventsFor (passStart dbProducts w).log s = [] := by
  simp [passStart, eventsFor]

theorem runItem_head {σ : Type} (repo : InventoryRepository σ) (search : ItemSearchFn σ)
    (inventoryMap : List (String × Int)) (sku : String) (productData : JMap) (w : σ) :
    (∃ err, (repo.GetProductBySKU sku w).1 = .error err ∧
      (runItem repo search inventoryMap sku productData w).events.head? =
        some ⟨some sku, .GetProductBySKU sku, .failed err⟩) ∨
    (∃ found, (repo.GetProductBySKU sku w).1 = .ok found ∧
      (runItem repo search inventoryMap sku productData w).events.head? =
        some ⟨some sku, .GetProductBySKU sku, .product found⟩) := by
  rcases hget : repo.GetProductBySKU sku w with ⟨r, w0⟩
  unfold runItem
  rw [hget]
  cases r with
  | error err => exact Or.inl ⟨err, rfl, rfl⟩
  | ok found =>
    cases found with
    | none => exact Or.inr ⟨none, rfl, rfl⟩
    | some existing => exact Or.inr ⟨some existing, rfl, rfl⟩

theorem mem_of_head? {α : Type} (l : List α) (a : α) (h : l.head? = some a) : a ∈ l := by
  cases l with
  | nil => simp at h
  | cons b t =>
    simp only [List.head?_cons, Option.some.injEq] at h
    subst h
    exact List.mem_cons_self _ _

/-- The entries the loop over the working set adds for a sku of the remote snapshot:
none, when no repository call of the loop over the snapshot failed. -/
theorem delist_none_for_remote {σ : Type} (repo : InventoryRepository σ)
    (search : ItemSearchFn σ) (rangeOrder : List (String × Product) → List (String × Product))
    (productsMap : List (String × JMap)) (inventoryMap : List (String × Int))
    (dbProducts : List Product) (st : PassState σ)
    (hrange : ∀ m, (rangeOrder m).Perm m)
    (hst : st.dbProductSKUs = indexBySKU dbProducts)
    (hok : ∀ e ∈ (reconcileLoop repo search inventoryMap productsMap st).log,
      e.call.isRepository = true → e.outcome.isFailed = false)
    (s : String) (hs : s ∈ mapKeys productsMap) :
    (rangeOrder (reconcileLoop repo search inventoryMap productsMap st).dbProductSKUs).filter
      (fun kp => decide (kp.2.SKU = s)) = [] := by
  rw [List.filter_eq_nil_iff]
  intro kp hkp
  have h1 := (hrange _).mem_iff.mp hkp
  rw [reconcileLoop_db_ok _ _ _ _ _ hok, hst, List.mem_filter] at h1
  obtain ⟨k, p⟩ := kp
  have h2 := indexBySKU_mem dbProducts k p h1.1
  have h3 : k ∉ mapKeys productsMap := by simpa using h1.2
  simp only [decide_eq_true_eq]
  intro h4
  apply h3
  rw [h2.2, h4]
  exact hs

theorem delist_one_for_local {σ : Type} (repo : InventoryRepository σ)
    (search : ItemSearchFn σ) (rangeOrder : List (String × Product) → List (String × Product))
    (productsMap : List (String × JMap)) (inventoryMap : List (String × Int))
    (dbProducts : List Product) (st : PassState σ)
    (hrange : ∀ m, (rangeOrder m).Perm m)
    (hst : st.dbProductSKUs = indexBySKU dbProducts)
    (hlocal : (dbProducts.map Product.SKU).Nodup)
    (hok : ∀ e ∈ (reconcileLoop repo search inventoryMap productsMap st).log,
      e.call.isRepository = true → e.outcome.isFailed = false)
    (p : Product) (hp : p ∈ dbProducts) (hs : p.SKU ∉ mapKeys productsMap) :
    (rangeOrder (reconcileLoop repo search inventoryMap productsMap st).dbProductSKUs).filter
      (fun kp => decide (kp.2.SKU = p.SKU)) = [(p.SKU, p)] := by
  have hdb := reconcileLoop_db_ok _ _ _ _ _ hok
  rw [hst] at hdb
  have hkeys : (mapKeys (indexBySKU dbProducts)).Nodup := indexBySKU_keys_nodup dbProducts
  have hnd0 : (indexBySKU dbProducts).Nodup := List.Nodup.of_map _ hkeys
  have hnd : (rangeOrder (reconcileLoop repo search inventoryMap productsMap
      st).dbProductSKUs).Nodup := by
    rw [(hrange _).nodup_iff, hdb]
    exact hnd0.filter _
  have hmem0 : (p.SKU, p) ∈ indexBySKU dbProducts := indexFold_of_mem dbProducts [] hlocal p hp
  have hmem : (p.SKU, p) ∈ rangeOrder (reconcileLoop repo search inventoryMap productsMap
      st).dbProductSKUs := by
    rw [(hrange _).mem_iff, hdb, List.mem_filter]
    exact ⟨hmem0, by simpa using hs⟩
  apply filter_unique _ _ _ hnd hmem
  intro kp hkp
  obtain ⟨k, q⟩ := kp
  have h1 := (hrange _).mem_iff.mp hkp
  rw [hdb, List.mem_filter] at h1
  have h2 := indexBySKU_mem dbProducts k q h1.1
  simp only [decide_eq_true_eq]
  constructor
  · intro h3
    have hk : k = p.SKU := by rw [h2.2, h3]
    subst hk
    have e1 := mapGet_of_mem _ _ _ hkeys h1.1
    have e2 := mapGet_of_mem _ _ _ hkeys hmem0
    rw [e1] at e2
    cases e2
    rfl
  · intro h3
    cases h3
    rfl

/-- The log of a pass where `FindAll` returns local products with unique skus, every
repository and search call succeeds and `GetProductBySKU` finds a product exactly for the
skus `FindAll` returned: every remote sku without a local product gets exactly the insert
sequence (lookup, `InsertProduct`, `InsertWmtProductDetail`, `UpdateListingStatus`, one
`ItemSearch` and the image insert it leads to) and no update call; every remote sku with a
local product gets exactly the update sequence and no insert call; every local product
whose sku is not in the remote snapshot gets exactly one `UpdateListingStatus(id, 5)`. -/
theorem reconcile_complete_log {σ : Type} (repo : InventoryRepository σ)
    (search : ItemSearchFn σ) (rangeOrder : List (String × Product) → List (String × Product))
    (productsMap : List (String × JMap)) (inventoryMap : List (String × Int)) (w : σ)
    (dbProducts : List Product)
    (hrange : ∀ m, (rangeOrder m).Perm m)
    (hmap : (mapKeys productsMap).Nodup)
    (hfind : (repo.FindAll w).1 = .ok dbProducts)
    (hlocal : (dbProducts.map Product.SKU).Nodup)
    (hok : ∀ e ∈ (reconcilePass repo search rangeOrder productsMap inventoryMap w).log,
      e.outcome.isFailed = false)
    (hagree : ∀ e ∈ (reconcilePass repo search rangeOrder productsMap inventoryMap w).log,
      ∀ s, e.call = .GetProductBySKU s →
        ((∃ existing, e.outcome = .product (some existing)) ↔
          s ∈ dbProducts.map Product.SKU)) :
    (∀ sku productData, (sku, productData) ∈ productsMap →
      sku ∉ dbProducts.map Product.SKU →
      ∃ (productID : Int) (imageURL : String),
        callsFor (reconcilePass repo search rangeOrder productsMap inventoryMap w).log sku =
          [.GetProductBySKU sku,
           .InsertProduct (candidate inventoryMap sku productData),
           .InsertWmtProductDetail productID (candidate inventoryMap sku productData),
           .UpdateListingStatus productID
             (candidate inventoryMap sku productData).ListingStatusID,
           .ItemSearch (candidate inventoryMap sku productData).ProductName
             (candidate inventoryMap sku productData).UPC
             (candidate inventoryMap sku productData).GTIN,
           .InsertProductImage (candidate inventoryMap sku productData).GTIN imageURL]) ∧
    (∀ sku productData, (sku, productData) ∈ productsMap →
      sku ∈ dbProducts.map Product.SKU →
      ∃ (existing : Product) (imageURL : String),
        callsFor (reconcilePass repo search rangeOrder productsMap inventoryMap w).log sku =
          [.GetProductBySKU sku,
           .UpdateProduct { candidate inventoryMap sku productData with ID := existing.ID },
           .UpdateWmtProductDetail existing.ID
             { candidate inventoryMap sku productData with ID := existing.ID }] ++
          (if existing.ListingStatusID ≠
              (candidate inventoryMap sku productData).ListingStatusID
           then [.UpdateListingStatus existing.ID
             (candidate inventoryMap sku productData).ListingStatusID]
           else []) ++
          (if existing.ProductImage = "" then
            [.ItemSearch (candidate inventoryMap sku productData).ProductName
               (candidate inventoryMap sku productData).UPC
               (candidate inventoryMap sku productData).GTIN,
             .InsertProductImage (candidate inventoryMap sku productData).GTIN imageURL]
           else [])) ∧
    (∀ p ∈ dbProducts, p.SKU ∉ mapKeys productsMap →
      callsFor (reconcilePass repo search rangeOrder productsMap inventoryMap w).log p.SKU =
        [.UpdateListingStatus p.ID 5]) := by
  rw [reconcilePass_of_findAll repo search rangeOrder productsMap inventoryMap w dbProducts
    hfind] at hok hagree ⊢
  generalize (repo.FindAll w).2 = w0 at hok hagree ⊢
  have hsub : ∀ e ∈ (reconcileLoop repo search inventoryMap productsMap
      (passStart dbProducts w0)).log,
      e ∈ (delistLoop repo (rangeOrder (reconcileLoop repo search inventoryMap productsMap
        (passStart dbProducts w0)).dbProductSKUs)
        (reconcileLoop repo search inventoryMap productsMap (passStart dbProducts w0))).log :=
    delistLoop_log_mono repo _ _
  have hok1 : ∀ e ∈ (reconcileLoop repo search inventoryMap productsMap
      (passStart dbProducts w0)).log, e.call.isRepository = true → e.outcome.isFailed = false :=
    fun e he _ => hok e (hsub e he)
  -- the entries of one remote item
  have hitem : ∀ sku productData, (sku, productData) ∈ productsMap →
      ∃ w', callsFor (delistLoop repo (rangeOrder (reconcileLoop repo search inventoryMap
          productsMap (passStart dbProducts w0)).dbProductSKUs)
          (reconcileLoop repo search inventoryMap productsMap (passStart dbProducts w0))).log
          sku = (runItem repo search inventoryMap sku productData w').events.map Event.call ∧
        ∀ e ∈ (runItem repo search inventoryMap sku productData w').events,
          e ∈ (delistLoop repo (rangeOrder (reconcileLoop repo search inventoryMap
          productsMap (passStart dbProducts w0)).dbProductSKUs)
          (reconcileLoop repo search inventoryMap productsMap (passStart dbProducts w0))).log := by
    intro sku productData hmem
    obtain ⟨w', hw', _⟩ := reconcileLoop_eventsFor_item repo search inventoryMap productsMap
      (passStart dbProducts w0) hmap sku productData hmem
    rw [eventsFor_passStart, List.nil_append] at hw'
    refine ⟨w', ?_, ?_⟩
    · rw [delistLoop_callsFor,
        delist_none_for_remote repo search rangeOrder productsMap inventoryMap dbProducts
          (passStart dbProducts w0) hrange rfl hok1 sku
          (List.mem_map.mpr ⟨(sku, productData), hmem, rfl⟩)]
      simp [callsFor, hw']
    · intro e he
      apply hsub
      apply mem_of_mem_eventsFor _ sku
      rw [hw']
      exact he
  refine ⟨?_, ?_, ?_⟩
  · intro sku productData hmem hnot
    obtain ⟨w', hcalls, hin⟩ := hitem sku productData hmem
    have hnone : (repo.GetProductBySKU sku w').1 = .ok none := by
      rcases runItem_head repo search inventoryMap sku productData w' with
        ⟨err, _, he⟩ | ⟨found, hf, he⟩
      · have := hok _ (hin _ (mem_of_head? _ _ he))
        simp [Outcome.isFailed] at this
      · cases found with
        | none => exact hf
        | some existing =>
          exact absurd ((hagree _ (hin _ (mem_of_head? _ _ he)) sku rfl).mp ⟨existing, rfl⟩)
            hnot
    obtain ⟨productID, found, _, hfound, _, hev⟩ := runItem_insert_ok repo search
      inventoryMap sku productData w' hnone (fun e he _ => hok e (hin e he))
    rcases hfound with ⟨imageURL, rfl⟩ | ⟨err, rfl⟩
    · refine ⟨productID, imageURL, ?_⟩
      rw [hcalls, hev]
      simp [imageInsertAfter]
    · have := hok ⟨some sku, .ItemSearch (candidate inventoryMap sku productData).ProductName
        (candidate inventoryMap sku productData).UPC
        (candidate inventoryMap sku productData).GTIN, .failed err⟩
        (hin _ (by rw [hev]; simp))
      simp [Outcome.isFailed] at this
  · intro sku productData hmem hyes
    obtain ⟨w', hcalls, hin⟩ := hitem sku productData hmem
    have hsome : ∃ existing, (repo.GetProductBySKU sku w').1 = .ok (some existing) := by
      rcases runItem_head repo search inventoryMap sku productData w' with
        ⟨err, _, he⟩ | ⟨found, hf, he⟩
      · have := hok _ (hin _ (mem_of_head? _ _ he))
        simp [Outcome.isFailed] at this
      · cases found with
        | none =>
          obtain ⟨existing, hex⟩ := (hagree _ (hin _ (mem_of_head? _ _ he)) sku rfl).mpr hyes
          simp at hex
        | some existing => exact ⟨existing, hf⟩
    obtain ⟨existing, hsome⟩ := hsome
    obtain ⟨found, hfound, _, hev⟩ := runItem_update_ok repo search
      inventoryMap sku productData w' existing hsome (fun e he _ => hok e (hin e he))
    by_cases himg : existing.ProductImage = ""
    · rcases hfound with ⟨imageURL, rfl⟩ | ⟨err, rfl⟩
      · refine ⟨existing, imageURL, ?_⟩
        rw [hcalls, hev]
        by_cases hst : existing.ListingStatusID =
            (candidate inventoryMap sku productData).ListingStatusID
        · simp [imageInsertAfter, himg, hst]
        · simp [imageInsertAfter, himg, hst]
      · have := hok ⟨some sku,
          .ItemSearch (candidate inventoryMap sku productData).ProductName
          (candidate inventoryMap sku productData).UPC
          (candidate inventoryMap sku productData).GTIN, .failed err⟩
          (hin _ (by rw [hev]; simp [himg]))
        simp [Outcome.isFailed] at this
    · refine ⟨existing, "", ?_⟩
      rw [hcalls, hev]
      by_cases hst : existing.ListingStatusID =
          (candidate inventoryMap sku productData).ListingStatusID
      · simp [himg, hst]
      · simp [himg, hst]
  · intro p hp hnot
    rw [delistLoop_callsFor,
      delist_one_for_local repo search rangeOrder productsMap inventoryMap dbProducts
        (passStart dbProducts w0) hrange rfl hlocal hok1 p hp hnot]
    have h0 : callsFor (reconcileLoop repo search inventoryMap productsMap
        (passStart dbProducts w0)).log p.SKU = [] := by
      unfold callsFor
      rw [reconcileLoop_eventsFor_other _ _ _ _ _ _ hnot, eventsFor_passStart]
      rfl
    rw [h0]
    rfl

theorem delistLoop_eventsFor {σ : Type} (repo : InventoryRepository σ)
    (l : List (String × Product)) (st : PassState σ) (s : String) :
    ∃ added : List Event, eventsFor (delistLoop repo l st).log s = eventsFor st.log s ++ added ∧
      ((∀ kp ∈ l, kp.2.SKU ≠ s) → added = []) := by
  induction l generalizing st with
  | nil => exact ⟨[], by simp [delistLoop], fun _ => rfl⟩
  | cons kp rest ih =>
    obtain ⟨k, p⟩ := kp
    unfold delistLoop
    obtain ⟨added, h1, h2⟩ := ih (delistOne repo p st)
    obtain ⟨out, hout⟩ := delistOne_log repo p st
    rw [hout, eventsFor_append] at h1
    refine ⟨eventsFor [⟨some p.SKU, .UpdateListingStatus p.ID 5, out⟩] s ++ added, ?_, ?_⟩
    · rw [h1, List.append_assoc]
    · intro hall
      have hp : p.SKU ≠ s := hall (k, p) (List.mem_cons_self _ _)
      rw [h2 (fun kp hkp => hall kp (List.mem_cons_of_mem _ hkp))]
      simp [eventsFor, hp]

/-- The entries of a pass for one remote sku are the entries of its loop iteration, when
no repository call made for that sku failed. -/
theorem pass_item_events {σ : Type} (repo : InventoryRepository σ)
    (search : ItemSearchFn σ) (rangeOrder : List (String × Product) → List (String × Product))
    (productsMap : List (String × JMap)) (inventoryMap : List (String × Int)) (w : σ)
    (dbProducts : List Product) (sku : String) (productData : JMap)
    (hrange : ∀ m, (rangeOrder m).Perm m)
    (hmap : (mapKeys productsMap).Nodup)
    (hfind : (repo.FindAll w).1 = .ok dbProducts)
    (hmem : (sku, productData) ∈ productsMap)
    (hok : ∀ e ∈ eventsFor
        (reconcilePass repo search rangeOrder productsMap inventoryMap w).log sku,
      e.call.isRepository = true → e.outcome.isFailed = false) :
    ∃ w' : σ, eventsFor (reconcilePass repo search rangeOrder productsMap inventoryMap w).log
        sku = (runItem repo search inventoryMap sku productData w').events := by
  rw [reconcilePass_of_findAll repo search rangeOrder productsMap inventoryMap w dbProducts
    hfind] at hok ⊢
  generalize (repo.FindAll w).2 = w0 at hok ⊢
  obtain ⟨w', hw', hdel⟩ := reconcileLoop_eventsFor_item repo search inventoryMap productsMap
    (passStart dbProducts w0) hmap sku productData hmem
  rw [eventsFor_passStart, List.nil_append] at hw'
  obtain ⟨added, hadd, hnil⟩ := delistLoop_eventsFor repo
    (rangeOrder (reconcileLoop repo search inventoryMap productsMap
      (passStart dbProducts w0)).dbProductSKUs)
    (reconcileLoop repo search inventoryMap productsMap (passStart dbProducts w0)) sku
  rw [hw'] at hadd
  have hns : (runItem repo search inventoryMap sku productData w').ending ≠ .skipped := by
    intro hsk
    obtain ⟨e, he, hrepo, hfail⟩ := runItem_skipped_failed _ _ _ _ _ _ hsk
    have := hok e (by rw [hadd]; exact List.mem_append_left _ he) hrepo
    rw [hfail] at this
    cases this
  have hnone : added = [] := by
    apply hnil
    intro kp hkp hsku
    have h1 := (hrange _).mem_iff.mp hkp
    have h2 := reconcileLoop_db_sub _ _ _ _ _ kp h1
    obtain ⟨k, p⟩ := kp
    have h3 := indexBySKU_mem dbProducts k p h2
    apply hdel hns
    simp only at hsku
    rw [← hsku, ← h3.2]
    exact List.mem_map.mpr ⟨(k, p), h1, rfl⟩
  refine ⟨w', ?_⟩
  rw [hadd, hnone, List.append_nil]

theorem lookupAgrees_spec (skus : List String) (e : Event) (h : lookupAgrees skus e = true)
    (s : String) (hs : e.call = .GetProductBySKU s) :
    (∃ existing, e.outcome = .product (some existing)) ↔ s ∈ skus := by
  obtain ⟨l, c, o⟩ := e
  simp only at hs
  subst hs
  cases o with
  | product found =>
    cases found with
    | none => simpa [lookupAgrees] using h
    | some existing => simpa [lookupAgrees] using h
  | failed err => simpa [lookupAgrees] using h
  | done => simpa [lookupAgrees] using h
  | products l => simpa [lookupAgrees] using h
  | id n => simpa [lookupAgrees] using h
  | url u => simpa [lookupAgrees] using h

theorem sample_pass_ok :
    ∀ e ∈ (reconcilePass (tableRepo sampleLocal false) sampleSearch id
      [("A1", remoteA1), ("B2", remoteB2)] [("A1", 12)] 100).log,
      e.outcome.isFailed = false ∧ lookupAgrees ["B2", "C3"] e = true := by
  decide

/-- The log of the sample pass: remote snapshot {A1, B2}, local products {B2, C3}; A1 is inserted,
B2 is updated and C3 is set to status 5. -/
theorem reconcile_complete_log_sample :
    (∃ (productID : Int) (imageURL : String),
      callsFor (reconcilePass (tableRepo sampleLocal false) sampleSearch id
        [("A1", remoteA1), ("B2", remoteB2)] [("A1", 12)] 100).log "A1" =
        [.GetProductBySKU "A1",
         .InsertProduct (candidate [("A1", 12)] "A1" remoteA1),
         .InsertWmtProductDetail productID (candidate [("A1", 12)] "A1" remoteA1),
         .UpdateListingStatus productID (candidate [("A1", 12)] "A1" remoteA1).ListingStatusID,
         .ItemSearch (candidate [("A1", 12)] "A1" remoteA1).ProductName
           (candidate [("A1", 12)] "A1" remoteA1).UPC
           (candidate [("A1", 12)] "A1" remoteA1).GTIN,
         .InsertProductImage (candidate [("A1", 12)] "A1" remoteA1).GTIN imageURL]) ∧
    (∃ (existing : Product) (imageURL : String),
      callsFor (reconcilePass (tableRepo sampleLocal false) sampleSearch id
        [("A1", remoteA1), ("B2", remoteB2)] [("A1", 12)] 100).log "B2" =
        [.GetProductBySKU "B2",
         .UpdateProduct { candidate [("A1", 12)] "B2" remoteB2 with ID := existing.ID },
         .UpdateWmtProductDetail existing.ID
           { candidate [("A1", 12)] "B2" remoteB2 with ID := existing.ID }] ++
        (if existing.ListingStatusID ≠ (candidate [("A1", 12)] "B2" remoteB2).ListingStatusID
         then [.UpdateListingStatus existing.ID
           (candidate [("A1", 12)] "B2" remoteB2).ListingStatusID]
         else []) ++
        (if existing.ProductImage = "" then
          [.ItemSearch (candidate [("A1", 12)] "B2" remoteB2).ProductName
             (candidate [("A1", 12)] "B2" remoteB2).UPC
             (candidate [("A1", 12)] "B2" remoteB2).GTIN,
           .InsertProductImage (candidate [("A1", 12)] "B2" remoteB2).GTIN imageURL]
         else [])) ∧
    callsFor (reconcilePass (tableRepo sampleLocal false) sampleSearch id
      [("A1", remoteA1), ("B2", remoteB2)] [("A1", 12)] 100).log "C3" =
        [.UpdateListingStatus 9 5] :=
  have h := reconcile_complete_log (tableRepo sampleLocal false) sampleSearch id
    [("A1", remoteA1), ("B2", remoteB2)] [("A1", 12)] 100 sampleLocal
    (fun _ => List.Perm.refl _) (by decide) rfl (by decide)
    (fun e he => (sample_pass_ok e he).1)
    (fun e he s hs => lookupAgrees_spec _ e (sample_pass_ok e he).2 s hs)
  ⟨h.1 "A1" remoteA1 (List.mem_cons_self _ _) (by decide),
    h.2.1 "B2" remoteB2 (List.mem_cons_of_mem _ (List.mem_cons_self _ _)) (by decide),
    h.2.2 { ID := 9, SKU := "C3", ListingStatusID := 2 } (by decide) (by decide)⟩

/-- C3 (the code at a failing input): local product B2 (id 7) is in the remote snapshot,
`UpdateProduct` fails for it, the iteration leaves by `continue` before
`delete(dbProductSKUs, sku)`, and the final loop issues `UpdateListingStatus(7, 5)`. -/
theorem status5_for_remote_sku :
    "B2" ∈ mapKeys [("B2", remoteB2)] ∧
    callsFor (reconcilePass (tableRepo sampleLocal true) sampleSearch id
      [("B2", remoteB2)] [] 100).log "B2" =
      [.GetProductBySKU "B2",
       .UpdateProduct { candidate [] "B2" remoteB2 with ID := 7 },
       .UpdateListingStatus 7 5] := by
  decide

/-- The log entries of a remote item whose lookup returned no local product and for which
no repository call failed, the pass makes for that sku exactly: the lookup,
`InsertProduct(candidate)`, `InsertWmtProductDetail(id, candidate)` with the id
`InsertProduct` returned, `UpdateListingStatus(id, derived status)`, one
`ItemSearch(productName, upc, gtin)`, and then `InsertProductImage(gtin, url)` exactly
when the search returned a url. The candidate's quantity is `inventoryMap[sku]` or 0 when
absent, and its status is the derived one. -/
theorem insert_sequence_log {σ : Type} (repo : InventoryRepository σ)
    (search : ItemSearchFn σ) (rangeOrder : List (String × Product) → List (String × Product))
    (productsMap : List (String × JMap)) (inventoryMap : List (String × Int)) (w : σ)
    (dbProducts : List Product) (sku : String) (productData : JMap)
    (hrange : ∀ m, (rangeOrder m).Perm m)
    (hmap : (mapKeys productsMap).Nodup)
    (hfind : (repo.FindAll w).1 = .ok dbProducts)
    (hmem : (sku, productData) ∈ productsMap)
    (hnone : (eventsFor (reconcilePass repo search rangeOrder productsMap inventoryMap w).log
      sku).head? = some ⟨some sku, .GetProductBySKU sku, .product none⟩)
    (hok : ∀ e ∈ eventsFor
        (reconcilePass repo search rangeOrder productsMap inventoryMap w).log sku,
      e.call.isRepository = true → e.outcome.isFailed = false) :
    ∃ (productID : Int) (found : Outcome),
      ((∃ imageURL, found = .url imageURL) ∨ (∃ err, found = .failed err)) ∧
      eventsFor (reconcilePass repo search rangeOrder productsMap inventoryMap w).log sku =
        [⟨some sku, .GetProductBySKU sku, .product none⟩,
         ⟨some sku, .InsertProduct (candidate inventoryMap sku productData), .id productID⟩,
         ⟨some sku, .InsertWmtProductDetail productID (candidate inventoryMap sku productData),
           .done⟩,
         ⟨some sku, .UpdateListingStatus productID
           (candidate inventoryMap sku productData).ListingStatusID, .done⟩,
         ⟨some sku, .ItemSearch (candidate inventoryMap sku productData).ProductName
           (candidate inventoryMap sku productData).UPC
           (candidate inventoryMap sku productData).GTIN, found⟩] ++
        imageInsertAfter sku (candidate inventoryMap sku productData).GTIN found ∧
      (candidate inventoryMap sku productData).AvailableToSellQTY =
        (mapGet inventoryMap sku).getD 0 ∧
      (candidate inventoryMap sku productData).ListingStatusID =
        listingStatusID (getStringValue productData "lifecycleStatus")
          (getStringValue productData "availability")
          (getStringValue productData "publishedStatus") := by
  obtain ⟨w', hw'⟩ := pass_item_events repo search rangeOrder productsMap inventoryMap w
    dbProducts sku productData hrange hmap hfind hmem hok
  rw [hw'] at hnone hok ⊢
  have hget : (repo.GetProductBySKU sku w').1 = .ok none := by
    rcases runItem_head repo search inventoryMap sku productData w' with
      ⟨err, _, he⟩ | ⟨found, hf, he⟩
    · rw [he] at hnone
      simp at hnone
    · rw [he] at hnone
      simp only [Option.some.injEq, Event.mk.injEq, Outcome.product.injEq, true_and] at hnone
      rw [hf, hnone]
  obtain ⟨productID, found, _, hfound, _, hev⟩ := runItem_insert_ok repo search
    inventoryMap sku productData w' hget hok
  refine ⟨productID, found, hfound, hev, ?_, rfl⟩
  unfold candidate availableQty
  cases mapGet inventoryMap sku <;> rfl

/-- The log of the example of spec section 8, remote A1 with inventory {A1: 12} and no
local product, is inserted with quantity 12 and status 1. -/
theorem insert_sequence_log_sample :
    (candidate [("A1", 12)] "A1" remoteA1).AvailableToSellQTY = 12 ∧
    (candidate [("A1", 12)] "A1" remoteA1).ListingStatusID = 1 ∧
    ∃ (productID : Int) (found : Outcome),
      ((∃ imageURL, found = .url imageURL) ∨ (∃ err, found = .failed err)) ∧
      eventsFor (reconcilePass (tableRepo [] false) sampleSearch id [("A1", remoteA1)]
          [("A1", 12)] 100).log "A1" =
        [⟨some "A1", .GetProductBySKU "A1", .product none⟩,
         ⟨some "A1", .InsertProduct (candidate [("A1", 12)] "A1" remoteA1), .id productID⟩,
         ⟨some "A1", .InsertWmtProductDetail productID (candidate [("A1", 12)] "A1" remoteA1),
           .done⟩,
         ⟨some "A1", .UpdateListingStatus productID
           (candidate [("A1", 12)] "A1" remoteA1).ListingStatusID, .done⟩,
         ⟨some "A1", .ItemSearch (candidate [("A1", 12)] "A1" remoteA1).ProductName
           (candidate [("A1", 12)] "A1" remoteA1).UPC
           (candidate [("A1", 12)] "A1" remoteA1).GTIN, found⟩] ++
        imageInsertAfter "A1" (candidate [("A1", 12)] "A1" remoteA1).GTIN found ∧
      (candidate [("A1", 12)] "A1" remoteA1).AvailableToSellQTY =
        (mapGet [("A1", 12)] "A1").getD 0 ∧
      (candidate [("A1", 12)] "A1" remoteA1).ListingStatusID =
        listingStatusID (getStringValue remoteA1 "lifecycleStatus")
          (getStringValue remoteA1 "availability")
          (getStringValue remoteA1 "publishedStatus") :=
  ⟨by decide, by decide,
    insert_sequence_log (tableRepo [] false) sampleSearch id [("A1", remoteA1)] [("A1", 12)] 100
      [] "A1" remoteA1 (fun _ => List.Perm.refl _) (by decide) rfl (List.mem_cons_self _ _)
      (by decide) (by decide)⟩

/-- The log entries of a remote item whose lookup returned a local product and for which
no repository call failed, the pass makes for that sku exactly: the lookup,
`UpdateProduct(candidate with the existing id)`, `UpdateWmtProductDetail(id, candidate)`,
`UpdateListingStatus(id, derived status)` exactly when the derived status differs from
the stored one, `ItemSearch` exactly when the stored product has an empty image url, and
then `InsertProductImage(gtin, url)` exactly when that search returned a url. -/
theorem update_sequence_log {σ : Type} (repo : InventoryRepository σ)
    (search : ItemSearchFn σ) (rangeOrder : List (String × Product) → List (String × Product))
    (productsMap : List (String × JMap)) (inventoryMap : List (String × Int)) (w : σ)
    (dbProducts : List Product) (sku : String) (productData : JMap) (existing : Product)
    (hrange : ∀ m, (rangeOrder m).Perm m)
    (hmap : (mapKeys productsMap).Nodup)
    (hfind : (repo.FindAll w).1 = .ok dbProducts)
    (hmem : (sku, productData) ∈ productsMap)
    (hsome : (eventsFor (reconcilePass repo search rangeOrder productsMap inventoryMap w).log
      sku).head? = some ⟨some sku, .GetProductBySKU sku, .product (some existing)⟩)
    (hok : ∀ e ∈ eventsFor
        (reconcilePass repo search rangeOrder productsMap inventoryMap w).log sku,
      e.call.isRepository = true → e.outcome.isFailed = false) :
    ∃ found : Outcome,
      ((∃ imageURL, found = .url imageURL) ∨ (∃ err, found = .failed err)) ∧
      eventsFor (reconcilePass repo search rangeOrder productsMap inventoryMap w).log sku =
        [⟨some sku, .GetProductBySKU sku, .product (some existing)⟩,
         ⟨some sku, .UpdateProduct
           { candidate inventoryMap sku productData with ID := existing.ID }, .done⟩,
         ⟨some sku, .UpdateWmtProductDetail existing.ID
           { candidate inventoryMap sku productData with ID := existing.ID }, .done⟩] ++
        (if existing.ListingStatusID ≠ (candidate inventoryMap sku productData).ListingStatusID
         then [⟨some sku, .UpdateListingStatus existing.ID
           (candidate inventoryMap sku productData).ListingStatusID, .done⟩]
         else []) ++
        (if existing.ProductImage = "" then
          ⟨some sku, .ItemSearch (candidate inventoryMap sku productData).ProductName
            (candidate inventoryMap sku productData).UPC
            (candidate inventoryMap sku productData).GTIN, found⟩ ::
            imageInsertAfter sku (candidate inventoryMap sku productData).GTIN found
         else []) := by
  obtain ⟨w', hw'⟩ := pass_item_events repo search rangeOrder productsMap inventoryMap w
    dbProducts sku productData hrange hmap hfind hmem hok
  rw [hw'] at hsome hok ⊢
  have hget : (repo.GetProductBySKU sku w').1 = .ok (some existing) := by
    rcases runItem_head repo search inventoryMap sku productData w' with
      ⟨err, _, he⟩ | ⟨found, hf, he⟩
    · rw [he] at hsome
      simp at hsome
    · rw [he] at hsome
      simp only [Option.some.injEq, Event.mk.injEq, Outcome.product.injEq, true_and] at hsome
      rw [hf, hsome]
  obtain ⟨found, hfound, _, hev⟩ := runItem_update_ok repo search
    inventoryMap sku productData w' existing hget hok
  exact ⟨found, hfound, hev⟩

/-- The log of the sample update: remote B2 (derived status 2) with local product B2 (id 7, stored
status 1, no image). -/
theorem update_sequence_log_sample :
    ∃ found : Outcome,
      ((∃ imageURL, found = .url imageURL) ∨ (∃ err, found = .failed err)) ∧
      eventsFor (reconcilePass (tableRepo sampleLocal false) sampleSearch id
          [("B2", remoteB2)] [] 100).log "B2" =
        [⟨some "B2", .GetProductBySKU "B2",
           .product (some { ID := 7, SKU := "B2", ListingStatusID := 1 })⟩,
         ⟨some "B2", .UpdateProduct
           { candidate [] "B2" remoteB2 with
             ID := ({ ID := 7, SKU := "B2", ListingStatusID := 1 } : Product).ID }, .done⟩,
         ⟨some "B2", .UpdateWmtProductDetail
           ({ ID := 7, SKU := "B2", ListingStatusID := 1 } : Product).ID
           { candidate [] "B2" remoteB2 with
             ID := ({ ID := 7, SKU := "B2", ListingStatusID := 1 } : Product).ID }, .done⟩] ++
        (if ({ ID := 7, SKU := "B2", ListingStatusID := 1 } : Product).ListingStatusID ≠
            (candidate [] "B2" remoteB2).ListingStatusID
         then [⟨some "B2", .UpdateListingStatus
           ({ ID := 7, SKU := "B2", ListingStatusID := 1 } : Product).ID
           (candidate [] "B2" remoteB2).ListingStatusID, .done⟩]
         else []) ++
        (if ({ ID := 7, SKU := "B2", ListingStatusID := 1 } : Product).ProductImage = "" then
          ⟨some "B2", .ItemSearch (candidate [] "B2" remoteB2).ProductName
            (candidate [] "B2" remoteB2).UPC
            (candidate [] "B2" remoteB2).GTIN, found⟩ ::
            imageInsertAfter "B2" (candidate [] "B2" remoteB2).GTIN found
         else []) :=
  update_sequence_log (tableRepo sampleLocal false) sampleSearch id [("B2", remoteB2)] [] 100
    sampleLocal "B2" remoteB2 { ID := 7, SKU := "B2", ListingStatusID := 1 }
    (fun _ => List.Perm.refl _) (by decide) rfl (List.mem_cons_self _ _)
    (by decide) (by decide)

/-! ## Retrying the bulk fetches -/

theorem retryLoop_success {σ α : Type} (fetch : σ → Except GoError α × σ) (maxRetries : Int)
    (k : Nat) :
    ∀ (fuel : Nat) (attempt : Int) (lastErr : Option GoError) (calls : Nat)
      (sleeps : List Int) (w : σ) (value : α),
      failsThenSucceeds fetch k w value → attempt + k ≤ maxRetries → k + 1 ≤ fuel →
      retryLoop fetch maxRetries fuel attempt lastErr calls sleeps w =
        some ⟨(fetch (worldAfter fetch k w)).2, .ok value, calls + k + 1,
          sleeps ++ backoffs attempt k⟩ := by
  induction k with
  | zero =>
    intro fuel attempt lastErr calls sleeps w value hfs hle hfuel
    obtain ⟨fuel, rfl⟩ : ∃ f, fuel = f + 1 := ⟨fuel - 1, by omega⟩
    obtain ⟨_, hok⟩ := hfs
    simp only [worldAfter] at hok ⊢
    rcases hf : fetch w with ⟨r, w1⟩
    rw [hf] at hok
    simp only at hok
    subst hok
    have hle' : attempt ≤ maxRetries := by simpa using hle
    simp [retryLoop, hle', hf, backoffs]
  | succ k ih =>
    intro fuel attempt lastErr calls sleeps w value hfs hle hfuel
    obtain ⟨fuel, rfl⟩ : ∃ f, fuel = f + 1 := ⟨fuel - 1, by omega⟩
    obtain ⟨⟨⟨err, herr⟩, hall⟩, hok⟩ := hfs
    rcases hf : fetch w with ⟨r, w1⟩
    rw [hf] at herr hall
    simp only at herr hall
    subst herr
    have hlt : attempt < maxRetries := by push_cast at hle; omega
    have hrec := ih fuel (attempt + 1) (some err) (calls + 1) (sleeps ++ [backoff attempt]) w1
      value ⟨hall, by simpa [worldAfter, hf] using hok⟩ (by push_cast at hle ⊢; omega) (by omega)
    simp only [retryLoop, le_of_lt hlt, hlt, if_true, hf, hrec, worldAfter, backoffs,
      List.append_assoc, List.singleton_append, Option.some.injEq, RetryRun.mk.injEq,
      and_true, true_and]
    omega

theorem retryLoop_exhaust {σ α : Type} (fetch : σ → Except GoError α × σ) (maxRetries : Int)
    (n : Nat) :
    ∀ (fuel : Nat) (attempt : Int) (lastErr : Option GoError) (calls : Nat)
      (sleeps : List Int) (w : σ),
      allFail fetch n w → attempt + n = maxRetries + 1 → n + 1 ≤ fuel →
      retryLoop fetch maxRetries fuel attempt lastErr calls sleeps w =
        some ⟨worldAfter fetch n w,
          .error (errorfV ("failed after " ++ toString maxRetries ++ " attempts: ")
            (if n = 0 then lastErr else errorOfCall fetch n w)),
          calls + n, sleeps ++ backoffs attempt (n - 1)⟩ := by
  induction n with
  | zero =>
    intro fuel attempt lastErr calls sleeps w _ heq hfuel
    obtain ⟨fuel, rfl⟩ : ∃ f, fuel = f + 1 := ⟨fuel - 1, by omega⟩
    have hgt : ¬ attempt ≤ maxRetries := by push_cast at heq; omega
    simp [retryLoop, hgt, worldAfter, backoffs]
  | succ n ih =>
    intro fuel attempt lastErr calls sleeps w hall heq hfuel
    obtain ⟨fuel, rfl⟩ : ∃ f, fuel = f + 1 := ⟨fuel - 1, by omega⟩
    obtain ⟨⟨err, herr⟩, hall⟩ := hall
    rcases hf : fetch w with ⟨r, w1⟩
    rw [hf] at herr hall
    simp only at herr hall
    subst herr
    have hle : attempt ≤ maxRetries := by push_cast at heq; omega
    cases n with
    | zero =>
      have hnlt : ¬ attempt < maxRetries := by push_cast at heq; omega
      have hrec := ih fuel (attempt + 1) (some err) (calls + 1) sleeps w1 hall
        (by push_cast at heq ⊢; omega) (by omega)
      simp [retryLoop, hle, hnlt, hf, hrec, worldAfter, backoffs, errorOfCall]
    | succ n =>
      have hlt : attempt < maxRetries := by push_cast at heq; omega
      have hrec := ih fuel (attempt + 1) (some err) (calls + 1) (sleeps ++ [backoff attempt])
        w1 hall (by push_cast at heq ⊢; omega) (by omega)
      simp only [retryLoop, hle, hlt, if_true, hf, hrec, worldAfter, backoffs,
        List.append_assoc, List.singleton_append, Option.some.injEq, RetryRun.mk.injEq,
        true_and, Nat.add_sub_cancel, errorOfCall]
      simp
      omega

theorem allFail_of_le {σ α : Type} (fetch : σ → Except GoError α × σ) (n k : Nat)
    (hle : n ≤ k) : ∀ w : σ, allFail fetch k w → allFail fetch n w := by
  induction n generalizing k with
  | zero => intro w _; trivial
  | succ n ih =>
    intro w h
    obtain ⟨k, rfl⟩ : ∃ j, k = j + 1 := ⟨k - 1, by omega⟩
    exact ⟨h.1, ih k (by omega) _ h.2⟩

theorem backoff_exact (attempt : Int) (h0 : 0 ≤ attempt) (h33 : attempt ≤ 33) :
    backoff attempt = 2 ^ attempt.toNat * timeSecond := by
  interval_cases attempt <;> decide

theorem backoffs_exact (n : Nat) :
    ∀ attempt : Int, 0 ≤ attempt → attempt + n ≤ 34 →
      backoffs attempt n =
        (List.range n).map (fun i => 2 ^ (attempt.toNat + i) * timeSecond) := by
  induction n with
  | zero => intro attempt _ _; rfl
  | succ n ih =>
    intro attempt h0 hle
    have h1 : (attempt + 1).toNat = attempt.toNat + 1 := by omega
    rw [backoffs, ih (attempt + 1) (by omega) (by push_cast at hle ⊢; omega),
      backoff_exact attempt h0 (by push_cast at hle; omega), List.range_succ_eq_map, h1]
    simp [List.map_map, Function.comp_def, Nat.add_assoc, Nat.add_comm 1]

/-- The contract of both retrying fetches for every budget. -/
theorem retry_contract {σ α : Type} (fetch : σ → Except GoError α × σ) (m : Int) (k : Nat)
    (w : σ) (value : α) (hm : 1 ≤ m)
    (hfs : failsThenSucceeds fetch k w value) :
    ∃ run, retryLoop fetch m (m.toNat + 1) 1 none 0 [] w = some run ∧
      ((k : Int) < m → run.result = .ok value) ∧
      (m ≤ (k : Int) → ∃ err, run.result = .error err) ∧
      run.calls = min (k + 1) m.toNat ∧
      run.sleeps = backoffs 1 (min k (m.toNat - 1)) ∧
      (min k (m.toNat - 1) ≤ 33 →
        run.sleeps =
          (List.range (min k (m.toNat - 1))).map (fun i => 2 ^ (i + 1) * timeSecond)) ∧
      (m = 3 → run.sleeps.sum = (if k = 0 then 0 else if k = 1 then 2 else 6) * timeSecond) := by
  have hexact : ∀ n : Nat, n ≤ 33 →
      backoffs 1 n = (List.range n).map (fun i => 2 ^ (i + 1) * timeSecond) := by
    intro n hn
    rw [backoffs_exact n 1 (by omega) (by omega)]
    simp [Nat.add_comm]
  by_cases hk : (k : Int) < m
  · have hrun := retryLoop_success fetch m k (m.toNat + 1) 1 none 0 [] w value hfs
      (by omega) (by omega)
    have hmin1 : min (k + 1) m.toNat = k + 1 := by omega
    have hmin2 : min k (m.toNat - 1) = k := by omega
    refine ⟨_, hrun, fun _ => rfl, fun h => absurd hk (by omega), by simp [hmin1], ?_, ?_, ?_⟩
    · simp only [List.nil_append, hmin2]
    · intro h33
      simp only [List.nil_append, hmin2] at h33 ⊢
      exact hexact k h33
    · intro h3
      subst h3
      simp only [List.nil_append]
      have hk3 : k < 3 := by omega
      interval_cases k <;> decide
  · have hall := allFail_of_le fetch m.toNat k (by omega) w hfs.1
    have hrun := retryLoop_exhaust fetch m m.toNat (m.toNat + 1) 1 none 0 [] w hall
      (by omega) (by omega)
    have hmin1 : min (k + 1) m.toNat = m.toNat := by omega
    have hmin2 : min k (m.toNat - 1) = m.toNat - 1 := by omega
    refine ⟨_, hrun, fun h => absurd h hk, fun _ => ⟨_, rfl⟩, by simp [hmin1], ?_, ?_, ?_⟩
    · simp only [List.nil_append, hmin2]
    · intro h33
      simp only [List.nil_append, hmin2] at h33 ⊢
      exact hexact (m.toNat - 1) h33
    · intro h3
      subst h3
      have hk3 : ¬ k = 0 ∧ ¬ k = 1 := by omega
      simp only [List.nil_append, hk3.1, hk3.2, if_false]
      decide

/-- C6: for every budget `m ≥ 1` and a fetch that fails exactly `k` times and then succeeds,
each of `fetchWalmartItemsWithRetry` and `fetchWalmartInventoryWithRetry` returns, returns
the successful result when `k < m` and an error otherwise, calls the fetch exactly
`min (k+1) m` times, and sleeps after failed attempt `i` for `i = 1 .. min k (m-1)` and at
no other time, for the duration `time.Duration(1<<uint(i)) * time.Second` computed in
`int64`. When no more than 33 sleeps are made, in particular for every `m ≤ 34` and for
every `k ≤ 33`, the sleep after failed attempt `i` is exactly `2^i` seconds; with `m = 3`
the total sleep is 0 s, 2 s, 6 s for `k = 0`, `k = 1`, `k ≥ 2`. -/
theorem retry_schedule (m : Int) (k : Nat) (hm : 1 ≤ m) :
    (∀ (σ : Type) (fetch : σ → Except GoError ItemsMap × σ) (w : σ) (value : ItemsMap),
      failsThenSucceeds fetch k w value →
      ∃ run, fetchWalmartItemsWithRetry fetch m w = some run ∧
        ((k : Int) < m → run.result = .ok value) ∧
        (m ≤ (k : Int) → ∃ err, run.result = .error err) ∧
        run.calls = min (k + 1) m.toNat ∧
        run.sleeps = backoffs 1 (min k (m.toNat - 1)) ∧
        (min k (m.toNat - 1) ≤ 33 →
          run.sleeps =
            (List.range (min k (m.toNat - 1))).map (fun i => 2 ^ (i + 1) * timeSecond)) ∧
        (m = 3 →
          run.sleeps.sum = (if k = 0 then 0 else if k = 1 then 2 else 6) * timeSecond)) ∧
    (∀ (σ : Type) (fetch : σ → Except GoError InventoryMap × σ) (w : σ)
      (value : InventoryMap),
      failsThenSucceeds fetch k w value →
      ∃ run, fetchWalmartInventoryWithRetry fetch m w = some run ∧
        ((k : Int) < m → run.result = .ok value) ∧
        (m ≤ (k : Int) → ∃ err, run.result = .error err) ∧
        run.calls = min (k + 1) m.toNat ∧
        run.sleeps = backoffs 1 (min k (m.toNat - 1)) ∧
        (min k (m.toNat - 1) ≤ 33 →
          run.sleeps =
            (List.range (min k (m.toNat - 1))).map (fun i => 2 ^ (i + 1) * timeSecond)) ∧
        (m = 3 →
          run.sleeps.sum = (if k = 0 then 0 else if k = 1 then 2 else 6) * timeSecond)) ∧
    (∀ i : Int, 1 ≤ i → i ≤ 33 → backoff i = 2 ^ i.toNat * timeSecond) ∧
    backoff 34 = -1266874889709551616 :=
  ⟨fun _ fetch w value hfs => retry_contract fetch m k w value hm hfs,
   fun _ fetch w value hfs => retry_contract fetch m k w value hm hfs,
   fun i h1 h33 => backoff_exact i (by omega) h33,
   by decide⟩

theorem flakyFetch_allFail {α : Type} (k : Nat) (value : α) (n : Nat) :
    ∀ w : Nat, w + n ≤ k → allFail (flakyFetch k value) n w := by
  induction n with
  | zero => intro w _; trivial
  | succ n ih =>
    intro w h
    have hlt : w < k := by omega
    exact ⟨⟨errorsNew "timeout", by simp [flakyFetch, hlt]⟩, ih (w + 1) (by omega)⟩

theorem flakyFetch_worldAfter {α : Type} (k : Nat) (value : α) (n : Nat) :
    ∀ w : Nat, worldAfter (flakyFetch k value) n w = w + n := by
  induction n with
  | zero => intro w; rfl
  | succ n ih =>
    intro w
    simp only [worldAfter, flakyFetch, ih]
    omega

theorem flakyFetch_failsThenSucceeds {α : Type} (k : Nat) (value : α) :
    failsThenSucceeds (flakyFetch k value) k 0 value := by
  refine ⟨flakyFetch_allFail k value k 0 (by omega), ?_⟩
  rw [flakyFetch_worldAfter]
  simp [flakyFetch]

/-- C6 on sample fetches: a fetch that fails twice and then succeeds returns its result
after 3 calls and sleeps of 2 s and 4 s, with a budget of 100 as with a budget of 3. -/
theorem retry_schedule_witness :
    (∃ run, fetchWalmartItemsWithRetry (flakyFetch 2 ([] : ItemsMap)) 100 0 = some run ∧
      run.result = .ok [] ∧ run.calls = 3 ∧
      run.sleeps = [2 * timeSecond, 4 * timeSecond]) ∧
    (∃ run, fetchWalmartInventoryWithRetry (flakyFetch 2 ([] : InventoryMap)) 3 0 = some run ∧
      run.result = .ok [] ∧ run.calls = 3 ∧
      run.sleeps = [2 * timeSecond, 4 * timeSecond] ∧
      run.sleeps.sum = 6 * timeSecond) :=
  ⟨((retry_schedule 100 2 (by decide)).1 Nat (flakyFetch 2 []) 0 []
      ⟨⟨⟨_, rfl⟩, ⟨_, rfl⟩, trivial⟩, rfl⟩).imp
      (fun _ h => ⟨h.1, h.2.1 (by decide), h.2.2.2.1,
        (h.2.2.2.2.2.1 (by decide)).trans (by decide)⟩),
    ((retry_schedule 3 2 (by decide)).2.1 Nat (flakyFetch 2 []) 0 []
      ⟨⟨⟨_, rfl⟩, ⟨_, rfl⟩, trivial⟩, rfl⟩).imp
      (fun _ h => ⟨h.1, h.2.1 (by decide), h.2.2.2.1,
        (h.2.2.2.2.2.1 (by decide)).trans (by decide),
        (h.2.2.2.2.2.2 rfl).trans (by decide)⟩)⟩

/-- C6 (the code at a failing input): with a budget of 35 and a fetch that fails 34 times,
after the 34th failed attempt the duration `time.Duration(1<<34) * time.Second` overflows
`int64`, and the argument of `time.Sleep` is -1266874889709551616 ns instead of the 2^34
seconds the comment at cron.go line 316 announces. -/
theorem retry_schedule_overflow :
    failsThenSucceeds (flakyFetch 34 ([] : ItemsMap)) 34 0 [] ∧
    ∃ run, fetchWalmartItemsWithRetry (flakyFetch 34 ([] : ItemsMap)) 35 0 = some run ∧
      run.result = .ok [] ∧
      run.sleeps.getLast? = some (-1266874889709551616) ∧
      run.sleeps ≠ (List.range 34).map (fun i => 2 ^ (i + 1) * timeSecond) := by
  refine ⟨flakyFetch_failsThenSucceeds 34 [], ?_⟩
  have hrun := retryLoop_success (flakyFetch 34 ([] : ItemsMap)) 35 34 36 1 none 0 [] 0 []
    (flakyFetch_failsThenSucceeds 34 []) (by decide) (by decide)
  refine ⟨_, hrun, rfl, by decide, by decide⟩

theorem allFail_last {σ α : Type} (fetch : σ → Except GoError α × σ) (n : Nat) :
    ∀ w : σ, allFail fetch (n + 1) w → ∃ err, errorOfCall fetch (n + 1) w = some err := by
  induction n with
  | zero =>
    intro w h
    obtain ⟨⟨err, herr⟩, _⟩ := h
    exact ⟨err, by simp [errorOfCall, worldAfter, herr]⟩
  | succ n ih =>
    intro w h
    obtain ⟨err, herr⟩ := ih (fetch w).2 h.2
    exact ⟨err, by simpa [errorOfCall, worldAfter] using herr⟩

theorem retry_exhausted_contract {σ α : Type} (fetch : σ → Except GoError α × σ) (m : Int)
    (w : σ) (hm : 1 ≤ m) (hall : allFail fetch m.toNat w) :
    ∃ (run : RetryRun σ α) (last err : GoError),
      retryLoop fetch m (m.toNat + 1) 1 none 0 [] w = some run ∧
      errorOfCall fetch m.toNat w = some last ∧
      run.result = .error err ∧
      err.Error = "failed after " ++ toString m ++ " attempts: " ++ last.Error ∧
      err.Unwrap = none := by
  have hrun := retryLoop_exhaust fetch m m.toNat (m.toNat + 1) 1 none 0 [] w hall
    (by omega) (by omega)
  obtain ⟨n, hn⟩ : ∃ n, m.toNat = n + 1 := ⟨m.toNat - 1, by omega⟩
  obtain ⟨last, hlast⟩ := allFail_last fetch n w (hn ▸ hall)
  rw [← hn] at hlast
  have hne : ¬ m.toNat = 0 := by omega
  refine ⟨_, last, _, hrun, hlast, rfl, ?_, rfl⟩
  simp [hne, hlast, errorfV, fmtV, GoError.Error]

/-- C7 (amended): when all `m ≥ 1` attempts fail, each of `fetchWalmartItemsWithRetry` and
`fetchWalmartInventoryWithRetry` returns an error and no result; the message of the error
is "failed after m attempts: " followed by the message of the last attempt's error, and
the error does not wrap the last error: `errors.Unwrap` gives nil on it. -/
theorem retry_exhausted (m : Int) (hm : 1 ≤ m) :
    (∀ (σ : Type) (fetch : σ → Except GoError ItemsMap × σ) (w : σ),
      allFail fetch m.toNat w →
      ∃ (run : RetryRun σ ItemsMap) (last err : GoError),
        fetchWalmartItemsWithRetry fetch m w = some run ∧
        errorOfCall fetch m.toNat w = some last ∧
        run.result = .error err ∧
        err.Error = "failed after " ++ toString m ++ " attempts: " ++ last.Error ∧
        err.Unwrap = none) ∧
    (∀ (σ : Type) (fetch : σ → Except GoError InventoryMap × σ) (w : σ),
      allFail fetch m.toNat w →
      ∃ (run : RetryRun σ InventoryMap) (last err : GoError),
        fetchWalmartInventoryWithRetry fetch m w = some run ∧
        errorOfCall fetch m.toNat w = some last ∧
        run.result = .error err ∧
        err.Error = "failed after " ++ toString m ++ " attempts: " ++ last.Error ∧
        err.Unwrap = none) :=
  ⟨fun _ fetch w hall => retry_exhausted_contract fetch m w hm hall,
   fun _ fetch w hall => retry_exhausted_contract fetch m w hm hall⟩

/-- Witness for C7: a budget of 3 and a fetch whose first five calls fail. -/
theorem retry_exhausted_witness :
    ∃ (run : RetryRun Nat InventoryMap) (last err : GoError),
      fetchWalmartInventoryWithRetry (flakyFetch 5 ([] : InventoryMap)) 3 0 = some run ∧
      errorOfCall (flakyFetch 5 ([] : InventoryMap)) (3 : Int).toNat 0 = some last ∧
      run.result = .error err ∧
      err.Error = "failed after " ++ toString (3 : Int) ++ " attempts: " ++ last.Error ∧
      err.Unwrap = none :=
  (retry_exhausted 3 (by decide)).2 Nat (flakyFetch 5 []) 0
    ⟨⟨_, rfl⟩, ⟨_, rfl⟩, ⟨_, rfl⟩, trivial⟩

/-- C7 as stated fails: with a budget of 3 and a fetch that always fails with the error
"timeout", the returned error has the text of that error in its message but does not wrap
it. -/
theorem retry_error_not_wrapped :
    allFail (flakyFetch 5 ([] : ItemsMap)) 3 0 ∧
    errorOfCall (flakyFetch 5 ([] : ItemsMap)) 3 0 = some (errorsNew "timeout") ∧
    ∃ run, fetchWalmartItemsWithRetry (flakyFetch 5 ([] : ItemsMap)) 3 0 = some run ∧
      run.result = .error (.plain "failed after 3 attempts: timeout") ∧
      (GoError.plain "failed after 3 attempts: timeout").Unwrap ≠
        some (errorsNew "timeout") := by
  refine ⟨⟨⟨_, rfl⟩, ⟨_, rfl⟩, ⟨_, rfl⟩, trivial⟩, rfl, _, rfl, rfl, ?_⟩
  simp [GoError.Unwrap]

/-! ## Maps built by repeated assignment -/

theorem mapGet_mapDelete {V : Type} (m : List (String × V)) (k k' : String) :
    mapGet (mapDelete m k) k' = if k = k' then none else mapGet m k' := by
  induction m with
  | nil => simp [mapDelete, mapGet]
  | cons e rest ih =>
    obtain ⟨k0, v⟩ := e
    by_cases h0 : k0 = k
    · subst h0
      by_cases h1 : k0 = k'
      · subst h1
        simpa [mapDelete, mapGet] using ih
      · simpa [mapDelete, mapGet, h1] using ih
    · by_cases h1 : k = k'
      · subst h1
        simpa [mapDelete, mapGet, h0] using ih
      · by_cases h2 : k0 = k'
        · subst h2
          simp [mapDelete, mapGet, h0, h1]
        · simpa [mapDelete, mapGet, h0, h1, h2] using ih

theorem mapGet_mapSet {V : Type} (m : List (String × V)) (k k' : String) (v : V) :
    mapGet (mapSet m k v) k' = if k = k' then some v else mapGet m k' := by
  by_cases h : k = k'
  · simp [mapSet, mapGet, h]
  · simp [mapSet, mapGet, h, mapGet_mapDelete]

theorem mapGet_append {V : Type} (a b : List (String × V)) (k : String) :
    mapGet (a ++ b) k = (mapGet a k).or (mapGet b k) := by
  induction a with
  | nil => simp [mapGet]
  | cons e rest ih =>
    obtain ⟨k0, v⟩ := e
    by_cases h : k0 = k
    · simp [mapGet, h]
    · simp [mapGet, h, ih]

theorem mapGet_mapSetAll {V : Type} (kvs : List (String × V)) :
    ∀ (m : List (String × V)) (k : String),
      mapGet (mapSetAll m kvs) k = (mapGet kvs.reverse k).or (mapGet m k) := by
  induction kvs with
  | nil => intro m k; simp [mapSetAll, mapGet]
  | cons kv rest ih =>
    intro m k
    have h := ih (mapSet m kv.1 kv.2) k
    unfold mapSetAll at h ⊢
    rw [List.foldl_cons, h, List.reverse_cons, mapGet_append, Option.or_assoc, mapGet_mapSet]
    congr 1
    obtain ⟨k0, v⟩ := kv
    by_cases hk : k0 = k
    · simp [mapGet, hk]
    · simp [mapGet, hk]

theorem mapSetAll_keys_nodup {V : Type} (kvs : List (String × V)) :
    ∀ m : List (String × V), (mapKeys m).Nodup → (mapKeys (mapSetAll m kvs)).Nodup := by
  induction kvs with
  | nil => intro m hm; exact hm
  | cons kv rest ih =>
    intro m hm
    exact ih _ (mapSet_keys_nodup m kv.1 kv.2 hm)

theorem mapSetAll_append {V : Type} (m : List (String × V)) (a b : List (String × V)) :
    mapSetAll m (a ++ b) = mapSetAll (mapSetAll m a) b := by
  simp [mapSetAll, List.foldl_append]

theorem mem_mapKeys_iff_mapGet {V : Type} (m : List (String × V)) (k : String) :
    k ∈ mapKeys m ↔ ∃ v, mapGet m k = some v := by
  constructor
  · intro h
    cases hg : mapGet m k with
    | none => exact absurd h ((mapGet_eq_none_iff m k).mp hg)
    | some v => exact ⟨v, rfl⟩
  · rintro ⟨v, hv⟩
    by_contra hn
    rw [(mapGet_eq_none_iff m k).mpr hn] at hv
    cases hv

theorem mergeItems_eq (items : List JVal) :
    ∀ productMap : ItemsMap,
      mergeItems items productMap = mapSetAll productMap (items.filterMap parseItem) := by
  induction items with
  | nil => intro productMap; rfl
  | cons rawItem rest ih =>
    intro productMap
    unfold mergeItems mapSetAll at ih ⊢
    rw [List.foldl_cons, ih]
    cases hp : parseItem rawItem with
    | none => simp [List.filterMap_cons, hp]
    | some kv => simp [List.filterMap_cons, hp]

theorem mergeInventory_eq (inventoryList : List JVal) :
    ∀ inventoryMap : InventoryMap,
      mergeInventory inventoryList inventoryMap =
        mapSetAll inventoryMap (inventoryList.filterMap parseInventory) := by
  induction inventoryList with
  | nil => intro inventoryMap; rfl
  | cons rawInv rest ih =>
    intro inventoryMap
    unfold mergeInventory mapSetAll at ih ⊢
    rw [List.foldl_cons, ih]
    cases hp : parseInventory rawInv with
    | none => simp [List.filterMap_cons, hp]
    | some kv => simp [List.filterMap_cons, hp]

theorem parseItem_eq_some_iff (rawItem : JVal) (sku : String) (product : JMap) :
    parseItem rawItem = some (sku, product) ↔
      ∃ item, rawItem = .obj item ∧ jIndex item "sku" = .str sku ∧ sku ≠ "" ∧
        product = itemRecord sku item := by
  constructor
  · intro h
    unfold parseItem at h
    split at h
    · rename_i item
      split at h
      · rename_i sku' hsku
        split at h
        · cases h
        · rename_i hne
          simp only [Option.some.injEq, Prod.mk.injEq] at h
          obtain ⟨rfl, rfl⟩ := h
          exact ⟨item, rfl, hsku, hne, rfl⟩
      · cases h
    · cases h
  · rintro ⟨item, rfl, hsku, hne, rfl⟩
    simp [parseItem, hsku, hne]

theorem mem_keys_pageRecords (pages : List JMap) (sku : String) :
    sku ∈ mapKeys (pageRecords pages) ↔
      sku ≠ "" ∧ ∃ apiResp ∈ pages, ∃ item, JVal.obj item ∈ pageItems apiResp ∧
        jIndex item "sku" = .str sku := by
  unfold mapKeys pageRecords
  simp only [List.mem_map, List.mem_flatMap, List.mem_filterMap, Prod.exists]
  constructor
  · rintro ⟨k, product, ⟨apiResp, hpage, rawItem, hraw, hparse⟩, hk⟩
    subst hk
    obtain ⟨item, rfl, hsku, hne, _⟩ := (parseItem_eq_some_iff rawItem k product).mp hparse
    exact ⟨hne, apiResp, hpage, item, hraw, hsku⟩
  · rintro ⟨hne, apiResp, hpage, item, hraw, hsku⟩
    exact ⟨sku, itemRecord sku item, ⟨apiResp, hpage, .obj item, hraw,
      (parseItem_eq_some_iff _ _ _).mpr ⟨item, rfl, hsku, hne, rfl⟩⟩, rfl⟩

/-! ## The pagination loop of `FetchWalmartItems` -/

theorem fetchItemsLoop_page {σ : Type} (env : Env σ) (c : Client) (accessToken : String)
    (fuel : Nat) (nextCursor : String) (productMap : ItemsMap) (requests : List Request)
    (w : σ) (apiResp : JMap) (h : servesPage env accessToken nextCursor w apiResp) :
    fetchItemsLoop env c accessToken (fuel + 1) nextCursor productMap requests w =
      if pageCursor apiResp ≠ "" then
        fetchItemsLoop env c accessToken fuel (pageCursor apiResp)
          (mergeItems (pageItems apiResp) productMap)
          (requests ++ [pageRequest env accessToken nextCursor w])
          (worldAfterPage env accessToken nextCursor w)
      else
        some ⟨worldAfterPage env accessToken nextCursor w, c,
          requests ++ [pageRequest env accessToken nextCursor w],
          .ok (mergeItems (pageItems apiResp) productMap)⟩ := by
  obtain ⟨hreq, resp, hdo, h200, hparse, items, hitems⟩ := h
  unfold worldAfterPage
  unfold pageRequest at hdo ⊢
  rcases hpair : env.clientDo 30 (getRequest accessToken (env.newUUID w).1 (itemsURL nextCursor))
    (env.newUUID w).2 with ⟨r, w1⟩
  rw [hpair] at hdo
  simp only at hdo
  subst hdo
  rw [fetchItemsLoop]
  simp only [hreq, hpair, h200, hparse, hitems, pageItems, ne_eq, not_true_eq_false, if_false]

theorem fetchItemsLoop_pages {σ : Type} (env : Env σ) (c : Client) (accessToken : String)
    (pages : List JMap) :
    ∀ (fuel : Nat) (nextCursor : String) (productMap : ItemsMap) (requests : List Request)
      (w : σ), servesPages env accessToken nextCursor pages w →
      fetchItemsLoop env c accessToken (pages.length + fuel) nextCursor productMap requests w =
        fetchItemsLoop env c accessToken fuel (cursorAfter nextCursor pages)
          (mapSetAll productMap (pageRecords pages))
          (requests ++ pageRequests env accessToken nextCursor pages w)
          (worldAfterPages env accessToken nextCursor pages w) := by
  induction pages with
  | nil =>
    intro fuel nextCursor productMap requests w _
    simp [cursorAfter, pageRecords, mapSetAll, pageRequests, worldAfterPages]
  | cons apiResp rest ih =>
    intro fuel nextCursor productMap requests w h
    obtain ⟨hpage, hcur, hrest⟩ := h
    have hlen : (apiResp :: rest).length + fuel = (rest.length + fuel) + 1 := by
      simp only [List.length_cons]; omega
    rw [hlen, fetchItemsLoop_page env c accessToken _ nextCursor productMap requests w apiResp
      hpage, if_pos hcur, ih _ _ _ _ _ hrest, mergeItems_eq]
    simp only [cursorAfter, worldAfterPages, pageRequests, pageRecords, List.flatMap_cons,
      mapSetAll_append, List.append_assoc, List.singleton_append]

theorem pageRequests_urls {σ : Type} (env : Env σ) (accessToken : String) (pages : List JMap) :
    ∀ (nextCursor : String) (w : σ),
      (pageRequests env accessToken nextCursor pages w ++
        [pageRequest env accessToken (cursorAfter nextCursor pages)
          (worldAfterPages env accessToken nextCursor pages w)]).map Request.url =
        (nextCursor :: pages.map pageCursor).map itemsURL := by
  induction pages with
  | nil => intro nextCursor w; rfl
  | cons apiResp rest ih =>
    intro nextCursor w
    have h := ih (pageCursor apiResp) (worldAfterPage env accessToken nextCursor w)
    simp only [pageRequests, cursorAfter, worldAfterPages, List.cons_append, List.map_cons] at h ⊢
    rw [h]
    rfl

theorem pageRequests_length {σ : Type} (env : Env σ) (accessToken : String)
    (pages : List JMap) :
    ∀ (nextCursor : String) (w : σ),
      (pageRequests env accessToken nextCursor pages w).length = pages.length := by
  induction pages with
  | nil => intro nextCursor w; rfl
  | cons apiResp rest ih =>
    intro nextCursor w
    simp [pageRequests, ih]

theorem FetchWalmartItems_of_token {σ : Type} (env : Env σ) (fuel : Nat) (c : Client) (w : σ)
    (accessToken : String) (remaining : Int)
    (htoken : (GetAccessToken env c w).1 = .ok (accessToken, remaining)) :
    FetchWalmartItems env fuel c w =
      fetchItemsLoop env (GetAccessToken env c w).2.1 accessToken fuel "*" [] []
        (GetAccessToken env c w).2.2 := by
  rcases hg : GetAccessToken env c w with ⟨r, c1, w1⟩
  rw [hg] at htoken
  simp only at htoken
  subst htoken
  simp [FetchWalmartItems, hg]

theorem servesPages_cursors {σ : Type} (env : Env σ) (accessToken : String)
    (pages : List JMap) :
    ∀ (nextCursor : String) (w : σ), servesPages env accessToken nextCursor pages w →
      ∀ apiResp ∈ pages, pageCursor apiResp ≠ "" := by
  induction pages with
  | nil => intro _ _ _ apiResp h; simp at h
  | cons first rest ih =>
    intro nextCursor w h apiResp hmem
    obtain ⟨_, hcur, hrest⟩ := h
    rcases List.mem_cons.mp hmem with rfl | hmem
    · exact hcur
    · exact ih _ _ hrest apiResp hmem

theorem itemsURL_of_cursor (nextCursor : String) (h : nextCursor ≠ "") :
    itemsURL nextCursor =
      "https://marketplace.walmartapis.com/v3/items?offset=0&limit=50&nextCursor=" ++
        nextCursor := by
  unfold itemsURL
  rw [if_pos h, String.append_assoc]
  rfl

theorem itemRecord_basic (sku : String) (item : JMap) :
    jIndex (itemRecord sku item) "productName" = jIndex item "productName" ∧
    jIndex (itemRecord sku item) "sku" = .str sku ∧
    jIndex (itemRecord sku item) "upc" = jIndex item "upc" ∧
    jIndex (itemRecord sku item) "gtin" = jIndex item "gtin" ∧
    jIndex (itemRecord sku item) "wpid" = jIndex item "wpid" ∧
    jIndex (itemRecord sku item) "availability" = jIndex item "availability" ∧
    jIndex (itemRecord sku item) "publishedStatus" = jIndex item "publishedStatus" ∧
    jIndex (itemRecord sku item) "lifecycleStatus" = jIndex item "lifecycleStatus" := by
  unfold itemRecord
  split
  · split
    · simp [jIndex, mapGet, mapSet, mapDelete]
    · simp [jIndex, mapGet]
  · simp [jIndex, mapGet]

theorem itemRecord_price (sku : String) (item price : JMap) (amount : Rat)
    (h1 : jIndex item "price" = .obj price) (h2 : jIndex price "amount" = .num amount) :
    jIndex (itemRecord sku item) "price" = .num amount := by
  unfold itemRecord
  simp only [h1, h2]
  simp [jIndex, mapGet, mapSet]

theorem itemRecord_fields (sku : String) (item : JMap) :
    jIndex (itemRecord sku item) "productName" = jIndex item "productName" ∧
    jIndex (itemRecord sku item) "sku" = .str sku ∧
    jIndex (itemRecord sku item) "upc" = jIndex item "upc" ∧
    jIndex (itemRecord sku item) "gtin" = jIndex item "gtin" ∧
    jIndex (itemRecord sku item) "wpid" = jIndex item "wpid" ∧
    jIndex (itemRecord sku item) "availability" = jIndex item "availability" ∧
    jIndex (itemRecord sku item) "publishedStatus" = jIndex item "publishedStatus" ∧
    jIndex (itemRecord sku item) "lifecycleStatus" = jIndex item "lifecycleStatus" ∧
    (∀ price amount, jIndex item "price" = .obj price → jIndex price "amount" = .num amount →
      jIndex (itemRecord sku item) "price" = .num amount) := by
  obtain ⟨h1, h2, h3, h4, h5, h6, h7, h8⟩ := itemRecord_basic sku item
  exact ⟨h1, h2, h3, h4, h5, h6, h7, h8,
    fun price amount hp ha => itemRecord_price sku item price amount hp ha⟩

/-- C8: for an items feed of N >= 1 pages (`init` followed by `last`) in which every page
is a well-formed 200 response, every page of `init` declares a non-empty next cursor and
`last` declares none, `FetchWalmartItems` (given the access token and at least N
iterations) returns after exactly N page requests; the url of the first is the items url
followed by `&nextCursor=*` and the url of each further one is the items url followed by
`&nextCursor=` and the cursor of the page before it. The snapshot has exactly the non-empty
skus occurring on any page as keys, each key has the record built from its last occurrence
in page order, and every record holds the sku and the seven fields copied from the item it
was built from, and the amount of its price when the item has one. -/
theorem items_pagination {σ : Type} (env : Env σ) (fuel : Nat) (c : Client) (w : σ)
    (accessToken : String) (remaining : Int) (init : List JMap) (last : JMap)
    (htoken : (GetAccessToken env c w).1 = .ok (accessToken, remaining))
    (hinit : servesPages env accessToken "*" init (GetAccessToken env c w).2.2)
    (hlast : servesPage env accessToken (cursorAfter "*" init)
      (worldAfterPages env accessToken "*" init (GetAccessToken env c w).2.2) last)
    (hend : pageCursor last = "")
    (hfuel : init.length + 1 ≤ fuel) :
    ∃ (run : FetchRun σ ItemsMap) (productMap : ItemsMap),
      FetchWalmartItems env fuel c w = some run ∧
      run.requests.length = init.length + 1 ∧
      run.requests.map Request.url =
        ("*" :: init.map pageCursor).map (fun cursor =>
          "https://marketplace.walmartapis.com/v3/items?offset=0&limit=50&nextCursor=" ++
            cursor) ∧
      (∀ req ∈ run.requests, req.method = "GET") ∧
      run.result = .ok productMap ∧
      (mapKeys productMap).Nodup ∧
      (∀ sku, sku ∈ mapKeys productMap ↔
        sku ≠ "" ∧ ∃ apiResp ∈ init ++ [last], ∃ item,
          JVal.obj item ∈ pageItems apiResp ∧ jIndex item "sku" = .str sku) ∧
      (∀ sku, mapGet productMap sku = mapGet (pageRecords (init ++ [last])).reverse sku) ∧
      (∀ sku record, mapGet productMap sku = some record →
        ∃ apiResp ∈ init ++ [last], ∃ item, JVal.obj item ∈ pageItems apiResp ∧
          jIndex item "sku" = .str sku ∧
          jIndex record "productName" = jIndex item "productName" ∧
          jIndex record "sku" = .str sku ∧
          jIndex record "upc" = jIndex item "upc" ∧
          jIndex record "gtin" = jIndex item "gtin" ∧
          jIndex record "wpid" = jIndex item "wpid" ∧
          jIndex record "availability" = jIndex item "availability" ∧
          jIndex record "publishedStatus" = jIndex item "publishedStatus" ∧
          jIndex record "lifecycleStatus" = jIndex item "lifecycleStatus" ∧
          (∀ price amount, jIndex item "price" = .obj price →
            jIndex price "amount" = .num amount → jIndex record "price" = .num amount)) := by
  obtain ⟨extra, rfl⟩ : ∃ extra, fuel = init.length + (extra + 1) :=
    ⟨fuel - (init.length + 1), by omega⟩
  have hrun : FetchWalmartItems env (init.length + (extra + 1)) c w =
      some ⟨worldAfterPage env accessToken (cursorAfter "*" init)
          (worldAfterPages env accessToken "*" init (GetAccessToken env c w).2.2),
        (GetAccessToken env c w).2.1,
        pageRequests env accessToken "*" init (GetAccessToken env c w).2.2 ++
          [pageRequest env accessToken (cursorAfter "*" init)
            (worldAfterPages env accessToken "*" init (GetAccessToken env c w).2.2)],
        .ok (mapSetAll [] (pageRecords (init ++ [last])))⟩ := by
    rw [FetchWalmartItems_of_token env _ c w accessToken remaining htoken,
      fetchItemsLoop_pages env _ accessToken init (extra + 1) "*" [] [] _ hinit,
      fetchItemsLoop_page env _ accessToken extra _ _ _ _ last hlast, hend, mergeItems_eq]
    simp [pageRecords, mapSetAll_append]
  have hget : ∀ sku, mapGet (mapSetAll ([] : ItemsMap) (pageRecords (init ++ [last]))) sku =
      mapGet (pageRecords (init ++ [last])).reverse sku := by
    intro sku
    rw [mapGet_mapSetAll]
    simp [mapGet]
  have hurls := pageRequests_urls env accessToken init "*" (GetAccessToken env c w).2.2
  have hcur := servesPages_cursors env accessToken init "*" _ hinit
  refine ⟨_, _, hrun, ?_, ?_, ?_, rfl, ?_, ?_, hget, ?_⟩
  · simp [pageRequests_length]
  · show (pageRequests env accessToken "*" init (GetAccessToken env c w).2.2 ++
        [pageRequest env accessToken (cursorAfter "*" init)
          (worldAfterPages env accessToken "*" init (GetAccessToken env c w).2.2)]).map
        Request.url = _
    rw [hurls]
    apply List.map_congr_left
    intro cursor hmem
    apply itemsURL_of_cursor
    rcases List.mem_cons.mp hmem with rfl | hmem
    · decide
    · obtain ⟨apiResp, hp, rfl⟩ := List.mem_map.mp hmem
      exact hcur apiResp hp
  · intro req hreq
    have hall : ∀ (pages : List JMap) (nextCursor : String) (w0 : σ),
        ∀ r ∈ pageRequests env accessToken nextCursor pages w0, r.method = "GET" := by
      intro pages
      induction pages with
      | nil => intro _ _ r hr; simp [pageRequests] at hr
      | cons apiResp rest ih =>
        intro nextCursor w0 r hr
        simp only [pageRequests, List.mem_cons] at hr
        rcases hr with rfl | hr
        · rfl
        · exact ih _ _ r hr
    rcases List.mem_append.mp hreq with h | h
    · exact hall _ _ _ req h
    · simp only [List.mem_singleton] at h
      subst h
      rfl
  · exact mapSetAll_keys_nodup _ [] (by simp [mapKeys])
  · intro sku
    rw [← mem_keys_pageRecords]
    have h1 : sku ∈ mapKeys (mapSetAll ([] : ItemsMap) (pageRecords (init ++ [last]))) ↔
        sku ∈ mapKeys (pageRecords (init ++ [last])).reverse := by
      rw [mem_mapKeys_iff_mapGet, mem_mapKeys_iff_mapGet]
      simp only [hget]
    rw [h1]
    simp [mapKeys]
  · intro sku record hrec
    rw [hget] at hrec
    have hmem : (sku, record) ∈ pageRecords (init ++ [last]) :=
      List.mem_reverse.mp (mem_of_mapGet _ _ _ hrec)
    unfold pageRecords at hmem
    simp only [List.mem_flatMap, List.mem_filterMap] at hmem
    obtain ⟨apiResp, hpage, rawItem, hraw, hparse⟩ := hmem
    obtain ⟨item, rfl, hsku, _, rfl⟩ := (parseItem_eq_some_iff rawItem sku record).mp hparse
    exact ⟨apiResp, hpage, item, hraw, hsku, itemRecord_fields sku item⟩

/-- C8 on a feed of two pages: A1 occurs on both, a record without sku on the first. The
two requests are for the cursors "*" and "c2", and A1 has the record of the second page. -/
theorem items_pagination_witness :
    (FetchWalmartItems (scriptedEnv sampleBodies
        [{ StatusCode := 200, Body := "items-1" }, { StatusCode := 200, Body := "items-2" }])
        2 sampleClient 0).map (fun run => run.requests.map Request.url) =
      some ["https://marketplace.walmartapis.com/v3/items?offset=0&limit=50&nextCursor=*",
            "https://marketplace.walmartapis.com/v3/items?offset=0&limit=50&nextCursor=c2"] ∧
    ∃ (run : FetchRun Nat ItemsMap) (productMap : ItemsMap),
      FetchWalmartItems (scriptedEnv sampleBodies
        [{ StatusCode := 200, Body := "items-1" }, { StatusCode := 200, Body := "items-2" }])
        2 sampleClient 0 = some run ∧
      run.requests.length = [itemsPage1].length + 1 ∧
      run.result = .ok productMap ∧
      (mapKeys productMap).Nodup ∧
      (∀ sku, mapGet productMap sku =
        mapGet (pageRecords ([itemsPage1] ++ [itemsPage2])).reverse sku) :=
  ⟨by decide,
    (items_pagination (scriptedEnv sampleBodies
      [{ StatusCode := 200, Body := "items-1" }, { StatusCode := 200, Body := "items-2" }])
      2 sampleClient 0 "secret" 900 [itemsPage1] itemsPage2 rfl
      ⟨⟨rfl, _, rfl, rfl, rfl, _, rfl⟩, by decide, trivial⟩
      ⟨rfl, _, rfl, rfl, rfl, _, rfl⟩ rfl (by decide)).imp
      (fun _ h => h.imp (fun _ g => ⟨g.1, g.2.1, g.2.2.2.2.1, g.2.2.2.2.2.1,
        g.2.2.2.2.2.2.2.1⟩))⟩

theorem fetchItemsLoop_bad_status {σ : Type} (env : Env σ) (c : Client) (accessToken : String)
    (fuel : Nat) (nextCursor : String) (productMap : ItemsMap) (requests : List Request)
    (w : σ) (resp : Response)
    (hreq : env.newRequest "GET" (itemsURL nextCursor) = none)
    (hresp : (env.clientDo 30 (pageRequest env accessToken nextCursor w) (env.newUUID w).2).1 =
      .ok resp)
    (hstatus : resp.StatusCode ≠ 200) :
    ∃ run, fetchItemsLoop env c accessToken (fuel + 1) nextCursor productMap requests w =
        some run ∧
      run.requests = requests ++ [pageRequest env accessToken nextCursor w] ∧
      run.result = .error (errorsNew ("failed to fetch items: " ++ resp.Body)) := by
  unfold pageRequest at hresp ⊢
  rcases hpair : env.clientDo 30 (getRequest accessToken (env.newUUID w).1 (itemsURL nextCursor))
    (env.newUUID w).2 with ⟨r, w1⟩
  rw [hpair] at hresp
  simp only at hresp
  subst hresp
  rw [fetchItemsLoop]
  simp only [hreq, hpair, hstatus, ne_eq, not_false_eq_true, if_true]
  exact ⟨_, rfl, rfl, rfl⟩

theorem fetchItemsLoop_missing_field {σ : Type} (env : Env σ) (c : Client)
    (accessToken : String) (fuel : Nat) (nextCursor : String) (productMap : ItemsMap)
    (requests : List Request) (w : σ) (resp : Response) (apiResp : JMap)
    (hreq : env.newRequest "GET" (itemsURL nextCursor) = none)
    (hresp : (env.clientDo 30 (pageRequest env accessToken nextCursor w) (env.newUUID w).2).1 =
      .ok resp)
    (hstatus : resp.StatusCode = 200)
    (hparse : env.unmarshalMap resp.Body = .ok apiResp)
    (hmissing : mapGet apiResp "ItemResponse" = none) :
    ∃ run, fetchItemsLoop env c accessToken (fuel + 1) nextCursor productMap requests w =
        some run ∧
      run.requests = requests ++ [pageRequest env accessToken nextCursor w] ∧
      run.result =
        .error (errorsNew "unexpected API response format: missing 'ItemResponse'") := by
  unfold pageRequest at hresp ⊢
  rcases hpair : env.clientDo 30 (getRequest accessToken (env.newUUID w).1 (itemsURL nextCursor))
    (env.newUUID w).2 with ⟨r, w1⟩
  rw [hpair] at hresp
  simp only at hresp
  subst hresp
  rw [fetchItemsLoop]
  simp only [hreq, hpair, hstatus, hparse, hmissing, ne_eq, not_true_eq_false, if_false]
  exact ⟨_, rfl, rfl, rfl⟩

/-- C10: when, after any number of pages fetched and parsed successfully (`init`), the
next page request of `FetchWalmartItems` is answered with a status other than 200 (in
particular any non-2xx status), the call returns an error whose message is
"failed to fetch items: " followed by the raw response body, and no snapshot; when it is
answered with status 200 and a body that decodes to an object without the key
`ItemResponse`, the call returns the error
"unexpected API response format: missing 'ItemResponse'", and no snapshot. -/
theorem items_fetch_errors {σ : Type} (env : Env σ) (fuel : Nat) (c : Client) (w : σ)
    (accessToken : String) (remaining : Int) (init : List JMap) (resp : Response)
    (htoken : (GetAccessToken env c w).1 = .ok (accessToken, remaining))
    (hinit : servesPages env accessToken "*" init (GetAccessToken env c w).2.2)
    (hfuel : init.length + 1 ≤ fuel)
    (hreq : env.newRequest "GET" (itemsURL (cursorAfter "*" init)) = none)
    (hresp : (env.clientDo 30
      (pageRequest env accessToken (cursorAfter "*" init)
        (worldAfterPages env accessToken "*" init (GetAccessToken env c w).2.2))
      (env.newUUID (worldAfterPages env accessToken "*" init
        (GetAccessToken env c w).2.2)).2).1 = .ok resp) :
    (resp.StatusCode ≠ 200 →
      ∃ run, FetchWalmartItems env fuel c w = some run ∧
        run.requests.length = init.length + 1 ∧
        run.result = .error (errorsNew ("failed to fetch items: " ++ resp.Body)) ∧
        (errorsNew ("failed to fetch items: " ++ resp.Body)).Error =
          "failed to fetch items: " ++ resp.Body) ∧
    (resp.StatusCode = 200 →
      ∀ apiResp, env.unmarshalMap resp.Body = .ok apiResp →
        mapGet apiResp "ItemResponse" = none →
        ∃ run, FetchWalmartItems env fuel c w = some run ∧
          run.requests.length = init.length + 1 ∧
          run.result =
            .error (errorsNew "unexpected API response format: missing 'ItemResponse'")) := by
  obtain ⟨extra, rfl⟩ : ∃ extra, fuel = init.length + (extra + 1) :=
    ⟨fuel - (init.length + 1), by omega⟩
  have hloop := fetchItemsLoop_pages env (GetAccessToken env c w).2.1 accessToken init
    (extra + 1) "*" [] [] _ hinit
  constructor
  · intro hstatus
    obtain ⟨run, hrun, hreqs, hres⟩ := fetchItemsLoop_bad_status env
      (GetAccessToken env c w).2.1 accessToken extra (cursorAfter "*" init)
      (mapSetAll [] (pageRecords init))
      ([] ++ pageRequests env accessToken "*" init (GetAccessToken env c w).2.2)
      _ resp hreq hresp hstatus
    refine ⟨run, ?_, ?_, hres, rfl⟩
    · rw [FetchWalmartItems_of_token env _ c w accessToken remaining htoken, hloop, hrun]
    · rw [hreqs]
      simp [pageRequests_length]
  · intro hstatus apiResp hparse hmissing
    obtain ⟨run, hrun, hreqs, hres⟩ := fetchItemsLoop_missing_field env
      (GetAccessToken env c w).2.1 accessToken extra (cursorAfter "*" init)
      (mapSetAll [] (pageRecords init))
      ([] ++ pageRequests env accessToken "*" init (GetAccessToken env c w).2.2)
      _ resp apiResp hreq hresp hstatus hparse hmissing
    refine ⟨run, ?_, ?_, hres⟩
    · rw [FetchWalmartItems_of_token env _ c w accessToken remaining htoken, hloop, hrun]
    · rw [hreqs]
      simp [pageRequests_length]

/-- Witness for C10: the first page is served; the second request is answered with status
503 and body "busy", or with status 200 and an object without `ItemResponse`. -/
theorem items_fetch_errors_witness :
    (∃ run, FetchWalmartItems (scriptedEnv sampleBodies
        [{ StatusCode := 200, Body := "items-1" }, { StatusCode := 503, Body := "busy" }])
        5 sampleClient 0 = some run ∧
      run.requests.length = [itemsPage1].length + 1 ∧
      run.result = .error (errorsNew ("failed to fetch items: " ++
        ({ StatusCode := 503, Body := "busy" } : Response).Body)) ∧
      (errorsNew ("failed to fetch items: " ++
        ({ StatusCode := 503, Body := "busy" } : Response).Body)).Error =
        "failed to fetch items: " ++ ({ StatusCode := 503, Body := "busy" } : Response).Body) ∧
    (∃ run, FetchWalmartItems (scriptedEnv sampleBodies
        [{ StatusCode := 200, Body := "items-1" }, { StatusCode := 200, Body := "no-items" }])
        5 sampleClient 0 = some run ∧
      run.requests.length = [itemsPage1].length + 1 ∧
      run.result =
        .error (errorsNew "unexpected API response format: missing 'ItemResponse'")) :=
  ⟨(items_fetch_errors (scriptedEnv sampleBodies
      [{ StatusCode := 200, Body := "items-1" }, { StatusCode := 503, Body := "busy" }])
      5 sampleClient 0 "secret" 900 [itemsPage1] { StatusCode := 503, Body := "busy" } rfl
      ⟨⟨rfl, _, rfl, rfl, rfl, _, rfl⟩, by decide, trivial⟩ (by decide) rfl rfl).1 (by decide),
   (items_fetch_errors (scriptedEnv sampleBodies
      [{ StatusCode := 200, Body := "items-1" }, { StatusCode := 200, Body := "no-items" }])
      5 sampleClient 0 "secret" 900 [itemsPage1] { StatusCode := 200, Body := "no-items" } rfl
      ⟨⟨rfl, _, rfl, rfl, rfl, _, rfl⟩, by decide, trivial⟩ (by decide) rfl rfl).2 rfl
      [("error", .str "oops")] rfl rfl⟩

/-! ## The inventory fetch -/

theorem parseInventory_eq_some_iff (rawInv : JVal) (sku : String) (qty : Int) :
    parseInventory rawInv = some (sku, qty) ↔
      ∃ inv, rawInv = .obj inv ∧ jIndex inv "sku" = .str sku ∧ sku ≠ "" ∧
        qty = totalQty inv := by
  constructor
  · intro h
    unfold parseInventory at h
    split at h
    · rename_i inv
      split at h
      · rename_i sku' hsku
        split at h
        · cases h
        · rename_i hne
          simp only [Option.some.injEq, Prod.mk.injEq] at h
          obtain ⟨rfl, rfl⟩ := h
          exact ⟨inv, rfl, hsku, hne, rfl⟩
      · cases h
    · cases h
  · rintro ⟨inv, rfl, hsku, hne, rfl⟩
    simp [parseInventory, hsku, hne]

theorem mem_keys_mergeInventory (inventoryList : List JVal) (sku : String) :
    sku ∈ mapKeys (mergeInventory inventoryList []) ↔
      sku ≠ "" ∧ ∃ inv, JVal.obj inv ∈ inventoryList ∧ jIndex inv "sku" = .str sku := by
  have h1 : sku ∈ mapKeys (mergeInventory inventoryList []) ↔
      sku ∈ mapKeys (inventoryList.filterMap parseInventory).reverse := by
    rw [mem_mapKeys_iff_mapGet, mem_mapKeys_iff_mapGet, mergeInventory_eq]
    simp only [mapGet_mapSetAll, mapGet, Option.or_none]
  rw [h1]
  simp only [mapKeys, List.map_reverse, List.mem_reverse, List.mem_map, List.mem_filterMap,
    Prod.exists]
  constructor
  · rintro ⟨k, qty, ⟨rawInv, hraw, hparse⟩, hk⟩
    subst hk
    obtain ⟨inv, rfl, hsku, hne, _⟩ := (parseInventory_eq_some_iff rawInv k qty).mp hparse
    exact ⟨hne, inv, hraw, hsku⟩
  · rintro ⟨hne, inv, hraw, hsku⟩
    exact ⟨sku, totalQty inv, ⟨.obj inv, hraw,
      (parseInventory_eq_some_iff _ _ _).mpr ⟨inv, rfl, hsku, hne, rfl⟩⟩, rfl⟩

theorem fetchInventoryPage_requests {σ : Type} (env : Env σ) (c : Client)
    (accessToken : String) (w : σ) :
    (fetchInventoryPage env c accessToken w).requests.length ≤ 1 := by
  unfold fetchInventoryPage
  repeat' split
  all_goals simp

/-- C9 (amended): `FetchWalmartInventory` is not cursor-paginated. Whatever the transport
answers it makes at most one inventory request; given the access token, a request that is
built and a 200 response whose body decodes to an object with a `payload.inventory` array,
it makes exactly one request, for `limit=1000&offset=0`, and returns the snapshot of that
one response, whose keys are exactly the non-empty skus of its records, whether or not the
response declares a next cursor. -/
theorem inventory_single_request {σ : Type} (env : Env σ) (c : Client) (w : σ) :
    (FetchWalmartInventory env c w).requests.length ≤ 1 ∧
    (∀ (accessToken : String) (remaining : Int) (resp : Response) (apiResp payload : JMap)
      (inventoryList : List JVal),
      (GetAccessToken env c w).1 = .ok (accessToken, remaining) →
      env.newRequest "GET" inventoryURL = none →
      (env.clientDo 30
        (getRequest accessToken (env.newUUID (GetAccessToken env c w).2.2).1 inventoryURL)
        (env.newUUID (GetAccessToken env c w).2.2).2).1 = .ok resp →
      resp.StatusCode = 200 →
      env.unmarshalMap resp.Body = .ok apiResp →
      jIndex apiResp "payload" = .obj payload →
      jIndex payload "inventory" = .arr inventoryList →
      (FetchWalmartInventory env c w).requests =
        [getRequest accessToken (env.newUUID (GetAccessToken env c w).2.2).1 inventoryURL] ∧
      (FetchWalmartInventory env c w).result = .ok (mergeInventory inventoryList []) ∧
      ∀ sku, sku ∈ mapKeys (mergeInventory inventoryList []) ↔
        sku ≠ "" ∧ ∃ inv, JVal.obj inv ∈ inventoryList ∧ jIndex inv "sku" = .str sku) := by
  constructor
  · unfold FetchWalmartInventory
    split
    · simp
    · exact fetchInventoryPage_requests _ _ _ _
  · intro accessToken remaining resp apiResp payload inventoryList htoken hreq hresp h200
      hparse hpayload hinv
    rcases hg : GetAccessToken env c w with ⟨r, c1, w1⟩
    rw [hg] at htoken hresp
    simp only at htoken hresp
    subst htoken
    rcases hpair : env.clientDo 30 (getRequest accessToken (env.newUUID w1).1 inventoryURL)
      (env.newUUID w1).2 with ⟨r, w2⟩
    rw [hpair] at hresp
    simp only at hresp
    subst hresp
    refine ⟨?_, ?_, mem_keys_mergeInventory inventoryList⟩
    · simp [FetchWalmartInventory, fetchInventoryPage, hg, hreq, hpair, h200, hparse,
        hpayload, hinv]
    · simp [FetchWalmartInventory, fetchInventoryPage, hg, hreq, hpair, h200, hparse,
        hpayload, hinv]

/-- Witness for C9: the first inventory response of the sample feed, which declares a next
cursor. -/
theorem inventory_single_request_witness :
    (FetchWalmartInventory (scriptedEnv sampleBodies
      [{ StatusCode := 200, Body := "inventory-1" },
       { StatusCode := 200, Body := "inventory-2" }]) sampleClient 0).requests =
      [getRequest "secret" "6ba7b810-9dad-41d1-80b4-00c04fd430c8" inventoryURL] ∧
    (FetchWalmartInventory (scriptedEnv sampleBodies
      [{ StatusCode := 200, Body := "inventory-1" },
       { StatusCode := 200, Body := "inventory-2" }]) sampleClient 0).result =
      .ok (mergeInventory inventoryList1 []) ∧
    ∀ sku, sku ∈ mapKeys (mergeInventory inventoryList1 []) ↔
      sku ≠ "" ∧ ∃ inv, JVal.obj inv ∈ inventoryList1 ∧ jIndex inv "sku" = .str sku :=
  (inventory_single_request (scriptedEnv sampleBodies
    [{ StatusCode := 200, Body := "inventory-1" },
     { StatusCode := 200, Body := "inventory-2" }]) sampleClient 0).2
    "secret" 900 { StatusCode := 200, Body := "inventory-1" } inventoryPage1
    [("inventory", .arr inventoryList1)] inventoryList1 rfl rfl rfl rfl rfl rfl rfl

/-- C9 as stated fails: for an inventory feed of two pages, the first declaring a next
cursor, `FetchWalmartInventory` makes one request, not two, and the returned snapshot has
the sku A1 of the first page and not the sku B2 of the second. -/
theorem inventory_not_paginated :
    (FetchWalmartInventory (scriptedEnv sampleBodies
      [{ StatusCode := 200, Body := "inventory-1" },
       { StatusCode := 200, Body := "inventory-2" }]) sampleClient 0).requests.length = 1 ∧
    (FetchWalmartInventory (scriptedEnv sampleBodies
      [{ StatusCode := 200, Body := "inventory-1" },
       { StatusCode := 200, Body := "inventory-2" }]) sampleClient 0).result =
      .ok [("A1", 5)] ∧
    mapGet ([("A1", 5)] : InventoryMap) "B2" = none := by
  exact ⟨rfl, rfl, rfl⟩

/-! ## Records without a usable sku -/

theorem mem_mapKeys_mapSet {V : Type} (m : List (String × V)) (k k' : String) (v : V) :
    k' ∈ mapKeys (mapSet m k v) ↔ k' = k ∨ k' ∈ mapKeys m := by
  rw [mem_mapKeys_iff_mapGet, mem_mapKeys_iff_mapGet]
  simp only [mapGet_mapSet]
  by_cases h : k = k'
  · subst h
    simp
  · have h' : ¬ k' = k := fun e => h e.symm
    simp [h, h']

theorem mem_mapKeys_mapSetAll {V : Type} (kvs : List (String × V)) :
    ∀ (m : List (String × V)) (k : String),
      k ∈ mapKeys (mapSetAll m kvs) ↔ k ∈ mapKeys kvs ∨ k ∈ mapKeys m := by
  induction kvs with
  | nil => intro m k; simp [mapSetAll, mapKeys]
  | cons kv rest ih =>
    intro m k
    have h := ih (mapSet m kv.1 kv.2) k
    unfold mapSetAll at h ⊢
    rw [List.foldl_cons, h, mem_mapKeys_mapSet]
    simp only [mapKeys, List.map_cons, List.mem_cons]
    tauto

theorem parseItem_key_ne_empty (items : List JVal) :
    "" ∉ mapKeys (items.filterMap parseItem) := by
  intro h
  obtain ⟨kv, hkv, hk⟩ := List.mem_map.mp h
  obtain ⟨rawItem, _, hparse⟩ := List.mem_filterMap.mp hkv
  obtain ⟨k, product⟩ := kv
  obtain ⟨_, _, _, hne, _⟩ := (parseItem_eq_some_iff rawItem k product).mp hparse
  exact hne hk

theorem mergeItems_no_empty_key (items : List JVal) (productMap : ItemsMap)
    (h : "" ∉ mapKeys productMap) : "" ∉ mapKeys (mergeItems items productMap) := by
  rw [mergeItems_eq, mem_mapKeys_mapSetAll]
  rintro (h1 | h1)
  · exact parseItem_key_ne_empty items h1
  · exact h h1

theorem fetchItemsLoop_no_empty_key {σ : Type} (env : Env σ) (c : Client)
    (accessToken : String) (fuel : Nat) :
    ∀ (nextCursor : String) (productMap : ItemsMap) (requests : List Request) (w : σ)
      (run : FetchRun σ ItemsMap) (m : ItemsMap),
      "" ∉ mapKeys productMap →
      fetchItemsLoop env c accessToken fuel nextCursor productMap requests w = some run →
      run.result = .ok m → "" ∉ mapKeys m := by
  induction fuel with
  | zero =>
    intro nextCursor productMap requests w run m _ hrun
    simp [fetchItemsLoop] at hrun
  | succ fuel ih =>
    intro nextCursor productMap requests w run m hpm hrun hres
    rw [fetchItemsLoop] at hrun
    split at hrun
    · cases hrun
      cases hres
    · split at hrun
      · cases hrun
        cases hres
      · split at hrun
        · cases hrun
          cases hres
        · split at hrun
          · cases hrun
            cases hres
          · split at hrun
            · cases hrun
              cases hres
            · rename_i items _
              split at hrun
              · exact ih _ _ _ _ run m (mergeItems_no_empty_key items productMap hpm) hrun hres
              · cases hrun
                cases hres
                exact mergeItems_no_empty_key items productMap hpm
            · cases hrun
              cases hres

theorem items_feed_run {σ : Type} (env : Env σ) (fuel : Nat) (c : Client) (w : σ)
    (accessToken : String) (remaining : Int) (init : List JMap) (last : JMap)
    (htoken : (GetAccessToken env c w).1 = .ok (accessToken, remaining))
    (hinit : servesPages env accessToken "*" init (GetAccessToken env c w).2.2)
    (hlast : servesPage env accessToken (cursorAfter "*" init)
      (worldAfterPages env accessToken "*" init (GetAccessToken env c w).2.2) last)
    (hend : pageCursor last = "")
    (hfuel : init.length + 1 ≤ fuel) :
    ∃ run : FetchRun σ ItemsMap, FetchWalmartItems env fuel c w = some run ∧
      run.result = .ok (mapSetAll [] (pageRecords (init ++ [last]))) := by
  obtain ⟨extra, rfl⟩ : ∃ extra, fuel = init.length + (extra + 1) :=
    ⟨fuel - (init.length + 1), by omega⟩
  have hrun : FetchWalmartItems env (init.length + (extra + 1)) c w =
      some ⟨worldAfterPage env accessToken (cursorAfter "*" init)
          (worldAfterPages env accessToken "*" init (GetAccessToken env c w).2.2),
        (GetAccessToken env c w).2.1,
        pageRequests env accessToken "*" init (GetAccessToken env c w).2.2 ++
          [pageRequest env accessToken (cursorAfter "*" init)
            (worldAfterPages env accessToken "*" init (GetAccessToken env c w).2.2)],
        .ok (mapSetAll [] (pageRecords (init ++ [last])))⟩ := by
    rw [FetchWalmartItems_of_token env _ c w accessToken remaining htoken,
      fetchItemsLoop_pages env _ accessToken init (extra + 1) "*" [] [] _ hinit,
      fetchItemsLoop_page env _ accessToken extra _ _ _ _ last hlast, hend, mergeItems_eq]
    simp [pageRecords, mapSetAll_append]
  exact ⟨_, hrun, rfl⟩

theorem mergeItems_filter (items : List JVal) :
    ∀ productMap : ItemsMap,
      mergeItems (items.filter (fun rawItem => (parseItem rawItem).isSome)) productMap =
        mergeItems items productMap := by
  induction items with
  | nil => intro productMap; rfl
  | cons rawItem rest ih =>
    intro productMap
    cases hp : parseItem rawItem with
    | none =>
      rw [List.filter_cons_of_neg (by simp [hp]), ih]
      simp [mergeItems, hp]
    | some kv =>
      rw [List.filter_cons_of_pos (by simp [hp])]
      have h := ih (mapSet productMap kv.1 kv.2)
      simp only [mergeItems, List.foldl_cons, hp] at h ⊢
      exact h

theorem mergeInventory_filter (inventoryList : List JVal) :
    ∀ inventoryMap : InventoryMap,
      mergeInventory (inventoryList.filter (fun rawInv => (parseInventory rawInv).isSome))
          inventoryMap =
        mergeInventory inventoryList inventoryMap := by
  induction inventoryList with
  | nil => intro inventoryMap; rfl
  | cons rawInv rest ih =>
    intro inventoryMap
    cases hp : parseInventory rawInv with
    | none =>
      rw [List.filter_cons_of_neg (by simp [hp]), ih]
      simp [mergeInventory, hp]
    | some kv =>
      rw [List.filter_cons_of_pos (by simp [hp])]
      have h := ih (mapSet inventoryMap kv.1 kv.2)
      simp only [mergeInventory, List.foldl_cons, hp] at h ⊢
      exact h

theorem parse_none_of_bad_sku (item : JMap)
    (h : ∀ s, jIndex item "sku" = .str s → s = "") :
    parseItem (.obj item) = none ∧ parseInventory (.obj item) = none := by
  unfold parseItem parseInventory
  cases hs : jIndex item "sku" with
  | str s =>
    have := h s hs
    subst this
    simp [hs]
  | null => simp [hs]
  | bool b => simp [hs]
  | num q => simp [hs]
  | arr xs => simp [hs]
  | obj kvs => simp [hs]

theorem fetchInventoryPage_ok {σ : Type} (env : Env σ) (c : Client) (accessToken : String)
    (w : σ) (m : InventoryMap)
    (h : (fetchInventoryPage env c accessToken w).result = .ok m) :
    ∃ inventoryList, m = mergeInventory inventoryList [] := by
  unfold fetchInventoryPage at h
  split at h
  · cases h
  · split at h
    · cases h
    · split at h
      · cases h
      · split at h
        · cases h
        · split at h
          · split at h
            · rename_i inventoryList _
              simp only [Except.ok.injEq] at h
              exact ⟨inventoryList, h.symm⟩
            · cases h
          · cases h

theorem FetchWalmartInventory_ok {σ : Type} (env : Env σ) (c : Client) (w : σ)
    (m : InventoryMap) (h : (FetchWalmartInventory env c w).result = .ok m) :
    ∃ inventoryList, m = mergeInventory inventoryList [] := by
  unfold FetchWalmartInventory at h
  split at h
  · cases h
  · exact fetchInventoryPage_ok _ _ _ _ m h

theorem inventory_page_run {σ : Type} (env : Env σ) (c : Client) (w : σ)
    (accessToken : String) (remaining : Int) (resp : Response) (apiResp payload : JMap)
    (inventoryList : List JVal)
    (htoken : (GetAccessToken env c w).1 = .ok (accessToken, remaining))
    (hreq : env.newRequest "GET" inventoryURL = none)
    (hresp : (env.clientDo 30
      (getRequest accessToken (env.newUUID (GetAccessToken env c w).2.2).1 inventoryURL)
      (env.newUUID (GetAccessToken env c w).2.2).2).1 = .ok resp)
    (h200 : resp.StatusCode = 200)
    (hparse : env.unmarshalMap resp.Body = .ok apiResp)
    (hpayload : jIndex apiResp "payload" = .obj payload)
    (hinv : jIndex payload "inventory" = .arr inventoryList) :
    (FetchWalmartInventory env c w).result = .ok (mergeInventory inventoryList []) := by
  rcases hg : GetAccessToken env c w with ⟨r, c1, w1⟩
  rw [hg] at htoken hresp
  simp only at htoken hresp
  subst htoken
  rcases hpair : env.clientDo 30 (getRequest accessToken (env.newUUID w1).1 inventoryURL)
    (env.newUUID w1).2 with ⟨r, w2⟩
  rw [hpair] at hresp
  simp only at hresp
  subst hresp
  simp [FetchWalmartInventory, fetchInventoryPage, hg, hreq, hpair, h200, hparse,
    hpayload, hinv]

/-- C11: in `FetchWalmartItems` and `FetchWalmartInventory` a record whose sku is missing,
not a string or empty yields no entry and leaves the snapshot as if it were not in the
page; no snapshot either call returns has the empty string as a key; and on feeds of
well-formed 200 pages, whatever records they carry, both calls succeed and every record
with a non-empty sku is a key of the snapshot. -/
theorem skipped_records :
    (∀ item : JMap, (∀ s, jIndex item "sku" = .str s → s = "") →
      parseItem (.obj item) = none ∧ parseInventory (.obj item) = none) ∧
    (∀ (items : List JVal) (productMap : ItemsMap),
      mergeItems items productMap =
        mergeItems (items.filter (fun rawItem => (parseItem rawItem).isSome)) productMap) ∧
    (∀ (inventoryList : List JVal) (inventoryMap : InventoryMap),
      mergeInventory inventoryList inventoryMap =
        mergeInventory (inventoryList.filter (fun rawInv => (parseInventory rawInv).isSome))
          inventoryMap) ∧
    (∀ (σ : Type) (env : Env σ) (fuel : Nat) (c : Client) (w : σ)
      (run : FetchRun σ ItemsMap) (m : ItemsMap),
      FetchWalmartItems env fuel c w = some run → run.result = .ok m → "" ∉ mapKeys m) ∧
    (∀ (σ : Type) (env : Env σ) (c : Client) (w : σ) (m : InventoryMap),
      (FetchWalmartInventory env c w).result = .ok m → "" ∉ mapKeys m) ∧
    (∀ (σ : Type) (env : Env σ) (fuel : Nat) (c : Client) (w : σ) (accessToken : String)
      (remaining : Int) (init : List JMap) (last : JMap),
      (GetAccessToken env c w).1 = .ok (accessToken, remaining) →
      servesPages env accessToken "*" init (GetAccessToken env c w).2.2 →
      servesPage env accessToken (cursorAfter "*" init)
        (worldAfterPages env accessToken "*" init (GetAccessToken env c w).2.2) last →
      pageCursor last = "" →
      init.length + 1 ≤ fuel →
      ∃ (run : FetchRun σ ItemsMap) (productMap : ItemsMap),
        FetchWalmartItems env fuel c w = some run ∧ run.result = .ok productMap ∧
        ∀ apiResp ∈ init ++ [last], ∀ (item : JMap) (sku : String),
          JVal.obj item ∈ pageItems apiResp → jIndex item "sku" = .str sku → sku ≠ "" →
          sku ∈ mapKeys productMap) ∧
    (∀ (σ : Type) (env : Env σ) (c : Client) (w : σ) (accessToken : String)
      (remaining : Int) (resp : Response) (apiResp payload : JMap)
      (inventoryList : List JVal),
      (GetAccessToken env c w).1 = .ok (accessToken, remaining) →
      env.newRequest "GET" inventoryURL = none →
      (env.clientDo 30
        (getRequest accessToken (env.newUUID (GetAccessToken env c w).2.2).1 inventoryURL)
        (env.newUUID (GetAccessToken env c w).2.2).2).1 = .ok resp →
      resp.StatusCode = 200 →
      env.unmarshalMap resp.Body = .ok apiResp →
      jIndex apiResp "payload" = .obj payload →
      jIndex payload "inventory" = .arr inventoryList →
      ∃ inventoryMap, (FetchWalmartInventory env c w).result = .ok inventoryMap ∧
        ∀ (inv : JMap) (sku : String), JVal.obj inv ∈ inventoryList →
          jIndex inv "sku" = .str sku → sku ≠ "" → sku ∈ mapKeys inventoryMap) := by
  refine ⟨parse_none_of_bad_sku, fun items productMap => (mergeItems_filter items productMap).symm,
    fun l m => (mergeInventory_filter l m).symm, ?_, ?_, ?_, ?_⟩
  · intro σ env fuel c w run m hrun hres
    unfold FetchWalmartItems at hrun
    split at hrun
    · cases hrun
      cases hres
    · exact fetchItemsLoop_no_empty_key env _ _ fuel _ _ _ _ run m (by simp [mapKeys]) hrun hres
  · intro σ env c w m hres
    obtain ⟨inventoryList, rfl⟩ := FetchWalmartInventory_ok env c w m hres
    intro h
    exact ((mem_keys_mergeInventory inventoryList "").mp h).1 rfl
  · intro σ env fuel c w accessToken remaining init last htoken hinit hlast hend hfuel
    obtain ⟨run, hrun, hres⟩ := items_feed_run env fuel c w accessToken remaining init last
      htoken hinit hlast hend hfuel
    refine ⟨run, _, hrun, hres, ?_⟩
    intro apiResp hpage item sku hitem hsku hne
    rw [mem_mapKeys_mapSetAll]
    exact Or.inl ((mem_keys_pageRecords (init ++ [last]) sku).mpr
      ⟨hne, apiResp, hpage, item, hitem, hsku⟩)
  · intro σ env c w accessToken remaining resp apiResp payload inventoryList htoken hreq
      hresp h200 hparse hpayload hinv
    refine ⟨_, inventory_page_run env c w accessToken remaining resp apiResp payload
      inventoryList htoken hreq hresp h200 hparse hpayload hinv, ?_⟩
    intro inv sku hmem hsku hne
    exact (mem_keys_mergeInventory inventoryList sku).mpr ⟨hne, inv, hmem, hsku⟩

/-! ## Quantities of the inventory snapshot -/

theorem wrapInt64_of_inInt64 (x : Int) (h : inInt64 x) : wrapInt64 x = x := by
  unfold inInt64 at h
  unfold wrapInt64
  omega

theorem goInt_intCast (q : Int) : goInt (q : Rat) = q := by
  unfold goInt
  split <;> simp

theorem nodeQty_of_int (shipNode : JMap) (q : Int)
    (h : jIndex shipNode "availToSellQty" = .num (q : Rat)) : nodeQty (.obj shipNode) = q := by
  simp [nodeQty, h, goInt_intCast]

theorem qty_step (node : JVal) (acc : Int) :
    inInt64 (acc + nodeQty node) →
    (match node with
      | .obj shipNode =>
        match jIndex shipNode "availToSellQty" with
        | .num qty => wrapInt64 (acc + goInt qty)
        | _ => acc
      | _ => acc) = acc + nodeQty node := by
  intro h1
  cases node with
  | obj shipNode =>
    cases hq : jIndex shipNode "availToSellQty" with
    | num qty =>
      simp only [nodeQty, hq] at h1 ⊢
      exact wrapInt64_of_inInt64 _ h1
    | null => simp [nodeQty, hq]
    | bool b => simp [nodeQty, hq]
    | str s => simp [nodeQty, hq]
    | arr xs => simp [nodeQty, hq]
    | obj kvs => simp [nodeQty, hq]
  | null => simp [nodeQty]
  | bool b => simp [nodeQty]
  | num q => simp [nodeQty]
  | str s => simp [nodeQty]
  | arr xs => simp [nodeQty]

theorem foldl_qty_eq_sum (nodes : List JVal) :
    ∀ acc : Int,
      (∀ k, inInt64 (acc + ((nodes.take k).map nodeQty).sum)) →
      nodes.foldl
        (fun total node =>
          match node with
          | .obj shipNode =>
            match jIndex shipNode "availToSellQty" with
            | .num qty => wrapInt64 (total + goInt qty)
            | _ => total
          | _ => total) acc = acc + (nodes.map nodeQty).sum := by
  induction nodes with
  | nil => intro acc _; simp
  | cons node rest ih =>
    intro acc h
    have h1 := h 1
    simp only [List.take_succ_cons, List.take_zero, List.map_cons, List.map_nil, List.sum_cons,
      List.sum_nil, add_zero] at h1
    rw [List.foldl_cons, qty_step node acc h1, ih (acc + nodeQty node)]
    · simp [List.sum_cons, add_assoc]
    · intro k
      have := h (k + 1)
      simpa [List.take_succ_cons, List.sum_cons, add_assoc] using this

theorem totalQty_eq_sum (inv : JMap)
    (h : ∀ k, inInt64 (((shipNodesOf inv).take k).map nodeQty).sum) :
    totalQty inv = ((shipNodesOf inv).map nodeQty).sum := by
  unfold totalQty
  unfold shipNodesOf at h ⊢
  cases hn : jIndex inv "shipNodes" with
  | arr nodes =>
    simp only [hn] at h ⊢
    rw [foldl_qty_eq_sum nodes 0 (by simpa using h)]
    simp
  | null => simp
  | bool b => simp
  | num q => simp
  | str s => simp
  | obj kvs => simp

theorem mapGet_last_record (pre post : List JVal) (inv : JMap) (sku : String)
    (hsku : jIndex inv "sku" = .str sku) (hne : sku ≠ "")
    (hlast : ∀ later, JVal.obj later ∈ post → jIndex later "sku" ≠ .str sku) :
    mapGet (mergeInventory (pre ++ JVal.obj inv :: post) []) sku = some (totalQty inv) := by
  have hparse : parseInventory (.obj inv) = some (sku, totalQty inv) :=
    (parseInventory_eq_some_iff _ _ _).mpr ⟨inv, rfl, hsku, hne, rfl⟩
  have hpost : mapGet (post.filterMap parseInventory).reverse sku = none := by
    rw [mapGet_eq_none_iff]
    intro hmem
    have hmem' : sku ∈ mapKeys (post.filterMap parseInventory) := by
      simpa [mapKeys] using hmem
    obtain ⟨kv, hkv, hk⟩ := List.mem_map.mp hmem'
    obtain ⟨rawInv, hraw, hp⟩ := List.mem_filterMap.mp hkv
    obtain ⟨k, q⟩ := kv
    obtain ⟨later, rfl, hs, _, _⟩ := (parseInventory_eq_some_iff rawInv k q).mp hp
    simp only at hk
    subst hk
    exact hlast later hraw hs
  rw [mergeInventory_eq, mapGet_mapSetAll, List.filterMap_append, List.filterMap_cons, hparse,
    List.reverse_append, List.reverse_cons, List.append_assoc, mapGet_append, hpost]
  simp [mapGet]

theorem nodeQty_cases (node : JVal) :
    (∀ (shipNode : JMap) (q : Rat), node = .obj shipNode →
      jIndex shipNode "availToSellQty" = .num q →
      nodeQty node = if 0 ≤ q then ⌊q⌋ else ⌈q⌉) ∧
    (∀ shipNode : JMap, node = .obj shipNode →
      (∀ q : Rat, jIndex shipNode "availToSellQty" ≠ .num q) → nodeQty node = 0) ∧
    ((∀ shipNode : JMap, node ≠ .obj shipNode) → nodeQty node = 0) := by
  refine ⟨?_, ?_, ?_⟩
  · intro shipNode q hn hq
    subst hn
    simp only [nodeQty, hq]
    rfl
  · intro shipNode hn hq
    subst hn
    cases h : jIndex shipNode "availToSellQty" with
    | num q => exact absurd h (hq q)
    | null => simp [nodeQty, h]
    | bool b => simp [nodeQty, h]
    | str t => simp [nodeQty, h]
    | arr l => simp [nodeQty, h]
    | obj o => simp [nodeQty, h]
  · intro hn
    cases node with
    | obj shipNode => exact absurd rfl (hn shipNode)
    | null => rfl
    | bool b => rfl
    | num q => rfl
    | str t => rfl
    | arr l => rfl

theorem shipNodesOf_cases (inv : JMap) :
    (∀ nodes, jIndex inv "shipNodes" = .arr nodes → shipNodesOf inv = nodes) ∧
    ((∀ nodes, jIndex inv "shipNodes" ≠ .arr nodes) → shipNodesOf inv = []) := by
  constructor
  · intro nodes h
    simp only [shipNodesOf, h]
  · intro h
    cases hs : jIndex inv "shipNodes" with
    | arr nodes => exact absurd hs (h nodes)
    | null => simp [shipNodesOf, hs]
    | bool b => simp [shipNodesOf, hs]
    | num q => simp [shipNodesOf, hs]
    | str t => simp [shipNodesOf, hs]
    | obj o => simp [shipNodesOf, hs]

/-- C12 (amended): for a well-formed inventory response, the snapshot of
`FetchWalmartInventory` maps a non-empty sku to the sum, over the elements of the array
`shipNodes` of the last record of the response that carries that sku, of what each element
contributes, provided the contributions and the running sums fit in `int64`; it is 0 when
the record has no such array. An element that is an object whose `availToSellQty` is a
number `q` contributes `q` with its fraction discarded, hence `q` itself when `q` is an
integer; an element whose `availToSellQty` is anything else (missing, a string, an object
such as a unit with an amount) contributes 0, as does an element that is not an object.
Earlier records with the same sku do not count. -/
theorem inventory_quantities {σ : Type} (env : Env σ) (c : Client) (w : σ)
    (accessToken : String) (remaining : Int) (resp : Response) (apiResp payload : JMap)
    (inventoryList pre post : List JVal) (inv : JMap) (sku : String)
    (htoken : (GetAccessToken env c w).1 = .ok (accessToken, remaining))
    (hreq : env.newRequest "GET" inventoryURL = none)
    (hresp : (env.clientDo 30
      (getRequest accessToken (env.newUUID (GetAccessToken env c w).2.2).1 inventoryURL)
      (env.newUUID (GetAccessToken env c w).2.2).2).1 = .ok resp)
    (h200 : resp.StatusCode = 200)
    (hparse : env.unmarshalMap resp.Body = .ok apiResp)
    (hpayload : jIndex apiResp "payload" = .obj payload)
    (hinv : jIndex payload "inventory" = .arr inventoryList)
    (hsplit : inventoryList = pre ++ JVal.obj inv :: post)
    (hsku : jIndex inv "sku" = .str sku) (hne : sku ≠ "")
    (hlast : ∀ later, JVal.obj later ∈ post → jIndex later "sku" ≠ .str sku)
    (hnodes : ∀ node ∈ shipNodesOf inv, inInt64 (nodeQty node))
    (hsums : ∀ k, inInt64 (((shipNodesOf inv).take k).map nodeQty).sum) :
    ∃ inventoryMap, (FetchWalmartInventory env c w).result = .ok inventoryMap ∧
      mapGet inventoryMap sku = some ((shipNodesOf inv).map nodeQty).sum ∧
      (shipNodesOf inv = [] → mapGet inventoryMap sku = some 0) ∧
      (∀ nodes, jIndex inv "shipNodes" = .arr nodes → shipNodesOf inv = nodes) ∧
      ((∀ nodes, jIndex inv "shipNodes" ≠ .arr nodes) → shipNodesOf inv = []) ∧
      (∀ (shipNode : JMap) (q : Int), JVal.obj shipNode ∈ shipNodesOf inv →
        jIndex shipNode "availToSellQty" = .num (q : Rat) →
        nodeQty (.obj shipNode) = q ∧ inInt64 q) ∧
      (∀ (shipNode : JMap) (q : Rat), jIndex shipNode "availToSellQty" = .num q →
        nodeQty (.obj shipNode) = if 0 ≤ q then ⌊q⌋ else ⌈q⌉) ∧
      (∀ shipNode : JMap, (∀ q : Rat, jIndex shipNode "availToSellQty" ≠ .num q) →
        nodeQty (.obj shipNode) = 0) ∧
      (∀ node : JVal, (∀ shipNode : JMap, node ≠ .obj shipNode) → nodeQty node = 0) := by
  have hget : mapGet (mergeInventory inventoryList []) sku =
      some ((shipNodesOf inv).map nodeQty).sum := by
    rw [hsplit, mapGet_last_record pre post inv sku hsku hne hlast, totalQty_eq_sum inv hsums]
  refine ⟨_, inventory_page_run env c w accessToken remaining resp apiResp payload
    inventoryList htoken hreq hresp h200 hparse hpayload hinv, hget, ?_,
    (shipNodesOf_cases inv).1, (shipNodesOf_cases inv).2, ?_, ?_, ?_, ?_⟩
  · intro hnil
    rw [hget, hnil]
    rfl
  · intro shipNode q hmem hq
    have h1 := nodeQty_of_int shipNode q hq
    exact ⟨h1, h1 ▸ hnodes _ hmem⟩
  · intro shipNode q hq
    exact (nodeQty_cases (.obj shipNode)).1 shipNode q rfl hq
  · intro shipNode hq
    exact (nodeQty_cases (.obj shipNode)).2.1 shipNode rfl hq
  · intro node hn
    exact (nodeQty_cases node).2.2 hn

theorem inventoryRecordB2_nodes :
    shipNodesOf inventoryRecordB2 =
      [.obj [("availToSellQty", .num 2)],
       .obj [("availToSellQty", .num qty27)],
       .obj [("availToSellQty", .obj [("unit", .str "EACH"), ("amount", .num 5)])],
       .str "node"] := rfl

theorem qty27_eq : qty27 = 27 / 10 := by
  unfold qty27
  norm_num [Rat.mk'_eq_divInt, Rat.divInt_eq_div]

/-- C12 (amended) on a response with four records: A1 with 5 and 7 units, B2 with
ship-nodes of 2 units, 2.7 units, an object in place of the number and a string, C3 without
ship-nodes, and A1 again with 3 and 4 units. The snapshot maps A1 to 7 (the last record),
B2 to 4 (2 + 2 + 0 + 0) and C3 to 0. -/
theorem inventory_quantities_witness :
    ((FetchWalmartInventory (scriptedEnv mixedBodies
        [{ StatusCode := 200, Body := "inventory-mixed" }]) sampleClient 0).result.toOption =
      some [("A1", 7), ("C3", 0), ("B2", 4)]) ∧
    qtyOverAllRecords inventoryListMixed "A1" = 19 ∧
    (List.map nodeQty (shipNodesOf inventoryRecordB2) = [2, 2, 0, 0]) ∧
    nodeQty (.obj [("availToSellQty", .num (-qty27))]) = -2 ∧
    ∃ inventoryMap, (FetchWalmartInventory (scriptedEnv mixedBodies
        [{ StatusCode := 200, Body := "inventory-mixed" }]) sampleClient 0).result =
        .ok inventoryMap ∧
      mapGet inventoryMap "B2" = some ((shipNodesOf inventoryRecordB2).map nodeQty).sum :=
  ⟨by decide, by decide, by decide, by decide,
    (inventory_quantities (scriptedEnv mixedBodies
      [{ StatusCode := 200, Body := "inventory-mixed" }])
      sampleClient 0 "secret" 900 { StatusCode := 200, Body := "inventory-mixed" }
      [("payload", .obj [("inventory", .arr inventoryListMixed)])]
      [("inventory", .arr inventoryListMixed)] inventoryListMixed
      [.obj [("sku", .str "A1"), ("shipNodes", .arr
        [.obj [("availToSellQty", .num 5)], .obj [("availToSellQty", .num 7)]])]]
      [.obj [("sku", .str "C3")],
       .obj [("sku", .str "A1"), ("shipNodes", .arr
        [.obj [("availToSellQty", .num 3)], .obj [("availToSellQty", .num 4)]])]]
      inventoryRecordB2 "B2"
      rfl rfl rfl rfl rfl rfl rfl rfl rfl (by decide)
      (fun later h => by
        simp only [List.mem_cons, JVal.obj.injEq, List.mem_nil_iff, or_false] at h
        rcases h with rfl | rfl <;> simp [jIndex, mapGet])
      (fun node h => by
        rw [inventoryRecordB2_nodes] at h
        simp only [List.mem_cons, List.mem_nil_iff, or_false] at h
        unfold inInt64
        rcases h with rfl | rfl | rfl | rfl <;> decide)
      (fun k => by
        rw [inventoryRecordB2_nodes]
        unfold inInt64
        rcases k with _ | _ | _ | _ | _ | k <;>
          simp only [List.take_succ_cons, List.take_zero, List.take_nil] <;> decide)).imp
      (fun _ h => ⟨h.1, h.2.1⟩)⟩

/-- C12 as stated fails: when two records carry the sku A1, with 5 and 7 units, the
snapshot maps A1 to 7, the quantity of the last record, not to 12; and when the two
ship-nodes of one record carry 2^62 units each, the snapshot maps the sku to -2^63, the
wrapped `int64` sum, not to 2^63. -/
theorem inventory_not_summed_across_records :
    (FetchWalmartInventory (scriptedEnv inventoryBodies
        [{ StatusCode := 200, Body := "inventory-dup" }]) sampleClient 0).result =
      .ok [("A1", 7)] ∧
    qtyOverAllRecords inventoryListDup "A1" = 12 ∧
    (FetchWalmartInventory (scriptedEnv inventoryBodies
        [{ StatusCode := 200, Body := "inventory-big" }]) sampleClient 0).result =
      .ok [("B2", -9223372036854775808)] ∧
    qtyOverAllRecords inventoryListBig "B2" = 9223372036854775808 := by
  refine ⟨rfl, ?_, rfl, ?_⟩ <;> decide

/-! ## The token cache -/

theorem requestToken_sent {σ : Type} (env : Env σ) (c : Client) (w : σ)
    (sent : List Request) :
    ((requestToken (recordingEnv env) c (w, sent)).2.2 = sent ∧
      ∃ err, (requestToken (recordingEnv env) c (w, sent)).1 = .error err) ∨
    (requestToken (recordingEnv env) c (w, sent)).2.2 =
      sent ++ [tokenRequest env.base64 c (env.newUUID w).1] := by
  unfold requestToken
  cases hreq : (recordingEnv env).newRequest "POST"
      "https://marketplace.walmartapis.com/v3/token" with
  | some err => exact Or.inl ⟨rfl, err, rfl⟩
  | none =>
    right
    rcases hdo : env.clientDo 10 (tokenRequest env.base64 c (env.newUUID w).1)
      (env.newUUID w).2 with ⟨r, w1⟩
    cases r with
    | error err => simp [recordingEnv, hdo]
    | ok resp =>
      by_cases hs : resp.StatusCode = 200
      · cases hd : env.decodeToken resp with
        | error err => simp [recordingEnv, hdo, hs, hd]
        | ok token => simp [recordingEnv, hdo, hs, hd]
      · simp [recordingEnv, hdo, hs]

theorem refreshToken_frame {σ : Type} (env : Env σ) (c : Client) (w : σ)
    (sent : List Request) :
    ((∃ err, (refreshToken (recordingEnv env) c (w, sent)).1 = .error err) ∧
      (refreshToken (recordingEnv env) c (w, sent)).2.1 = c ∧
      ((refreshToken (recordingEnv env) c (w, sent)).2.2.2 = sent ∨
        (refreshToken (recordingEnv env) c (w, sent)).2.2.2 =
          sent ++ [tokenRequest env.base64 c (env.newUUID w).1])) ∨
    ((∃ token remaining, (refreshToken (recordingEnv env) c (w, sent)).1 =
        .ok (token, remaining)) ∧
      (refreshToken (recordingEnv env) c (w, sent)).2.2.2 =
        sent ++ [tokenRequest env.base64 c (env.newUUID w).1]) := by
  unfold refreshToken
  rcases hrt : requestToken (recordingEnv env) c (w, sent) with ⟨r, w1, sent1⟩
  have hsent := requestToken_sent env c w sent
  rw [hrt] at hsent
  cases r with
  | error err =>
    left
    refine ⟨⟨err, rfl⟩, rfl, ?_⟩
    rcases hsent with ⟨h, _⟩ | h
    · exact Or.inl h
    · exact Or.inr h
  | ok token =>
    right
    rcases hsent with ⟨_, err, herr⟩ | h
    · cases herr
    · exact ⟨⟨_, _, rfl⟩, h⟩

theorem GetAccessToken_cached {σ : Type} (env : Env σ) (c : Client) (w : σ)
    (hne : c.accessToken ≠ "") (hlt : (env.now w).1 < c.expiresAt) :
    GetAccessToken env c w =
      (.ok (c.accessToken, Int.tdiv (c.expiresAt - (env.now (env.now w).2).1) timeSecond), c,
        (env.now (env.now w).2).2) := by
  unfold GetAccessToken
  rw [if_pos hne, if_pos hlt]

theorem GetAccessToken_frame {σ : Type} (env : Env σ) (c : Client) (w : σ)
    (sent : List Request) :
    ((∃ remaining, (GetAccessToken (recordingEnv env) c (w, sent)).1 =
        .ok (c.accessToken, remaining)) ∧
      c.accessToken ≠ "" ∧ (env.now w).1 < c.expiresAt ∧
      (GetAccessToken (recordingEnv env) c (w, sent)).2.1 = c ∧
      (GetAccessToken (recordingEnv env) c (w, sent)).2.2.2 = sent) ∨
    ((∃ err, (GetAccessToken (recordingEnv env) c (w, sent)).1 = .error err) ∧
      (GetAccessToken (recordingEnv env) c (w, sent)).2.1 = c ∧
      ∃ l, (GetAccessToken (recordingEnv env) c (w, sent)).2.2.2 = sent ++ l ∧ l.length ≤ 1) ∨
    ((∃ token remaining, (GetAccessToken (recordingEnv env) c (w, sent)).1 =
        .ok (token, remaining)) ∧
      ¬ (c.accessToken ≠ "" ∧ (env.now w).1 < c.expiresAt) ∧
      ∃ req, req.url = "https://marketplace.walmartapis.com/v3/token" ∧
        (GetAccessToken (recordingEnv env) c (w, sent)).2.2.2 = sent ++ [req]) := by
  have key : ∀ w0 : σ,
      ((∃ err, (refreshToken (recordingEnv env) c (w0, sent)).1 = .error err) ∧
        (refreshToken (recordingEnv env) c (w0, sent)).2.1 = c ∧
        ∃ l, (refreshToken (recordingEnv env) c (w0, sent)).2.2.2 = sent ++ l ∧ l.length ≤ 1) ∨
      ((∃ token remaining, (refreshToken (recordingEnv env) c (w0, sent)).1 =
          .ok (token, remaining)) ∧
        ∃ req, req.url = "https://marketplace.walmartapis.com/v3/token" ∧
          (refreshToken (recordingEnv env) c (w0, sent)).2.2.2 = sent ++ [req]) := by
    intro w0
    rcases refreshToken_frame env c w0 sent with ⟨herr, hc, hs | hs⟩ | ⟨hok, hs⟩
    · exact Or.inl ⟨herr, hc, [], by simpa using hs, by simp⟩
    · exact Or.inl ⟨herr, hc, _, hs, by simp⟩
    · exact Or.inr ⟨hok, _, rfl, hs⟩
  by_cases hne : c.accessToken ≠ ""
  · by_cases hlt : (env.now w).1 < c.expiresAt
    · left
      have h := GetAccessToken_cached (recordingEnv env) c (w, sent) hne hlt
      rw [h]
      exact ⟨⟨_, rfl⟩, hne, hlt, rfl, rfl⟩
    · right
      have h : GetAccessToken (recordingEnv env) c (w, sent) =
          refreshToken (recordingEnv env) c ((env.now w).2, sent) := by
        unfold GetAccessToken
        rw [if_pos hne, if_neg (by simpa [recordingEnv] using hlt)]
        rfl
      rw [h]
      rcases key (env.now w).2 with h1 | ⟨h1, h2⟩
      · exact Or.inl h1
      · exact Or.inr ⟨h1, fun hh => hlt hh.2, h2⟩
  · right
    have h : GetAccessToken (recordingEnv env) c (w, sent) =
        refreshToken (recordingEnv env) c (w, sent) := by
      unfold GetAccessToken
      rw [if_neg hne]
    rw [h]
    rcases key w with h1 | ⟨h1, h2⟩
    · exact Or.inl h1
    · exact Or.inr ⟨h1, fun hh => hne hh.1, h2⟩

theorem tokenCalls_insideWindow {σ : Type} (env : Env σ) (c : Client) :
    ∀ (n : Nat) (w : σ) (sent : List Request),
      insideWindow (recordingEnv env) n c (w, sent) →
      (tokenCalls (recordingEnv env) n c (w, sent)).1 = c ∧
      (tokenCalls (recordingEnv env) n c (w, sent)).2.2 = sent := by
  intro n
  induction n with
  | zero => intro w sent _; exact ⟨rfl, rfl⟩
  | succ n ih =>
    intro w sent h
    obtain ⟨hne, hlt, hrest⟩ := h
    have hc := GetAccessToken_cached (recordingEnv env) c (w, sent) hne hlt
    rw [hc] at hrest
    show (tokenCalls (recordingEnv env) n (GetAccessToken (recordingEnv env) c (w, sent)).2.1
      (GetAccessToken (recordingEnv env) c (w, sent)).2.2).1 = c ∧
      (tokenCalls (recordingEnv env) n (GetAccessToken (recordingEnv env) c (w, sent)).2.1
      (GetAccessToken (recordingEnv env) c (w, sent)).2.2).2.2 = sent
    rw [hc]
    exact ih _ sent hrest

/-- C13: `GetAccessToken`, observed over a transport that records every request, (1) with a
non-empty cached token and a clock before `expiresAt` returns the cached token, leaves the
cached pair unchanged and sends nothing; (2) when it returns an error (the Go code returns
the empty token with it) the client, hence the cached token and expiry, is unchanged;
(3) the client changes only in a call that returns a token after sending one request to the
token endpoint; (4) one call sends at most one request; (5) any number of calls that each
find the cached token valid leave the cache unchanged and send nothing; and (6) a call
followed by any number of calls inside the validity window of the cache it left sends at
most one request in total. -/
theorem token_cache_frame {σ : Type} (env : Env σ) (c : Client) (w : σ)
    (sent : List Request) :
    (c.accessToken ≠ "" → (env.now w).1 < c.expiresAt →
      (∃ remaining, (GetAccessToken (recordingEnv env) c (w, sent)).1 =
        .ok (c.accessToken, remaining)) ∧
      (GetAccessToken (recordingEnv env) c (w, sent)).2.1 = c ∧
      (GetAccessToken (recordingEnv env) c (w, sent)).2.2.2 = sent) ∧
    (∀ err, (GetAccessToken (recordingEnv env) c (w, sent)).1 = .error err →
      (GetAccessToken (recordingEnv env) c (w, sent)).2.1 = c) ∧
    ((GetAccessToken (recordingEnv env) c (w, sent)).2.1 ≠ c →
      (∃ token remaining, (GetAccessToken (recordingEnv env) c (w, sent)).1 =
        .ok (token, remaining)) ∧
      ∃ req, req.url = "https://marketplace.walmartapis.com/v3/token" ∧
        (GetAccessToken (recordingEnv env) c (w, sent)).2.2.2 = sent ++ [req]) ∧
    (∃ l, (GetAccessToken (recordingEnv env) c (w, sent)).2.2.2 = sent ++ l ∧ l.length ≤ 1) ∧
    (∀ n, insideWindow (recordingEnv env) n c (w, sent) →
      (tokenCalls (recordingEnv env) n c (w, sent)).1 = c ∧
      (tokenCalls (recordingEnv env) n c (w, sent)).2.2 = sent) ∧
    (∀ n, insideWindow (recordingEnv env) n (GetAccessToken (recordingEnv env) c (w, sent)).2.1
        (GetAccessToken (recordingEnv env) c (w, sent)).2.2 →
      ∃ l, (tokenCalls (recordingEnv env) (n + 1) c (w, sent)).2.2 = sent ++ l ∧
        l.length ≤ 1) := by
  have hone : ∃ l, (GetAccessToken (recordingEnv env) c (w, sent)).2.2.2 = sent ++ l ∧
      l.length ≤ 1 := by
    rcases GetAccessToken_frame env c w sent with ⟨_, _, _, _, hs⟩ | ⟨_, _, hl⟩ | ⟨_, _, req, _, hs⟩
    · exact ⟨[], by simpa using hs, by simp⟩
    · exact hl
    · exact ⟨[req], hs, by simp⟩
  refine ⟨?_, ?_, ?_, hone, ?_, ?_⟩
  · intro hne hlt
    have hc := GetAccessToken_cached (recordingEnv env) c (w, sent) hne hlt
    rw [hc]
    exact ⟨⟨_, rfl⟩, rfl, rfl⟩
  · intro err herr
    rcases GetAccessToken_frame env c w sent with ⟨_, _, _, hc, _⟩ | ⟨_, hc, _⟩ | ⟨⟨t, r, hok⟩, _⟩
    · exact hc
    · exact hc
    · rw [hok] at herr; cases herr
  · intro hchg
    rcases GetAccessToken_frame env c w sent with ⟨_, _, _, hc, _⟩ | ⟨_, hc, _⟩ | ⟨hok, _, hreq⟩
    · exact absurd hc hchg
    · exact absurd hc hchg
    · exact ⟨hok, hreq⟩
  · intro n h
    exact tokenCalls_insideWindow env c n w sent h
  · intro n h
    obtain ⟨l, hl, hlen⟩ := hone
    refine ⟨l, ?_, hlen⟩
    show (tokenCalls (recordingEnv env) n (GetAccessToken (recordingEnv env) c (w, sent)).2.1
      (GetAccessToken (recordingEnv env) c (w, sent)).2.2).2.2 = sent ++ l
    rcases hg : GetAccessToken (recordingEnv env) c (w, sent) with ⟨r, c1, w1, sent1⟩
    rw [hg] at h hl
    have := tokenCalls_insideWindow env c1 n w1 sent1 h
    rw [this.2]
    exact hl

/-- C13 on the scripted transport: the first call refreshes the empty cache with one token
request, and the three calls that follow, all inside the validity window of 900 seconds,
send nothing more. -/
theorem token_cache_frame_witness :
    (tokenCalls (recordingEnv (scriptedEnv [] [])) 4 sampleClient (0, [])).2.2 =
      [tokenRequest (scriptedEnv [] []).base64 sampleClient
        "6ba7b810-9dad-41d1-80b4-00c04fd430c8"] ∧
    (tokenCalls (recordingEnv (scriptedEnv [] [])) 4 sampleClient (0, [])).1 =
      { sampleClient with accessToken := "secret", expiresAt := 900000000000 } ∧
    ∃ l, (tokenCalls (recordingEnv (scriptedEnv [] [])) 4 sampleClient (0, [])).2.2 =
      [] ++ l ∧ l.length ≤ 1 :=
  ⟨by decide, by decide,
    (token_cache_frame (scriptedEnv [] []) sampleClient 0 []).2.2.2.2.2 3
      (by decide)⟩

/-! ## Expiry of a returned token -/

theorem wrapInt64_seconds_pos (s : Int) (h0 : 0 < s) (h1 : s ≤ 9223372036) :
    0 < wrapInt64 (s * timeSecond) := by
  have h : inInt64 (s * timeSecond) := by
    unfold inInt64 timeSecond
    constructor <;> omega
  rw [wrapInt64_of_inInt64 _ h]
  unfold timeSecond
  omega

/-- C14 (amended): when `GetAccessToken` returns a token without error, either it is the
cached token, which was non-empty and whose `expiresAt` is strictly after the clock reading
of the check, with the cache unchanged; or it is the token of a successful token request,
and then the new `expiresAt` is the clock reading taken after the request plus the `int64`
product of `expires_in` and 10^9 nanoseconds, which is strictly after that reading whenever
`0 < expires_in ≤ 9223372036`. -/
theorem token_unexpired {σ : Type} (env : Env σ) (c : Client) (w : σ) (token : String)
    (remaining : Int) (hok : (GetAccessToken env c w).1 = .ok (token, remaining)) :
    (c.accessToken ≠ "" ∧ (env.now w).1 < c.expiresAt ∧ token = c.accessToken ∧
      (GetAccessToken env c w).2.1 = c) ∨
    (¬ (c.accessToken ≠ "" ∧ (env.now w).1 < c.expiresAt) ∧
      ∃ (t : tokenResponse) (w0 w1 : σ), requestToken env c w0 = (.ok t, w1) ∧
        token = t.AccessToken ∧ remaining = t.ExpiresIn ∧
        (GetAccessToken env c w).2.1.accessToken = t.AccessToken ∧
        (GetAccessToken env c w).2.1.expiresAt =
          (env.now w1).1 + wrapInt64 (t.ExpiresIn * timeSecond) ∧
        (0 < t.ExpiresIn → t.ExpiresIn ≤ 9223372036 →
          (env.now w1).1 < (GetAccessToken env c w).2.1.expiresAt)) := by
  have key : ∀ w0 : σ, (refreshToken env c w0).1 = .ok (token, remaining) →
      ∃ (t : tokenResponse) (w1 : σ), requestToken env c w0 = (.ok t, w1) ∧
        token = t.AccessToken ∧ remaining = t.ExpiresIn ∧
        (refreshToken env c w0).2.1.accessToken = t.AccessToken ∧
        (refreshToken env c w0).2.1.expiresAt =
          (env.now w1).1 + wrapInt64 (t.ExpiresIn * timeSecond) ∧
        (0 < t.ExpiresIn → t.ExpiresIn ≤ 9223372036 →
          (env.now w1).1 < (refreshToken env c w0).2.1.expiresAt) := by
    intro w0 h
    unfold refreshToken at h ⊢
    rcases hrt : requestToken env c w0 with ⟨r, w1⟩
    rw [hrt] at h
    cases r with
    | error err => cases h
    | ok t =>
      simp only [Except.ok.injEq, Prod.mk.injEq] at h
      refine ⟨t, w1, rfl, h.1.symm, h.2.symm, rfl, rfl, ?_⟩
      intro h0 h1
      have := wrapInt64_seconds_pos t.ExpiresIn h0 h1
      show (env.now w1).1 < (env.now w1).1 + wrapInt64 (t.ExpiresIn * timeSecond)
      omega
  by_cases hne : c.accessToken ≠ ""
  · by_cases hlt : (env.now w).1 < c.expiresAt
    · left
      have hc := GetAccessToken_cached env c w hne hlt
      rw [hc] at hok ⊢
      simp only [Except.ok.injEq, Prod.mk.injEq] at hok
      exact ⟨hne, hlt, hok.1.symm, rfl⟩
    · right
      have h : GetAccessToken env c w = refreshToken env c (env.now w).2 := by
        unfold GetAccessToken
        rw [if_pos hne, if_neg hlt]
      rw [h] at hok ⊢
      obtain ⟨t, w1, h1⟩ := key _ hok
      exact ⟨fun hh => hlt hh.2, t, _, w1, h1⟩
  · right
    have h : GetAccessToken env c w = refreshToken env c w := by
      unfold GetAccessToken
      rw [if_neg hne]
    rw [h] at hok ⊢
    obtain ⟨t, w1, h1⟩ := key _ hok
    exact ⟨fun hh => hne hh.1, t, _, w1, h1⟩

/-- C14 (amended) on the scripted transport: the empty cache is refreshed with the token
"secret" valid for 900 seconds, and the new expiry is after the clock reading 0. -/
theorem token_unexpired_witness :
    (GetAccessToken (scriptedEnv [] []) sampleClient 0).1 = .ok ("secret", 900) ∧
    (GetAccessToken (scriptedEnv [] []) sampleClient 0).2.1.expiresAt = 900000000000 ∧
    ((sampleClient.accessToken ≠ "" ∧ ((scriptedEnv [] []).now 0).1 < sampleClient.expiresAt ∧
        "secret" = sampleClient.accessToken ∧
        (GetAccessToken (scriptedEnv [] []) sampleClient 0).2.1 = sampleClient) ∨
      (¬ (sampleClient.accessToken ≠ "" ∧
          ((scriptedEnv [] []).now 0).1 < sampleClient.expiresAt) ∧
        ∃ (t : tokenResponse) (w0 w1 : Nat),
          requestToken (scriptedEnv [] []) sampleClient w0 = (.ok t, w1) ∧
          "secret" = t.AccessToken ∧ (900 : Int) = t.ExpiresIn ∧
          (GetAccessToken (scriptedEnv [] []) sampleClient 0).2.1.accessToken =
            t.AccessToken ∧
          (GetAccessToken (scriptedEnv [] []) sampleClient 0).2.1.expiresAt =
            ((scriptedEnv [] []).now w1).1 + wrapInt64 (t.ExpiresIn * timeSecond) ∧
          (0 < t.ExpiresIn → t.ExpiresIn ≤ 9223372036 →
            ((scriptedEnv [] []).now w1).1 <
              (GetAccessToken (scriptedEnv [] []) sampleClient 0).2.1.expiresAt))) :=
  ⟨rfl, by decide, token_unexpired (scriptedEnv [] []) sampleClient 0 "secret" 900 rfl⟩

/-- C14 as stated fails: with the clock at 5, a token endpoint answering `expires_in` 0,
-10 or 4611686018427387904 (whose product with 10^9 wraps to 0 in `int64`) makes
`GetAccessToken` return the non-empty token "tok" without error while the cached
`expiresAt` is not after the clock. -/
theorem token_expired_on_return :
    ((GetAccessToken (tokenEnv ⟨"tok", 0⟩ 5) sampleClient 0).1 = .ok ("tok", 0) ∧
      (GetAccessToken (tokenEnv ⟨"tok", 0⟩ 5) sampleClient 0).2.1.expiresAt = 5 ∧
      ¬ ((tokenEnv ⟨"tok", 0⟩ 5).now (GetAccessToken (tokenEnv ⟨"tok", 0⟩ 5) sampleClient 0).2.2).1 <
        (GetAccessToken (tokenEnv ⟨"tok", 0⟩ 5) sampleClient 0).2.1.expiresAt) ∧
    ((GetAccessToken (tokenEnv ⟨"tok", -10⟩ 5) sampleClient 0).1 = .ok ("tok", -10) ∧
      (GetAccessToken (tokenEnv ⟨"tok", -10⟩ 5) sampleClient 0).2.1.expiresAt =
        -9999999995) ∧
    ((GetAccessToken (tokenEnv ⟨"tok", 4611686018427387904⟩ 5) sampleClient 0).1 =
        .ok ("tok", 4611686018427387904) ∧
      (GetAccessToken (tokenEnv ⟨"tok", 4611686018427387904⟩ 5) sampleClient 0).2.1.expiresAt =
        5) := by
  refine ⟨⟨rfl, ?_, ?_⟩, ⟨rfl, ?_⟩, ⟨rfl, ?_⟩⟩ <;> decide

/-! ## Construction of the client -/

theorem GetInstance_first {σ : Type} (env : Env σ) (getenv : String → String) (w : σ)
    (hmissing : getenv "WM_PARTNER_ID" = "" ∨ getenv "WALMART_CLIENT_ID" = "" ∨
      getenv "WALMART_CLIENT_SECRET" = "") :
    GetInstance env getenv {} w =
      (⟨none, some (errorsNew "missing required environment variables")⟩,
        { theInstance := none, onceDone := true }, w) := by
  unfold GetInstance
  simp [hmissing]

theorem GetInstance_later {σ : Type} (env : Env σ) (getenv : String → String) (w : σ) :
    GetInstance env getenv { theInstance := none, onceDone := true } w =
      (⟨none, none⟩, { theInstance := none, onceDone := true }, w) := by
  unfold GetInstance
  simp

/-- C15 (the code at a failing input): in a process whose client id and client secret are
empty, the first call of `GetInstance` returns no client and the error "missing required
environment variables", and the second call, made from the package state the first one
left, returns no client and no error; `NewClient` does the same. -/
theorem getInstance_second_call :
    (GetInstance (scriptedEnv [] []) partnerOnly {} 0).1 =
      ⟨none, some (errorsNew "missing required environment variables")⟩ ∧
    (GetInstance (scriptedEnv [] []) partnerOnly
      (GetInstance (scriptedEnv [] []) partnerOnly {} 0).2.1
      (GetInstance (scriptedEnv [] []) partnerOnly {} 0).2.2).1 = ⟨none, none⟩ ∧
    (NewClient (scriptedEnv [] []) partnerOnly
      (NewClient (scriptedEnv [] []) partnerOnly {} 0).2.1
      (NewClient (scriptedEnv [] []) partnerOnly {} 0).2.2).1 = ⟨none, none⟩ := by
  decide

/-! ## The error count of a pass -/

theorem listingStatusID_ne_five (lifecycleStatus availability publishedStatus : String) :
    listingStatusID lifecycleStatus availability publishedStatus ≠ 5 := by
  unfold listingStatusID
  split_ifs <;> decide

theorem imageBackfill_counted {σ : Type} (repo : InventoryRepository σ)
    (search : ItemSearchFn σ) (sku : String) (product : Product) (w : σ) :
    (imageBackfill repo search sku product w).1.filter Event.counted = [] := by
  unfold imageBackfill
  rcases hs : search product.ProductName product.UPC product.GTIN w with ⟨r, w1⟩
  cases r with
  | error err => simp [Event.counted, Call.countedOnFailure]
  | ok imageURL => simp [Event.counted, Call.countedOnFailure, Outcome.isFailed]

theorem statusUpdate_counted {σ : Type} (repo : InventoryRepository σ) (sku : String)
    (existingProduct product : Product) (w : σ) (h : product.ListingStatusID ≠ 5) :
    (statusUpdate repo sku existingProduct product w).1.filter Event.counted = [] := by
  unfold statusUpdate
  split
  · simp [Event.counted, Call.countedOnFailure, h]
  · rfl

theorem imageUpdate_counted {σ : Type} (repo : InventoryRepository σ)
    (search : ItemSearchFn σ) (sku : String) (existingProduct product : Product) (w : σ) :
    (imageUpdate repo search sku existingProduct product w).1.filter Event.counted = [] := by
  unfold imageUpdate
  split
  · exact imageBackfill_counted repo search sku product w
  · rfl

theorem updateExisting_counted {σ : Type} (repo : InventoryRepository σ)
    (search : ItemSearchFn σ) (sku : String) (product existingProduct : Product) (w : σ)
    (h : product.ListingStatusID ≠ 5) :
    ((updateExisting repo search sku product existingProduct w).events.filter
        Event.counted).length =
      if (updateExisting repo search sku product existingProduct w).ending = .skipped
      then 1 else 0 := by
  unfold updateExisting
  rcases h1 : repo.UpdateProduct product w with ⟨e1, w1⟩
  cases e1 with
  | some err => simp [Event.counted, Call.countedOnFailure, Outcome.isFailed]
  | none =>
    rcases h2 : repo.UpdateWmtProductDetail product.ID product w1 with ⟨e2, w2⟩
    cases e2 with
    | some err => simp [h2, Event.counted, Call.countedOnFailure, Outcome.isFailed]
    | none =>
      simp [h2, List.filter_append, statusUpdate_counted repo sku existingProduct product w2 h,
        imageUpdate_counted, Event.counted, Outcome.isFailed]

theorem insertNew_counted {σ : Type} (repo : InventoryRepository σ)
    (search : ItemSearchFn σ) (sku : String) (product : Product) (w : σ)
    (h : product.ListingStatusID ≠ 5) :
    ((insertNew repo search sku product w).events.filter Event.counted).length =
      if (insertNew repo search sku product w).ending = .skipped then 1 else 0 := by
  unfold insertNew
  rcases h1 : repo.InsertProduct product w with ⟨r1, w1⟩
  cases r1 with
  | error err => simp [Event.counted, Call.countedOnFailure, Outcome.isFailed]
  | ok productID =>
    rcases h2 : repo.InsertWmtProductDetail productID product w1 with ⟨e2, w2⟩
    cases e2 with
    | some err => simp [h2, Event.counted, Call.countedOnFailure, Outcome.isFailed]
    | none =>
      simp [h2, List.filter_append, imageBackfill_counted, Event.counted, Outcome.isFailed,
        Call.countedOnFailure, h]

theorem runItem_counted {σ : Type} (repo : InventoryRepository σ) (search : ItemSearchFn σ)
    (inventoryMap : List (String × Int)) (sku : String) (productData : JMap) (w : σ) :
    ((runItem repo search inventoryMap sku productData w).events.filter Event.counted).length =
      if (runItem repo search inventoryMap sku productData w).ending = .skipped
      then 1 else 0 := by
  have hne : (candidate inventoryMap sku productData).ListingStatusID ≠ 5 :=
    listingStatusID_ne_five _ _ _
  unfold runItem
  rcases hget : repo.GetProductBySKU sku w with ⟨r, w0⟩
  cases r with
  | error err => simp [Event.counted, Call.countedOnFailure, Outcome.isFailed]
  | ok found =>
    cases found with
    | some existingProduct =>
      have h := updateExisting_counted repo search sku
        { candidate inventoryMap sku productData with ID := existingProduct.ID }
        existingProduct w0 hne
      simpa [Event.counted, Outcome.isFailed] using h
    | none =>
      have h := insertNew_counted repo search sku (candidate inventoryMap sku productData)
        w0 hne
      simpa [Event.counted, Outcome.isFailed] using h

theorem processItem_errorCount {σ : Type} (repo : InventoryRepository σ)
    (search : ItemSearchFn σ) (inventoryMap : List (String × Int)) (sku : String)
    (productData : JMap) (st : PassState σ)
    (h : st.errorCount = ((st.log.filter Event.counted).length : Int)) :
    (processItem repo search inventoryMap sku productData st).errorCount =
      (((processItem repo search inventoryMap sku productData st).log.filter
        Event.counted).length : Int) := by
  rw [processItem_log, List.filter_append, List.length_append, runItem_counted]
  unfold processItem
  dsimp only
  split <;> rename_i hend <;> simp [hend, h]

theorem reconcileLoop_errorCount {σ : Type} (repo : InventoryRepository σ)
    (search : ItemSearchFn σ) (inventoryMap : List (String × Int))
    (items : List (String × JMap)) (st : PassState σ)
    (h : st.errorCount = ((st.log.filter Event.counted).length : Int)) :
    (reconcileLoop repo search inventoryMap items st).errorCount =
      (((reconcileLoop repo search inventoryMap items st).log.filter
        Event.counted).length : Int) := by
  induction items generalizing st with
  | nil => exact h
  | cons sd rest ih =>
    obtain ⟨sku, productData⟩ := sd
    unfold reconcileLoop
    exact ih _ (processItem_errorCount repo search inventoryMap sku productData st h)

theorem delistOne_errorCount {σ : Type} (repo : InventoryRepository σ) (p : Product)
    (st : PassState σ) (h : st.errorCount = ((st.log.filter Event.counted).length : Int)) :
    (delistOne repo p st).errorCount =
      (((delistOne repo p st).log.filter Event.counted).length : Int) := by
  unfold delistOne
  rcases hu : repo.UpdateListingStatus p.ID 5 st.world with ⟨e, w⟩
  cases e with
  | none => simp [List.filter_append, Event.counted, Outcome.isFailed, h]
  | some err =>
    simp [List.filter_append, Event.counted, Outcome.isFailed, Call.countedOnFailure, h]

theorem delistLoop_errorCount {σ : Type} (repo : InventoryRepository σ)
    (l : List (String × Product)) (st : PassState σ)
    (h : st.errorCount = ((st.log.filter Event.counted).length : Int)) :
    (delistLoop repo l st).errorCount =
      (((delistLoop repo l st).log.filter Event.counted).length : Int) := by
  induction l generalizing st with
  | nil => exact h
  | cons kp rest ih =>
    obtain ⟨k, p⟩ := kp
    unfold delistLoop
    exact ih _ (delistOne_errorCount repo p st h)

theorem reconcilePass_errorCount {σ : Type} (repo : InventoryRepository σ)
    (search : ItemSearchFn σ) (rangeOrder : List (String × Product) → List (String × Product))
    (productsMap : List (String × JMap)) (inventoryMap : List (String × Int)) (w : σ) :
    (reconcilePass repo search rangeOrder productsMap inventoryMap w).errorCount =
      (((reconcilePass repo search rangeOrder productsMap inventoryMap w).log.filter
        Event.counted).length : Int) := by
  unfold reconcilePass
  rcases hF : repo.FindAll w with ⟨r, w0⟩
  cases r with
  | error err => simp [Event.counted, Call.countedOnFailure]
  | ok dbProducts =>
    dsimp only
    apply delistLoop_errorCount
    apply reconcileLoop_errorCount
    simp [passStart, Event.counted, Outcome.isFailed]

theorem reconcileLoop_lookup {σ : Type} (repo : InventoryRepository σ)
    (search : ItemSearchFn σ) (inventoryMap : List (String × Int))
    (items : List (String × JMap)) (st : PassState σ) (sku : String) (productData : JMap)
    (hmem : (sku, productData) ∈ items) :
    ∃ e ∈ (reconcileLoop repo search inventoryMap items st).log,
      e.sku = some sku ∧ e.call = .GetProductBySKU sku := by
  induction items generalizing st with
  | nil => simp at hmem
  | cons sd rest ih =>
    obtain ⟨sku1, productData1⟩ := sd
    unfold reconcileLoop
    rcases List.mem_cons.mp hmem with heq | hrest
    · simp only [Prod.mk.injEq] at heq
      obtain ⟨h1, h2⟩ := heq
      subst h1
      subst h2
      have hhead : ∃ e, (runItem repo search inventoryMap sku productData st.world).events.head?
          = some e ∧ e.sku = some sku ∧ e.call = .GetProductBySKU sku := by
        rcases runItem_head repo search inventoryMap sku productData st.world with
          ⟨err, _, h⟩ | ⟨found, _, h⟩
        · exact ⟨_, h, rfl, rfl⟩
        · exact ⟨_, h, rfl, rfl⟩
      obtain ⟨e, he, hs, hc⟩ := hhead
      refine ⟨e, ?_, hs, hc⟩
      apply reconcileLoop_log_mono
      rw [processItem_log]
      exact List.mem_append_right _ (List.mem_of_mem_head? he)
    · exact ih _ hrest

/-- The error count and the log: at the end of every pass the error count equals the number
of failed entries among `GetProductBySKU`, `InsertProduct`, `InsertWmtProductDetail`, `UpdateProduct`,
`UpdateWmtProductDetail` and `UpdateListingStatus(_, 5)` (the call of the final loop); a
failed `UpdateListingStatus` inside an item iteration, a failed `ItemSearch` and a failed
`InsertProductImage` are not counted. When `FindAll` succeeds, every entry of the remote
snapshot gets its `GetProductBySKU` call whatever failed before it. -/
theorem error_count_log {σ : Type} (repo : InventoryRepository σ) (search : ItemSearchFn σ)
    (rangeOrder : List (String × Product) → List (String × Product))
    (productsMap : List (String × JMap)) (inventoryMap : List (String × Int)) (w : σ) :
    (reconcilePass repo search rangeOrder productsMap inventoryMap w).errorCount =
      (((reconcilePass repo search rangeOrder productsMap inventoryMap w).log.filter
        Event.counted).length : Int) ∧
    (∀ e ∈ (reconcilePass repo search rangeOrder productsMap inventoryMap w).log,
      e.counted = true → e.failedStep = true) ∧
    (∀ (sku productName upc gtin imageUrl lifecycleStatus availability publishedStatus : String)
        (productID : Int) (err : GoError),
      Event.failedStep ⟨some sku, .ItemSearch productName upc gtin, .failed err⟩ = true ∧
      Event.counted ⟨some sku, .ItemSearch productName upc gtin, .failed err⟩ = false ∧
      Event.failedStep ⟨some sku, .InsertProductImage gtin imageUrl, .failed err⟩ = true ∧
      Event.counted ⟨some sku, .InsertProductImage gtin imageUrl, .failed err⟩ = false ∧
      Event.failedStep ⟨some sku, .UpdateListingStatus productID
        (listingStatusID lifecycleStatus availability publishedStatus), .failed err⟩ = true ∧
      Event.counted ⟨some sku, .UpdateListingStatus productID
        (listingStatusID lifecycleStatus availability publishedStatus), .failed err⟩ = false) ∧
    (∀ dbProducts, (repo.FindAll w).1 = .ok dbProducts →
      ∀ sku productData, (sku, productData) ∈ productsMap →
        ∃ e ∈ (reconcilePass repo search rangeOrder productsMap inventoryMap w).log,
          e.sku = some sku ∧ e.call = .GetProductBySKU sku) := by
  refine ⟨reconcilePass_errorCount repo search rangeOrder productsMap inventoryMap w, ?_, ?_, ?_⟩
  · intro e _ hc
    unfold Event.counted at hc
    unfold Event.failedStep
    simp only [Bool.and_eq_true] at hc ⊢
    refine ⟨hc.1, ?_⟩
    have h2 := hc.2
    cases hcall : e.call <;> simp [hcall, Call.countedOnFailure] at h2 ⊢
  · intro sku productName upc gtin imageUrl lifecycleStatus availability publishedStatus
      productID err
    simp [Event.counted, Event.failedStep, Call.countedOnFailure, Outcome.isFailed,
      listingStatusID_ne_five]
  · intro dbProducts hfind sku productData hmem
    rw [reconcilePass_of_findAll repo search rangeOrder productsMap inventoryMap w dbProducts
      hfind]
    obtain ⟨e, he, h1, h2⟩ := reconcileLoop_lookup repo search inventoryMap productsMap
      (passStart dbProducts (repo.FindAll w).2) sku productData hmem
    exact ⟨e, delistLoop_log_mono repo _ _ e he, h1, h2⟩

/-- C16 as stated fails: a pass over one new item in which `UpdateListingStatus` and
`InsertProductImage` fail reports 0 errors for 2 failed steps, and a pass over one new item
whose image search fails reports 0 errors for 1 failed step; both passes report 1 success,
and the two failed calls of the first are among the calls the repository received. -/
theorem error_count_misses_failures :
    (reconcilePass statusFailRepo sampleSearch id [("A1", remoteA1)] [] 100).errorCount = 0 ∧
    ((reconcilePass statusFailRepo sampleSearch id [("A1", remoteA1)] [] 100).log.filter
      Event.failedStep).map Event.call =
      [.UpdateListingStatus 100 1, .InsertProductImage "00000001" "https://img/00000001"] ∧
    (reconcilePass (tableRepo [] false) failingSearch id [("A1", remoteA1)] [] 100).errorCount
      = 0 ∧
    ((reconcilePass (tableRepo [] false) failingSearch id [("A1", remoteA1)] [] 100).log.filter
      Event.failedStep).map Event.call = [.ItemSearch "Widget" "0001" "00000001"] ∧
    (reconcilePass statusFailRepo sampleSearch id [("A1", remoteA1)] [] 100).successCount = 1 ∧
    (reconcilePass (tableRepo [] false) failingSearch id [("A1", remoteA1)] [] 100).successCount
      = 1 ∧
    tracedCalls ((recordedPass statusFailRepo sampleSearch id [("A1", remoteA1)] []
      100).world.2.filter tracedFailed) =
      [.UpdateListingStatus 100 1, .InsertProductImage "00000001" "https://img/00000001"] ∧
    (recordedPass statusFailRepo sampleSearch id [("A1", remoteA1)] [] 100).errorCount = 0 := by
  decide

/-! ## Image search -/

theorem ItemSearch_of_token {σ : Type} (env : Env σ) (lib : SearchLib) (c : Client)
    (productName upc gtin : String) (w : σ) (accessToken : String) (remaining : Int)
    (htoken : (GetAccessToken env c w).1 = .ok (accessToken, remaining)) :
    ItemSearch env lib c productName upc gtin w =
      match searchParams productName upc gtin with
      | none =>
        ⟨(GetAccessToken env c w).2.2, (GetAccessToken env c w).2.1, [],
          .error (errorsNew "no query parameter provided")⟩
      | some queryParams =>
        match env.newRequest "GET" (searchURL lib queryParams) with
        | some err => ⟨(GetAccessToken env c w).2.2, (GetAccessToken env c w).2.1, [], .error err⟩
        | none =>
          searchSend env lib (GetAccessToken env c w).2.1 productName
            (getRequest accessToken (env.newUUID (GetAccessToken env c w).2.2).1
              (searchURL lib queryParams))
            (env.newUUID (GetAccessToken env c w).2.2).2 := by
  unfold ItemSearch
  rcases hg : GetAccessToken env c w with ⟨r, c1, w1⟩
  rw [hg] at htoken
  simp only at htoken
  subst htoken
  rfl

theorem searchSend_requests {σ : Type} (env : Env σ) (lib : SearchLib) (c : Client)
    (productName : String) (req : Request) (w : σ) :
    (searchSend env lib c productName req w).requests = [req] := by
  unfold searchSend
  rcases hdo : env.clientDo 10 req w with ⟨r, w1⟩
  cases r with
  | error err => rfl
  | ok resp =>
    dsimp only
    cases hread : resp.readErr with
    | some err => rfl
    | none =>
      dsimp only
      cases hdec : lib.unmarshalSearch resp.Body with
      | error err => rfl
      | ok items =>
        dsimp only
        cases hm : matchImage lib productName items <;> rfl

/-- C17: given that `GetAccessToken` returns a token, `ItemSearch` sets exactly one query
parameter: `gtin` with the gtin when it is non-empty; otherwise `upc` with the upc when it
is non-empty; otherwise `query` with the product name when it is non-empty. When all three
are empty it returns the error "no query parameter provided", passes no search request to
the transport and leaves the world as `GetAccessToken` left it. When a parameter is set
and the request can be built, the only search request is the GET of the search url ending
in the encoded parameter; when it cannot be built, no request is sent. -/
theorem item_search_query {σ : Type} (env : Env σ) (lib : SearchLib) (c : Client)
    (productName upc gtin : String) (w : σ) (accessToken : String) (remaining : Int)
    (htoken : (GetAccessToken env c w).1 = .ok (accessToken, remaining)) :
    (gtin ≠ "" → searchParams productName upc gtin = some [("gtin", gtin)]) ∧
    (gtin = "" → upc ≠ "" → searchParams productName upc gtin = some [("upc", upc)]) ∧
    (gtin = "" → upc = "" → productName ≠ "" →
      searchParams productName upc gtin = some [("query", productName)]) ∧
    (gtin = "" → upc = "" → productName = "" →
      (ItemSearch env lib c productName upc gtin w).result =
        .error (errorsNew "no query parameter provided") ∧
      (ItemSearch env lib c productName upc gtin w).requests = [] ∧
      (ItemSearch env lib c productName upc gtin w).world = (GetAccessToken env c w).2.2) ∧
    (∀ queryParams, searchParams productName upc gtin = some queryParams →
      (env.newRequest "GET" (searchURL lib queryParams) = none →
        (ItemSearch env lib c productName upc gtin w).requests =
          [getRequest accessToken (env.newUUID (GetAccessToken env c w).2.2).1
            ("https://marketplace.walmartapis.com/v3/items/walmart/search?" ++
              lib.valuesEncode queryParams)]) ∧
      (∀ err, env.newRequest "GET" (searchURL lib queryParams) = some err →
        (ItemSearch env lib c productName upc gtin w).result = .error err ∧
        (ItemSearch env lib c productName upc gtin w).requests = [] ∧
        (ItemSearch env lib c productName upc gtin w).world =
          (GetAccessToken env c w).2.2)) := by
  have hrun := ItemSearch_of_token env lib c productName upc gtin w accessToken remaining htoken
  refine ⟨?_, ?_, ?_, ?_, ?_⟩
  · intro h
    simp [searchParams, h]
  · intro h1 h2
    simp [searchParams, h1, h2]
  · intro h1 h2 h3
    simp [searchParams, h1, h2, h3]
  · intro h1 h2 h3
    have hp : searchParams productName upc gtin = none := by simp [searchParams, h1, h2, h3]
    rw [hrun, hp]
    exact ⟨rfl, rfl, rfl⟩
  · intro queryParams hp
    rw [hrun, hp]
    dsimp only
    constructor
    · intro hreq
      rw [hreq]
      exact searchSend_requests _ _ _ _ _ _
    · intro err hreq
      rw [hreq]
      exact ⟨rfl, rfl, rfl⟩

/-- C17 on the sample transport: a search with upc "0001" and no gtin sends the single
request for `upc=0001`. -/
theorem item_search_query_witness :
    (GetAccessToken searchEnv sampleClient 0).1 = .ok ("secret", 900) ∧
    searchParams "Widget" "0001" "" = some [("upc", "0001")] ∧
    (ItemSearch searchEnv sampleLib sampleClient "Widget" "0001" "" 0).requests =
      [getRequest "secret" "6ba7b810-9dad-41d1-80b4-00c04fd430c8"
        "https://marketplace.walmartapis.com/v3/items/walmart/search?upc=0001"] ∧
    (ItemSearch searchEnv sampleLib sampleClient "" "" "" 0).result =
      .error (errorsNew "no query parameter provided") ∧
    (ItemSearch searchEnv sampleLib sampleClient "" "" "" 0).requests = [] :=
  ⟨rfl,
    (item_search_query searchEnv sampleLib sampleClient "Widget" "0001" "" 0 "secret" 900
      rfl).2.1 rfl (by decide),
    by decide,
    ((item_search_query searchEnv sampleLib sampleClient "" "" "" 0 "secret" 900
      rfl).2.2.2.1 rfl rfl rfl).1,
    by decide⟩

theorem matchImage_cons_suits (lib : SearchLib) (productName : String) (item : SearchItem)
    (rest : List SearchItem) (img : SearchImage) (imgs : List SearchImage)
    (htitle : lib.equalFold item.Title productName = true) (himg : item.Images = img :: imgs) :
    matchImage lib productName (item :: rest) = some img.URL := by
  unfold matchImage
  simp [htitle, himg]

theorem matchImage_cons_skip (lib : SearchLib) (productName : String) (item : SearchItem)
    (rest : List SearchItem) (h : ¬ item.suits lib productName) :
    matchImage lib productName (item :: rest) = matchImage lib productName rest := by
  have h1 : ¬ (lib.equalFold item.Title productName = true ∧ item.Images.length > 0) := by
    intro hh
    exact h ⟨hh.1, List.ne_nil_of_length_pos hh.2⟩
  rw [matchImage, if_neg h1]

theorem matchImage_skip_prefix (lib : SearchLib) (productName : String)
    (pre rest : List SearchItem) (h : ∀ x ∈ pre, ¬ x.suits lib productName) :
    matchImage lib productName (pre ++ rest) = matchImage lib productName rest := by
  induction pre with
  | nil => rfl
  | cons x pre ih =>
    rw [List.cons_append, matchImage_cons_skip lib productName x _ (h x (List.mem_cons_self _ _))]
    exact ih (fun y hy => h y (List.mem_cons_of_mem _ hy))

theorem matchImage_eq_none_iff (lib : SearchLib) (productName : String)
    (items : List SearchItem) :
    matchImage lib productName items = none ↔ ∀ x ∈ items, ¬ x.suits lib productName := by
  induction items with
  | nil => simp [matchImage]
  | cons item rest ih =>
    by_cases hs : item.suits lib productName
    · obtain ⟨htitle, himg⟩ := hs
      obtain ⟨img, imgs, hcons⟩ := List.exists_cons_of_ne_nil himg
      rw [matchImage_cons_suits lib productName item rest img imgs htitle hcons]
      constructor
      · intro h; cases h
      · intro h
        exact absurd ⟨htitle, himg⟩ (h item (List.mem_cons_self _ _))
    · rw [matchImage_cons_skip lib productName item rest hs, ih]
      constructor
      · intro h x hx
        rcases List.mem_cons.mp hx with rfl | hx
        · exact hs
        · exact h x hx
      · intro h x hx
        exact h x (List.mem_cons_of_mem _ hx)

theorem matchImage_eq_some (lib : SearchLib) (productName : String)
    (items : List SearchItem) (imageURL : String)
    (h : matchImage lib productName items = some imageURL) :
    ∃ pre item img imgs post, items = pre ++ item :: post ∧
      (∀ x ∈ pre, ¬ x.suits lib productName) ∧
      lib.equalFold item.Title productName = true ∧ item.Images = img :: imgs ∧
      imageURL = img.URL := by
  induction items with
  | nil => simp [matchImage] at h
  | cons item rest ih =>
    by_cases hs : item.suits lib productName
    · obtain ⟨htitle, himg⟩ := hs
      obtain ⟨img, imgs, hcons⟩ := List.exists_cons_of_ne_nil himg
      rw [matchImage_cons_suits lib productName item rest img imgs htitle hcons] at h
      simp only [Option.some.injEq] at h
      exact ⟨[], item, img, imgs, rest, rfl, by simp, htitle, hcons, h.symm⟩
    · rw [matchImage_cons_skip lib productName item rest hs] at h
      obtain ⟨pre, it, img, imgs, post, h1, h2, h3, h4, h5⟩ := ih h
      refine ⟨item :: pre, it, img, imgs, post, by rw [h1]; rfl, ?_, h3, h4, h5⟩
      intro x hx
      rcases List.mem_cons.mp hx with rfl | hx
      · exact hs
      · exact h2 x hx

theorem searchSend_decoded {σ : Type} (env : Env σ) (lib : SearchLib) (c : Client)
    (productName : String) (req : Request) (w : σ) (resp : Response)
    (items : List SearchItem)
    (hdo : (env.clientDo 10 req w).1 = .ok resp) (hread : resp.readErr = none)
    (hdec : lib.unmarshalSearch resp.Body = .ok items) :
    (searchSend env lib c productName req w).result =
      match matchImage lib productName items with
      | some imageURL => .ok imageURL
      | none => .error (errorsNew "no matching image found") := by
  unfold searchSend
  rcases hd : env.clientDo 10 req w with ⟨r, w1⟩
  rw [hd] at hdo
  simp only at hdo
  subst hdo
  simp only [hread, hdec]
  cases matchImage lib productName items <;> rfl

/-- C18: when the token is obtained, the search request is sent and its response is read
and decoded into `items`, `ItemSearch` returns the url of the first image of the first
entry of `items` whose title folds to `productName` and which has at least one image
(entries before it that lack one of the two, also a title match without images, are
passed over); it returns the error "no matching image found" if and only if no entry has
both; and whatever url it returns comes from such a first entry. -/
theorem item_search_match {σ : Type} (env : Env σ) (lib : SearchLib) (c : Client)
    (productName upc gtin : String) (w : σ) (accessToken : String) (remaining : Int)
    (queryParams : List (String × String)) (resp : Response) (items : List SearchItem)
    (htoken : (GetAccessToken env c w).1 = .ok (accessToken, remaining))
    (hparams : searchParams productName upc gtin = some queryParams)
    (hreq : env.newRequest "GET" (searchURL lib queryParams) = none)
    (hdo : (env.clientDo 10
      (getRequest accessToken (env.newUUID (GetAccessToken env c w).2.2).1
        (searchURL lib queryParams))
      (env.newUUID (GetAccessToken env c w).2.2).2).1 = .ok resp)
    (hread : resp.readErr = none)
    (hdec : lib.unmarshalSearch resp.Body = .ok items) :
    (∀ pre item img imgs post, items = pre ++ item :: post →
      (∀ x ∈ pre, ¬ x.suits lib productName) →
      lib.equalFold item.Title productName = true → item.Images = img :: imgs →
      (ItemSearch env lib c productName upc gtin w).result = .ok img.URL) ∧
    ((ItemSearch env lib c productName upc gtin w).result =
        .error (errorsNew "no matching image found") ↔
      ∀ x ∈ items, ¬ x.suits lib productName) ∧
    (∀ imageURL, (ItemSearch env lib c productName upc gtin w).result = .ok imageURL →
      ∃ pre item img imgs post, items = pre ++ item :: post ∧
        (∀ x ∈ pre, ¬ x.suits lib productName) ∧
        lib.equalFold item.Title productName = true ∧ item.Images = img :: imgs ∧
        imageURL = img.URL) := by
  have hrun : (ItemSearch env lib c productName upc gtin w).result =
      match matchImage lib productName items with
      | some imageURL => .ok imageURL
      | none => .error (errorsNew "no matching image found") := by
    rw [ItemSearch_of_token env lib c productName upc gtin w accessToken remaining htoken,
      hparams]
    dsimp only
    rw [hreq]
    exact searchSend_decoded env lib _ productName _ _ resp items hdo hread hdec
  rw [hrun]
  refine ⟨?_, ?_, ?_⟩
  · intro pre item img imgs post hsplit hpre htitle himg
    rw [hsplit, matchImage_skip_prefix lib productName pre _ hpre,
      matchImage_cons_suits lib productName item post img imgs htitle himg]
  · rw [← matchImage_eq_none_iff]
    cases hm : matchImage lib productName items with
    | none => simp
    | some imageURL => simp
  · intro imageURL h
    cases hm : matchImage lib productName items with
    | none => rw [hm] at h; cases h
    | some u =>
      rw [hm] at h
      simp only [Except.ok.injEq] at h
      subst h
      exact matchImage_eq_some lib productName items u hm

/-- C18 on the sample transport: the response lists "WIDGET" without images, "widget" with
two images and "Gadget"; the search for "Widget" returns the first image of the second
entry, and the search for "Gizmo" returns "no matching image found". -/
theorem item_search_match_witness :
    (ItemSearch searchEnv sampleLib sampleClient "Widget" "0001" "" 0).result =
      .ok "https://img/w-1" ∧
    (ItemSearch searchEnv sampleLib sampleClient "Gizmo" "0001" "" 0).result =
      .error (errorsNew "no matching image found") :=
  ⟨(item_search_match searchEnv sampleLib sampleClient "Widget" "0001" "" 0 "secret" 900
      [("upc", "0001")] { StatusCode := 200, Body := "search-1" }
      [⟨"WIDGET", []⟩, ⟨"widget", [⟨"https://img/w-1"⟩, ⟨"https://img/w-2"⟩]⟩,
       ⟨"Gadget", [⟨"https://img/g-1"⟩]⟩]
      rfl rfl rfl rfl rfl rfl).1 [⟨"WIDGET", []⟩] ⟨"widget", [⟨"https://img/w-1"⟩,
        ⟨"https://img/w-2"⟩]⟩ ⟨"https://img/w-1"⟩ [⟨"https://img/w-2"⟩]
      [⟨"Gadget", [⟨"https://img/g-1"⟩]⟩] rfl
      (by intro x hx; simp at hx; subst hx; intro h; exact h.2 rfl) (by decide) rfl,
    rfl⟩

/-! ## The schedulers -/

theorem orders_trigger (now : Int) :
    earliestTrigger buenosAires 23 40 now (OrdersCronjob.nextRun (some buenosAires) now) ∧
    0 ≤ timeUntil (OrdersCronjob.nextRun (some buenosAires) now) now ∧
    timeUntil (OrdersCronjob.nextRun (some buenosAires) now) now ≤ 24 * timeHour := by
  unfold earliestTrigger readsAt timeUntil OrdersCronjob.nextRun timeDate civilDay
    locationOffset buenosAires timeHour timeMinute timeSecond
  dsimp only
  split
  · refine ⟨⟨by omega, by omega, ?_⟩, by omega, by omega⟩
    intro t1 h1 h2
    omega
  · refine ⟨⟨by omega, by omega, ?_⟩, by omega, by omega⟩
    intro t1 h1 h2
    omega

theorem items_trigger_same_zone (now : Int) :
    earliestTrigger buenosAires 15 25 now
      (StartCronJob.nextRun buenosAires (some buenosAires) now) ∧
    0 ≤ timeUntil (StartCronJob.nextRun buenosAires (some buenosAires) now) now ∧
    timeUntil (StartCronJob.nextRun buenosAires (some buenosAires) now) now ≤
      24 * timeHour := by
  unfold earliestTrigger readsAt timeUntil StartCronJob.nextRun timeDate civilDay
    locationOffset buenosAires timeHour timeMinute timeSecond
  dsimp only
  split
  · refine ⟨⟨by omega, by omega, ?_⟩, by omega, by omega⟩
    intro t1 h1 h2
    omega
  · refine ⟨⟨by omega, by omega, ?_⟩, by omega, by omega⟩
    intro t1 h1 h2
    omega

theorem earliestTrigger_unique (offset hour min now t s : Int)
    (ht : earliestTrigger offset hour min now t) (hs : earliestTrigger offset hour min now s) :
    t = s :=
  le_antisymm (ht.2.2 s hs.1 hs.2.1) (hs.2.2 t ht.1 ht.2.1)

/-- C19 (the code at a failing input): in a process whose local zone is +09:00, at
2025-01-01T17:00:00Z (14:00 on January 1 in Buenos Aires, 02:00 on January 2 locally)
`StartCronJob` computes 15:25 of January 2 in Buenos Aires as its next run, 25 hours and 25
minutes away, although the earliest 15:25 in Buenos Aires not before now is 1 hour and 25
minutes away; `OrdersCronjob`, which reads the date in the named zone, computes the
earliest 23:40 at the same instant. -/
theorem items_trigger_late :
    StartCronJob.nextRun 32400 (some buenosAires) 1735750800000000000 =
      1735842300000000000 ∧
    timeUntil (StartCronJob.nextRun 32400 (some buenosAires) 1735750800000000000)
      1735750800000000000 = 25 * timeHour + 25 * timeMinute ∧
    earliestTrigger buenosAires 15 25 1735750800000000000 1735755900000000000 ∧
    ¬ earliestTrigger buenosAires 15 25 1735750800000000000
      (StartCronJob.nextRun 32400 (some buenosAires) 1735750800000000000) ∧
    earliestTrigger buenosAires 23 40 1735750800000000000
      (OrdersCronjob.nextRun (some buenosAires) 1735750800000000000) := by
  have hrun : StartCronJob.nextRun 32400 (some buenosAires) 1735750800000000000 =
      1735842300000000000 := by decide
  have hearly : earliestTrigger buenosAires 15 25 1735750800000000000 1735755900000000000 := by
    unfold earliestTrigger readsAt buenosAires timeHour timeMinute timeSecond
    refine ⟨by decide, by decide, ?_⟩
    intro t1 h1 h2
    omega
  refine ⟨hrun, ?_, hearly, ?_, (orders_trigger 1735750800000000000).1⟩
  · rw [hrun]; decide
  · intro h
    rw [hrun] at h
    have := earliestTrigger_unique _ _ _ _ _ _ h hearly
    omega

/-! ## Order statistics -/

theorem addOrders_eq (orders : List Order) (skuMap : List (String × skuData)) :
    addOrders orders skuMap = (orders.flatMap Order.OrderLine).foldl addLine skuMap := by
  unfold addOrders
  induction orders generalizing skuMap with
  | nil => rfl
  | cons order rest ih =>
    rw [List.foldl_cons, ih, List.flatMap_cons, List.foldl_append]

theorem fetchOrdersLoop_page {σ : Type} (env : Env σ) (lib : OrdersLib) (c : Client)
    (accessToken : String) (fuel : Nat) (nextCursor : String)
    (skuMap : List (String × skuData)) (requests : List Request) (w : σ) (data : OrdersData)
    (h : servesOrdersPage env lib accessToken nextCursor w data) :
    fetchOrdersLoop env lib c accessToken (fuel + 1) nextCursor skuMap requests w =
      if data.NextCursor = "" then
        some ⟨worldAfterOrdersPage env lib accessToken nextCursor w, c,
          requests ++ [getRequest accessToken (env.newUUID w).1 (ordersURL lib nextCursor)],
          .ok (addOrders data.Order skuMap)⟩
      else
        fetchOrdersLoop env lib c accessToken fuel data.NextCursor
          (addOrders data.Order skuMap)
          (requests ++ [getRequest accessToken (env.newUUID w).1 (ordersURL lib nextCursor)])
          (worldAfterOrdersPage env lib accessToken nextCursor w) := by
  obtain ⟨hreq, resp, hdo, h200, hparse⟩ := h
  unfold worldAfterOrdersPage
  rcases hpair : env.clientDo 0
    (getRequest accessToken (env.newUUID w).1 (ordersURL lib nextCursor))
    (env.newUUID w).2 with ⟨r, w1⟩
  rw [hpair] at hdo
  simp only at hdo
  subst hdo
  rw [fetchOrdersLoop]
  simp only [hreq, hpair, h200, hparse, ne_eq, not_true_eq_false, if_false]

theorem fetchOrdersLoop_feed {σ : Type} (env : Env σ) (lib : OrdersLib) (c : Client)
    (accessToken : String) (pages : List OrdersData) :
    ∀ (fuel : Nat) (nextCursor : String) (skuMap : List (String × skuData))
      (requests : List Request) (w : σ),
      ordersFeed env lib accessToken nextCursor pages w →
      ∃ run, fetchOrdersLoop env lib c accessToken (pages.length + fuel) nextCursor skuMap
          requests w = some run ∧
        run.client = c ∧
        run.requests.length = requests.length + pages.length ∧
        run.result = .ok ((orderLines pages).foldl addLine skuMap) := by
  induction pages with
  | nil => intro fuel nextCursor skuMap requests w h; exact absurd h (by simp [ordersFeed])
  | cons data rest ih =>
    intro fuel nextCursor skuMap requests w h
    obtain ⟨hpage, hrest⟩ := h
    have hlen : (data :: rest).length + fuel = (rest.length + fuel) + 1 := by
      simp only [List.length_cons]; omega
    rw [hlen, fetchOrdersLoop_page env lib c accessToken _ nextCursor skuMap requests w data
      hpage]
    by_cases hnil : rest = []
    · subst hnil
      rw [if_pos rfl] at hrest
      rw [if_pos hrest]
      refine ⟨_, rfl, rfl, by simp, ?_⟩
      simp [orderLines, addOrders_eq]
    · rw [if_neg hnil] at hrest
      obtain ⟨hcur, hfeed⟩ := hrest
      rw [if_neg hcur]
      obtain ⟨run, h1, h2, h3, h4⟩ := ih fuel data.NextCursor (addOrders data.Order skuMap)
        (requests ++ [getRequest accessToken (env.newUUID w).1 (ordersURL lib nextCursor)])
        (worldAfterOrdersPage env lib accessToken nextCursor w) hfeed
      refine ⟨run, h1, h2, ?_, ?_⟩
      · rw [h3]; simp only [List.length_append, List.length_cons, List.length_nil]; omega
      · rw [h4, addOrders_eq]
        simp [orderLines, List.foldl_append]

theorem wrapInt64_add_left (a b : Int) : wrapInt64 (wrapInt64 a + b) = wrapInt64 (a + b) := by
  unfold wrapInt64
  omega

theorem addLine_get (skuMap : List (String × skuData)) (line : OrderLine) (k : String) :
    mapGet (addLine skuMap line) k =
      if line.Sku = k then
        some { ProductName := line.ProductName
               OrderCount := ((mapGet skuMap k).getD {}).OrderCount + 1
               Units := wrapInt64 (((mapGet skuMap k).getD {}).Units + lineAmount line) }
      else mapGet skuMap k := by
  unfold addLine
  rw [mapGet_mapSet]
  by_cases h : line.Sku = k
  · subst h; simp
  · simp [h]

theorem addLine_keys_nodup (lines : List OrderLine) (skuMap : List (String × skuData))
    (hnd : (mapKeys skuMap).Nodup) : (mapKeys (lines.foldl addLine skuMap)).Nodup := by
  induction lines generalizing skuMap with
  | nil => exact hnd
  | cons line rest ih =>
    rw [List.foldl_cons]
    exact ih _ (mapSet_keys_nodup skuMap line.Sku _ hnd)

theorem foldl_addLine_get (lines : List OrderLine) (k : String) :
    mapGet (lines.foldl addLine []) k =
      match (linesOf lines k).getLast? with
      | none => none
      | some last =>
        some { ProductName := last.ProductName
               OrderCount := ((linesOf lines k).length : Int)
               Units := wrapInt64 (unitsOf (linesOf lines k)) } := by
  induction lines using List.reverseRecOn with
  | nil => rfl
  | append_singleton init line ih =>
    rw [List.foldl_append, List.foldl_cons, List.foldl_nil, addLine_get, ih]
    by_cases h : line.Sku = k
    · have hl : linesOf (init ++ [line]) k = linesOf init k ++ [line] := by
        simp [linesOf, List.filter_append, h]
      rw [if_pos h, hl, List.getLast?_append]
      simp only [List.getLast?_singleton, Option.or]
      cases hlast : (linesOf init k).getLast? with
      | none =>
        have hnil : linesOf init k = [] := List.getLast?_eq_none_iff.mp hlast
        simp [hnil, unitsOf]
      | some last =>
        simp only [Option.getD_some, List.length_append, List.length_cons, List.length_nil,
          unitsOf, List.map_append, List.sum_append, List.map_cons, List.map_nil,
          List.sum_cons, List.sum_nil, add_zero, wrapInt64_add_left]
        simp
    · have hl : linesOf (init ++ [line]) k = linesOf init k := by
        simp [linesOf, List.filter_append, h]
      rw [if_neg h, hl]

theorem mem_linesOf_iff (lines : List OrderLine) (sku : String) :
    linesOf lines sku ≠ [] ↔ ∃ line ∈ lines, line.Sku = sku := by
  unfold linesOf
  constructor
  · intro h
    obtain ⟨line, rest, hcons⟩ := List.exists_cons_of_ne_nil h
    have hmem : line ∈ List.filter (fun line => decide (line.Sku = sku)) lines := by
      rw [hcons]; exact List.mem_cons_self _ _
    have := List.mem_filter.mp hmem
    exact ⟨line, this.1, by simpa using this.2⟩
  · rintro ⟨line, hmem, hsku⟩ hnil
    have : line ∈ List.filter (fun line => decide (line.Sku = sku)) lines :=
      List.mem_filter.mpr ⟨hmem, by simpa using hsku⟩
    rw [hnil] at this
    cases this

theorem FetchWalmartOrderStats_feed {σ : Type} (env : Env σ) (lib : OrdersLib)
    (rangeOrder : List (String × skuData) → List (String × skuData)) (c : Client) (w : σ)
    (accessToken : String) (remaining : Int) (pages : List OrdersData) (fuel : Nat)
    (htoken : (GetAccessToken env c w).1 = .ok (accessToken, remaining))
    (hfeed : ordersFeed env lib accessToken "" pages (GetAccessToken env c w).2.2) :
    ∃ run, FetchWalmartOrderStats env lib rangeOrder (pages.length + fuel) c w = some run ∧
      run.requests.length = pages.length ∧
      run.result = .ok (orderStatsOf (rangeOrder ((orderLines pages).foldl addLine []))) := by
  unfold FetchWalmartOrderStats
  rcases hg : GetAccessToken env c w with ⟨r, c1, w1⟩
  rw [hg] at htoken hfeed
  simp only at htoken hfeed
  subst htoken
  obtain ⟨run, h1, _, h3, h4⟩ := fetchOrdersLoop_feed env lib c1 accessToken pages fuel "" []
    [] w1 hfeed
  simp only [h1, h4]
  exact ⟨_, rfl, by simpa using h3, rfl⟩

/-- C20 (amended): when the token is obtained and the transport serves the order pages
`pages` (each with status 200 and a body that decodes, every page but the last declaring a
next cursor), `FetchWalmartOrderStats` returns, after one request per page, a slice with
exactly one entry per distinct sku occurring on an order line of a page. For the lines with
the entry's sku, in scan order: `OrderCount` is their number (two lines of one order count
twice), `ProductName` is the name on the last of them, and `UnitsSold` is the sum of their
amounts (an amount `Atoi` rejects counting as 0) wrapped to `int64`, hence the sum itself
whenever the sum fits in `int64`. -/
theorem order_stats {σ : Type} (env : Env σ) (lib : OrdersLib)
    (rangeOrder : List (String × skuData) → List (String × skuData)) (c : Client) (w : σ)
    (accessToken : String) (remaining : Int) (pages : List OrdersData) (fuel : Nat)
    (hrange : ∀ m, (rangeOrder m).Perm m)
    (htoken : (GetAccessToken env c w).1 = .ok (accessToken, remaining))
    (hfeed : ordersFeed env lib accessToken "" pages (GetAccessToken env c w).2.2) :
    ∃ run stats,
      FetchWalmartOrderStats env lib rangeOrder (pages.length + fuel) c w = some run ∧
      run.result = .ok stats ∧ run.requests.length = pages.length ∧
      (stats.map OrderStats.SKU).Nodup ∧
      (∀ sku, sku ∈ stats.map OrderStats.SKU ↔ ∃ line ∈ orderLines pages, line.Sku = sku) ∧
      ∀ s ∈ stats,
        s.OrderCount = ((linesOf (orderLines pages) s.SKU).length : Int) ∧
        s.UnitsSold = wrapInt64 (unitsOf (linesOf (orderLines pages) s.SKU)) ∧
        (inInt64 (unitsOf (linesOf (orderLines pages) s.SKU)) →
          s.UnitsSold = unitsOf (linesOf (orderLines pages) s.SKU)) ∧
        ∃ last, (linesOf (orderLines pages) s.SKU).getLast? = some last ∧
          s.ProductName = last.ProductName := by
  obtain ⟨run, hrun, hreqs, hres⟩ := FetchWalmartOrderStats_feed env lib rangeOrder c w
    accessToken remaining pages fuel htoken hfeed
  have hnd : (mapKeys ((orderLines pages).foldl addLine [])).Nodup :=
    addLine_keys_nodup _ [] List.nodup_nil
  have hperm := hrange ((orderLines pages).foldl addLine [])
  have hkeys : (orderStatsOf (rangeOrder ((orderLines pages).foldl addLine []))).map
      OrderStats.SKU = mapKeys (rangeOrder ((orderLines pages).foldl addLine [])) := by
    simp [orderStatsOf, mapKeys]
  have hpk : (mapKeys (rangeOrder ((orderLines pages).foldl addLine []))).Perm
      (mapKeys ((orderLines pages).foldl addLine [])) := hperm.map _
  refine ⟨run, _, hrun, hres, hreqs, ?_, ?_, ?_⟩
  · rw [hkeys]
    exact hpk.nodup_iff.mpr hnd
  · intro sku
    rw [hkeys, hpk.mem_iff, mem_mapKeys_iff_mapGet, foldl_addLine_get, ← mem_linesOf_iff]
    cases hlast : (linesOf (orderLines pages) sku).getLast? with
    | none =>
      have hnil : linesOf (orderLines pages) sku = [] := List.getLast?_eq_none_iff.mp hlast
      simp [hnil]
    | some last =>
      have hne : linesOf (orderLines pages) sku ≠ [] := by
        intro hnil
        rw [hnil] at hlast
        cases hlast
      simp [hne]
  · intro s hs
    simp only [orderStatsOf, List.mem_map] at hs
    obtain ⟨kv, hkv, rfl⟩ := hs
    have hmem : kv ∈ (orderLines pages).foldl addLine [] := hperm.mem_iff.mp hkv
    have hget : mapGet ((orderLines pages).foldl addLine []) kv.1 = some kv.2 :=
      mapGet_of_mem _ kv.1 kv.2 hnd hmem
    rw [foldl_addLine_get] at hget
    dsimp only
    cases hlast : (linesOf (orderLines pages) kv.1).getLast? with
    | none => rw [hlast] at hget; cases hget
    | some last =>
      rw [hlast] at hget
      simp only [Option.some.injEq] at hget
      rw [← hget]
      refine ⟨rfl, rfl, ?_, last, rfl, rfl⟩
      intro hin
      exact wrapInt64_of_inInt64 _ hin

theorem ordersEnv_feed :
    ordersFeed ordersEnv sampleOrdersLib "secret" "" [ordersPage1, ordersPage2]
      (GetAccessToken ordersEnv sampleClient 0).2.2 := by
  refine ⟨⟨rfl, _, rfl, rfl, rfl⟩, ?_⟩
  rw [if_neg (by simp)]
  refine ⟨by decide, ⟨rfl, _, rfl, rfl, rfl⟩, ?_⟩
  rw [if_pos rfl]
  rfl

set_option maxRecDepth 10000 in
/-- C20 (amended) on the sample transport: two pages with four lines of sku A1 (amounts 2,
3, +4, -1) and one line of sku B2 whose amount is not a number give A1 with 4 lines, 8 units
and the name of the last line, and B2 with 1 line and 0 units. -/
theorem order_stats_witness :
    (FetchWalmartOrderStats ordersEnv sampleOrdersLib id 2 sampleClient 0).map
        (fun run => run.result.toOption) =
      some (some [{ SKU := "A1", ProductName := "Widget v4", OrderCount := 4, UnitsSold := 8 },
                  { SKU := "B2", ProductName := "Gadget", OrderCount := 1, UnitsSold := 0 }]) ∧
    ∃ run stats,
      FetchWalmartOrderStats ordersEnv sampleOrdersLib id
        ([ordersPage1, ordersPage2].length + 0) sampleClient 0 = some run ∧
      run.result = .ok stats ∧ run.requests.length = [ordersPage1, ordersPage2].length ∧
      (stats.map OrderStats.SKU).Nodup ∧
      (∀ sku, sku ∈ stats.map OrderStats.SKU ↔
        ∃ line ∈ orderLines [ordersPage1, ordersPage2], line.Sku = sku) ∧
      ∀ s ∈ stats,
        s.OrderCount = ((linesOf (orderLines [ordersPage1, ordersPage2]) s.SKU).length : Int) ∧
        s.UnitsSold =
          wrapInt64 (unitsOf (linesOf (orderLines [ordersPage1, ordersPage2]) s.SKU)) ∧
        (inInt64 (unitsOf (linesOf (orderLines [ordersPage1, ordersPage2]) s.SKU)) →
          s.UnitsSold = unitsOf (linesOf (orderLines [ordersPage1, ordersPage2]) s.SKU)) ∧
        ∃ last, (linesOf (orderLines [ordersPage1, ordersPage2]) s.SKU).getLast? = some last ∧
          s.ProductName = last.ProductName :=
  ⟨by decide, order_stats ordersEnv sampleOrdersLib id sampleClient 0 "secret" 900
    [ordersPage1, ordersPage2] 0 (fun _ => List.Perm.refl _) rfl ordersEnv_feed⟩

/-- C20 as stated fails: one page with two lines of sku A1 of 9223372036854775807 units
each gives `UnitsSold` -2, while the sum of the two amounts is 18446744073709551614. -/
theorem order_units_overflow :
    (FetchWalmartOrderStats ordersBigEnv sampleOrdersLib id 1 sampleClient 0).map
        FetchRun.result =
      some (.ok [{ SKU := "A1", ProductName := "Widget", OrderCount := 2, UnitsSold := -2 }]) ∧
    unitsOf (linesOf (orderLines [ordersPageBig]) "A1") = 18446744073709551614 ∧
    ordersFeed ordersBigEnv sampleOrdersLib "secret" "" [ordersPageBig]
      (GetAccessToken ordersBigEnv sampleClient 0).2.2 := by
  refine ⟨rfl, by decide, ⟨rfl, _, rfl, rfl, rfl⟩, ?_⟩
  rw [if_pos rfl]
  rfl

/-! ## Records without a status branch -/

/-- C22 (amended): for lifecycle ACTIVE, availability In_stock and a published status other
than PUBLISHED, the derived listing status is 3 when the published status is UNPUBLISHED or
SYSTEM_PROBLEM (the third branch matches) and the zero value 0 for every other published
status; the candidate built from such a record carries that status. -/
theorem active_in_stock_status (publishedStatus : String)
    (hpub : publishedStatus ≠ "PUBLISHED") :
    ((publishedStatus = "UNPUBLISHED" ∨ publishedStatus = "SYSTEM_PROBLEM") →
      listingStatusID "ACTIVE" "In_stock" publishedStatus = 3) ∧
    (publishedStatus ≠ "UNPUBLISHED" → publishedStatus ≠ "SYSTEM_PROBLEM" →
      listingStatusID "ACTIVE" "In_stock" publishedStatus = 0) ∧
    (∀ (inventoryMap : List (String × Int)) (sku : String) (productData : JMap),
      getStringValue productData "lifecycleStatus" = "ACTIVE" →
      getStringValue productData "availability" = "In_stock" →
      getStringValue productData "publishedStatus" = publishedStatus →
      (candidate inventoryMap sku productData).ListingStatusID =
        if publishedStatus = "UNPUBLISHED" ∨ publishedStatus = "SYSTEM_PROBLEM" then 3
        else 0) := by
  have h3 : (publishedStatus = "UNPUBLISHED" ∨ publishedStatus = "SYSTEM_PROBLEM") →
      listingStatusID "ACTIVE" "In_stock" publishedStatus = 3 := by
    intro h
    unfold listingStatusID
    rcases h with h | h <;> subst h <;> decide
  have h0 : publishedStatus ≠ "UNPUBLISHED" → publishedStatus ≠ "SYSTEM_PROBLEM" →
      listingStatusID "ACTIVE" "In_stock" publishedStatus = 0 := by
    intro h1 h2
    unfold listingStatusID
    simp [hpub, h1, h2]
  refine ⟨h3, h0, ?_⟩
  intro inventoryMap sku productData hl ha hp
  have hc : (candidate inventoryMap sku productData).ListingStatusID =
      listingStatusID "ACTIVE" "In_stock" publishedStatus := by
    unfold candidate
    simp only [hl, ha, hp]
  rw [hc]
  by_cases h : publishedStatus = "UNPUBLISHED" ∨ publishedStatus = "SYSTEM_PROBLEM"
  · rw [if_pos h, h3 h]
  · rw [if_neg h]
    exact h0 (fun e => h (Or.inl e)) (fun e => h (Or.inr e))

/-- C22 (amended) at sample records: the published status "READY_TO_PUBLISH" leaves the
status of the candidate at 0. -/
theorem active_in_stock_status_witness :
    "READY_TO_PUBLISH" ≠ "PUBLISHED" ∧
    listingStatusID "ACTIVE" "In_stock" "READY_TO_PUBLISH" = 0 ∧
    (candidate [] "D4" (remoteInStock "READY_TO_PUBLISH")).ListingStatusID = 0 :=
  ⟨by decide,
    (active_in_stock_status "READY_TO_PUBLISH" (by decide)).2.1 (by decide) (by decide),
    by decide⟩

/-- C22 as stated fails: for (ACTIVE, In_stock, UNPUBLISHED) and for
(ACTIVE, In_stock, SYSTEM_PROBLEM) the third branch of the derivation matches and the status
is 3, not 0, also in the candidate built from such a record. -/
theorem active_in_stock_not_unset :
    "UNPUBLISHED" ≠ "PUBLISHED" ∧ listingStatusID "ACTIVE" "In_stock" "UNPUBLISHED" = 3 ∧
    "SYSTEM_PROBLEM" ≠ "PUBLISHED" ∧ listingStatusID "ACTIVE" "In_stock" "SYSTEM_PROBLEM" = 3 ∧
    (candidate [("D4", 6)] "D4" (remoteInStock "UNPUBLISHED")).ListingStatusID = 3 := by
  decide

/-! ## A pass that cannot save the inventory snapshot -/

/-- C23: in a pass where both retrying fetches return a snapshot and either the encoding of
`inventoryStats` fails or the encoding succeeds and writing inventory_stats.json fails, the
pass returns at that `continue` with an empty call log: no `FindAll`, no lookup, no insert
or update, no `UpdateListingStatus`, no image search; the world is the one the last fetch
(or the failed write) left, and the run is the same whatever the repository and the search
are. -/
theorem pass_without_snapshot_file {σ : Type} (io : PassDeps σ) (repo : InventoryRepository σ)
    (search : ItemSearchFn σ) (itemsOrder : ItemsMap → List (String × JMap))
    (inventoryOrder : InventoryMap → List (String × Int))
    (rangeOrder : List (String × Product) → List (String × Product)) (w : σ)
    (items : RetryRun σ ItemsMap) (productsMap : ItemsMap)
    (inventory : RetryRun σ InventoryMap) (inventoryMap : InventoryMap)
    (hitems : fetchWalmartItemsWithRetry io.FetchWalmartItems 3 w = some items)
    (hproducts : items.result = .ok productsMap)
    (hinventory : fetchWalmartInventoryWithRetry io.FetchWalmartInventory 3 items.world =
      some inventory)
    (hmap : inventory.result = .ok inventoryMap)
    (hfail : (∃ err, io.marshalIndent (inventoryStats inventoryOrder inventoryMap) =
        .error err) ∨
      (∃ inventoryJSON err, io.marshalIndent (inventoryStats inventoryOrder inventoryMap) =
          .ok inventoryJSON ∧
        (io.writeFile "inventory_stats.json" inventoryJSON inventory.world).1 = some err)) :
    ∃ run, cronPass io repo search itemsOrder inventoryOrder rangeOrder w = some run ∧
      run.log = [] ∧
      (∀ e ∈ run.log, e.call ≠ .FindAll) ∧
      ((∃ err, io.marshalIndent (inventoryStats inventoryOrder inventoryMap) = .error err ∧
          run.ending = .marshalFailed err ∧ run.world = inventory.world) ∨
        (∃ inventoryJSON err,
          io.marshalIndent (inventoryStats inventoryOrder inventoryMap) = .ok inventoryJSON ∧
          run.ending = .writeFailed err ∧
          run.world = (io.writeFile "inventory_stats.json" inventoryJSON inventory.world).2)) ∧
      ∀ (repo1 : InventoryRepository σ) (search1 : ItemSearchFn σ)
        (rangeOrder1 : List (String × Product) → List (String × Product)),
        cronPass io repo1 search1 itemsOrder inventoryOrder rangeOrder1 w = some run := by
  have hrun : ∀ (repo1 : InventoryRepository σ) (search1 : ItemSearchFn σ)
      (rangeOrder1 : List (String × Product) → List (String × Product)),
      cronPass io repo1 search1 itemsOrder inventoryOrder rangeOrder1 w =
        match io.marshalIndent (inventoryStats inventoryOrder inventoryMap) with
        | .error err => some ⟨inventory.world, .marshalFailed err, []⟩
        | .ok inventoryJSON =>
          match io.writeFile "inventory_stats.json" inventoryJSON inventory.world with
          | (some err, w1) => some ⟨w1, .writeFailed err, []⟩
          | (none, w1) =>
            some ⟨(reconcilePass repo1 search1 rangeOrder1 (itemsOrder productsMap)
                inventoryMap w1).world,
              .reconciled,
              (reconcilePass repo1 search1 rangeOrder1 (itemsOrder productsMap)
                inventoryMap w1).log⟩ := by
    intro repo1 search1 rangeOrder1
    unfold cronPass
    simp only [hitems, hproducts, hinventory, hmap]
  rcases hfail with ⟨err, hm⟩ | ⟨inventoryJSON, err, hm, hw⟩
  · refine ⟨⟨inventory.world, .marshalFailed err, []⟩, ?_, rfl, by simp, ?_, ?_⟩
    · rw [hrun, hm]
    · exact Or.inl ⟨err, hm, rfl, rfl⟩
    · intro repo1 search1 rangeOrder1
      rw [hrun, hm]
  · rcases hwf : io.writeFile "inventory_stats.json" inventoryJSON inventory.world with
      ⟨e, w1⟩
    rw [hwf] at hw
    simp only at hw
    subst hw
    refine ⟨⟨w1, .writeFailed err, []⟩, ?_, rfl, by simp, ?_, ?_⟩
    · rw [hrun, hm]
      simp only [hwf]
    · exact Or.inr ⟨inventoryJSON, err, hm, rfl, by rw [hwf]⟩
    · intro repo1 search1 rangeOrder1
      rw [hrun, hm]
      simp only [hwf]

/-- C23 on the sample collaborators: when the write fails the pass ends at that `continue`
with an empty call log, while the same pass with a successful write starts its calls with
`FindAll`. -/
theorem pass_without_snapshot_file_witness :
    (∃ run, cronPass (sampleDeps false true) (tableRepo sampleLocal false) sampleSearch id id
        id 100 = some run ∧ run.log = []) ∧
    (cronPass (sampleDeps false true) (tableRepo sampleLocal false) sampleSearch id id
        id 100).map (fun run => (run.log, run.ending)) =
      some ([], .writeFailed (errorsNew "open inventory_stats.json: permission denied")) ∧
    ((cronPass (sampleDeps false false) (tableRepo sampleLocal false) sampleSearch id id
        id 100).map (fun run => run.log.map Event.call)).map List.head? =
      some (some .FindAll) :=
  ⟨(pass_without_snapshot_file (sampleDeps false true) (tableRepo sampleLocal false)
      sampleSearch id id id 100 ⟨100, .ok [("A1", remoteA1)], 1, []⟩ [("A1", remoteA1)]
      ⟨100, .ok [("A1", 12)], 1, []⟩ [("A1", 12)] rfl rfl rfl rfl
      (Or.inr ⟨"\x7b\x7d", errorsNew "open inventory_stats.json: permission denied",
        rfl, rfl⟩)).imp (fun _ h => ⟨h.1, h.2.1⟩),
    by decide, by decide⟩

/-! ## Concurrent callers of `GetAccessToken` -/

theorem countP_set_get {α : Type} (p : α → Bool) (l : List α) :
    ∀ (i : Nat) (a b : α), l.get? i = some a →
      (l.set i b).countP p + (if p a = true then 1 else 0) =
        l.countP p + (if p b = true then 1 else 0) := by
  induction l with
  | nil => intro i a b h; simp at h
  | cons x rest ih =>
    intro i a b h
    cases i with
    | zero =>
      simp only [List.get?_cons_zero, Option.some.injEq] at h
      subst h
      simp only [List.set_cons_zero, List.countP_cons]
      omega
    | succ j =>
      simp only [List.get?_cons_succ] at h
      have := ih j a b h
      simp only [List.set_cons_succ, List.countP_cons]
      omega

theorem GetAccessToken_ok_token {σ : Type} (env : Env σ) (c : Client) (w : σ)
    (token : String) (remaining : Int)
    (hok : (GetAccessToken env c w).1 = .ok (token, remaining)) :
    (GetAccessToken env c w).2.1.accessToken = token := by
  have key : ∀ w0 : σ, (refreshToken env c w0).1 = .ok (token, remaining) →
      (refreshToken env c w0).2.1.accessToken = token := by
    intro w0 h
    unfold refreshToken at h ⊢
    rcases hrt : requestToken env c w0 with ⟨r, w1⟩
    rw [hrt] at h
    cases r with
    | error err => cases h
    | ok t =>
      simp only [Except.ok.injEq, Prod.mk.injEq] at h
      exact h.1
  by_cases hne : c.accessToken ≠ ""
  · by_cases hlt : (env.now w).1 < c.expiresAt
    · have hc := GetAccessToken_cached env c w hne hlt
      rw [hc] at hok ⊢
      simp only [Except.ok.injEq, Prod.mk.injEq] at hok
      exact hok.1
    · have h : GetAccessToken env c w = refreshToken env c (env.now w).2 := by
        unfold GetAccessToken
        rw [if_pos hne, if_neg hlt]
      rw [h] at hok ⊢
      exact key _ hok
  · have h : GetAccessToken env c w = refreshToken env c w := by
      unfold GetAccessToken
      rw [if_neg hne]
    rw [h] at hok ⊢
    exact key _ hok

theorem refreshedOnce_start {σ : Type} (env : Env σ) (c : Client) (w : σ)
    (sent : List Request) (n : Nat) :
    refreshedOnce env c w sent n (startCallers n c (w, sent)) := by
  unfold refreshedOnce startCallers
  have h0 : (List.replicate n CallerState.waiting).countP CallerState.isHolding = 0 := by
    rw [List.countP_eq_zero]
    intro a ha
    rw [List.eq_of_mem_replicate ha]
    simp [CallerState.isHolding]
  have hp : (List.replicate n CallerState.waiting).countP CallerState.isPending = n := by
    have : (List.replicate n CallerState.waiting).countP CallerState.isPending =
        (List.replicate n CallerState.waiting).length := by
      rw [List.countP_eq_length]
      intro a ha
      rw [List.eq_of_mem_replicate ha]
      rfl
    rw [this, List.length_replicate]
  refine ⟨by simp, by simp [h0], ?_, Or.inl ⟨hp, rfl, rfl⟩⟩
  simp [h0]

theorem refreshedOnce_step {σ : Type} (env : Env σ) (c : Client) (w : σ)
    (sent : List Request) (n : Nat) (token : String) (remaining : Int)
    (hok : (GetAccessToken (recordingEnv env) c (w, sent)).1 = .ok (token, remaining))
    (hwin : insideWindow (recordingEnv env) (n - 1)
      (GetAccessToken (recordingEnv env) c (w, sent)).2.1
      (GetAccessToken (recordingEnv env) c (w, sent)).2.2)
    (i : Nat) (s s1 : Shared (σ × List Request))
    (hinv : refreshedOnce env c w sent n s)
    (hstep : callerStep (recordingEnv env) i s = some s1) :
    refreshedOnce env c w sent n s1 := by
  obtain ⟨hlen, hhold, hmutex, hcase⟩ := hinv
  unfold callerStep at hstep
  cases hget : s.callers.get? i with
  | none => rw [hget] at hstep; cases hstep
  | some st =>
    rw [hget] at hstep
    cases st with
    | returned r => cases hstep
    | waiting =>
      dsimp only at hstep
      by_cases hl : s.mutexLocked = true
      · rw [if_pos hl] at hstep; cases hstep
      · rw [if_neg hl] at hstep
        simp only [Option.some.injEq] at hstep
        subst hstep
        have hh := countP_set_get CallerState.isHolding s.callers i .waiting .holding hget
        have hp := countP_set_get CallerState.isPending s.callers i .waiting .holding hget
        simp only [CallerState.isHolding, CallerState.isPending, if_true,
          Bool.false_eq_true, if_false] at hh hp
        have h0 : s.callers.countP CallerState.isHolding = 0 := by
          have : s.callers.countP CallerState.isHolding ≠ 1 := fun h => hl (hmutex.mpr h)
          omega
        have hmem : ∀ st ∈ s.callers.set i CallerState.holding, st.isPending = false →
            st ∈ s.callers := by
          intro st hst hpend
          rcases List.mem_or_eq_of_mem_set hst with h | h
          · exact h
          · subst h; cases hpend
        refine ⟨by simpa using hlen, by dsimp only; omega, ?_, ?_⟩
        · dsimp only
          constructor
          · intro _; omega
          · intro _; rfl
        · dsimp only
          rcases hcase with ⟨h1, h2, h3⟩ | ⟨h1, h2, h3, h4, h5⟩
          · exact Or.inl ⟨by omega, h2, h3⟩
          · refine Or.inr ⟨by omega, h2, h3, fun st hst hpend => h4 st (hmem st hst hpend) hpend,
              ?_⟩
            have : (s.callers.set i CallerState.holding).countP CallerState.isPending =
                s.callers.countP CallerState.isPending := by omega
            rw [this]
            exact h5
    | holding =>
      simp only [Option.some.injEq] at hstep
      subst hstep
      have hh := countP_set_get CallerState.isHolding s.callers i .holding
        (.returned (GetAccessToken (recordingEnv env) s.client s.world).1) hget
      have hp := countP_set_get CallerState.isPending s.callers i .holding
        (.returned (GetAccessToken (recordingEnv env) s.client s.world).1) hget
      simp only [CallerState.isHolding, CallerState.isPending, if_true,
        Bool.false_eq_true, if_false] at hh hp
      refine ⟨by simpa using hlen, by dsimp only; omega, ?_, ?_⟩
      · dsimp only
        constructor
        · intro h; cases h
        · intro h; omega
      · dsimp only
        right
        rcases hcase with ⟨h1, h2, h3⟩ | ⟨h1, h2, h3, h4, h5⟩
        · rw [h2, h3] at hp ⊢
          have hall : ∀ a ∈ s.callers, a.isPending = true := by
            have : s.callers.countP CallerState.isPending = s.callers.length := by omega
            exact List.countP_eq_length.mp this
          refine ⟨by omega, rfl, rfl, ?_, ?_⟩
          · intro st hst hpend
            rcases List.mem_or_eq_of_mem_set hst with h | h
            · rw [hall st h] at hpend; cases hpend
            · subst h
              rw [hok]
              show some token = _
              rw [GetAccessToken_ok_token (recordingEnv env) c (w, sent) token remaining hok]
          · have : (s.callers.set i (CallerState.returned
                (GetAccessToken (recordingEnv env) c (w, sent)).1)).countP
                CallerState.isPending = n - 1 := by omega
            rw [this]
            exact hwin
        · obtain ⟨k, hk⟩ : ∃ k, s.callers.countP CallerState.isPending = k + 1 :=
            ⟨s.callers.countP CallerState.isPending - 1, by omega⟩
          rw [hk] at h5
          obtain ⟨hne, hlt, hrest⟩ := h5
          have hc := GetAccessToken_cached (recordingEnv env)
            (GetAccessToken (recordingEnv env) c (w, sent)).2.1 s.world hne hlt
          rw [h2] at hp ⊢
          rw [hc] at hp hrest ⊢
          refine ⟨by omega, rfl, h3, ?_, ?_⟩
          · intro st hst hpend
            rcases List.mem_or_eq_of_mem_set hst with h | h
            · exact h4 st h hpend
            · subst h
              rfl
          · have hcount : (s.callers.set i (CallerState.returned
                (Except.ok ((GetAccessToken (recordingEnv env) c (w, sent)).2.1.accessToken,
                  Int.tdiv ((GetAccessToken (recordingEnv env) c (w, sent)).2.1.expiresAt -
                    ((recordingEnv env).now ((recordingEnv env).now s.world).2).1)
                    timeSecond),
                  (GetAccessToken (recordingEnv env) c (w, sent)).2.1,
                  ((recordingEnv env).now ((recordingEnv env).now s.world).2).2).1)).countP
                CallerState.isPending = k := by omega
            rw [hcount]
            exact hrest

theorem refreshedOnce_run {σ : Type} (env : Env σ) (c : Client) (w : σ)
    (sent : List Request) (n : Nat) (token : String) (remaining : Int)
    (hok : (GetAccessToken (recordingEnv env) c (w, sent)).1 = .ok (token, remaining))
    (hwin : insideWindow (recordingEnv env) (n - 1)
      (GetAccessToken (recordingEnv env) c (w, sent)).2.1
      (GetAccessToken (recordingEnv env) c (w, sent)).2.2)
    (schedule : List Nat) :
    ∀ s : Shared (σ × List Request), refreshedOnce env c w sent n s →
      refreshedOnce env c w sent n (runSchedule (recordingEnv env) schedule s) := by
  induction schedule with
  | nil => intro s h; exact h
  | cons i rest ih =>
    intro s h
    unfold runSchedule
    apply ih
    cases hstep : callerStep (recordingEnv env) i s with
    | none => exact h
    | some s1 => exact refreshedOnce_step env c w sent n token remaining hok hwin i s s1 h hstep

/-- A single refresh: `n` callers invoke `GetAccessToken` concurrently on a cache that is empty
or expired, and the scheduler interleaves them in any order until all have returned. If the
body that runs first obtains a token, and the cache it leaves is found non-empty and
unexpired by the other `n - 1` callers at their clock readings, then exactly one request
is sent, to the token endpoint, every caller returns the refreshed token, and the cache
holds it. In every state on the way at most one caller holds the mutex, the mutex is locked
exactly when one does, and a waiting caller cannot move while it is locked. -/
theorem concurrent_refresh_once {σ : Type} (env : Env σ) (c : Client) (w : σ)
    (sent : List Request) (n : Nat) (schedule : List Nat) (token : String) (remaining : Int)
    (hn : 0 < n)
    (hstale : ¬ (c.accessToken ≠ "" ∧ (env.now w).1 < c.expiresAt))
    (hok : (GetAccessToken (recordingEnv env) c (w, sent)).1 = .ok (token, remaining))
    (hwin : insideWindow (recordingEnv env) (n - 1)
      (GetAccessToken (recordingEnv env) c (w, sent)).2.1
      (GetAccessToken (recordingEnv env) c (w, sent)).2.2)
    (hdone : ∀ st ∈ (runSchedule (recordingEnv env) schedule
      (startCallers n c (w, sent))).callers, st.isPending = false) :
    (runSchedule (recordingEnv env) schedule (startCallers n c (w, sent))).callers.length = n ∧
    (∃ req, req.url = "https://marketplace.walmartapis.com/v3/token" ∧
      (runSchedule (recordingEnv env) schedule (startCallers n c (w, sent))).world.2 =
        sent ++ [req]) ∧
    (∀ st ∈ (runSchedule (recordingEnv env) schedule (startCallers n c (w, sent))).callers,
      st.token = some token) ∧
    (runSchedule (recordingEnv env) schedule
      (startCallers n c (w, sent))).client.accessToken = token ∧
    (∀ k : Nat,
      (runSchedule (recordingEnv env) (schedule.take k)
        (startCallers n c (w, sent))).callers.countP CallerState.isHolding ≤ 1 ∧
      ((runSchedule (recordingEnv env) (schedule.take k)
          (startCallers n c (w, sent))).mutexLocked = true ↔
        (runSchedule (recordingEnv env) (schedule.take k)
          (startCallers n c (w, sent))).callers.countP CallerState.isHolding = 1) ∧
      ∀ i : Nat,
        (runSchedule (recordingEnv env) (schedule.take k)
          (startCallers n c (w, sent))).mutexLocked = true →
        (runSchedule (recordingEnv env) (schedule.take k)
          (startCallers n c (w, sent))).callers.get? i = some .waiting →
        callerStep (recordingEnv env) i (runSchedule (recordingEnv env) (schedule.take k)
          (startCallers n c (w, sent))) = none) := by
  have hinv : ∀ l : List Nat, refreshedOnce env c w sent n
      (runSchedule (recordingEnv env) l (startCallers n c (w, sent))) := fun l =>
    refreshedOnce_run env c w sent n token remaining hok hwin l _
      (refreshedOnce_start env c w sent n)
  have htok := GetAccessToken_ok_token (recordingEnv env) c (w, sent) token remaining hok
  obtain ⟨hlen, _, _, hcase⟩ := hinv schedule
  have hzero : (runSchedule (recordingEnv env) schedule
      (startCallers n c (w, sent))).callers.countP CallerState.isPending = 0 := by
    rw [List.countP_eq_zero]
    intro a ha
    rw [hdone a ha]
    simp
  refine ⟨hlen, ?_, ?_, ?_, ?_⟩
  · rcases hcase with ⟨h1, _, _⟩ | ⟨_, _, h3, _, _⟩
    · omega
    · rw [h3]
      rcases GetAccessToken_frame env c w sent with ⟨_, h1, h2, _, _⟩ | ⟨⟨err, herr⟩, _⟩ |
        ⟨_, _, hreq⟩
      · exact absurd ⟨h1, h2⟩ hstale
      · rw [hok] at herr; cases herr
      · exact hreq
  · rcases hcase with ⟨h1, _, _⟩ | ⟨_, _, _, h4, _⟩
    · omega
    · intro st hst
      rw [h4 st hst (hdone st hst), htok]
  · rcases hcase with ⟨h1, _, _⟩ | ⟨_, h2, _, _, _⟩
    · omega
    · rw [h2, htok]
  · intro k
    obtain ⟨_, hhold, hmutex, _⟩ := hinv (schedule.take k)
    refine ⟨hhold, hmutex, ?_⟩
    intro i hl hget
    unfold callerStep
    rw [hget]
    simp [hl]

/-- A single refresh on the scripted transport: three callers on an empty cache, interleaved
so that callers 1 and 2 are picked while caller 0 holds the mutex; one token request is
sent and the three of them return the token "secret". -/
theorem concurrent_refresh_once_sample :
    (∃ req, req.url = "https://marketplace.walmartapis.com/v3/token" ∧
      (runSchedule (recordingEnv (scriptedEnv [] [])) [0, 1, 2, 0, 2, 1, 2, 1, 1]
        (startCallers 3 sampleClient (0, []))).world.2 = [] ++ [req]) ∧
    (runSchedule (recordingEnv (scriptedEnv [] [])) [0, 1, 2, 0, 2, 1, 2, 1, 1]
      (startCallers 3 sampleClient (0, []))).callers.map CallerState.token =
      [some "secret", some "secret", some "secret"] ∧
    (runSchedule (recordingEnv (scriptedEnv [] [])) [0, 1, 2]
      (startCallers 3 sampleClient (0, []))).callers.map CallerState.isHolding =
      [true, false, false] :=
  ⟨(concurrent_refresh_once (scriptedEnv [] []) sampleClient 0 [] 3 [0, 1, 2, 0, 2, 1, 2, 1, 1]
      "secret" 900 (by decide) (by decide) rfl (by decide) (by decide)).2.1,
    by decide, by decide⟩

/-! ## The log of a pass and the calls its collaborators receive -/

theorem imageBackfill_trace {σ : Type} (repo : InventoryRepository σ)
    (search : ItemSearchFn σ) (sku : String) (product : Product)
    (w : σ × List (Call × Outcome)) :
    (imageBackfill (recordingRepo repo) (recordingSearch search) sku product w).2.2 =
      w.2 ++ (imageBackfill (recordingRepo repo) (recordingSearch search) sku product w).1.map
        Event.untag := by
  unfold imageBackfill
  rcases hs : search product.ProductName product.UPC product.GTIN w.1 with ⟨r, w1⟩
  cases r with
  | error err => simp [recordingSearch, hs, Event.untag, Outcome.ofSearch]
  | ok imageURL =>
    simp [recordingSearch, recordingRepo, hs, Event.untag, Outcome.ofSearch]

theorem statusUpdate_trace {σ : Type} (repo : InventoryRepository σ) (sku : String)
    (existingProduct product : Product) (w : σ × List (Call × Outcome)) :
    (statusUpdate (recordingRepo repo) sku existingProduct product w).2.2 =
      w.2 ++ (statusUpdate (recordingRepo repo) sku existingProduct product w).1.map
        Event.untag := by
  unfold statusUpdate
  split
  · simp [recordingRepo, Event.untag]
  · simp

theorem imageUpdate_trace {σ : Type} (repo : InventoryRepository σ)
    (search : ItemSearchFn σ) (sku : String) (existingProduct product : Product)
    (w : σ × List (Call × Outcome)) :
    (imageUpdate (recordingRepo repo) (recordingSearch search) sku existingProduct product
        w).2.2 =
      w.2 ++ (imageUpdate (recordingRepo repo) (recordingSearch search) sku existingProduct
        product w).1.map Event.untag := by
  unfold imageUpdate
  split
  · exact imageBackfill_trace repo search sku product w
  · simp

theorem updateExisting_trace {σ : Type} (repo : InventoryRepository σ)
    (search : ItemSearchFn σ) (sku : String) (product existingProduct : Product)
    (w : σ × List (Call × Outcome)) :
    (updateExisting (recordingRepo repo) (recordingSearch search) sku product existingProduct
        w).world.2 =
      w.2 ++ (updateExisting (recordingRepo repo) (recordingSearch search) sku product
        existingProduct w).events.map Event.untag := by
  unfold updateExisting
  rcases h1 : repo.UpdateProduct product w.1 with ⟨e1, w1⟩
  have r1 : (recordingRepo repo).UpdateProduct product w =
      (e1, (w1, w.2 ++ [(.UpdateProduct product, .ofErr e1)])) := by
    simp [recordingRepo, h1]
  rw [r1]
  cases e1 with
  | some err => simp [Event.untag, Outcome.ofErr]
  | none =>
    dsimp only
    rcases h2 : repo.UpdateWmtProductDetail product.ID product w1 with ⟨e2, w2⟩
    have r2 : (recordingRepo repo).UpdateWmtProductDetail product.ID product
        (w1, w.2 ++ [(.UpdateProduct product, .ofErr none)]) =
        (e2, (w2, w.2 ++ [(.UpdateProduct product, .ofErr none)] ++
          [(.UpdateWmtProductDetail product.ID product, .ofErr e2)])) := by
      simp [recordingRepo, h2]
    rw [r2]
    cases e2 with
    | some err => simp [Event.untag, Outcome.ofErr]
    | none =>
      dsimp only
      rw [imageUpdate_trace, statusUpdate_trace]
      simp [Event.untag, Outcome.ofErr]

theorem insertNew_trace {σ : Type} (repo : InventoryRepository σ)
    (search : ItemSearchFn σ) (sku : String) (product : Product)
    (w : σ × List (Call × Outcome)) :
    (insertNew (recordingRepo repo) (recordingSearch search) sku product w).world.2 =
      w.2 ++ (insertNew (recordingRepo repo) (recordingSearch search) sku product
        w).events.map Event.untag := by
  unfold insertNew
  rcases h1 : repo.InsertProduct product w.1 with ⟨r1, w1⟩
  have e1 : (recordingRepo repo).InsertProduct product w =
      (r1, (w1, w.2 ++ [(.InsertProduct product, .ofInsert r1)])) := by
    simp [recordingRepo, h1]
  rw [e1]
  cases r1 with
  | error err => simp [Event.untag, Outcome.ofInsert]
  | ok productID =>
    dsimp only
    rcases h2 : repo.InsertWmtProductDetail productID product w1 with ⟨e2, w2⟩
    have r2 : (recordingRepo repo).InsertWmtProductDetail productID product
        (w1, w.2 ++ [(.InsertProduct product, .ofInsert (.ok productID))]) =
        (e2, (w2, w.2 ++ [(.InsertProduct product, .ofInsert (.ok productID))] ++
          [(.InsertWmtProductDetail productID product, .ofErr e2)])) := by
      simp [recordingRepo, h2]
    rw [r2]
    cases e2 with
    | some err => simp [Event.untag, Outcome.ofErr, Outcome.ofInsert]
    | none =>
      dsimp only
      rw [imageBackfill_trace]
      simp [recordingRepo, Event.untag, Outcome.ofErr, Outcome.ofInsert]

theorem runItem_trace {σ : Type} (repo : InventoryRepository σ) (search : ItemSearchFn σ)
    (inventoryMap : List (String × Int)) (sku : String) (productData : JMap)
    (w : σ × List (Call × Outcome)) :
    (runItem (recordingRepo repo) (recordingSearch search) inventoryMap sku productData
        w).world.2 =
      w.2 ++ (runItem (recordingRepo repo) (recordingSearch search) inventoryMap sku
        productData w).events.map Event.untag := by
  unfold runItem
  rcases hget : repo.GetProductBySKU sku w.1 with ⟨r, w0⟩
  have e0 : (recordingRepo repo).GetProductBySKU sku w =
      (r, (w0, w.2 ++ [(.GetProductBySKU sku, .ofLookup r)])) := by
    simp [recordingRepo, hget]
  rw [e0]
  cases r with
  | error err => simp [Event.untag, Outcome.ofLookup]
  | ok found =>
    cases found with
    | some existingProduct =>
      dsimp only
      rw [updateExisting_trace]
      simp [Event.untag, Outcome.ofLookup]
    | none =>
      dsimp only
      rw [insertNew_trace]
      simp [Event.untag, Outcome.ofLookup]

theorem processItem_world {σ : Type} (repo : InventoryRepository σ) (search : ItemSearchFn σ)
    (inventoryMap : List (String × Int)) (sku : String) (productData : JMap)
    (st : PassState σ) :
    (processItem repo search inventoryMap sku productData st).world =
      (runItem repo search inventoryMap sku productData st.world).world := by
  unfold processItem
  dsimp only
  split <;> rfl

theorem processItem_trace {σ : Type} (repo : InventoryRepository σ) (search : ItemSearchFn σ)
    (inventoryMap : List (String × Int)) (sku : String) (productData : JMap)
    (st : PassState (σ × List (Call × Outcome)))
    (h : st.world.2 = st.log.map Event.untag) :
    (processItem (recordingRepo repo) (recordingSearch search) inventoryMap sku productData
        st).world.2 =
      (processItem (recordingRepo repo) (recordingSearch search) inventoryMap sku productData
        st).log.map Event.untag := by
  rw [processItem_world, processItem_log, runItem_trace, h, List.map_append]

theorem reconcileLoop_trace {σ : Type} (repo : InventoryRepository σ)
    (search : ItemSearchFn σ) (inventoryMap : List (String × Int))
    (items : List (String × JMap)) (st : PassState (σ × List (Call × Outcome)))
    (h : st.world.2 = st.log.map Event.untag) :
    (reconcileLoop (recordingRepo repo) (recordingSearch search) inventoryMap items
        st).world.2 =
      (reconcileLoop (recordingRepo repo) (recordingSearch search) inventoryMap items
        st).log.map Event.untag := by
  induction items generalizing st with
  | nil => exact h
  | cons sd rest ih =>
    obtain ⟨sku, productData⟩ := sd
    unfold reconcileLoop
    exact ih _ (processItem_trace repo search inventoryMap sku productData st h)

theorem delistOne_trace {σ : Type} (repo : InventoryRepository σ) (p : Product)
    (st : PassState (σ × List (Call × Outcome)))
    (h : st.world.2 = st.log.map Event.untag) :
    (delistOne (recordingRepo repo) p st).world.2 =
      (delistOne (recordingRepo repo) p st).log.map Event.untag := by
  unfold delistOne
  rcases hu : repo.UpdateListingStatus p.ID 5 st.world.1 with ⟨e, w1⟩
  have r : (recordingRepo repo).UpdateListingStatus p.ID 5 st.world =
      (e, (w1, st.world.2 ++ [(.UpdateListingStatus p.ID 5, .ofErr e)])) := by
    simp [recordingRepo, hu]
  rw [r]
  cases e with
  | none => simp [h, Event.untag, Outcome.ofErr]
  | some err => simp [h, Event.untag, Outcome.ofErr]

theorem delistLoop_trace {σ : Type} (repo : InventoryRepository σ)
    (l : List (String × Product)) (st : PassState (σ × List (Call × Outcome)))
    (h : st.world.2 = st.log.map Event.untag) :
    (delistLoop (recordingRepo repo) l st).world.2 =
      (delistLoop (recordingRepo repo) l st).log.map Event.untag := by
  induction l generalizing st with
  | nil => exact h
  | cons kp rest ih =>
    obtain ⟨k, p⟩ := kp
    unfold delistLoop
    exact ih _ (delistOne_trace repo p st h)

theorem reconcilePass_trace {σ : Type} (repo : InventoryRepository σ)
    (search : ItemSearchFn σ) (rangeOrder : List (String × Product) → List (String × Product))
    (productsMap : List (String × JMap)) (inventoryMap : List (String × Int)) (w : σ) :
    (reconcilePass (recordingRepo repo) (recordingSearch search) rangeOrder productsMap
        inventoryMap (w, [])).world.2 =
      (reconcilePass (recordingRepo repo) (recordingSearch search) rangeOrder productsMap
        inventoryMap (w, [])).log.map Event.untag := by
  unfold reconcilePass
  rcases hF : repo.FindAll w with ⟨r, w0⟩
  have e : (recordingRepo repo).FindAll (w, []) =
      (r, (w0, [(.FindAll, .ofFindAll r)])) := by
    simp [recordingRepo, hF]
  rw [e]
  cases r with
  | error err => simp [Event.untag, Outcome.ofFindAll]
  | ok dbProducts =>
    dsimp only
    apply delistLoop_trace
    apply reconcileLoop_trace
    simp [passStart, Event.untag, Outcome.ofFindAll]

/-! ## The calls the repository receives in a pass -/

theorem recordedPass_trace {σ : Type} (repo : InventoryRepository σ)
    (search : ItemSearchFn σ) (rangeOrder : List (String × Product) → List (String × Product))
    (productsMap : List (String × JMap)) (inventoryMap : List (String × Int)) (w : σ) :
    (recordedPass repo search rangeOrder productsMap inventoryMap w).world.2 =
      (recordedPass repo search rangeOrder productsMap inventoryMap w).log.map Event.untag :=
  reconcilePass_trace repo search rangeOrder productsMap inventoryMap w

theorem recordedPass_mem {σ : Type} (repo : InventoryRepository σ)
    (search : ItemSearchFn σ) (rangeOrder : List (String × Product) → List (String × Product))
    (productsMap : List (String × JMap)) (inventoryMap : List (String × Int)) (w : σ) :
    ∀ e ∈ (recordedPass repo search rangeOrder productsMap inventoryMap w).log,
      e.untag ∈ (recordedPass repo search rangeOrder productsMap inventoryMap w).world.2 := by
  intro e he
  rw [recordedPass_trace]
  exact List.mem_map_of_mem _ he

/-- C2: the pass is run over a repository and a search that record every call they receive.
In a pass where `FindAll` returns local products with unique skus, every call received
succeeds and `GetProductBySKU` finds a product exactly for the skus `FindAll` returned: the
calls received, in order and with what they returned, are exactly the entries of the log
of the pass; every remote sku without a local product gets exactly the insert sequence
(lookup, `InsertProduct`, `InsertWmtProductDetail`, `UpdateListingStatus`, one `ItemSearch`
and the image insert it leads to) and no update call; every remote sku with a local product
gets exactly the update sequence and no insert call; every local product whose sku is not
in the remote snapshot gets exactly one `UpdateListingStatus(id, 5)`. -/
theorem reconcile_complete {σ : Type} (repo : InventoryRepository σ)
    (search : ItemSearchFn σ) (rangeOrder : List (String × Product) → List (String × Product))
    (productsMap : List (String × JMap)) (inventoryMap : List (String × Int)) (w : σ)
    (dbProducts : List Product)
    (hrange : ∀ m, (rangeOrder m).Perm m)
    (hmap : (mapKeys productsMap).Nodup)
    (hfind : (repo.FindAll w).1 = .ok dbProducts)
    (hlocal : (dbProducts.map Product.SKU).Nodup)
    (hok : ∀ x ∈ (recordedPass repo search rangeOrder productsMap inventoryMap w).world.2,
      x.2.isFailed = false)
    (hagree : ∀ x ∈ (recordedPass repo search rangeOrder productsMap inventoryMap w).world.2,
      ∀ s, x.1 = .GetProductBySKU s →
        ((∃ existing, x.2 = .product (some existing)) ↔
          s ∈ dbProducts.map Product.SKU)) :
    (recordedPass repo search rangeOrder productsMap inventoryMap w).world.2 =
      (recordedPass repo search rangeOrder productsMap inventoryMap w).log.map Event.untag ∧
    (∀ sku productData, (sku, productData) ∈ productsMap →
      sku ∉ dbProducts.map Product.SKU →
      ∃ (productID : Int) (imageURL : String),
        callsFor (recordedPass repo search rangeOrder productsMap inventoryMap w).log sku =
          [.GetProductBySKU sku,
           .InsertProduct (candidate inventoryMap sku productData),
           .InsertWmtProductDetail productID (candidate inventoryMap sku productData),
           .UpdateListingStatus productID
             (candidate inventoryMap sku productData).ListingStatusID,
           .ItemSearch (candidate inventoryMap sku productData).ProductName
             (candidate inventoryMap sku productData).UPC
             (candidate inventoryMap sku productData).GTIN,
           .InsertProductImage (candidate inventoryMap sku productData).GTIN imageURL]) ∧
    (∀ sku productData, (sku, productData) ∈ productsMap →
      sku ∈ dbProducts.map Product.SKU →
      ∃ (existing : Product) (imageURL : String),
        callsFor (recordedPass repo search rangeOrder productsMap inventoryMap w).log sku =
          [.GetProductBySKU sku,
           .UpdateProduct { candidate inventoryMap sku productData with ID := existing.ID },
           .UpdateWmtProductDetail existing.ID
             { candidate inventoryMap sku productData with ID := existing.ID }] ++
          (if existing.ListingStatusID ≠
              (candidate inventoryMap sku productData).ListingStatusID
           then [.UpdateListingStatus existing.ID
             (candidate inventoryMap sku productData).ListingStatusID]
           else []) ++
          (if existing.ProductImage = "" then
            [.ItemSearch (candidate inventoryMap sku productData).ProductName
               (candidate inventoryMap sku productData).UPC
               (candidate inventoryMap sku productData).GTIN,
             .InsertProductImage (candidate inventoryMap sku productData).GTIN imageURL]
           else [])) ∧
    (∀ p ∈ dbProducts, p.SKU ∉ mapKeys productsMap →
      callsFor (recordedPass repo search rangeOrder productsMap inventoryMap w).log p.SKU =
        [.UpdateListingStatus p.ID 5]) :=
  ⟨recordedPass_trace repo search rangeOrder productsMap inventoryMap w,
    reconcile_complete_log (recordingRepo repo) (recordingSearch search) rangeOrder
      productsMap inventoryMap (w, []) dbProducts hrange hmap hfind hlocal
      (fun e he => hok _
        (recordedPass_mem repo search rangeOrder productsMap inventoryMap w e he))
      (fun e he s hs => hagree _
        (recordedPass_mem repo search rangeOrder productsMap inventoryMap w e he) s hs)⟩

theorem sample_recorded_ok :
    ∀ e ∈ (recordedPass (tableRepo sampleLocal false) sampleSearch id
      [("A1", remoteA1), ("B2", remoteB2)] [("A1", 12)] 100).log,
      e.outcome.isFailed = false ∧ lookupAgrees ["B2", "C3"] e = true := by
  decide

/-- C2 on the sample pass: remote snapshot {A1, B2}, local products {B2 (id 7), C3 (id 9)}.
The repository and the search receive `FindAll`, the insert sequence of A1, the update
sequence of B2 and `UpdateListingStatus(9, 5)` for C3, in this order and nothing else. -/
theorem reconcile_complete_witness :
    tracedCalls (recordedPass (tableRepo sampleLocal false) sampleSearch id
      [("A1", remoteA1), ("B2", remoteB2)] [("A1", 12)] 100).world.2 =
      [.FindAll,
       .GetProductBySKU "A1",
       .InsertProduct (candidate [("A1", 12)] "A1" remoteA1),
       .InsertWmtProductDetail 100 (candidate [("A1", 12)] "A1" remoteA1),
       .UpdateListingStatus 100 1,
       .ItemSearch "Widget" "0001" "00000001",
       .InsertProductImage "00000001" "https://img/00000001",
       .GetProductBySKU "B2",
       .UpdateProduct { candidate [("A1", 12)] "B2" remoteB2 with ID := 7 },
       .UpdateWmtProductDetail 7 { candidate [("A1", 12)] "B2" remoteB2 with ID := 7 },
       .UpdateListingStatus 7 2,
       .ItemSearch "Gadget" "0002" "00000002",
       .InsertProductImage "00000002" "https://img/00000002",
       .UpdateListingStatus 9 5] ∧
    (recordedPass (tableRepo sampleLocal false) sampleSearch id
      [("A1", remoteA1), ("B2", remoteB2)] [("A1", 12)] 100).world.2 =
      (recordedPass (tableRepo sampleLocal false) sampleSearch id
        [("A1", remoteA1), ("B2", remoteB2)] [("A1", 12)] 100).log.map Event.untag ∧
    callsFor (recordedPass (tableRepo sampleLocal false) sampleSearch id
      [("A1", remoteA1), ("B2", remoteB2)] [("A1", 12)] 100).log "C3" =
        [.UpdateListingStatus 9 5] :=
  have h := reconcile_complete (tableRepo sampleLocal false) sampleSearch id
    [("A1", remoteA1), ("B2", remoteB2)] [("A1", 12)] 100 sampleLocal
    (fun _ => List.Perm.refl _) (by decide) rfl (by decide)
    (by decide)
    (fun x hx s hs => by
      rw [recordedPass_trace] at hx
      obtain ⟨e, he, rfl⟩ := List.mem_map.mp hx
      exact lookupAgrees_spec _ e (sample_recorded_ok e he).2 s hs)
  ⟨by decide, h.1,
    h.2.2.2 { ID := 9, SKU := "C3", ListingStatusID := 2 } (by decide) (by decide)⟩

theorem eventsFor_untag_sublist {σ : Type} (repo : InventoryRepository σ)
    (search : ItemSearchFn σ) (rangeOrder : List (String × Product) → List (String × Product))
    (productsMap : List (String × JMap)) (inventoryMap : List (String × Int)) (w : σ)
    (sku : String) :
    ((eventsFor (recordedPass repo search rangeOrder productsMap inventoryMap w).log sku).map
      Event.untag).Sublist
      (recordedPass repo search rangeOrder productsMap inventoryMap w).world.2 := by
  rw [recordedPass_trace]
  exact List.Sublist.map _ (List.filter_sublist _)

theorem candidate_fields (inventoryMap : List (String × Int)) (sku : String)
    (productData : JMap) :
    candidate inventoryMap sku productData =
      { SKU := sku
        UPC := getStringValue productData "upc"
        ProductName := getStringValue productData "productName"
        Price := getFloatValue productData "price"
        AvailableToSellQTY := (mapGet inventoryMap sku).getD 0
        GTIN := getStringValue productData "gtin"
        WPID := getStringValue productData "wpid"
        Availability := getStringValue productData "availability"
        PublishedStatus := getStringValue productData "publishedStatus"
        LifecycleStatus := getStringValue productData "lifecycleStatus"
        ListingStatusID :=
          listingStatusID (getStringValue productData "lifecycleStatus")
            (getStringValue productData "availability")
            (getStringValue productData "publishedStatus") } := by
  unfold candidate availableQty
  cases mapGet inventoryMap sku <;> rfl

/-- C4: the pass is run over a repository and a search that record every call they receive.
For a remote item whose lookup returned no local product and for which no repository call
failed, the calls received for that sku are, in this order and with these results: the
lookup, `InsertProduct(candidate)`, `InsertWmtProductDetail(id, candidate)` with the id
`InsertProduct` returned, `UpdateListingStatus(id, derived status)`, one
`ItemSearch(productName, upc, gtin)`, and then `InsertProductImage(gtin, url)` exactly when
the search returned a url. These are the entries the log holds for the sku, the log is
exactly the trace of the calls received, and the candidate has the sku, the fields read
from the remote record, the quantity `inventoryMap[sku]` or 0 when absent, and the derived
status. -/
theorem insert_sequence {σ : Type} (repo : InventoryRepository σ)
    (search : ItemSearchFn σ) (rangeOrder : List (String × Product) → List (String × Product))
    (productsMap : List (String × JMap)) (inventoryMap : List (String × Int)) (w : σ)
    (dbProducts : List Product) (sku : String) (productData : JMap)
    (hrange : ∀ m, (rangeOrder m).Perm m)
    (hmap : (mapKeys productsMap).Nodup)
    (hfind : (repo.FindAll w).1 = .ok dbProducts)
    (hmem : (sku, productData) ∈ productsMap)
    (hnone : (eventsFor (recordedPass repo search rangeOrder productsMap inventoryMap w).log
      sku).head? = some ⟨some sku, .GetProductBySKU sku, .product none⟩)
    (hok : ∀ e ∈ eventsFor
        (recordedPass repo search rangeOrder productsMap inventoryMap w).log sku,
      e.call.isRepository = true → e.outcome.isFailed = false) :
    (recordedPass repo search rangeOrder productsMap inventoryMap w).world.2 =
      (recordedPass repo search rangeOrder productsMap inventoryMap w).log.map Event.untag ∧
    (∃ (productID : Int) (found : Outcome),
      ((∃ imageURL, found = .url imageURL) ∨ (∃ err, found = .failed err)) ∧
      eventsFor (recordedPass repo search rangeOrder productsMap inventoryMap w).log sku =
        [⟨some sku, .GetProductBySKU sku, .product none⟩,
         ⟨some sku, .InsertProduct (candidate inventoryMap sku productData), .id productID⟩,
         ⟨some sku, .InsertWmtProductDetail productID (candidate inventoryMap sku productData),
           .done⟩,
         ⟨some sku, .UpdateListingStatus productID
           (candidate inventoryMap sku productData).ListingStatusID, .done⟩,
         ⟨some sku, .ItemSearch (candidate inventoryMap sku productData).ProductName
           (candidate inventoryMap sku productData).UPC
           (candidate inventoryMap sku productData).GTIN, found⟩] ++
        imageInsertAfter sku (candidate inventoryMap sku productData).GTIN found ∧
      ([(Call.GetProductBySKU sku, Outcome.product none),
        (Call.InsertProduct (candidate inventoryMap sku productData), Outcome.id productID),
        (Call.InsertWmtProductDetail productID (candidate inventoryMap sku productData),
          Outcome.done),
        (Call.UpdateListingStatus productID
          (candidate inventoryMap sku productData).ListingStatusID, Outcome.done),
        (Call.ItemSearch (candidate inventoryMap sku productData).ProductName
          (candidate inventoryMap sku productData).UPC
          (candidate inventoryMap sku productData).GTIN, found)] ++
        (imageInsertAfter sku (candidate inventoryMap sku productData).GTIN found).map
          Event.untag).Sublist
        (recordedPass repo search rangeOrder productsMap inventoryMap w).world.2) ∧
    candidate inventoryMap sku productData =
      { SKU := sku
        UPC := getStringValue productData "upc"
        ProductName := getStringValue productData "productName"
        Price := getFloatValue productData "price"
        AvailableToSellQTY := (mapGet inventoryMap sku).getD 0
        GTIN := getStringValue productData "gtin"
        WPID := getStringValue productData "wpid"
        Availability := getStringValue productData "availability"
        PublishedStatus := getStringValue productData "publishedStatus"
        LifecycleStatus := getStringValue productData "lifecycleStatus"
        ListingStatusID :=
          listingStatusID (getStringValue productData "lifecycleStatus")
            (getStringValue productData "availability")
            (getStringValue productData "publishedStatus") } := by
  refine ⟨recordedPass_trace repo search rangeOrder productsMap inventoryMap w, ?_,
    candidate_fields inventoryMap sku productData⟩
  obtain ⟨productID, found, hfound, hev, _, _⟩ := insert_sequence_log (recordingRepo repo)
    (recordingSearch search) rangeOrder productsMap inventoryMap (w, []) dbProducts sku
    productData hrange hmap hfind hmem hnone hok
  refine ⟨productID, found, hfound, hev, ?_⟩
  have hsub := eventsFor_untag_sublist repo search rangeOrder productsMap inventoryMap w sku
  have hev1 : eventsFor (recordedPass repo search rangeOrder productsMap inventoryMap w).log
      sku = _ := hev
  rw [hev1] at hsub
  simpa [Event.untag] using hsub

/-- C4 on the example of spec section 8: remote A1 with inventory {A1: 12} and no local
product. The repository and the search receive `FindAll`, the lookup of A1, the insert of
the candidate with quantity 12 and status 1 under the id 100, its detail, its status, one
image search and the image insert, in this order and nothing else. -/
theorem insert_sequence_witness :
    tracedCalls (recordedPass (tableRepo [] false) sampleSearch id [("A1", remoteA1)]
      [("A1", 12)] 100).world.2 =
      [.FindAll,
       .GetProductBySKU "A1",
       .InsertProduct { SKU := "A1", UPC := "0001", ProductName := "Widget",
                        AvailableToSellQTY := 12, GTIN := "00000001", WPID := "W1",
                        Availability := "In_stock", PublishedStatus := "PUBLISHED",
                        LifecycleStatus := "ACTIVE", ListingStatusID := 1 },
       .InsertWmtProductDetail 100
         { SKU := "A1", UPC := "0001", ProductName := "Widget",
           AvailableToSellQTY := 12, GTIN := "00000001", WPID := "W1",
           Availability := "In_stock", PublishedStatus := "PUBLISHED",
           LifecycleStatus := "ACTIVE", ListingStatusID := 1 },
       .UpdateListingStatus 100 1,
       .ItemSearch "Widget" "0001" "00000001",
       .InsertProductImage "00000001" "https://img/00000001"] ∧
    (recordedPass (tableRepo [] false) sampleSearch id [("A1", remoteA1)]
      [("A1", 12)] 100).world.2 =
      (recordedPass (tableRepo [] false) sampleSearch id [("A1", remoteA1)]
        [("A1", 12)] 100).log.map Event.untag :=
  ⟨by decide,
    (insert_sequence (tableRepo [] false) sampleSearch id [("A1", remoteA1)] [("A1", 12)] 100
      [] "A1" remoteA1 (fun _ => List.Perm.refl _) (by decide) rfl (List.mem_cons_self _ _)
      (by decide) (by decide)).1⟩

/-- C5: the pass is run over a repository and a search that record every call they receive.
For a remote item whose lookup returned the local product `existing` and for which no
repository call failed, the calls received for that sku are, in this order and with these
results: the lookup, `UpdateProduct(candidate with the existing id)`,
`UpdateWmtProductDetail(id, candidate)`, `UpdateListingStatus(id, derived status)` exactly
when the derived status differs from the stored one, `ItemSearch` exactly when the stored
product has an empty image url, and then `InsertProductImage(gtin, url)` exactly when that
search returned a url. These are the entries the log holds for the sku, and the log is
exactly the trace of the calls received. -/
theorem update_sequence {σ : Type} (repo : InventoryRepository σ)
    (search : ItemSearchFn σ) (rangeOrder : List (String × Product) → List (String × Product))
    (productsMap : List (String × JMap)) (inventoryMap : List (String × Int)) (w : σ)
    (dbProducts : List Product) (sku : String) (productData : JMap) (existing : Product)
    (hrange : ∀ m, (rangeOrder m).Perm m)
    (hmap : (mapKeys productsMap).Nodup)
    (hfind : (repo.FindAll w).1 = .ok dbProducts)
    (hmem : (sku, productData) ∈ productsMap)
    (hsome : (eventsFor (recordedPass repo search rangeOrder productsMap inventoryMap w).log
      sku).head? = some ⟨some sku, .GetProductBySKU sku, .product (some existing)⟩)
    (hok : ∀ e ∈ eventsFor
        (recordedPass repo search rangeOrder productsMap inventoryMap w).log sku,
      e.call.isRepository = true → e.outcome.isFailed = false) :
    (recordedPass repo search rangeOrder productsMap inventoryMap w).world.2 =
      (recordedPass repo search rangeOrder productsMap inventoryMap w).log.map Event.untag ∧
    ∃ found : Outcome,
      ((∃ imageURL, found = .url imageURL) ∨ (∃ err, found = .failed err)) ∧
      eventsFor (recordedPass repo search rangeOrder productsMap inventoryMap w).log sku =
        [⟨some sku, .GetProductBySKU sku, .product (some existing)⟩,
         ⟨some sku, .UpdateProduct
           { candidate inventoryMap sku productData with ID := existing.ID }, .done⟩,
         ⟨some sku, .UpdateWmtProductDetail existing.ID
           { candidate inventoryMap sku productData with ID := existing.ID }, .done⟩] ++
        (if existing.ListingStatusID ≠ (candidate inventoryMap sku productData).ListingStatusID
         then [⟨some sku, .UpdateListingStatus existing.ID
           (candidate inventoryMap sku productData).ListingStatusID, .done⟩]
         else []) ++
        (if existing.ProductImage = "" then
          ⟨some sku, .ItemSearch (candidate inventoryMap sku productData).ProductName
            (candidate inventoryMap sku productData).UPC
            (candidate inventoryMap sku productData).GTIN, found⟩ ::
            imageInsertAfter sku (candidate inventoryMap sku productData).GTIN found
         else []) ∧
      ([(Call.GetProductBySKU sku, Outcome.product (some existing)),
        (Call.UpdateProduct { candidate inventoryMap sku productData with ID := existing.ID },
          Outcome.done),
        (Call.UpdateWmtProductDetail existing.ID
          { candidate inventoryMap sku productData with ID := existing.ID }, Outcome.done)] ++
        (if existing.ListingStatusID ≠ (candidate inventoryMap sku productData).ListingStatusID
         then [(Call.UpdateListingStatus existing.ID
           (candidate inventoryMap sku productData).ListingStatusID, Outcome.done)]
         else []) ++
        (if existing.ProductImage = "" then
          (Call.ItemSearch (candidate inventoryMap sku productData).ProductName
            (candidate inventoryMap sku productData).UPC
            (candidate inventoryMap sku productData).GTIN, found) ::
            (imageInsertAfter sku (candidate inventoryMap sku productData).GTIN found).map
              Event.untag
         else [])).Sublist
        (recordedPass repo search rangeOrder productsMap inventoryMap w).world.2 := by
  refine ⟨recordedPass_trace repo search rangeOrder productsMap inventoryMap w, ?_⟩
  obtain ⟨found, hfound, hev⟩ := update_sequence_log (recordingRepo repo)
    (recordingSearch search) rangeOrder productsMap inventoryMap (w, []) dbProducts sku
    productData existing hrange hmap hfind hmem hsome hok
  refine ⟨found, hfound, hev, ?_⟩
  have hsub := eventsFor_untag_sublist repo search rangeOrder productsMap inventoryMap w sku
  have hev1 : eventsFor (recordedPass repo search rangeOrder productsMap inventoryMap w).log
      sku = _ := hev
  rw [hev1] at hsub
  by_cases h1 : existing.ListingStatusID ≠
      (candidate inventoryMap sku productData).ListingStatusID <;>
    by_cases h2 : existing.ProductImage = "" <;>
    simpa [Event.untag, h1, h2] using hsub

/-- C5 on a sample update: remote B2 (derived status 2) with the local product B2 (id 7,
stored status 1, no image). The repository and the search receive `FindAll`, the lookup of
B2, the two updates under the id 7, the status update to 2, one image search and the image
insert, and then `UpdateListingStatus(9, 5)` for the local product C3, in this order and
nothing else. -/
theorem update_sequence_witness :
    tracedCalls (recordedPass (tableRepo sampleLocal false) sampleSearch id
      [("B2", remoteB2)] [] 100).world.2 =
      [.FindAll,
       .GetProductBySKU "B2",
       .UpdateProduct { ID := 7, SKU := "B2", UPC := "0002", ProductName := "Gadget",
                        GTIN := "00000002", WPID := "W2", Availability := "Out_of_stock",
                        PublishedStatus := "PUBLISHED", LifecycleStatus := "ACTIVE",
                        ListingStatusID := 2 },
       .UpdateWmtProductDetail 7
         { ID := 7, SKU := "B2", UPC := "0002", ProductName := "Gadget",
           GTIN := "00000002", WPID := "W2", Availability := "Out_of_stock",
           PublishedStatus := "PUBLISHED", LifecycleStatus := "ACTIVE",
           ListingStatusID := 2 },
       .UpdateListingStatus 7 2,
       .ItemSearch "Gadget" "0002" "00000002",
       .InsertProductImage "00000002" "https://img/00000002",
       .UpdateListingStatus 9 5] ∧
    (recordedPass (tableRepo sampleLocal false) sampleSearch id
      [("B2", remoteB2)] [] 100).world.2 =
      (recordedPass (tableRepo sampleLocal false) sampleSearch id
        [("B2", remoteB2)] [] 100).log.map Event.untag :=
  ⟨by decide,
    (update_sequence (tableRepo sampleLocal false) sampleSearch id [("B2", remoteB2)] [] 100
      sampleLocal "B2" remoteB2 { ID := 7, SKU := "B2", ListingStatusID := 1 }
      (fun _ => List.Perm.refl _) (by decide) rfl (List.mem_cons_self _ _)
      (by decide) (by decide)).1⟩

/-! ## The counters of a pass and the calls received -/

theorem imageBackfill_fatal {σ : Type} (repo : InventoryRepository σ)
    (search : ItemSearchFn σ) (sku : String) (product : Product) (w : σ) :
    (imageBackfill repo search sku product w).1.filter Event.fatal = [] := by
  unfold imageBackfill
  rcases hs : search product.ProductName product.UPC product.GTIN w with ⟨r, w1⟩
  cases r with
  | error err => simp [Event.fatal, Call.endsIteration]
  | ok imageURL => simp [Event.fatal, Call.endsIteration, Outcome.isFailed]

theorem statusUpdate_fatal {σ : Type} (repo : InventoryRepository σ) (sku : String)
    (existingProduct product : Product) (w : σ) :
    (statusUpdate repo sku existingProduct product w).1.filter Event.fatal = [] := by
  unfold statusUpdate
  split
  · simp [Event.fatal, Call.endsIteration]
  · rfl

theorem imageUpdate_fatal {σ : Type} (repo : InventoryRepository σ)
    (search : ItemSearchFn σ) (sku : String) (existingProduct product : Product) (w : σ) :
    (imageUpdate repo search sku existingProduct product w).1.filter Event.fatal = [] := by
  unfold imageUpdate
  split
  · exact imageBackfill_fatal repo search sku product w
  · rfl

theorem updateExisting_fatal {σ : Type} (repo : InventoryRepository σ)
    (search : ItemSearchFn σ) (sku : String) (product existingProduct : Product) (w : σ) :
    ((updateExisting repo search sku product existingProduct w).events.filter
        Event.fatal).length =
      if (updateExisting repo search sku product existingProduct w).ending = .skipped
      then 1 else 0 := by
  unfold updateExisting
  rcases h1 : repo.UpdateProduct product w with ⟨e1, w1⟩
  cases e1 with
  | some err => simp [Event.fatal, Call.endsIteration, Outcome.isFailed]
  | none =>
    rcases h2 : repo.UpdateWmtProductDetail product.ID product w1 with ⟨e2, w2⟩
    cases e2 with
    | some err => simp [h2, Event.fatal, Call.endsIteration, Outcome.isFailed]
    | none =>
      simp [h2, List.filter_append, statusUpdate_fatal, imageUpdate_fatal, Event.fatal,
        Outcome.isFailed]

theorem insertNew_fatal {σ : Type} (repo : InventoryRepository σ)
    (search : ItemSearchFn σ) (sku : String) (product : Product) (w : σ) :
    ((insertNew repo search sku product w).events.filter Event.fatal).length =
      if (insertNew repo search sku product w).ending = .skipped then 1 else 0 := by
  unfold insertNew
  rcases h1 : repo.InsertProduct product w with ⟨r1, w1⟩
  cases r1 with
  | error err => simp [Event.fatal, Call.endsIteration, Outcome.isFailed]
  | ok productID =>
    rcases h2 : repo.InsertWmtProductDetail productID product w1 with ⟨e2, w2⟩
    cases e2 with
    | some err => simp [h2, Event.fatal, Call.endsIteration, Outcome.isFailed]
    | none =>
      simp [h2, List.filter_append, imageBackfill_fatal, Event.fatal, Outcome.isFailed,
        Call.endsIteration]

theorem runItem_fatal {σ : Type} (repo : InventoryRepository σ) (search : ItemSearchFn σ)
    (inventoryMap : List (String × Int)) (sku : String) (productData : JMap) (w : σ) :
    ((runItem repo search inventoryMap sku productData w).events.filter Event.fatal).length =
      if (runItem repo search inventoryMap sku productData w).ending = .skipped
      then 1 else 0 := by
  unfold runItem
  rcases hget : repo.GetProductBySKU sku w with ⟨r, w0⟩
  cases r with
  | error err => simp [Event.fatal, Call.endsIteration, Outcome.isFailed]
  | ok found =>
    cases found with
    | some existingProduct =>
      have h := updateExisting_fatal repo search sku
        { candidate inventoryMap sku productData with ID := existingProduct.ID }
        existingProduct w0
      simpa [Event.fatal, Outcome.isFailed] using h
    | none =>
      have h := insertNew_fatal repo search sku (candidate inventoryMap sku productData) w0
      simpa [Event.fatal, Outcome.isFailed] using h

theorem processItem_counters {σ : Type} (repo : InventoryRepository σ)
    (search : ItemSearchFn σ) (inventoryMap : List (String × Int)) (sku : String)
    (productData : JMap) (st : PassState σ) (k : Int)
    (h : st.successCount = st.updateCount + st.insertCount ∧
      st.successCount + ((st.log.filter Event.fatal).length : Int) = k) :
    (processItem repo search inventoryMap sku productData st).successCount =
      (processItem repo search inventoryMap sku productData st).updateCount +
        (processItem repo search inventoryMap sku productData st).insertCount ∧
    (processItem repo search inventoryMap sku productData st).successCount +
      (((processItem repo search inventoryMap sku productData st).log.filter
        Event.fatal).length : Int) = k + 1 := by
  rw [processItem_log, List.filter_append, List.length_append, runItem_fatal]
  unfold processItem
  dsimp only
  obtain ⟨h1, h2⟩ := h
  split <;> rename_i hend <;> simp [hend] <;> omega

theorem reconcileLoop_counters {σ : Type} (repo : InventoryRepository σ)
    (search : ItemSearchFn σ) (inventoryMap : List (String × Int))
    (items : List (String × JMap)) (st : PassState σ) (k : Int)
    (h : st.successCount = st.updateCount + st.insertCount ∧
      st.successCount + ((st.log.filter Event.fatal).length : Int) = k) :
    (reconcileLoop repo search inventoryMap items st).successCount =
      (reconcileLoop repo search inventoryMap items st).updateCount +
        (reconcileLoop repo search inventoryMap items st).insertCount ∧
    (reconcileLoop repo search inventoryMap items st).successCount +
      (((reconcileLoop repo search inventoryMap items st).log.filter
        Event.fatal).length : Int) = k + items.length := by
  induction items generalizing st k with
  | nil => simpa using h
  | cons sd rest ih =>
    obtain ⟨sku, productData⟩ := sd
    unfold reconcileLoop
    have := ih _ (k + 1) (processItem_counters repo search inventoryMap sku productData st k h)
    refine ⟨this.1, ?_⟩
    rw [this.2]
    simp only [List.length_cons, Nat.cast_add, Nat.cast_one]
    omega

theorem delistOne_counters {σ : Type} (repo : InventoryRepository σ) (p : Product)
    (st : PassState σ) :
    (delistOne repo p st).successCount = st.successCount ∧
    (delistOne repo p st).updateCount = st.updateCount ∧
    (delistOne repo p st).insertCount = st.insertCount ∧
    (delistOne repo p st).log.filter Event.fatal = st.log.filter Event.fatal := by
  unfold delistOne
  rcases hu : repo.UpdateListingStatus p.ID 5 st.world with ⟨e, w⟩
  cases e with
  | none => simp [List.filter_append, Event.fatal, Call.endsIteration]
  | some err => simp [List.filter_append, Event.fatal, Call.endsIteration]

theorem delistLoop_counters {σ : Type} (repo : InventoryRepository σ)
    (l : List (String × Product)) (st : PassState σ) :
    (delistLoop repo l st).successCount = st.successCount ∧
    (delistLoop repo l st).updateCount = st.updateCount ∧
    (delistLoop repo l st).insertCount = st.insertCount ∧
    (delistLoop repo l st).log.filter Event.fatal = st.log.filter Event.fatal := by
  induction l generalizing st with
  | nil => exact ⟨rfl, rfl, rfl, rfl⟩
  | cons kp rest ih =>
    obtain ⟨k, p⟩ := kp
    unfold delistLoop
    obtain ⟨h1, h2, h3, h4⟩ := ih (delistOne repo p st)
    obtain ⟨g1, g2, g3, g4⟩ := delistOne_counters repo p st
    exact ⟨h1.trans g1, h2.trans g2, h3.trans g3, h4.trans g4⟩

theorem reconcilePass_counters {σ : Type} (repo : InventoryRepository σ)
    (search : ItemSearchFn σ) (rangeOrder : List (String × Product) → List (String × Product))
    (productsMap : List (String × JMap)) (inventoryMap : List (String × Int)) (w : σ) :
    (reconcilePass repo search rangeOrder productsMap inventoryMap w).successCount =
      (reconcilePass repo search rangeOrder productsMap inventoryMap w).updateCount +
        (reconcilePass repo search rangeOrder productsMap inventoryMap w).insertCount ∧
    (∀ dbProducts, (repo.FindAll w).1 = .ok dbProducts →
      (reconcilePass repo search rangeOrder productsMap inventoryMap w).successCount +
        (((reconcilePass repo search rangeOrder productsMap inventoryMap w).log.filter
          Event.fatal).length : Int) = productsMap.length) := by
  unfold reconcilePass
  rcases hF : repo.FindAll w with ⟨r, w0⟩
  cases r with
  | error err =>
    refine ⟨rfl, ?_⟩
    intro dbProducts h
    cases h
  | ok dbProducts =>
    dsimp only
    have hloop := reconcileLoop_counters repo search inventoryMap productsMap
      (passStart dbProducts w0) 0 (by simp [passStart, Event.fatal, Outcome.isFailed])
    obtain ⟨h1, h2, h3, h4⟩ := delistLoop_counters repo
      (rangeOrder (reconcileLoop repo search inventoryMap productsMap
        (passStart dbProducts w0)).dbProductSKUs)
      (reconcileLoop repo search inventoryMap productsMap (passStart dbProducts w0))
    refine ⟨?_, ?_⟩
    · rw [h1, h2, h3]; exact hloop.1
    · intro _ _
      rw [h1, h4, hloop.2]
      simp

theorem filter_untag_length (log : List Event) (p : Call × Outcome → Bool) :
    ((log.map Event.untag).filter p).length = (log.filter (fun e => p e.untag)).length := by
  induction log with
  | nil => rfl
  | cons e rest ih =>
    simp only [List.map_cons, List.filter_cons]
    by_cases h : p e.untag = true
    · simp [h, ih]
    · simp [h, ih]

/-- C16 (amended): the pass is run over a repository and a search that record every call
they receive. At the end of every pass the calls received are exactly the entries of the
log, and the error count equals the number of received calls that failed among
`GetProductBySKU`, `InsertProduct`, `InsertWmtProductDetail`, `UpdateProduct`,
`UpdateWmtProductDetail` and `UpdateListingStatus(_, 5)` (the call of the final loop), so it
is at most the number of received calls that failed. The success count is the sum of the
update and insert counts, and when `FindAll` succeeds it is the number of entries of the
remote snapshot minus the number of failed calls among the first five: an item in whose
iteration only `UpdateListingStatus`, `ItemSearch` or `InsertProductImage` failed counts as
a success and adds nothing to the error count. When `FindAll` succeeds the repository
receives the `GetProductBySKU` of every entry of the remote snapshot, whatever failed
before it. -/
theorem error_count {σ : Type} (repo : InventoryRepository σ) (search : ItemSearchFn σ)
    (rangeOrder : List (String × Product) → List (String × Product))
    (productsMap : List (String × JMap)) (inventoryMap : List (String × Int)) (w : σ) :
    (recordedPass repo search rangeOrder productsMap inventoryMap w).world.2 =
      (recordedPass repo search rangeOrder productsMap inventoryMap w).log.map Event.untag ∧
    (recordedPass repo search rangeOrder productsMap inventoryMap w).errorCount =
      (((recordedPass repo search rangeOrder productsMap inventoryMap w).world.2.filter
        tracedCounted).length : Int) ∧
    (recordedPass repo search rangeOrder productsMap inventoryMap w).errorCount ≤
      (((recordedPass repo search rangeOrder productsMap inventoryMap w).world.2.filter
        tracedFailed).length : Int) ∧
    (recordedPass repo search rangeOrder productsMap inventoryMap w).successCount =
      (recordedPass repo search rangeOrder productsMap inventoryMap w).updateCount +
        (recordedPass repo search rangeOrder productsMap inventoryMap w).insertCount ∧
    (∀ dbProducts, (repo.FindAll w).1 = .ok dbProducts →
      (recordedPass repo search rangeOrder productsMap inventoryMap w).successCount +
        (((recordedPass repo search rangeOrder productsMap inventoryMap w).world.2.filter
          tracedFatal).length : Int) = productsMap.length ∧
      ∀ sku productData, (sku, productData) ∈ productsMap →
        Call.GetProductBySKU sku ∈
          tracedCalls (recordedPass repo search rangeOrder productsMap inventoryMap
            w).world.2) := by
  have htrace := recordedPass_trace repo search rangeOrder productsMap inventoryMap w
  have hlog := error_count_log (recordingRepo repo) (recordingSearch search) rangeOrder
    productsMap inventoryMap (w, [])
  have hcnt := reconcilePass_counters (recordingRepo repo) (recordingSearch search)
    rangeOrder productsMap inventoryMap (w, [])
  have hcounted : (recordedPass repo search rangeOrder productsMap inventoryMap w).errorCount =
      (((recordedPass repo search rangeOrder productsMap inventoryMap w).world.2.filter
        tracedCounted).length : Int) := by
    rw [htrace, filter_untag_length]
    exact hlog.1
  refine ⟨htrace, hcounted, ?_, hcnt.1, ?_⟩
  · rw [hcounted]
    have hsub : ((recordedPass repo search rangeOrder productsMap inventoryMap
        w).world.2.filter tracedCounted).Sublist
        ((recordedPass repo search rangeOrder productsMap inventoryMap w).world.2.filter
          tracedFailed) := by
      apply List.monotone_filter_right
      intro x hx
      unfold tracedCounted at hx
      unfold tracedFailed
      simp only [Bool.and_eq_true] at hx
      exact hx.1
    exact_mod_cast hsub.length_le
  · intro dbProducts hfind
    constructor
    · rw [htrace, filter_untag_length]
      exact hcnt.2 dbProducts hfind
    · intro sku productData hmem
      obtain ⟨e, he, _, hc⟩ := hlog.2.2.2 dbProducts hfind sku productData hmem
      have := recordedPass_mem repo search rangeOrder productsMap inventoryMap w e he
      unfold tracedCalls
      rw [← hc]
      exact List.mem_map_of_mem Prod.fst this

/-- C16 (amended) on sample passes: a pass over one new item in which `UpdateListingStatus`
and `InsertProductImage` fail receives two failed calls and reports 0 errors and 1 success;
a pass in which `UpdateProduct` fails for B2 receives that failed call, leaves the
iteration, reports 1 error and 0 successes, and then sets C3 and B2 to status 5. -/
theorem error_count_witness :
    ((recordedPass statusFailRepo sampleSearch id [("A1", remoteA1)] [] 100).errorCount = 0 ∧
      (recordedPass statusFailRepo sampleSearch id [("A1", remoteA1)] [] 100).successCount
        = 1 ∧
      tracedCalls ((recordedPass statusFailRepo sampleSearch id [("A1", remoteA1)] []
        100).world.2.filter tracedFailed) =
        [.UpdateListingStatus 100 1,
         .InsertProductImage "00000001" "https://img/00000001"]) ∧
    ((recordedPass (tableRepo sampleLocal true) sampleSearch id [("B2", remoteB2)] []
        100).errorCount = 1 ∧
      (recordedPass (tableRepo sampleLocal true) sampleSearch id [("B2", remoteB2)] []
        100).successCount = 0 ∧
      tracedCalls (recordedPass (tableRepo sampleLocal true) sampleSearch id
        [("B2", remoteB2)] [] 100).world.2 =
        [.FindAll, .GetProductBySKU "B2",
         .UpdateProduct { candidate [] "B2" remoteB2 with ID := 7 },
         .UpdateListingStatus 9 5, .UpdateListingStatus 7 5]) ∧
    (recordedPass (tableRepo sampleLocal true) sampleSearch id [("B2", remoteB2)] []
      100).errorCount =
      (((recordedPass (tableRepo sampleLocal true) sampleSearch id [("B2", remoteB2)] []
        100).world.2.filter tracedCounted).length : Int) :=
  ⟨by decide, by decide,
    (error_count (tableRepo sampleLocal true) sampleSearch id [("B2", remoteB2)] []
      100).2.1⟩

/-! ## Concurrent callers: serialization -/

theorem tokenCalls_succ_last {σ : Type} (env : Env σ) :
    ∀ (n : Nat) (c : Client) (w : σ),
      tokenCalls env (n + 1) c w =
        ((GetAccessToken env (tokenCalls env n c w).1 (tokenCalls env n c w).2).2.1,
          (GetAccessToken env (tokenCalls env n c w).1 (tokenCalls env n c w).2).2.2) := by
  intro n
  induction n with
  | zero => intro c w; rfl
  | succ n ih =>
    intro c w
    have h := ih (GetAccessToken env c w).2.1 (GetAccessToken env c w).2.2
    exact h

theorem tokenResults_succ_last {σ : Type} (env : Env σ) :
    ∀ (n : Nat) (c : Client) (w : σ),
      tokenResults env (n + 1) c w =
        tokenResults env n c w ++
          [(GetAccessToken env (tokenCalls env n c w).1 (tokenCalls env n c w).2).1] := by
  intro n
  induction n with
  | zero => intro c w; rfl
  | succ n ih =>
    intro c w
    have h := ih (GetAccessToken env c w).2.1 (GetAccessToken env c w).2.2
    show (GetAccessToken env c w).1 :: tokenResults env (n + 1) (GetAccessToken env c w).2.1
      (GetAccessToken env c w).2.2 = _
    rw [h]
    rfl

theorem filterMap_set_none {α β : Type} (f : α → Option β) (l : List α) :
    ∀ (i : Nat) (a b : α), l.get? i = some a → f a = none → f b = none →
      (l.set i b).filterMap f = l.filterMap f := by
  induction l with
  | nil => intro i a b h; simp at h
  | cons x rest ih =>
    intro i a b h ha hb
    cases i with
    | zero =>
      simp only [List.get?_cons_zero, Option.some.injEq] at h
      subst h
      simp [List.filterMap_cons, ha, hb]
    | succ j =>
      simp only [List.get?_cons_succ] at h
      simp only [List.set_cons_succ, List.filterMap_cons, ih j a b h ha hb]

theorem filterMap_set_some {α β : Type} (f : α → Option β) (l : List α) :
    ∀ (i : Nat) (a b : α) (x : β), l.get? i = some a → f a = none → f b = some x →
      ((l.set i b).filterMap f).Perm (l.filterMap f ++ [x]) := by
  induction l with
  | nil => intro i a b x h; simp at h
  | cons y rest ih =>
    intro i a b x h ha hb
    cases i with
    | zero =>
      simp only [List.get?_cons_zero, Option.some.injEq] at h
      subst h
      simp only [List.set_cons_zero, List.filterMap_cons, ha, hb]
      exact (List.perm_append_singleton x _).symm
    | succ j =>
      simp only [List.get?_cons_succ] at h
      have hrec := ih j a b x h ha hb
      simp only [List.set_cons_succ, List.filterMap_cons]
      cases hy : f y with
      | none => exact hrec
      | some z => exact List.Perm.cons z hrec

theorem mutexInvariant_start {σ : Type} (n : Nat) (c : Client) (w : σ) :
    mutexInvariant (startCallers n c w) := by
  unfold mutexInvariant startCallers
  have h0 : (List.replicate n CallerState.waiting).countP CallerState.isHolding = 0 := by
    rw [List.countP_eq_zero]
    intro a ha
    rw [List.eq_of_mem_replicate ha]
    simp [CallerState.isHolding]
  simp [h0]

theorem mutexInvariant_step {σ : Type} (env : Env σ) (i : Nat) (s s1 : Shared σ)
    (hinv : mutexInvariant s) (hstep : callerStep env i s = some s1) :
    mutexInvariant s1 := by
  obtain ⟨hhold, hmutex⟩ := hinv
  unfold callerStep at hstep
  cases hget : s.callers.get? i with
  | none => rw [hget] at hstep; cases hstep
  | some st =>
    rw [hget] at hstep
    cases st with
    | returned r => cases hstep
    | waiting =>
      dsimp only at hstep
      by_cases hl : s.mutexLocked = true
      · rw [if_pos hl] at hstep; cases hstep
      · rw [if_neg hl] at hstep
        simp only [Option.some.injEq] at hstep
        subst hstep
        have hh := countP_set_get CallerState.isHolding s.callers i .waiting .holding hget
        simp only [CallerState.isHolding, if_true, Bool.false_eq_true, if_false] at hh
        have h0 : s.callers.countP CallerState.isHolding = 0 := by
          have : s.callers.countP CallerState.isHolding ≠ 1 := fun h => hl (hmutex.mpr h)
          omega
        unfold mutexInvariant
        dsimp only
        refine ⟨by omega, ?_⟩
        constructor
        · intro _; omega
        · intro _; rfl
    | holding =>
      simp only [Option.some.injEq] at hstep
      subst hstep
      have hh := countP_set_get CallerState.isHolding s.callers i .holding
        (.returned (GetAccessToken env s.client s.world).1) hget
      simp only [CallerState.isHolding, if_true, Bool.false_eq_true, if_false] at hh
      unfold mutexInvariant
      dsimp only
      refine ⟨by omega, ?_⟩
      constructor
      · intro h; cases h
      · intro h; omega

theorem mutexInvariant_run {σ : Type} (env : Env σ) (schedule : List Nat) :
    ∀ s : Shared σ, mutexInvariant s → mutexInvariant (runSchedule env schedule s) := by
  induction schedule with
  | nil => intro s h; exact h
  | cons i rest ih =>
    intro s h
    unfold runSchedule
    apply ih
    cases hstep : callerStep env i s with
    | none => exact h
    | some s1 => exact mutexInvariant_step env i s s1 h hstep

theorem serialized_start {σ : Type} (env : Env σ) (n : Nat) (c : Client) (w : σ) :
    serialized env c w (startCallers n c w) := by
  unfold serialized startCallers
  have h0 : (List.replicate n CallerState.waiting).countP CallerState.isReturned = 0 := by
    rw [List.countP_eq_zero]
    intro a ha
    rw [List.eq_of_mem_replicate ha]
    simp [CallerState.isReturned]
  have h1 : (List.replicate n CallerState.waiting).filterMap CallerState.result = [] := by
    rw [List.filterMap_eq_nil_iff]
    intro a ha
    rw [List.eq_of_mem_replicate ha]
    rfl
  dsimp only
  rw [h0, h1]
  exact ⟨rfl, List.Perm.refl _⟩

theorem serialized_step {σ : Type} (env : Env σ) (c : Client) (w : σ) (i : Nat)
    (s s1 : Shared σ) (hinv : serialized env c w s)
    (hstep : callerStep env i s = some s1) : serialized env c w s1 := by
  obtain ⟨hstate, hres⟩ := hinv
  unfold callerStep at hstep
  cases hget : s.callers.get? i with
  | none => rw [hget] at hstep; cases hstep
  | some st =>
    rw [hget] at hstep
    cases st with
    | returned r => cases hstep
    | waiting =>
      dsimp only at hstep
      by_cases hl : s.mutexLocked = true
      · rw [if_pos hl] at hstep; cases hstep
      · rw [if_neg hl] at hstep
        simp only [Option.some.injEq] at hstep
        subst hstep
        have hc := countP_set_get CallerState.isReturned s.callers i .waiting .holding hget
        simp only [CallerState.isReturned, Bool.false_eq_true, if_false, add_zero] at hc
        have hf := filterMap_set_none CallerState.result s.callers i .waiting .holding hget
          rfl rfl
        unfold serialized
        dsimp only
        rw [hc, hf]
        exact ⟨hstate, hres⟩
    | holding =>
      simp only [Option.some.injEq] at hstep
      subst hstep
      have hc := countP_set_get CallerState.isReturned s.callers i .holding
        (.returned (GetAccessToken env s.client s.world).1) hget
      simp only [CallerState.isReturned, Bool.false_eq_true, if_false, add_zero,
        if_true] at hc
      have hf := filterMap_set_some CallerState.result s.callers i .holding
        (.returned (GetAccessToken env s.client s.world).1)
        (GetAccessToken env s.client s.world).1 hget rfl rfl
      have hc1 : s.client = (tokenCalls env (s.callers.countP CallerState.isReturned) c w).1 :=
        congrArg Prod.fst hstate
      have hw1 : s.world = (tokenCalls env (s.callers.countP CallerState.isReturned) c w).2 :=
        congrArg Prod.snd hstate
      unfold serialized
      dsimp only
      rw [hc, tokenCalls_succ_last, tokenResults_succ_last, ← hc1, ← hw1]
      exact ⟨rfl, hf.trans (List.Perm.append_right _ hres)⟩

theorem serialized_run {σ : Type} (env : Env σ) (c : Client) (w : σ) (schedule : List Nat) :
    ∀ s : Shared σ, serialized env c w s → serialized env c w (runSchedule env schedule s) := by
  induction schedule with
  | nil => intro s h; exact h
  | cons i rest ih =>
    intro s h
    unfold runSchedule
    apply ih
    cases hstep : callerStep env i s with
    | none => exact h
    | some s1 => exact serialized_step env c w i s s1 h hstep

/-! ## Concurrent callers: when the token is requested again -/

theorem runSchedule_length {σ : Type} (env : Env σ) (schedule : List Nat) :
    ∀ s : Shared σ, (runSchedule env schedule s).callers.length = s.callers.length := by
  induction schedule with
  | nil => intro s; rfl
  | cons i rest ih =>
    intro s
    unfold runSchedule
    rw [ih]
    cases hstep : callerStep env i s with
    | none => rfl
    | some s1 =>
      unfold callerStep at hstep
      cases hget : s.callers.get? i with
      | none => rw [hget] at hstep; cases hstep
      | some st =>
        rw [hget] at hstep
        cases st with
        | returned r => cases hstep
        | waiting =>
          dsimp only at hstep
          by_cases hl : s.mutexLocked = true
          · rw [if_pos hl] at hstep; cases hstep
          · rw [if_neg hl] at hstep
            simp only [Option.some.injEq] at hstep
            subst hstep
            simp
        | holding =>
          simp only [Option.some.injEq] at hstep
          subst hstep
          simp

theorem countP_isReturned_of_done (l : List CallerState)
    (hdone : ∀ st ∈ l, st.isPending = false) :
    l.countP CallerState.isReturned = l.length := by
  rw [List.countP_eq_length]
  intro a ha
  have h := hdone a ha
  cases a with
  | waiting => cases h
  | holding => cases h
  | returned r => rfl

theorem requestToken_sent_built {σ : Type} (env : Env σ) (c : Client) (w : σ)
    (sent : List Request)
    (hreq : env.newRequest "POST" "https://marketplace.walmartapis.com/v3/token" = none) :
    (requestToken (recordingEnv env) c (w, sent)).2.2 =
      sent ++ [tokenRequest env.base64 c (env.newUUID w).1] := by
  have hreq2 : (recordingEnv env).newRequest "POST"
      "https://marketplace.walmartapis.com/v3/token" = none := hreq
  unfold requestToken
  rw [hreq2]
  rcases hdo : env.clientDo 10 (tokenRequest env.base64 c (env.newUUID w).1)
    (env.newUUID w).2 with ⟨r, w1⟩
  cases r with
  | error err => simp [recordingEnv, hdo]
  | ok resp =>
    by_cases hs : resp.StatusCode = 200
    · cases hd : env.decodeToken resp with
      | error err => simp [recordingEnv, hdo, hs, hd]
      | ok token => simp [recordingEnv, hdo, hs, hd]
    · simp [recordingEnv, hdo, hs]

theorem refreshToken_sent_built {σ : Type} (env : Env σ) (c : Client) (w : σ)
    (sent : List Request)
    (hreq : env.newRequest "POST" "https://marketplace.walmartapis.com/v3/token" = none) :
    (refreshToken (recordingEnv env) c (w, sent)).2.2.2 =
      sent ++ [tokenRequest env.base64 c (env.newUUID w).1] := by
  have h := requestToken_sent_built env c w sent hreq
  unfold refreshToken
  rcases hrt : requestToken (recordingEnv env) c (w, sent) with ⟨r, w1, sent1⟩
  rw [hrt] at h
  cases r with
  | error err => exact h
  | ok token => exact h

theorem GetAccessToken_stale_sent {σ : Type} (env : Env σ) (c : Client) (w : σ)
    (sent : List Request)
    (hstale : ¬ (c.accessToken ≠ "" ∧ (env.now w).1 < c.expiresAt))
    (hreq : env.newRequest "POST" "https://marketplace.walmartapis.com/v3/token" = none) :
    ∃ req, req.url = "https://marketplace.walmartapis.com/v3/token" ∧
      (GetAccessToken (recordingEnv env) c (w, sent)).2.2.2 = sent ++ [req] := by
  by_cases hne : c.accessToken ≠ ""
  · have hlt : ¬ (env.now w).1 < c.expiresAt := fun h => hstale ⟨hne, h⟩
    have h : GetAccessToken (recordingEnv env) c (w, sent) =
        refreshToken (recordingEnv env) c ((env.now w).2, sent) := by
      unfold GetAccessToken
      rw [if_pos hne, if_neg (by simpa [recordingEnv] using hlt)]
      rfl
    rw [h]
    exact ⟨_, rfl, refreshToken_sent_built env c (env.now w).2 sent hreq⟩
  · have h : GetAccessToken (recordingEnv env) c (w, sent) =
        refreshToken (recordingEnv env) c (w, sent) := by
      unfold GetAccessToken
      rw [if_neg hne]
    rw [h]
    exact ⟨_, rfl, refreshToken_sent_built env c w sent hreq⟩

theorem tokenCalls_stale_sent {σ : Type} (env : Env σ) :
    ∀ (n : Nat) (c : Client) (w : σ) (sent : List Request),
      staleCalls (recordingEnv env) n c (w, sent) →
      ∃ reqs : List Request,
        (tokenCalls (recordingEnv env) n c (w, sent)).2.2 = sent ++ reqs ∧
        reqs.length = n ∧
        ∀ req ∈ reqs, req.url = "https://marketplace.walmartapis.com/v3/token" := by
  intro n
  induction n with
  | zero => intro c w sent _; exact ⟨[], by simp [tokenCalls], rfl, by simp⟩
  | succ n ih =>
    intro c w sent h
    obtain ⟨hstale, hreq, hrest⟩ := h
    obtain ⟨req, hurl, hsent⟩ := GetAccessToken_stale_sent env c w sent hstale hreq
    rcases hg : GetAccessToken (recordingEnv env) c (w, sent) with ⟨r, c1, w1, sent1⟩
    rw [hg] at hrest hsent
    dsimp only at hrest hsent
    obtain ⟨reqs, h1, h2, h3⟩ := ih c1 w1 sent1 hrest
    refine ⟨req :: reqs, ?_, by simp [h2], ?_⟩
    · show (tokenCalls (recordingEnv env) n (GetAccessToken (recordingEnv env) c (w, sent)).2.1
        (GetAccessToken (recordingEnv env) c (w, sent)).2.2).2.2 = _
      rw [hg]
      dsimp only
      rw [h1, hsent]
      simp
    · intro q hq
      rcases List.mem_cons.mp hq with h | h
      · rw [h]; exact hurl
      · exact h3 q h

theorem refreshToken_error_client {σ : Type} (env : Env σ) (c : Client) (w : σ)
    (err : GoError) (herr : (refreshToken env c w).1 = .error err) :
    (refreshToken env c w).2.1 = c := by
  unfold refreshToken at herr ⊢
  rcases hrt : requestToken env c w with ⟨r, w1⟩
  rw [hrt] at herr
  cases r with
  | error e => rfl
  | ok t => cases herr

theorem GetAccessToken_error_client {σ : Type} (env : Env σ) (c : Client) (w : σ)
    (err : GoError) (herr : (GetAccessToken env c w).1 = .error err) :
    (GetAccessToken env c w).2.1 = c := by
  unfold GetAccessToken at herr ⊢
  by_cases hne : c.accessToken ≠ ""
  · rw [if_pos hne] at herr ⊢
    by_cases hlt : (env.now w).1 < c.expiresAt
    · rw [if_pos hlt]
    · rw [if_neg hlt] at herr ⊢
      exact refreshToken_error_client env c _ err herr
  · rw [if_neg hne] at herr ⊢
    exact refreshToken_error_client env c _ err herr

theorem GetAccessToken_noToken_client {σ : Type} (env : Env σ) (c : Client) (w : σ)
    (hempty : c.accessToken = "")
    (hno : returnsNoToken (GetAccessToken env c w).1 = true) :
    (GetAccessToken env c w).2.1.accessToken = "" := by
  cases hr : (GetAccessToken env c w).1 with
  | error err => rw [GetAccessToken_error_client env c w err hr]; exact hempty
  | ok p =>
    obtain ⟨token, remaining⟩ := p
    rw [hr] at hno
    rw [GetAccessToken_ok_token env c w token remaining hr]
    simpa [returnsNoToken] using hno

theorem staleCalls_of_noTokenCalls {σ : Type} (env : Env σ)
    (hreq : env.newRequest "POST" "https://marketplace.walmartapis.com/v3/token" = none) :
    ∀ (n : Nat) (c : Client) (w : σ), c.accessToken = "" → noTokenCalls env n c w →
      staleCalls env n c w := by
  intro n
  induction n with
  | zero => intro c w _ _; trivial
  | succ n ih =>
    intro c w hempty h
    obtain ⟨hno, hrest⟩ := h
    exact ⟨fun hh => hh.1 hempty, hreq,
      ih _ _ (GetAccessToken_noToken_client env c w hempty hno) hrest⟩

theorem refreshToken_expired {σ : Type} (env : Env σ) (c : Client) (w : σ)
    (token : String) (remaining : Int)
    (hok : (refreshToken env c w).1 = .ok (token, remaining))
    (hlow : -9223372036 ≤ remaining) (hhigh : remaining ≤ 0) :
    ∃ w1 : σ, (refreshToken env c w).2.2 = (env.now w1).2 ∧
      (refreshToken env c w).2.1.expiresAt ≤ (env.now w1).1 := by
  unfold refreshToken at hok ⊢
  rcases hrt : requestToken env c w with ⟨r, w1⟩
  rw [hrt] at hok
  cases r with
  | error e => cases hok
  | ok t =>
    simp only [Except.ok.injEq, Prod.mk.injEq] at hok
    refine ⟨w1, rfl, ?_⟩
    have hin : inInt64 (t.ExpiresIn * timeSecond) := by
      unfold inInt64 timeSecond
      rw [hok.2]
      constructor <;> omega
    show (env.now w1).1 + wrapInt64 (t.ExpiresIn * timeSecond) ≤ (env.now w1).1
    rw [wrapInt64_of_inInt64 _ hin, hok.2]
    unfold timeSecond
    omega

theorem GetAccessToken_expired {σ : Type} (env : Env σ) (c : Client) (w : σ)
    (token : String) (remaining : Int)
    (hstale : ¬ (c.accessToken ≠ "" ∧ (env.now w).1 < c.expiresAt))
    (hok : (GetAccessToken env c w).1 = .ok (token, remaining))
    (hlow : -9223372036 ≤ remaining) (hhigh : remaining ≤ 0) :
    ∃ w1 : σ, (GetAccessToken env c w).2.2 = (env.now w1).2 ∧
      (GetAccessToken env c w).2.1.expiresAt ≤ (env.now w1).1 := by
  unfold GetAccessToken at hok ⊢
  by_cases hne : c.accessToken ≠ ""
  · have hlt : ¬ (env.now w).1 < c.expiresAt := fun h => hstale ⟨hne, h⟩
    rw [if_pos hne, if_neg hlt] at hok ⊢
    exact refreshToken_expired env c _ token remaining hok hlow hhigh
  · rw [if_neg hne] at hok ⊢
    exact refreshToken_expired env c _ token remaining hok hlow hhigh

/-- C21 (amended): `n` callers invoke `GetAccessToken` concurrently and the scheduler
interleaves them in any order. In every state reached, whatever the transport answers, at
most one caller holds the mutex, the mutex is locked exactly when one does, a waiting caller
cannot move while it is locked and can when it is free, and the caller holding it can run
the body; the cache and the world are the ones that as many consecutive calls as callers
have returned leave, and the callers that returned hold the results of these calls. Once all
have returned: if the cache was empty or expired, the first body obtained a token and the
cache it left is found non-empty and unexpired by the other `n - 1` callers, exactly one
token request was sent and every caller returned the refreshed token; if instead each
caller in turn finds the cache empty or expired, `n` token requests were sent. The latter
happens from an empty cache whenever every call returns an error or an empty token: a call
that returns an error leaves the cache as it was, a call that returns a token leaves that
token in the cache, and a refresh that returns `expires_in` between -9223372036 and 0
leaves a cache that the next caller finds expired unless its clock reads less than the
refresh read. -/
theorem concurrent_refresh {σ : Type} (env : Env σ) (c : Client) (w : σ)
    (sent : List Request) (n : Nat) (schedule : List Nat) :
    (runSchedule (recordingEnv env) schedule (startCallers n c (w, sent))).callers.length = n ∧
    ((runSchedule (recordingEnv env) schedule
        (startCallers n c (w, sent))).callers.countP CallerState.isHolding ≤ 1 ∧
      ((runSchedule (recordingEnv env) schedule (startCallers n c (w, sent))).mutexLocked =
          true ↔
        (runSchedule (recordingEnv env) schedule
          (startCallers n c (w, sent))).callers.countP CallerState.isHolding = 1)) ∧
    (∀ i : Nat,
      ((runSchedule (recordingEnv env) schedule (startCallers n c (w, sent))).callers.get? i =
          some .waiting →
        ((runSchedule (recordingEnv env) schedule (startCallers n c (w, sent))).mutexLocked =
            true →
          callerStep (recordingEnv env) i
            (runSchedule (recordingEnv env) schedule (startCallers n c (w, sent))) = none) ∧
        ((runSchedule (recordingEnv env) schedule (startCallers n c (w, sent))).mutexLocked =
            false →
          callerStep (recordingEnv env) i
              (runSchedule (recordingEnv env) schedule (startCallers n c (w, sent))) =
            some { runSchedule (recordingEnv env) schedule (startCallers n c (w, sent)) with
              mutexLocked := true
              callers := (runSchedule (recordingEnv env) schedule
                (startCallers n c (w, sent))).callers.set i .holding })) ∧
      ((runSchedule (recordingEnv env) schedule (startCallers n c (w, sent))).callers.get? i =
          some .holding →
        (callerStep (recordingEnv env) i
          (runSchedule (recordingEnv env) schedule
            (startCallers n c (w, sent)))).isSome = true)) ∧
    (((runSchedule (recordingEnv env) schedule (startCallers n c (w, sent))).client,
        (runSchedule (recordingEnv env) schedule (startCallers n c (w, sent))).world) =
        tokenCalls (recordingEnv env)
          ((runSchedule (recordingEnv env) schedule
            (startCallers n c (w, sent))).callers.countP CallerState.isReturned) c (w, sent) ∧
      ((runSchedule (recordingEnv env) schedule
          (startCallers n c (w, sent))).callers.filterMap CallerState.result).Perm
        (tokenResults (recordingEnv env)
          ((runSchedule (recordingEnv env) schedule
            (startCallers n c (w, sent))).callers.countP CallerState.isReturned)
          c (w, sent))) ∧
    (∀ (token : String) (remaining : Int), 0 < n →
      ¬ (c.accessToken ≠ "" ∧ (env.now w).1 < c.expiresAt) →
      (GetAccessToken (recordingEnv env) c (w, sent)).1 = .ok (token, remaining) →
      insideWindow (recordingEnv env) (n - 1)
        (GetAccessToken (recordingEnv env) c (w, sent)).2.1
        (GetAccessToken (recordingEnv env) c (w, sent)).2.2 →
      (∀ st ∈ (runSchedule (recordingEnv env) schedule
        (startCallers n c (w, sent))).callers, st.isPending = false) →
      (∃ req, req.url = "https://marketplace.walmartapis.com/v3/token" ∧
        (runSchedule (recordingEnv env) schedule (startCallers n c (w, sent))).world.2 =
          sent ++ [req]) ∧
      (∀ st ∈ (runSchedule (recordingEnv env) schedule (startCallers n c (w, sent))).callers,
        st.token = some token) ∧
      (runSchedule (recordingEnv env) schedule
        (startCallers n c (w, sent))).client.accessToken = token) ∧
    (staleCalls (recordingEnv env) n c (w, sent) →
      (∀ st ∈ (runSchedule (recordingEnv env) schedule
        (startCallers n c (w, sent))).callers, st.isPending = false) →
      ∃ reqs : List Request,
        (runSchedule (recordingEnv env) schedule (startCallers n c (w, sent))).world.2 =
          sent ++ reqs ∧
        reqs.length = n ∧
        ∀ req ∈ reqs, req.url = "https://marketplace.walmartapis.com/v3/token") ∧
    (c.accessToken = "" →
      env.newRequest "POST" "https://marketplace.walmartapis.com/v3/token" = none →
      noTokenCalls (recordingEnv env) n c (w, sent) →
      staleCalls (recordingEnv env) n c (w, sent)) ∧
    (∀ (c0 : Client) (w0 : σ × List Request),
      (∀ err, (GetAccessToken (recordingEnv env) c0 w0).1 = .error err →
        (GetAccessToken (recordingEnv env) c0 w0).2.1 = c0) ∧
      (∀ token remaining,
        (GetAccessToken (recordingEnv env) c0 w0).1 = .ok (token, remaining) →
        (GetAccessToken (recordingEnv env) c0 w0).2.1.accessToken = token ∧
        (¬ (c0.accessToken ≠ "" ∧ (env.now w0.1).1 < c0.expiresAt) →
          -9223372036 ≤ remaining → remaining ≤ 0 →
          ∃ w1 : σ × List Request,
            (GetAccessToken (recordingEnv env) c0 w0).2.2 = ((recordingEnv env).now w1).2 ∧
            (GetAccessToken (recordingEnv env) c0 w0).2.1.expiresAt ≤
              ((recordingEnv env).now w1).1 ∧
            (((recordingEnv env).now w1).1 ≤
                ((recordingEnv env).now (GetAccessToken (recordingEnv env) c0 w0).2.2).1 →
              ¬ ((GetAccessToken (recordingEnv env) c0 w0).2.1.accessToken ≠ "" ∧
                ((recordingEnv env).now (GetAccessToken (recordingEnv env) c0 w0).2.2).1 <
                  (GetAccessToken (recordingEnv env) c0 w0).2.1.expiresAt))))) := by
  have hlen : (runSchedule (recordingEnv env) schedule
      (startCallers n c (w, sent))).callers.length = n := by
    rw [runSchedule_length]
    simp [startCallers]
  have hmx := mutexInvariant_run (recordingEnv env) schedule _
    (mutexInvariant_start n c (w, sent))
  have hser := serialized_run (recordingEnv env) c (w, sent) schedule _
    (serialized_start (recordingEnv env) n c (w, sent))
  refine ⟨hlen, hmx, ?_, hser, ?_, ?_, ?_, ?_⟩
  · intro i
    refine ⟨fun hget => ⟨fun hl => ?_, fun hl => ?_⟩, fun hget => ?_⟩
    · unfold callerStep
      rw [hget]
      simp [hl]
    · unfold callerStep
      rw [hget]
      simp [hl]
    · unfold callerStep
      rw [hget]
      rfl
  · intro token remaining hn hstale hok hwin hdone
    have hinv := refreshedOnce_run env c w sent n token remaining hok hwin schedule _
      (refreshedOnce_start env c w sent n)
    have htok := GetAccessToken_ok_token (recordingEnv env) c (w, sent) token remaining hok
    obtain ⟨_, _, _, hcase⟩ := hinv
    have hzero : (runSchedule (recordingEnv env) schedule
        (startCallers n c (w, sent))).callers.countP CallerState.isPending = 0 := by
      rw [List.countP_eq_zero]
      intro a ha
      rw [hdone a ha]
      simp
    refine ⟨?_, ?_, ?_⟩
    · rcases hcase with ⟨h1, _, _⟩ | ⟨_, _, h3, _, _⟩
      · omega
      · rw [h3]
        rcases GetAccessToken_frame env c w sent with ⟨_, h1, h2, _, _⟩ | ⟨⟨err, herr⟩, _⟩ |
          ⟨_, _, hreq⟩
        · exact absurd ⟨h1, h2⟩ hstale
        · rw [hok] at herr; cases herr
        · exact hreq
    · rcases hcase with ⟨h1, _, _⟩ | ⟨_, _, _, h4, _⟩
      · omega
      · intro st hst
        rw [h4 st hst (hdone st hst), htok]
    · rcases hcase with ⟨h1, _, _⟩ | ⟨_, h2, _, _, _⟩
      · omega
      · rw [h2, htok]
  · intro hstale hdone
    have hcount := countP_isReturned_of_done _ hdone
    rw [hlen] at hcount
    have hw := congrArg (fun p => p.2.2) hser.1
    dsimp only at hw
    rw [hw, hcount]
    exact tokenCalls_stale_sent env n c w sent hstale
  · intro hempty hreq hno
    exact staleCalls_of_noTokenCalls (recordingEnv env) hreq n c (w, sent) hempty hno
  · intro c0 w0
    refine ⟨fun err herr => GetAccessToken_error_client (recordingEnv env) c0 w0 err herr,
      fun token remaining hok =>
        ⟨GetAccessToken_ok_token (recordingEnv env) c0 w0 token remaining hok,
          fun hstale hlow hhigh => ?_⟩⟩
    obtain ⟨w1, h1, h2⟩ := GetAccessToken_expired (recordingEnv env) c0 w0 token remaining
      hstale hok hlow hhigh
    exact ⟨w1, h1, h2, fun hmono hh => absurd hh.2 (not_lt.mpr (le_trans h2 hmono))⟩

/-- C21 (amended) on the scripted transport. Three callers on an empty cache, interleaved so
that callers 1 and 2 are picked while caller 0 holds the mutex: one token request is sent
and the three of them return the token "secret". Two callers on an empty cache with a token
endpoint that answers 503: every call returns an error, so each caller finds the cache empty
and two token requests are sent. -/
theorem concurrent_refresh_witness :
    ((∃ req, req.url = "https://marketplace.walmartapis.com/v3/token" ∧
        (runSchedule (recordingEnv (scriptedEnv [] [])) [0, 1, 2, 0, 2, 1, 2, 1, 1]
          (startCallers 3 sampleClient (0, []))).world.2 = [] ++ [req]) ∧
      (∀ st ∈ (runSchedule (recordingEnv (scriptedEnv [] [])) [0, 1, 2, 0, 2, 1, 2, 1, 1]
          (startCallers 3 sampleClient (0, []))).callers, st.token = some "secret") ∧
      (runSchedule (recordingEnv (scriptedEnv [] [])) [0, 1, 2, 0, 2, 1, 2, 1, 1]
        (startCallers 3 sampleClient (0, []))).client.accessToken = "secret") ∧
    (runSchedule (recordingEnv (scriptedEnv [] [])) [0, 1, 2, 0, 2, 1, 2, 1, 1]
      (startCallers 3 sampleClient (0, []))).callers.map CallerState.token =
      [some "secret", some "secret", some "secret"] ∧
    (runSchedule (recordingEnv (scriptedEnv [] [])) [0, 1, 2]
      (startCallers 3 sampleClient (0, []))).callers.map CallerState.isHolding =
      [true, false, false] ∧
    (runSchedule (recordingEnv (scriptedEnv [] [])) [0, 1, 2]
      (startCallers 3 sampleClient (0, []))).mutexLocked = true ∧
    callerStep (recordingEnv (scriptedEnv [] [])) 1
      (runSchedule (recordingEnv (scriptedEnv [] [])) [0, 1, 2]
        (startCallers 3 sampleClient (0, []))) = none ∧
    noTokenCalls (recordingEnv tokenDownEnv) 2 sampleClient (0, []) ∧
    (∃ reqs : List Request,
      (runSchedule (recordingEnv tokenDownEnv) [0, 1, 0, 1, 1]
        (startCallers 2 sampleClient (0, []))).world.2 = [] ++ reqs ∧
      reqs.length = 2 ∧
      ∀ req ∈ reqs, req.url = "https://marketplace.walmartapis.com/v3/token") :=
  ⟨(concurrent_refresh (scriptedEnv [] []) sampleClient 0 [] 3
      [0, 1, 2, 0, 2, 1, 2, 1, 1]).2.2.2.2.1 "secret" 900 (by decide) (by decide) rfl
      (by decide) (by decide),
    by decide, by decide, by decide,
    (((concurrent_refresh (scriptedEnv [] []) sampleClient 0 [] 3 [0, 1, 2]).2.2.1 1).1
      rfl).1 (by decide),
    by decide,
    (concurrent_refresh tokenDownEnv sampleClient 0 [] 2 [0, 1, 0, 1, 1]).2.2.2.2.2.1
      ((concurrent_refresh tokenDownEnv sampleClient 0 [] 2 [0, 1, 0, 1, 1]).2.2.2.2.2.2.1
        (by decide) (by decide) (by decide))
      (by decide)⟩

/-- C21 as stated fails: two callers on an empty cache, caller 1 being picked while caller 0
holds the mutex. With a token endpoint that answers 503, caller 0 returns an error, the
cache stays empty and caller 1 sends a second token request; with a token endpoint that
answers an empty `access_token`, both return the empty token and two token requests are
sent; with a token endpoint that answers `expires_in` 0, both return "tok" and two token
requests are sent. -/
theorem concurrent_refresh_repeats :
    sampleClient.accessToken = "" ∧
    ((runSchedule (recordingEnv tokenDownEnv) [0, 1, 0, 1, 1]
        (startCallers 2 sampleClient (0, []))).callers.map CallerState.isPending =
        [false, false] ∧
      (runSchedule (recordingEnv tokenDownEnv) [0, 1, 0, 1, 1]
        (startCallers 2 sampleClient (0, []))).callers.map CallerState.token =
        [none, none] ∧
      (runSchedule (recordingEnv tokenDownEnv) [0, 1, 0, 1, 1]
        (startCallers 2 sampleClient (0, []))).world.2.map Request.url =
        ["https://marketplace.walmartapis.com/v3/token",
         "https://marketplace.walmartapis.com/v3/token"]) ∧
    ((runSchedule (recordingEnv (tokenEnv ⟨"", 900⟩ 5)) [0, 1, 0, 1, 1]
        (startCallers 2 sampleClient (0, []))).callers.map CallerState.token =
        [some "", some ""] ∧
      (runSchedule (recordingEnv (tokenEnv ⟨"", 900⟩ 5)) [0, 1, 0, 1, 1]
        (startCallers 2 sampleClient (0, []))).client.accessToken = "" ∧
      (runSchedule (recordingEnv (tokenEnv ⟨"", 900⟩ 5)) [0, 1, 0, 1, 1]
        (startCallers 2 sampleClient (0, []))).world.2.map Request.url =
        ["https://marketplace.walmartapis.com/v3/token",
         "https://marketplace.walmartapis.com/v3/token"]) ∧
    ((runSchedule (recordingEnv (tokenEnv ⟨"tok", 0⟩ 5)) [0, 1, 0, 1, 1]
        (startCallers 2 sampleClient (0, []))).callers.map CallerState.token =
        [some "tok", some "tok"] ∧
      (runSchedule (recordingEnv (tokenEnv ⟨"tok", 0⟩ 5)) [0, 1, 0, 1, 1]
        (startCallers 2 sampleClient (0, []))).world.2.map Request.url =
        ["https://marketplace.walmartapis.com/v3/token",
         "https://marketplace.walmartapis.com/v3/token"]) := by
  decide

end Walmart
